import Mathlib

/-!
# Traffic and emergency dispatcher simulation: embedding of `main.cpp`

The simulation core of `main.cpp` (classes `TrafficLight`, `Vehicle`, `Car`,
`SchoolBus`, `Ambulance`, `Depannage`, `Simulation`) as pure Lean functions.

Conventions of the embedding:

* `float` values are rationals, so arithmetic is exact.
* A `Vehicle*` is the `id` of the vehicle it points to; the `unique_ptr` heap
  objects of the two collections have pairwise distinct addresses, which the
  invariant `Inv` records for the reachable states (`nextId` is the allocator:
  every new object gets a fresh id).  `nullptr` is `none`.  References are resolved in `vehiclesBottom`,
  the only collection the source ever takes them from.
* Reading or writing through a reference whose vehicle is no longer in the
  collection is undefined behaviour in the source; the embedding makes it a
  no-op.
* `GetRandomValue` and `GetFrameTime` are inputs of a frame, gathered in `Env`.
* Camera, textures, colours and sound never influence the simulation state and
  are left out.
-/

namespace TrafficSim

/-! ## Dimensions -/

def WORLD_WIDTH : ℚ := 4000

def ROAD_HEIGHT : ℚ := 140

def LANE_HEIGHT : ℚ := 45

def VEHICLE_WIDTH : ℚ := 90

def SAFE_DISTANCE : ℚ := 45

def ROAD_Y_TOP : ℚ := 110

def ROAD_Y_BOTTOM : ℚ := 280

/-- The member `missionMaxTime`, initialised to `8.0f` and never assigned. -/
def missionMaxTime : ℚ := 8

/-- The array `laneYTop`, filled once by the constructor of `Simulation`. -/
def laneYTop (i : Nat) : ℚ := ROAD_Y_TOP + 10 + (i : ℚ) * LANE_HEIGHT

/-- The array `laneYBottom`, filled once by the constructor of `Simulation`. -/
def laneYBottom (i : Nat) : ℚ := ROAD_Y_BOTTOM + 10 + (i : ℚ) * LANE_HEIGHT

inductive MissionType
  | MISSION_NONE
  | MISSION_CALL_AMBULANCE
  | MISSION_CALL_TOW
  | MISSION_CALL_BUS
  deriving DecidableEq, Repr

inductive AmbulanceState
  | PATROL
  | TO_ACCIDENT
  | WAIT_AT_ACCIDENT
  | TO_HOSPITAL
  | WAIT_AT_HOSPITAL
  | LEAVING
  deriving DecidableEq, Repr

inductive BusState
  | BUS_TO_SCHOOL
  | BUS_WAIT_AT_SCHOOL
  | BUS_LEAVING
  deriving DecidableEq, Repr

/-! ## TrafficLight -/

structure Rectangle where
  x : ℚ
  y : ℚ
  width : ℚ
  height : ℚ
  deriving DecidableEq

structure TrafficLight where
  box : Rectangle
  timer : ℚ
  red : Bool
  cycleTime : ℚ
  deriving DecidableEq

/-- The constructor `TrafficLight(x, y, cycle)`. -/
def TrafficLight.new (x y cycle : ℚ) : TrafficLight :=
  { box := { x := x, y := y, width := 20, height := 60 }, timer := 0, red := true,
    cycleTime := cycle }

def TrafficLight.Update (l : TrafficLight) (delta : ℚ) : TrafficLight :=
  let timer := l.timer + delta
  if timer ≥ l.cycleTime then { l with timer := 0, red := !l.red }
  else { l with timer := timer }

def TrafficLight.IsRed (l : TrafficLight) : Bool := l.red

def TrafficLight.GetStopLineX (l : TrafficLight) (rightToLeft : Bool) : ℚ :=
  if rightToLeft then l.box.x - 40 else l.box.x + l.box.width + 40

/-! ## Vehicles -/

/-- The members `SchoolBus` adds to `Vehicle`. -/
structure SchoolBusData where
  state : BusState
  stateTimer : ℚ
  schoolXLocation : ℚ
  deriving DecidableEq

/-- The members `Ambulance` adds to `Vehicle`. -/
structure AmbulanceData where
  state : AmbulanceState
  stateTimer : ℚ
  accidentX : ℚ
  accidentY : ℚ
  deriving DecidableEq

/-- The members `Depannage` adds to `Vehicle`. -/
structure DepannageData where
  hasPickedUp : Bool
  isWorking : Bool
  targetX : ℚ
  workTimer : ℚ
  deriving DecidableEq

/-- The dynamic class of a vehicle object, with the members of the subclass. -/
inductive VehicleClass
  | Car
  | SchoolBus (d : SchoolBusData)
  | Ambulance (d : AmbulanceData)
  | Depannage (d : DepannageData)
  deriving DecidableEq

/-- The members of `Vehicle`; `id` stands for the address of the object. The
constructor flags `ambulance`, `depannage`, `schoolBus` are read off `cls`. -/
structure Vehicle where
  id : Nat
  x : ℚ
  y : ℚ
  targetY : ℚ
  speed : ℚ
  moving : Bool
  dirRight : Bool
  changedLane : Bool
  forcedStop : Bool
  isCrashed : Bool
  toBeRemoved : Bool
  isReckless : Bool
  isAccidentTarget : Bool
  isTowed : Bool
  laneLock : Bool
  towOffsetX : ℚ
  myTower : Option Nat
  cls : VehicleClass
  deriving DecidableEq

/-- The constructor `Vehicle(startX, startY, spd, col, dir, ...)` for an object
of class `cls` allocated at `id`. -/
def Vehicle.new (id : Nat) (startX startY spd : ℚ) (dir : Bool) (cls : VehicleClass) :
    Vehicle :=
  { id := id, x := startX, y := startY, targetY := startY, speed := spd, moving := true,
    dirRight := dir, changedLane := false, forcedStop := false, isCrashed := false,
    toBeRemoved := false, isReckless := false, isAccidentTarget := false, isTowed := false,
    laneLock := false, towOffsetX := 0, myTower := none, cls := cls }

def Vehicle.IsAmbulance (v : Vehicle) : Bool :=
  match v.cls with
  | .Ambulance _ => true
  | _ => false

def Vehicle.IsDepannage (v : Vehicle) : Bool :=
  match v.cls with
  | .Depannage _ => true
  | _ => false

def Vehicle.IsSchoolBus (v : Vehicle) : Bool :=
  match v.cls with
  | .SchoolBus _ => true
  | _ => false

def Vehicle.IsOffScreen (v : Vehicle) : Bool :=
  if v.dirRight then decide (v.x > WORLD_WIDTH + 1500) else decide (v.x < -1500)

/-- The statement `if (fabs(targetY - y) > 0.5f) y += (targetY - y) * 0.08f; else y = targetY;`
that ends every `Update`. -/
def Vehicle.easeY (v : Vehicle) : Vehicle :=
  if |v.targetY - v.y| > 1 / 2 then { v with y := v.y + (v.targetY - v.y) * (2 / 25) }
  else { v with y := v.targetY }

/-- The method `Vehicle::Update(stopForRed)` of the base class. -/
def Vehicle.baseUpdate (v : Vehicle) (stopForRed : Bool) : Vehicle :=
  if v.isCrashed && !v.isTowed then v
  else if v.isTowed then v
  else
    let stopForRed := if v.isReckless then false else stopForRed
    let v := if v.isReckless then { v with forcedStop := false } else v
    let v :=
      if v.moving && !stopForRed && !v.forcedStop then
        { v with x := v.x + (if v.dirRight then v.speed else -v.speed) }
      else v
    v.easeY

/-- The method `SchoolBus::Update(stopForRed)`. -/
def SchoolBus.Update (v : Vehicle) (d : SchoolBusData) (stopForRed : Bool) (frameTime : ℚ) :
    Vehicle :=
  let v :=
    if d.state = .BUS_WAIT_AT_SCHOOL then
      let t := d.stateTimer + frameTime
      if t ≥ 4 then { v with cls := .SchoolBus { d with stateTimer := t, state := .BUS_LEAVING } }
      else { v with cls := .SchoolBus { d with stateTimer := t } }
    else if !stopForRed && !v.forcedStop then
      if d.state = .BUS_TO_SCHOOL then
        let x := v.x - v.speed
        if x ≤ d.schoolXLocation then
          { v with x := d.schoolXLocation,
                   cls := .SchoolBus { d with state := .BUS_WAIT_AT_SCHOOL, stateTimer := 0 } }
        else { v with x := x }
      else if d.state = .BUS_LEAVING then { v with x := v.x - v.speed }
      else v
    else v
  v.easeY

/-- The method `Ambulance::AssignAccident(accX, accY)`; no effect on an object
that is not an ambulance (the source only calls it on ambulances). -/
def Vehicle.AssignAccident (v : Vehicle) (accX accY : ℚ) : Vehicle :=
  match v.cls with
  | .Ambulance d =>
    { v with cls := .Ambulance { d with accidentX := accX, accidentY := accY,
                                        state := .TO_ACCIDENT } }
  | _ => v

/-- The method `Ambulance::Update(stopForRed)`. -/
def Ambulance.Update (v : Vehicle) (d : AmbulanceData) (stopForRed : Bool) (frameTime : ℚ) :
    Vehicle :=
  let v :=
    match d.state with
    | .PATROL => v.baseUpdate stopForRed
    | .TO_ACCIDENT =>
      let x := if v.dirRight then v.x + v.speed else v.x - v.speed
      if x ≤ d.accidentX + 160 then
        { v with x := d.accidentX + 160, moving := false,
                 cls := .Ambulance { d with state := .WAIT_AT_ACCIDENT, stateTimer := 0 } }
      else { v with x := x }
    | .WAIT_AT_ACCIDENT =>
      let t := d.stateTimer + frameTime
      if t ≥ 5 then
        { v with moving := true,
                 cls := .Ambulance { d with stateTimer := t, state := .TO_HOSPITAL } }
      else { v with moving := false, cls := .Ambulance { d with stateTimer := t } }
    | .TO_HOSPITAL =>
      if !v.forcedStop then
        if v.x > 80 then { v with x := v.x - v.speed }
        else
          { v with moving := false,
                   cls := .Ambulance { d with state := .WAIT_AT_HOSPITAL, stateTimer := 0 } }
      else v
    | .WAIT_AT_HOSPITAL =>
      let t := d.stateTimer + frameTime
      if t ≥ 5 then
        { v with moving := true, cls := .Ambulance { d with stateTimer := t, state := .LEAVING } }
      else { v with moving := false, cls := .Ambulance { d with stateTimer := t } }
    | .LEAVING => { v with x := v.x - v.speed }
  v.easeY

/-- The method `Depannage::Update(stopForRed)`. -/
def Depannage.Update (v : Vehicle) (d : DepannageData) (stopForRed : Bool) (frameTime : ℚ) :
    Vehicle :=
  if d.isWorking then
    let t := d.workTimer + frameTime
    if t > 2 then
      { v with moving := true,
               cls := .Depannage { d with workTimer := t, hasPickedUp := true, isWorking := false } }
    else { v with moving := false, cls := .Depannage { d with workTimer := t } }
  else if !d.hasPickedUp && decide (v.x ≤ d.targetX - 120) then
    { v with moving := false, cls := .Depannage { d with isWorking := true, workTimer := 0 } }
  else v.baseUpdate stopForRed

/-- The virtual call `v->Update(stopForRed)`, dispatched on the class of the
object; `frameTime` is the value `GetFrameTime()` returns in this frame. -/
def Vehicle.Update (v : Vehicle) (stopForRed : Bool) (frameTime : ℚ) : Vehicle :=
  match v.cls with
  | .Car => v.baseUpdate stopForRed
  | .SchoolBus d => SchoolBus.Update v d stopForRed frameTime
  | .Ambulance d => Ambulance.Update v d stopForRed frameTime
  | .Depannage d => Depannage.Update v d stopForRed frameTime

/-! ## Simulation state -/

/-- The struct `Accident`; `car1` and `car2` are non-owning references. -/
structure Accident where
  active : Bool
  pending : Bool
  x : ℚ
  y : ℚ
  car1 : Option Nat
  car2 : Option Nat
  deriving DecidableEq

/-- The data members of `Simulation` that the update protocol reads or writes,
and `nextId`, the address the next allocated vehicle gets. -/
structure Simulation where
  vehiclesTop : List Vehicle
  vehiclesBottom : List Vehicle
  lightTop : TrafficLight
  lightBottom : TrafficLight
  carSpawnTimerTop : ℚ
  carSpawnTimerBottom : ℚ
  ambulanceActive : Bool
  screenAlertOn : Bool
  waitingForTowToLeave : Bool
  screenAlertTimer : ℚ
  currentAccident : Accident
  playerStars : Int
  currentMission : MissionType
  missionTimer : ℚ
  busCooldown : ℚ
  gameOver : Bool
  nextId : Nat
  deriving DecidableEq

/-- The values a frame takes from outside: `GetFrameTime()` and the results of
the `GetRandomValue` calls (`GetRandomValue(0, 2)` is a `Fin 3`, and so on). -/
structure Env where
  frameTime : ℚ
  spawnTopThreshold : Int
  spawnBottomThreshold : Int
  laneTop : Fin 3
  speedTop : Fin 6
  laneBottom : Fin 3
  speedBottom : Fin 6
  accidentRoll : Int
  busRoll : Int
  deriving DecidableEq

/-- The state the constructor `Simulation()` builds. -/
def Simulation.init : Simulation :=
  { vehiclesTop := [], vehiclesBottom := []
    lightTop := TrafficLight.new (WORLD_WIDTH / 2 - 80) (ROAD_Y_TOP - 80) 5
    lightBottom := TrafficLight.new (WORLD_WIDTH / 2 - 150) (ROAD_Y_BOTTOM + ROAD_HEIGHT + 20) 5
    carSpawnTimerTop := 0, carSpawnTimerBottom := 0
    ambulanceActive := false, screenAlertOn := false, waitingForTowToLeave := false
    screenAlertTimer := 0
    currentAccident := { active := false, pending := false, x := 0, y := 0, car1 := none,
                         car2 := none }
    playerStars := 3, currentMission := .MISSION_NONE, missionTimer := 0, busCooldown := 15
    gameOver := false, nextId := 0 }

/-- The method `Simulation::Reset()`. -/
def Simulation.Reset (s : Simulation) : Simulation :=
  { s with
    vehiclesTop := [], vehiclesBottom := []
    currentAccident := { active := false, pending := false, x := 0, y := 0, car1 := none,
                         car2 := none }
    currentMission := .MISSION_NONE, playerStars := 3, gameOver := false
    ambulanceActive := false, waitingForTowToLeave := false, screenAlertOn := false
    missionTimer := 0, busCooldown := 15 }

/-- The method `Simulation::SpawnCarTop()`. -/
def Simulation.SpawnCarTop (s : Simulation) (env : Env) : Simulation :=
  let speed : ℚ := 2 + (env.speedTop.val : ℚ) / 10
  { s with
    vehiclesTop := s.vehiclesTop ++ [Vehicle.new s.nextId (-1500) (laneYTop env.laneTop.val)
      speed true .Car]
    nextId := s.nextId + 1 }

/-- The method `Simulation::SpawnCarBottom()`. -/
def Simulation.SpawnCarBottom (s : Simulation) (env : Env) : Simulation :=
  let speed : ℚ := 2 + (env.speedBottom.val : ℚ) / 10
  { s with
    vehiclesBottom := s.vehiclesBottom ++ [Vehicle.new s.nextId (WORLD_WIDTH + 1500)
      (laneYBottom env.laneBottom.val) speed false .Car]
    nextId := s.nextId + 1 }

/-- The method `Simulation::CallSchoolBus()`. -/
def Simulation.CallSchoolBus (s : Simulation) : Simulation :=
  let mission :=
    if s.currentMission = .MISSION_CALL_BUS then MissionType.MISSION_NONE else s.currentMission
  { s with
    currentMission := mission
    vehiclesBottom := s.vehiclesBottom ++ [Vehicle.new s.nextId (WORLD_WIDTH + 1500)
      (laneYBottom 2) (5 / 2) false
      (.SchoolBus { state := .BUS_TO_SCHOOL, stateTimer := 0,
                    schoolXLocation := WORLD_WIDTH / 2 + 100 })]
    nextId := s.nextId + 1 }

/-! ### Writing through references and indices -/

/-- The object a `Vehicle*` with value `id` points to, looked up in a collection. -/
def findById (vs : List Vehicle) (id : Nat) : Option Vehicle :=
  vs.find? (fun v => v.id == id)

/-- A write `p->...` through the `Vehicle*` with value `id`. -/
def modifyById (id : Nat) (f : Vehicle → Vehicle) (vs : List Vehicle) : List Vehicle :=
  vs.map (fun v => if v.id = id then f v else v)

/-- A write to `vehicles[i]`. -/
def modifyAt (f : Vehicle → Vehicle) : Nat → List Vehicle → List Vehicle
  | _, [] => []
  | 0, v :: vs => f v :: vs
  | n + 1, v :: vs => v :: modifyAt f n vs

/-! ### TriggerRandomAccident -/

/-- The `continue` tests both loops of `TriggerRandomAccident` apply to a vehicle. -/
def scanSkips (v : Vehicle) : Bool :=
  (v.IsAmbulance || v.IsDepannage || v.IsSchoolBus || v.IsOffScreen) ||
    (v.isTowed || v.isCrashed)

/-- The nested `if`s of the inner loop body on the pair `(v1, v2)`. -/
def pairSelected (v1 v2 : Vehicle) : Bool :=
  decide (|v1.targetY - v2.targetY| < 5) && decide (v1.x > v2.x) &&
    (decide (v1.x - v2.x < 400) && decide (v1.x - v2.x > 110) &&
      decide (v1.x < WORLD_WIDTH - 100) && decide (v2.x > 100))

/-- The inner loop `for j` for a given `v1 = vehiclesBottom[i]`, scanning the
vehicles from index `j` on: the first `j` at which the body reaches `return`. -/
def scanInner (v1 : Vehicle) (i : Nat) : List Vehicle → Nat → Option Nat
  | [], _ => none
  | v2 :: rest, j =>
    if i = j then scanInner v1 i rest (j + 1)
    else if scanSkips v2 then scanInner v1 i rest (j + 1)
    else if pairSelected v1 v2 then some j
    else scanInner v1 i rest (j + 1)

/-- The outer loop `for i` over the vehicles from index `i` on (`all` is the
whole collection): the first pair `(i, j)` at which the body reaches `return`. -/
def scanOuter (all : List Vehicle) : List Vehicle → Nat → Option (Nat × Nat)
  | [], _ => none
  | v1 :: rest, i =>
    if scanSkips v1 then scanOuter all rest (i + 1)
    else if |v1.targetY - laneYBottom 2| < 5 then scanOuter all rest (i + 1)
    else
      match scanInner v1 i all 0 with
      | some j => some (i, j)
      | none => scanOuter all rest (i + 1)

/-- What the selected pair receives: `v1 = vehiclesBottom[i]` becomes reckless. -/
def markReckless (v : Vehicle) : Vehicle :=
  { v with isReckless := true, laneLock := true, speed := v.speed * (14 / 5) }

/-- What the selected pair receives: `v2 = vehiclesBottom[j]` becomes the target. -/
def markTarget (v : Vehicle) : Vehicle :=
  { v with isAccidentTarget := true, laneLock := true, speed := v.speed * (2 / 5) }

/-- The method `Simulation::TriggerRandomAccident()`. -/
def Simulation.TriggerRandomAccident (s : Simulation) : Simulation :=
  if s.waitingForTowToLeave then s
  else if s.currentAccident.active || s.currentAccident.pending then s
  else
    match scanOuter s.vehiclesBottom s.vehiclesBottom 0 with
    | none => s
    | some (i, j) =>
      { s with
        currentAccident :=
          { s.currentAccident with
            pending := true
            car1 := (s.vehiclesBottom[j]?).map (fun v => v.id)
            car2 := (s.vehiclesBottom[i]?).map (fun v => v.id) }
        waitingForTowToLeave := true
        vehiclesBottom := modifyAt markTarget j (modifyAt markReckless i s.vehiclesBottom)
        currentMission := .MISSION_CALL_AMBULANCE
        missionTimer := missionMaxTime }

/-- The method `Simulation::CallAmbulance()`. -/
def Simulation.CallAmbulance (s : Simulation) : Simulation :=
  let s :=
    if !s.currentAccident.active && !s.currentAccident.pending then s.TriggerRandomAccident
    else s
  let mission :=
    if s.currentMission = .MISSION_CALL_AMBULANCE then MissionType.MISSION_NONE
    else s.currentMission
  let amb := Vehicle.new s.nextId (WORLD_WIDTH + 1500) (laneYBottom 1) (9 / 2) false
    (.Ambulance { state := .PATROL, stateTimer := 0, accidentX := 0, accidentY := 0 })
  let amb :=
    if s.currentAccident.active then
      { amb.AssignAccident s.currentAccident.x s.currentAccident.y with
        targetY := s.currentAccident.y }
    else amb
  { s with
    currentMission := mission
    vehiclesBottom := s.vehiclesBottom ++ [amb]
    ambulanceActive := true
    nextId := s.nextId + 1 }

/-- The method `Simulation::CallDepannage()`. -/
def Simulation.CallDepannage (s : Simulation) : Simulation :=
  if !s.currentAccident.active then s
  else
    let mission :=
      if s.currentMission = .MISSION_CALL_TOW then MissionType.MISSION_NONE
      else s.currentMission
    let tow := Vehicle.new s.nextId (WORLD_WIDTH + 1500) s.currentAccident.y (5 / 2) false
      (.Depannage { hasPickedUp := false, isWorking := false, targetX := s.currentAccident.x,
                    workTimer := 0 })
    { s with
      currentMission := mission
      vehiclesBottom := s.vehiclesBottom ++ [tow]
      nextId := s.nextId + 1 }

/-! ### The stages of `Simulation::Update`, in source order -/

/-- The two spawn statements (`carSpawnTimerTop += delta; ...`). -/
def Simulation.spawnStage (s : Simulation) (delta : ℚ) (env : Env) : Simulation :=
  let s := { s with carSpawnTimerTop := s.carSpawnTimerTop + delta }
  let s :=
    if s.carSpawnTimerTop ≥ (env.spawnTopThreshold : ℚ) / 10 then
      ({ s with carSpawnTimerTop := 0 }).SpawnCarTop env
    else s
  let s := { s with carSpawnTimerBottom := s.carSpawnTimerBottom + delta }
  if s.carSpawnTimerBottom ≥ (env.spawnBottomThreshold : ℚ) / 10 then
    ({ s with carSpawnTimerBottom := 0 }).SpawnCarBottom env
  else s

/-- The statement `if (GetRandomValue(0, 1000) < 5) TriggerRandomAccident();`. -/
def Simulation.randomTriggerStage (s : Simulation) (env : Env) : Simulation :=
  if env.accidentRoll < 5 then s.TriggerRandomAccident else s

/-- The bus cooldown block (`busCooldown -= delta; ...`). -/
def Simulation.busStage (s : Simulation) (delta : ℚ) (env : Env) : Simulation :=
  let s := { s with busCooldown := s.busCooldown - delta }
  if s.busCooldown ≤ 0 ∧ s.currentMission = .MISSION_NONE then
    if env.busRoll < 2 then
      { s with currentMission := .MISSION_CALL_BUS, missionTimer := missionMaxTime,
               busCooldown := 15 }
    else s
  else s

/-- The countdown block (`if (currentMission != MISSION_NONE) ...`). -/
def Simulation.missionStage (s : Simulation) (delta : ℚ) : Simulation :=
  if s.currentMission ≠ .MISSION_NONE then
    let s := { s with missionTimer := s.missionTimer - delta }
    if s.missionTimer ≤ 0 then
      let s := { s with playerStars := s.playerStars - 1, currentMission := .MISSION_NONE }
      if s.playerStars ≤ 0 then { s with gameOver := true } else s
    else s
  else s

/-- The statement `lightTop.Update(delta); lightBottom.Update(delta);`. -/
def Simulation.lightStage (s : Simulation) (delta : ℚ) : Simulation :=
  { s with lightTop := s.lightTop.Update delta, lightBottom := s.lightBottom.Update delta }

/-- What one call of the `remove_if` predicate on `vehiclesBottom` yields:
whether the vehicle is removed, and the accident record and the
`waitingForTowToLeave` flag it leaves. -/
structure CullVerdict where
  remove : Bool
  acc : Accident
  waiting : Bool

/-- The lambda passed to `remove_if` for `vehiclesBottom`. -/
def cullPred (v : Vehicle) (acc : Accident) (waiting : Bool) : CullVerdict :=
  if v.IsDepannage then
    let despawn := decide (v.x < -3000)
    { remove := despawn, acc := acc, waiting := if despawn then false else waiting }
  else if v.IsSchoolBus then { remove := v.IsOffScreen, acc := acc, waiting := waiting }
  else if v.isReckless || v.isAccidentTarget || v.isCrashed || v.isTowed then
    if decide (v.x > -2000) && !v.toBeRemoved then
      { remove := false, acc := acc, waiting := waiting }
    else
      let acc := if acc.car1 = some v.id then { acc with car1 := none } else acc
      let acc := if acc.car2 = some v.id then { acc with car2 := none } else acc
      let acc :=
        if v.isAccidentTarget || v.isReckless || v.isCrashed then
          { acc with pending := false, active := false }
        else acc
      { remove := true, acc := acc, waiting := waiting }
  else if v.IsOffScreen || v.toBeRemoved then
    if acc.car1 = some v.id ∨ acc.car2 = some v.id then
      { remove := true
        acc := { acc with car1 := none, car2 := none, pending := false, active := false }
        waiting := false }
    else { remove := true, acc := acc, waiting := waiting }
  else { remove := false, acc := acc, waiting := waiting }

/-- The outcome of `remove_if` over a collection. -/
structure CullResult where
  vehicles : List Vehicle
  acc : Accident
  waiting : Bool

/-- The call `remove_if` with its `erase`: the predicate runs once on every
vehicle, in order, and its side effects accumulate. -/
def cullBottom : List Vehicle → Accident → Bool → CullResult
  | [], acc, waiting => { vehicles := [], acc := acc, waiting := waiting }
  | v :: vs, acc, waiting =>
    let r := cullPred v acc waiting
    let t := cullBottom vs r.acc r.waiting
    { vehicles := if r.remove then t.vehicles else v :: t.vehicles, acc := t.acc,
      waiting := t.waiting }

/-- The two `erase(remove_if(...))` statements. -/
def Simulation.cullStage (s : Simulation) : Simulation :=
  let r := cullBottom s.vehiclesBottom s.currentAccident s.waitingForTowToLeave
  { s with
    vehiclesTop := s.vehiclesTop.filter (fun v => !v.IsOffScreen)
    vehiclesBottom := r.vehicles
    currentAccident := r.acc
    waitingForTowToLeave := r.waiting }

/-- The body of the `for` loop that assigns the accident to every ambulance. -/
def assignIfAmbulance (accX accY : ℚ) (v : Vehicle) : Vehicle :=
  if v.IsAmbulance then { v.AssignAccident accX accY with targetY := accY } else v

/-- The block `if (currentAccident.pending && car1 && car2) ... else if (pending) ...`. -/
def Simulation.transitionStage (s : Simulation) : Simulation :=
  let acc := s.currentAccident
  if acc.pending then
    match acc.car1, acc.car2 with
    | some c1, some c2 =>
      match findById s.vehiclesBottom c1, findById s.vehiclesBottom c2 with
      | some a, some b =>
        let dist := b.x - a.x
        if dist < VEHICLE_WIDTH - 10 ∧ dist > -VEHICLE_WIDTH then
          let vs := modifyById c1 (fun v => { v with isCrashed := true }) s.vehiclesBottom
          let vs := modifyById c2 (fun v => { v with isCrashed := true }) vs
          let vs := modifyById c2 (fun v => { v with isReckless := false }) vs
          let vs := modifyById c1 (fun v => { v with moving := false }) vs
          let vs := modifyById c2 (fun v => { v with moving := false }) vs
          let accX := a.x + VEHICLE_WIDTH / 2
          let accY := a.y
          { s with
            currentAccident := { acc with pending := false, active := true, x := accX, y := accY }
            vehiclesBottom := vs.map (assignIfAmbulance accX accY) }
        else s
      | _, _ => s
    | _, _ =>
      { s with currentAccident := { acc with pending := false }, waitingForTowToLeave := false }
  else s

/-- The loop that sets `activeAmbulance` / `activeTow`: the index of the last
vehicle satisfying `p` among those from index `i` on, or the value held so far. -/
def lastIdx (p : Vehicle → Bool) : List Vehicle → Nat → Option Nat → Option Nat
  | [], _, r => r
  | v :: vs, i, r => lastIdx p vs (i + 1) (if p v then some i else r)

/-- The pointer `activeAmbulance`, as an index into `vehiclesBottom`. -/
def activeAmbulance (vs : List Vehicle) : Option Nat :=
  lastIdx Vehicle.IsAmbulance vs 0 none

/-- The pointer `activeTow`, as an index into `vehiclesBottom`. -/
def activeTow (vs : List Vehicle) : Option Nat :=
  lastIdx Vehicle.IsDepannage vs 0 none

/-- The member `hasPickedUp` of a tow truck. -/
def Vehicle.hasPickedUp (v : Vehicle) : Bool :=
  match v.cls with
  | .Depannage d => d.hasPickedUp
  | _ => false

/-- The member `isWorking` of a tow truck. -/
def Vehicle.isWorking (v : Vehicle) : Bool :=
  match v.cls with
  | .Depannage d => d.isWorking
  | _ => false

/-- The member `state` of an ambulance. -/
def Vehicle.ambState (v : Vehicle) : Option AmbulanceState :=
  match v.cls with
  | .Ambulance d => some d.state
  | _ => none

/-- The writes to `car1` when the tow truck `tow` has picked up. -/
def towFirst (tow : Vehicle) (v : Vehicle) : Vehicle :=
  { v with isTowed := true, isCrashed := false, isAccidentTarget := false, towOffsetX := 100,
           myTower := some tow.id, y := tow.y }

/-- The writes to `car2` when the tow truck `tow` has picked up. -/
def towSecond (tow : Vehicle) (v : Vehicle) : Vehicle :=
  { v with isTowed := true, isCrashed := false, towOffsetX := 200, myTower := some tow.id,
           y := tow.y }

/-- The block `if (activeTow && activeTow->hasPickedUp && currentAccident.active) ...`. -/
def Simulation.resolutionStage (s : Simulation) (aTow : Option Nat) : Simulation :=
  match aTow with
  | none => s
  | some t =>
    match s.vehiclesBottom[t]? with
    | none => s
    | some tow =>
      if tow.hasPickedUp && s.currentAccident.active then
        let vs :=
          match s.currentAccident.car1 with
          | some c1 => modifyById c1 (towFirst tow) s.vehiclesBottom
          | none => s.vehiclesBottom
        let vs :=
          match s.currentAccident.car2 with
          | some c2 => modifyById c2 (towSecond tow) vs
          | none => vs
        { s with vehiclesBottom := vs, currentAccident := { s.currentAccident with active := false } }
      else s

/-- One iteration of the loop that drags towed vehicles behind their tower. -/
def towedPlacementStep (vs : List Vehicle) (i : Nat) : List Vehicle :=
  match vs[i]? with
  | none => vs
  | some v =>
    if v.isTowed then
      match v.myTower with
      | none => vs
      | some t =>
        match findById vs t with
        | none => vs
        | some tw => modifyAt (fun u => { u with x := tw.x + u.towOffsetX, y := tw.y }) i vs
    else vs

/-- The loop `for (auto& v : vehiclesBottom) { if (v->isTowed && v->myTower != nullptr) ... }`. -/
def towedPlacement (vs : List Vehicle) : List Vehicle :=
  (List.range vs.length).foldl towedPlacementStep vs

/-- The block `if (activeAmbulance) ...` that raises the tow mission and steers
the ambulance. -/
def Simulation.ambulanceStage (s : Simulation) (aAmb aTow : Option Nat) : Simulation :=
  match aAmb with
  | none => s
  | some e =>
    match s.vehiclesBottom[e]? with
    | none => s
    | some amb =>
      if amb.ambState = some .TO_HOSPITAL then
        let s :=
          if s.currentAccident.active ∧ aTow = none ∧ s.currentMission = .MISSION_NONE then
            { s with currentMission := .MISSION_CALL_TOW, missionTimer := missionMaxTime }
          else s
        { s with
          vehiclesBottom := modifyAt (fun v => { v with targetY := laneYBottom 2 }) e s.vehiclesBottom }
      else if amb.ambState = some .TO_ACCIDENT ∧ s.currentAccident.active then
        { s with
          vehiclesBottom :=
            modifyAt (fun v => { v with targetY := s.currentAccident.y }) e s.vehiclesBottom }
      else s

/-! ### The yield / follow / light pass -/

/-- The local `currentLaneIdx` computed before a lane change. -/
def laneIdx (v : Vehicle) : Nat :=
  let idx := if |v.y - laneYBottom 1| < 5 then 1 else 0
  if |v.y - laneYBottom 2| < 5 then 2 else idx

/-- The lane change `v->SetTargetY(laneYBottom[targetLane]); v->SetChangedLane(true);`. -/
def changeLane (v : Vehicle) : Vehicle :=
  { v with targetY := laneYBottom ((laneIdx v + 1) % 3), changedLane := true }

/-- The lambda `tryYield` called for `v = vehiclesBottom[i]` on the non-null
emergency vehicle `vehiclesBottom[e]`. -/
def tryYield (vs : List Vehicle) (i e : Nat) : List Vehicle :=
  match vs[i]?, vs[e]? with
  | some v, some em =>
    if |v.targetY - em.targetY| < 5 then
      if em.x - v.x > 0 ∧ em.x - v.x < 450 then modifyAt changeLane i vs else vs
    else vs
  | _, _ => vs

/-- The block `if (!v->isReckless && !v->laneLock && !v->HasChangedLane()) ...`. -/
def yieldStep (aAmb aTow : Option Nat) (vs : List Vehicle) (i : Nat) : List Vehicle :=
  match vs[i]? with
  | none => vs
  | some v =>
    if !v.isReckless && !v.laneLock && !v.changedLane then
      let vs :=
        match aAmb with
        | some e => tryYield vs i e
        | none => vs
      match aTow with
      | none => vs
      | some t =>
        match vs[t]? with
        | none => vs
        | some tw => if tw.isWorking then tryYield vs i t else vs
    else vs

/-- The accident-avoidance lane change inside `if (!v->isReckless)`. -/
def avoidAccident (acc : Accident) (v : Vehicle) : Vehicle :=
  if acc.active && !v.changedLane && !v.laneLock then
    if |v.y - acc.y| < 5 ∧ v.x > acc.x then
      if v.x - acc.x < 300 then changeLane v else v
    else v
  else v

/-- The local `limit` of the following-distance check. -/
def followLimit (v other : Vehicle) : ℚ :=
  if v.IsAmbulance then 10
  else if other.IsDepannage then 250
  else if other.IsAmbulance && !other.moving then 150
  else SAFE_DISTANCE

/-- The following-distance loop `for j` for `v = vehiclesBottom[i]`, over the
vehicles from index `j` on: whether it reaches `stop = true; break;`. -/
def followScan (v : Vehicle) (i : Nat) : List Vehicle → Nat → Bool
  | [], _ => false
  | other :: rest, j =>
    if i = j then followScan v i rest (j + 1)
    else if other.isTowed then followScan v i rest (j + 1)
    else if v.IsDepannage && (other.isCrashed || other.isAccidentTarget) then
      followScan v i rest (j + 1)
    else if |v.targetY - other.targetY| < 5 ∧ other.x < v.x ∧
        v.x - (other.x + VEHICLE_WIDTH) < followLimit v other then true
    else followScan v i rest (j + 1)

/-- The value of `stop` for the non-reckless vehicle `v = vehiclesBottom[i]`
once the accident avoidance has run. -/
def computeStop (light : TrafficLight) (vs : List Vehicle) (i : Nat) (v : Vehicle) : Bool :=
  if !v.IsAmbulance && light.IsRed && decide (|v.x - light.GetStopLineX true| < 50) then true
  else followScan v i vs 0

/-- One iteration of the main loop over `vehiclesBottom`. -/
def bottomStep (acc : Accident) (light : TrafficLight) (aAmb aTow : Option Nat)
    (frameTime : ℚ) (vs : List Vehicle) (i : Nat) : List Vehicle :=
  match vs[i]? with
  | none => vs
  | some v0 =>
    if v0.isCrashed || v0.isTowed then vs
    else
      let vs := yieldStep aAmb aTow vs i
      match vs[i]? with
      | none => vs
      | some v =>
        if v.isReckless then
          modifyAt (fun _ => ({ v with forcedStop := false }).Update false frameTime) i vs
        else
          let v := avoidAccident acc v
          let stop := computeStop light vs i v
          modifyAt (fun _ => ({ v with forcedStop := stop }).Update stop frameTime) i vs

/-- The main loop over `vehiclesBottom`. -/
def bottomPass (acc : Accident) (light : TrafficLight) (aAmb aTow : Option Nat)
    (frameTime : ℚ) (vs : List Vehicle) : List Vehicle :=
  (List.range vs.length).foldl (bottomStep acc light aAmb aTow frameTime) vs

/-- The leader-distance loop `for j` of the outbound roadway. -/
def topScan (v : Vehicle) (i : Nat) : List Vehicle → Nat → Bool
  | [], _ => false
  | other :: rest, j =>
    if i = j then topScan v i rest (j + 1)
    else if other.targetY = v.targetY ∧ other.x > v.x then
      if other.x - VEHICLE_WIDTH - v.x < SAFE_DISTANCE then true
      else topScan v i rest (j + 1)
    else topScan v i rest (j + 1)

/-- One iteration of the loop over `vehiclesTop`. -/
def topStep (light : TrafficLight) (frameTime : ℚ) (vs : List Vehicle) (i : Nat) :
    List Vehicle :=
  match vs[i]? with
  | none => vs
  | some v =>
    let stop :=
      if light.IsRed && decide (|v.x - light.GetStopLineX false| < 50) then true
      else topScan v i vs 0
    modifyAt (fun _ => ({ v with forcedStop := stop }).Update stop frameTime) i vs

/-- The loop over `vehiclesTop`. -/
def topPass (light : TrafficLight) (frameTime : ℚ) (vs : List Vehicle) : List Vehicle :=
  (List.range vs.length).foldl (topStep light frameTime) vs

/-- The last two statements of `Update` (siren alert). -/
def Simulation.alertStage (s : Simulation) (aAmb : Option Nat) (delta : ℚ) : Simulation :=
  let s := { s with ambulanceActive := aAmb.isSome }
  if s.ambulanceActive then
    let s := { s with screenAlertTimer := s.screenAlertTimer + delta }
    if s.screenAlertTimer ≥ 1 / 2 then
      { s with screenAlertOn := !s.screenAlertOn, screenAlertTimer := 0 }
    else s
  else { s with screenAlertOn := false }

/-- Everything `Update` does after the culling. -/
def Simulation.postCullStages (s : Simulation) (delta : ℚ) (env : Env) : Simulation :=
  let s := s.transitionStage
  let aAmb := activeAmbulance s.vehiclesBottom
  let aTow := activeTow s.vehiclesBottom
  let s := s.resolutionStage aTow
  let s := { s with vehiclesBottom := towedPlacement s.vehiclesBottom }
  let s := s.ambulanceStage aAmb aTow
  let s :=
    { s with
      vehiclesBottom :=
        bottomPass s.currentAccident s.lightBottom aAmb aTow env.frameTime s.vehiclesBottom }
  let s := { s with vehiclesTop := topPass s.lightTop env.frameTime s.vehiclesTop }
  s.alertStage aAmb delta

/-- Everything `Update` does from the culling to its end. -/
def Simulation.vehicleStages (s : Simulation) (delta : ℚ) (env : Env) : Simulation :=
  s.cullStage.postCullStages delta env

/-- The method `Simulation::Update(delta)`: the spec's `advance`. -/
def Simulation.Update (s : Simulation) (delta : ℚ) (env : Env) : Simulation :=
  if s.gameOver then s
  else
    let s := s.spawnStage delta env
    let s := s.randomTriggerStage env
    let s := s.busStage delta env
    let s := s.missionStage delta
    let s := s.lightStage delta
    s.vehicleStages delta env

/-! ### Commands and reachable states -/

/-- The calls the frame loop of `main` makes on the simulation. -/
inductive Cmd
  | advance (delta : ℚ) (env : Env)
  | dispatchAmbulance
  | dispatchTow
  | dispatchSchoolBus
  | triggerAccidentNow
  | reset
  deriving DecidableEq

/-- The effect of one command. -/
def Simulation.step (s : Simulation) : Cmd → Simulation
  | .advance delta env => s.Update delta env
  | .dispatchAmbulance => s.CallAmbulance
  | .dispatchTow => s.CallDepannage
  | .dispatchSchoolBus => s.CallSchoolBus
  | .triggerAccidentNow => s.TriggerRandomAccident
  | .reset => s.Reset

/-- The state after a sequence of commands, from the constructed simulation. -/
def run (cmds : List Cmd) : Simulation :=
  cmds.foldl Simulation.step Simulation.init

/-- The states the program can be in: those some sequence of commands leads to. -/
def Reachable (s : Simulation) : Prop :=
  ∃ cmds : List Cmd, run cmds = s

/-! ## Predicates and sample states used by the theorems -/

/-- The record is not both pending and active. -/
def Accident.Exclusive (a : Accident) : Prop :=
  ¬ (a.pending = true ∧ a.active = true)

/-- The state the countdown block of `Update` starts from. -/
def Simulation.beforeCountdown (s : Simulation) (delta : ℚ) (env : Env) : Simulation :=
  ((s.spawnStage delta env).randomTriggerStage env).busStage delta env

/-- The lives are between 0 and 3 and the game is over exactly at 0 lives. -/
def Simulation.LivesOK (s : Simulation) : Prop :=
  (0 ≤ s.playerStars ∧ s.playerStars ≤ 3) ∧ (s.gameOver = true ↔ s.playerStars = 0)

/-- A state in which the last life has been lost. -/
def gameOverState : Simulation :=
  { Simulation.init with playerStars := 0, gameOver := true }

/-- A car on lane 0 of the inbound roadway, at x = 1000. -/
def carA : Vehicle := Vehicle.new 0 1000 (laneYBottom 0) 2 false .Car

/-- A car on the same lane, 200 units behind `carA`. -/
def carB : Vehicle := Vehicle.new 1 1200 (laneYBottom 0) 2 false .Car

/-- Two cars 200 units apart on one lane, no accident, and a school-bus mission
with 5 seconds left. -/
def busMissionState : Simulation :=
  { Simulation.init with
    vehiclesBottom := [carA, carB], nextId := 2
    currentMission := .MISSION_CALL_BUS, missionTimer := 5 }

/-- The trigger scan, were it to run now, selects no pair: it is suppressed
(`waitingForTowToLeave`, or an accident pending or active) or finds none. -/
def Simulation.scanIdle (s : Simulation) : Prop :=
  s.waitingForTowToLeave = true ∨ s.currentAccident.active = true ∨
    s.currentAccident.pending = true ∨ scanOuter s.vehiclesBottom s.vehiclesBottom 0 = none

/-- An ambulance on its way to the hospital. -/
def ambToHospital : Vehicle :=
  Vehicle.new 2 900 (laneYBottom 0) (9 / 2) false
    (.Ambulance { state := .TO_HOSPITAL, stateTimer := 5, accidentX := 1045,
                  accidentY := laneYBottom 0 })

/-- An active accident between `carA` and `carB`, the ambulance already leaving
for the hospital, no tow truck on the road, and a tow mission with 1 second left. -/
def towMissionState : Simulation :=
  { Simulation.init with
    vehiclesBottom :=
      [{ carA with isCrashed := true, isAccidentTarget := true, laneLock := true,
                   moving := false },
       { carB with x := 1070, isCrashed := true, laneLock := true, moving := false },
       ambToHospital]
    nextId := 3
    waitingForTowToLeave := true
    currentAccident := { active := true, pending := false, x := 1045, y := laneYBottom 0,
                         car1 := some 0, car2 := some 1 }
    currentMission := .MISSION_CALL_TOW, missionTimer := 1 }

/-- A frame in which no car is spawned and the random accident trigger fires. -/
def envTrigger : Env :=
  { frameTime := 1 / 60, spawnTopThreshold := 70, spawnBottomThreshold := 70, laneTop := 0,
    speedTop := 0, laneBottom := 0, speedBottom := 0, accidentRoll := 0, busRoll := 50 }

/-- A frame in which no car is spawned and neither random event fires. -/
def envQuiet : Env :=
  { frameTime := 1 / 60, spawnTopThreshold := 70, spawnBottomThreshold := 70, laneTop := 0,
    speedTop := 0, laneBottom := 0, speedBottom := 0, accidentRoll := 500, busRoll := 50 }

/-- A frame in which no car is spawned and the school-bus roll succeeds. -/
def envBus : Env := { envQuiet with busRoll := 0 }

/-- Two frames after which the school-bus mission is active: the first uses up
the cooldown, the second rolls the mission. -/
def busMissionScript : List Cmd := [.advance 15 envQuiet, .advance (1 / 60) envBus]

/-- The stages of `Update` that precede the culling. -/
def Simulation.beforeCull (s : Simulation) (delta : ℚ) (env : Env) : Simulation :=
  ((((s.spawnStage delta env).randomTriggerStage env).busStage delta env).missionStage
    delta).lightStage delta

/-- The state of a frame right after the culling. -/
def Simulation.afterCull (s : Simulation) (delta : ℚ) (env : Env) : Simulation :=
  (s.beforeCull delta env).cullStage

/-- The members of a vehicle that no `Update` method writes: the vehicle with
its position, `moving`, `forcedStop` and subclass members blanked, and its class. -/
def Vehicle.status (v : Vehicle) : Vehicle × Bool × Bool × Bool :=
  ({ v with x := 0, y := 0, moving := false, forcedStop := false, cls := .Car },
    v.IsAmbulance, v.IsDepannage, v.IsSchoolBus)

/-- The members of a vehicle that neither an `Update` method nor a lane change
writes: `status` without the target lane and the changed-lane flag. -/
def Vehicle.core (v : Vehicle) : Vehicle × Bool × Bool × Bool :=
  ({ v with x := 0, y := 0, moving := false, forcedStop := false, cls := .Car, targetY := 0,
            changedLane := false },
    v.IsAmbulance, v.IsDepannage, v.IsSchoolBus)

/-- The vehicle with its position blanked. -/
def Vehicle.sansPos (v : Vehicle) : Vehicle := { v with x := 0, y := 0 }

/-- The vehicle with its target lane blanked. -/
def Vehicle.sansTargetY (v : Vehicle) : Vehicle := { v with targetY := 0 }

/-- What the main loop over `vehiclesBottom` may do to a vehicle: nothing when it
is crashed or towed, and otherwise nothing to its `core`. -/
def PassKept (v w : Vehicle) : Prop :=
  (v.isCrashed = true ∨ v.isTowed = true → w = v) ∧ w.core = v.core

/-- `w` is the object `v`, and if `v` is crashed then `w` is crashed with the
same `moving` and `isReckless`. -/
def CrashKept (v w : Vehicle) : Prop :=
  w.id = v.id ∧
    (v.isCrashed = true →
      w.isCrashed = true ∧ w.moving = v.moving ∧ w.isReckless = v.isReckless)

/-- `w` is the object `v`, and `w` is crashed only if `v` is. -/
def NoNewCrash (v w : Vehicle) : Prop :=
  w.id = v.id ∧ (w.isCrashed = true → v.isCrashed = true)

/-- The state of a frame after the accident transition, the tow resolution and
the placement of the towed vehicles, given the state after the culling. -/
def Simulation.resolved (s : Simulation) : Simulation :=
  { s.transitionStage.resolutionStage (activeTow s.transitionStage.vehiclesBottom) with
    vehiclesBottom := towedPlacement
      (s.transitionStage.resolutionStage
        (activeTow s.transitionStage.vehiclesBottom)).vehiclesBottom }

/-- The state of a frame after the ambulance block, given the state after the
culling. -/
def Simulation.steered (s : Simulation) : Simulation :=
  s.resolved.ambulanceStage (activeAmbulance s.transitionStage.vehiclesBottom)
    (activeTow s.transitionStage.vehiclesBottom)

/-- A tow truck that has already picked up, further down the road. -/
def towPickedUp : Vehicle :=
  { Vehicle.new 2 500 (laneYBottom 0) (5 / 2) false
      (.Depannage { hasPickedUp := true, isWorking := false, targetX := 700, workTimer := 3 })
    with moving := true }

/-- A pending accident whose trailing car is 50 units behind the leading one,
with a tow truck on the road that has already picked up. -/
def pendingNearTowState : Simulation :=
  { Simulation.init with
    vehiclesBottom := [markTarget carA, markReckless { carB with x := 1050 }, towPickedUp]
    nextId := 3
    waitingForTowToLeave := true
    currentAccident := { active := false, pending := true, x := 0, y := 0, car1 := some 0,
                         car2 := some 1 } }

/-- The same pending accident without the tow truck, after the last life was lost. -/
def pendingGameOverState : Simulation :=
  { Simulation.init with
    vehiclesBottom := [markTarget carA, markReckless { carB with x := 1050 }]
    nextId := 2
    waitingForTowToLeave := true
    playerStars := 0
    gameOver := true
    currentAccident := { active := false, pending := true, x := 0, y := 0, car1 := some 0,
                         car2 := some 1 } }

/-- The same pending accident without the tow truck, the game still running. -/
def pendingNearState : Simulation :=
  { pendingGameOverState with playerStars := 3, gameOver := false }

/-- The writes of the pending-to-active transition to the flags of one vehicle,
for the participants `c1` (leading) and `c2` (trailing). -/
def crashFlags (c1 c2 : Nat) (v : Vehicle) : Vehicle :=
  let v := if v.id = c1 then { v with isCrashed := true } else v
  let v := if v.id = c2 then { v with isCrashed := true } else v
  let v := if v.id = c2 then { v with isReckless := false } else v
  let v := if v.id = c1 then { v with moving := false } else v
  if v.id = c2 then { v with moving := false } else v

/-- All the writes of the pending-to-active transition to one vehicle. -/
def crashWrites (c1 c2 : Nat) (accX accY : ℚ) (v : Vehicle) : Vehicle :=
  assignIfAmbulance accX accY (crashFlags c1 c2 v)

/-- The leading participant of a pending accident, as the trigger scan leaves
it: a car flagged accident-target, slowed to at most 1 unit a frame. -/
structure PairLead (a : Vehicle) : Prop where
  cls : a.cls = .Car
  notCrashed : a.isCrashed = false
  notTowed : a.isTowed = false
  target : a.isAccidentTarget = true
  notReckless : a.isReckless = false
  dir : a.dirRight = false
  speed_nonneg : 0 ≤ a.speed
  speed_le : a.speed ≤ 1

/-- The trailing participant of a pending accident, as the trigger scan leaves
it: a reckless car moving at 5.6 to 7 units a frame. -/
structure PairTrail (b : Vehicle) : Prop where
  cls : b.cls = .Car
  notCrashed : b.isCrashed = false
  notTowed : b.isTowed = false
  reckless : b.isReckless = true
  notTarget : b.isAccidentTarget = false
  dir : b.dirRight = false
  moving : b.moving = true
  speed_ge : 28 / 5 ≤ b.speed
  speed_le : b.speed ≤ 7

/-- A car that carries none of the accident flags. -/
def Vehicle.plainCar (v : Vehicle) : Prop :=
  v.cls = .Car ∧ v.isReckless = false ∧ v.isAccidentTarget = false ∧ v.isCrashed = false ∧
    v.isTowed = false

/-- The invariant of the reachable states behind the tow mission: the tow mission
is only active while the accident is active and no tow truck is on the road.
The other fields make it inductive; `gmin` is the least gap a pending pair can
have at this point of a frame (73 between frames, 80 after the transition). -/
structure Inv (gmin : ℚ) (s : Simulation) : Prop where
  nodup : (s.vehiclesBottom.map Vehicle.id).Nodup
  fresh : ∀ v ∈ s.vehiclesBottom, v.id < s.nextId
  excl : ¬ (s.currentAccident.pending = true ∧ s.currentAccident.active = true)
  tow : s.currentMission = .MISSION_CALL_TOW →
    s.currentAccident.active = true ∧ ∀ v ∈ s.vehiclesBottom, v.IsDepannage = false
  keep : ∀ v ∈ s.vehiclesBottom, v.toBeRemoved = false
  crashed : ∀ v ∈ s.vehiclesBottom, v.isCrashed = true → -2000 < v.x ∧ v.isTowed = false
  roam : ∀ v ∈ s.vehiclesBottom, v.isReckless = true ∨ v.isAccidentTarget = true →
    v.isCrashed = false →
    s.currentAccident.pending = true ∧
      (s.currentAccident.car1 = some v.id ∨ s.currentAccident.car2 = some v.id)
  pair : s.currentAccident.pending = true →
    ∃ a ∈ s.vehiclesBottom, ∃ b ∈ s.vehiclesBottom,
      s.currentAccident.car1 = some a.id ∧ s.currentAccident.car2 = some b.id ∧
      PairLead a ∧ PairTrail b ∧ gmin ≤ b.x - a.x ∧ 300 < 23 * a.x - 5 * (b.x - a.x)
  wreck : s.currentAccident.active = true →
    ∃ a ∈ s.vehiclesBottom, ∃ b ∈ s.vehiclesBottom,
      s.currentAccident.car1 = some a.id ∧ s.currentAccident.car2 = some b.id ∧
      a.isCrashed = true ∧ b.isCrashed = true ∧ a.isReckless = false ∧
      b.isReckless = false ∧ b.isAccidentTarget = false ∧ a.cls = .Car ∧ b.cls = .Car
  plain : ∀ v ∈ s.vehiclesBottom, v.plainCar →
    2 ≤ v.speed ∧ v.speed ≤ 5 / 2 ∧ v.dirRight = false ∧ v.moving = true

/-- Whether the `remove_if` predicate on `vehiclesBottom` returns true on a
vehicle; the answer does not depend on the accident record. -/
def cullRemoves (v : Vehicle) : Bool :=
  if v.IsDepannage then decide (v.x < -3000)
  else if v.IsSchoolBus then v.IsOffScreen
  else if v.isReckless || v.isAccidentTarget || v.isCrashed || v.isTowed then
    !(decide (v.x > -2000) && !v.toBeRemoved)
  else v.IsOffScreen || v.toBeRemoved

/-- All the writes of the tow resolution to one vehicle, for the participants
`c1` and `c2` and the tow truck `tow`. -/
def towWrites (c1 c2 : Nat) (tow : Vehicle) (v : Vehicle) : Vehicle :=
  let u := if v.id = c1 then towFirst tow v else v
  if u.id = c2 then towSecond tow u else u

/-- The vehicle with its target lane and changed-lane flag blanked. -/
def Vehicle.sansLane (v : Vehicle) : Vehicle := { v with targetY := 0, changedLane := false }

/-- The step a car makes along the road in one frame when it moves. -/
def Vehicle.stride (v : Vehicle) : ℚ := if v.dirRight then v.speed else -v.speed

/-- What the main loop over `vehiclesBottom` does to a vehicle in one frame:
`PassKept`, and a car stays a car with the same `moving`, stands still or
advances by its stride, and advances when it is reckless and moving. -/
def Moved (v w : Vehicle) : Prop :=
  PassKept v w ∧
    (v.cls = .Car →
      w.cls = .Car ∧ w.moving = v.moving ∧ (w.x = v.x ∨ w.x = v.x + v.stride) ∧
        (v.isReckless = true → v.moving = true → v.isCrashed = false → v.isTowed = false →
          w.x = v.x + v.stride))

/-- The test `!red` with which `Draw` lights the green lamp. -/
def TrafficLight.IsGreen (l : TrafficLight) : Bool := !l.red

/-- A light after a sequence of `Update` calls. -/
def TrafficLight.after (l : TrafficLight) (deltas : List ℚ) : TrafficLight :=
  deltas.foldl TrafficLight.Update l

/-- Whether a call of `Update` on the vehicle reaches the statement that eases
`y` toward `targetY`: always for a school bus or an ambulance; for a car unless
it is crashed or towed; for a tow truck unless it is working, arrives at its
pick-up point in this call, or is crashed or towed. -/
def Vehicle.easesY (v : Vehicle) : Bool :=
  match v.cls with
  | .Car => !v.isCrashed && !v.isTowed
  | .SchoolBus _ => true
  | .Ambulance _ => true
  | .Depannage d =>
    !d.isWorking && !(!d.hasPickedUp && decide (v.x ≤ d.targetX - 120)) &&
      (!v.isCrashed && !v.isTowed)

/-- A tow truck at work whose `y` is 1/4 away from its target lane. -/
def towOffLane : Vehicle :=
  { Vehicle.new 0 900 (laneYBottom 0) (5 / 2) false
      (.Depannage { hasPickedUp := false, isWorking := true, targetX := 1045, workTimer := 0 })
    with targetY := laneYBottom 0 + 1 / 4, moving := false }

/-- What a call of `Update` does to `y`: the target lane is kept and the
distance to it does not grow. -/
def YCloser (v w : Vehicle) : Prop :=
  w.targetY = v.targetY ∧ |v.targetY - w.y| ≤ |v.targetY - v.y|

/-- Within 1/2 of the target lane, `y` ends on it. -/
def YSnaps (v w : Vehicle) : Prop :=
  |v.targetY - v.y| ≤ 1 / 2 → w.y = v.targetY

/-- Two cars 200 units apart on one lane and a tow truck that has picked up
further down the road; no accident is recorded and `waitingForTowToLeave` is
not set. -/
def towPresentState : Simulation :=
  { Simulation.init with vehiclesBottom := [carA, carB, towPickedUp], nextId := 3 }

/-- The state after a sequence of commands, from a given state. -/
def runFrom (s : Simulation) (cmds : List Cmd) : Simulation :=
  cmds.foldl Simulation.step s

/-- The values a frame of `dt` seconds takes from outside when neither the random
accident trigger fires nor, unless `busRoll < 2`, the school-bus roll: the spawn
thresholds are 7 s (outbound) and 4 s (inbound), a spawned inbound car takes lane
`lane` at speed 2.5. -/
def envAt (dt : ℚ) (lane : Fin 3) (busRoll : Int) : Env :=
  { frameTime := dt, spawnTopThreshold := 70, spawnBottomThreshold := 40, laneTop := 0,
    speedTop := 0, laneBottom := lane, speedBottom := 5, accidentRoll := 500,
    busRoll := busRoll }

/-- A frame of 0 seconds: vehicles move, no timer advances. -/
def still : Cmd := .advance 0 (envAt 0 0 50)

/-- The state after two frames of 4 seconds: two inbound cars on lane 0, the
second still at its spawn point behind the first, and one outbound car. -/
def afterSpawns : Simulation :=
  { Simulation.init with
    vehiclesTop := [Vehicle.new 1 (-1498) 120 2 true .Car]
    vehiclesBottom :=
      [Vehicle.new 0 5495 290 (5 / 2) false .Car,
       { Vehicle.new 2 5500 290 (5 / 2) false .Car with forcedStop := true }]
    lightTop := { Simulation.init.lightTop with timer := 0, red := false }
    lightBottom := { Simulation.init.lightBottom with timer := 0, red := false }
    busCooldown := 7, nextId := 3 }

/-- Both inbound cars under way on lane 0, the second 132.5 behind the first at
`x`, the outbound car at `xt`, both lights green. -/
def cruise (xt x : ℚ) : Simulation :=
  { Simulation.init with
    vehiclesTop := [Vehicle.new 1 xt 120 2 true .Car]
    vehiclesBottom :=
      [Vehicle.new 0 x 290 (5 / 2) false .Car,
       Vehicle.new 2 (x + 265 / 2) 290 (5 / 2) false .Car]
    lightTop := { Simulation.init.lightTop with timer := 0, red := false }
    lightBottom := { Simulation.init.lightBottom with timer := 0, red := false }
    busCooldown := 7, nextId := 3 }

/-- The state right after the trigger scan has selected the two cars. -/
def pendingFar : Simulation :=
  { cruise (-114) 3765 with
    vehiclesBottom :=
      [{ Vehicle.new 0 3765 290 1 false .Car with isAccidentTarget := true, laneLock := true },
       { Vehicle.new 2 (7795 / 2) 290 7 false .Car with isReckless := true, laneLock := true }]
    waitingForTowToLeave := true
    currentAccident :=
      { active := false, pending := true, x := 0, y := 0, car1 := some 0, car2 := some 2 }
    currentMission := .MISSION_CALL_AMBULANCE, missionTimer := 8 }

/-- The state in which the two cars have just crashed. -/
def crashedPair : Simulation :=
  { pendingFar with
    vehiclesTop := [Vehicle.new 1 (-94) 120 2 true .Car]
    vehiclesBottom :=
      [{ Vehicle.new 0 3756 290 1 false .Car with
          moving := false, isCrashed := true, isAccidentTarget := true, laneLock := true },
       { Vehicle.new 2 (7669 / 2) 290 7 false .Car with
          moving := false, isCrashed := true, laneLock := true }]
    currentAccident :=
      { active := true, pending := false, x := 3801, y := 290, car1 := some 0,
        car2 := some 2 } }

/-- Commands that lead to `crashedPair`: two frames of 4 seconds spawn the cars,
692 frames later the second car has passed x = 3900, the trigger scan selects
the pair, and 10 frames later the cars crash. -/
def crashScript : List Cmd :=
  [.advance 4 (envAt 4 0 50), .advance 4 (envAt 4 0 50)] ++ List.replicate 52 still ++
    List.replicate 640 still ++ [.triggerAccidentNow] ++ List.replicate 10 still

/-- A vehicle that carries none of the flags reckless, accident-target, crashed
and towed, and no tower reference. -/
def Vehicle.unflagged (v : Vehicle) : Prop :=
  v.isReckless = false ∧ v.isAccidentTarget = false ∧ v.isCrashed = false ∧
    v.isTowed = false ∧ v.myTower = none

/-- The flags reckless, accident-target, crashed and towed exclude each other,
except that accident-target and crashed may be set together. -/
def Vehicle.PhasesOK (v : Vehicle) : Prop :=
  ¬ (v.isReckless = true ∧ v.isAccidentTarget = true) ∧
    ¬ (v.isReckless = true ∧ v.isCrashed = true) ∧
    ¬ (v.isReckless = true ∧ v.isTowed = true) ∧
    ¬ (v.isAccidentTarget = true ∧ v.isTowed = true) ∧
    ¬ (v.isCrashed = true ∧ v.isTowed = true)

/-- What a stage keeps of a vehicle as far as references are concerned: its
identity, being a car, being a tow truck, the speed and direction of a tow
truck, and the towing members. -/
def Linked (v w : Vehicle) : Prop :=
  w.id = v.id ∧ (v.cls = .Car → w.cls = .Car) ∧ w.IsDepannage = v.IsDepannage ∧
    (v.IsDepannage = true → w.speed = v.speed ∧ w.dirRight = v.dirRight) ∧
    w.myTower = v.myTower ∧ w.towOffsetX = v.towOffsetX ∧ w.isTowed = v.isTowed

/-- The invariant of the reachable states about flags and references: outbound
vehicles carry no accident flag and no tower reference, a crashed vehicle is not reckless, the
references of the accident record designate cars of the inbound collection, tow
trucks drive leftward at 2.5 units a frame, and a vehicle with a tower reference
is a towed car at most 200 units behind a tow truck of the inbound collection. -/
structure Tidy (s : Simulation) : Prop where
  top : ∀ v ∈ s.vehiclesTop, v.unflagged
  calm : ∀ v ∈ s.vehiclesBottom, v.isCrashed = true → v.isReckless = false
  refs : ∀ c, s.currentAccident.car1 = some c ∨ s.currentAccident.car2 = some c →
    ∃ v ∈ s.vehiclesBottom, v.id = c ∧ v.cls = .Car
  towSpeed : ∀ w ∈ s.vehiclesBottom, w.IsDepannage = true →
    w.speed = 5 / 2 ∧ w.dirRight = false
  tower : ∀ v ∈ s.vehiclesBottom, ∀ t, v.myTower = some t →
    v.cls = .Car ∧ v.isTowed = true ∧ v.towOffsetX ≤ 200 ∧
      ∃ w ∈ s.vehiclesBottom, w.id = t ∧ w.IsDepannage = true

/-- Every vehicle with a tower reference is at most its tow offset plus `slack`
to the right of its tower. -/
def Hitched (slack : ℚ) (s : Simulation) : Prop :=
  ∀ v ∈ s.vehiclesBottom, ∀ t, v.myTower = some t →
    ∀ w ∈ s.vehiclesBottom, w.id = t → v.x ≤ w.x + v.towOffsetX + slack

/-- What the trigger scan does to a vehicle: nothing, or one of the two marks on
a vehicle the scan does not skip. -/
def Marked (v w : Vehicle) : Prop :=
  w = v ∨ (scanSkips v = false ∧ (w = markReckless v ∨ w = markTarget v))

/-- What the main loop does to a tow truck in one frame: it stays a tow truck
with the same target, keeps `hasPickedUp` once set, and either stands still or
advances by its stride; before the pick-up it only advances from a position to
the right of its pick-up point `targetX - 120`. -/
def TowStep (v w : Vehicle) : Prop :=
  ∀ d, v.cls = .Depannage d →
    ∃ d', w.cls = .Depannage d' ∧ d'.targetX = d.targetX ∧
      (d.hasPickedUp = true → d'.hasPickedUp = true) ∧
      (w.x = v.x ∨
        (w.x = v.x + v.stride ∧ d'.hasPickedUp = d.hasPickedUp ∧
          (d.hasPickedUp = false → d.targetX - 120 < v.x)))

/-- The last vehicle of a collection that satisfies `p`: the vehicle the loop
that sets `activeAmbulance` / `activeTow` ends on. -/
def lastOf (p : Vehicle → Bool) : List Vehicle → Option Vehicle
  | [] => none
  | v :: vs =>
    match lastOf p vs with
    | some w => some w
    | none => if p v then some v else none

/-- What the stages other than the main loop keep of a vehicle: whether it is a
tow truck, and the class members and position of a tow truck. -/
def TowKept (v w : Vehicle) : Prop :=
  w.IsDepannage = v.IsDepannage ∧ (v.IsDepannage = true → w.cls = v.cls ∧ w.x = v.x)

/-- The invariant of the reachable states behind the tow resolution: an active
accident lies at a positive x and has two different participants, and a tow
truck that has not picked up yet has a positive target and is to the right of
x = -125. -/
structure TowInv (s : Simulation) : Prop where
  accx : s.currentAccident.active = true → 0 < s.currentAccident.x
  distinct : s.currentAccident.active = true →
    s.currentAccident.car1 ≠ s.currentAccident.car2
  enroute : ∀ w ∈ s.vehiclesBottom, ∀ d, w.cls = .Depannage d → d.hasPickedUp = false →
    0 < d.targetX ∧ -125 < w.x

/-- Between two frames, while the accident is active, a last tow truck that has
picked up is still to the right of x = -125: it picked up in the frame before. -/
def Settled (s : Simulation) : Prop :=
  s.currentAccident.active = true →
    ∀ w, lastOf Vehicle.IsDepannage s.vehiclesBottom = some w → w.hasPickedUp = true →
      -125 < w.x

/-- What the placement of the towed vehicles and the ambulance block keep of a
vehicle: whether it is a tow truck, its tower reference, and the class members
and position of a vehicle without a tower. -/
def Free (v w : Vehicle) : Prop :=
  w.IsDepannage = v.IsDepannage ∧ w.myTower = v.myTower ∧
    (v.myTower = none → w.cls = v.cls ∧ w.x = v.x)

/-- The leading car of `crashedPair`. -/
def wreckA : Vehicle :=
  { Vehicle.new 0 3756 290 1 false .Car with
      moving := false, isCrashed := true, isAccidentTarget := true, laneLock := true }

/-- The trailing car of `crashedPair`. -/
def wreckB : Vehicle :=
  { Vehicle.new 2 (7669 / 2) 290 7 false .Car with
      moving := false, isCrashed := true, laneLock := true }

/-- The tow truck dispatched to the crash of `crashedPair`, under way at `x` in
the lane `y`; `ch` tells whether it has changed lane. -/
def towAt (x y : ℚ) (ch : Bool) : Vehicle :=
  { Vehicle.new 3 x y (5 / 2) false
      (.Depannage { hasPickedUp := false, isWorking := false, targetX := 3801, workTimer := 0 })
    with changedLane := ch }

/-- The crash of `crashedPair` with the tow truck under way and the outbound car
at `xt`. -/
def towing (xt x y : ℚ) (ch : Bool) : Simulation :=
  { crashedPair with
    vehiclesTop := [Vehicle.new 1 xt 120 2 true .Car]
    vehiclesBottom := [wreckA, wreckB, towAt x y ch]
    nextId := 4 }

/-- A frame of 8 seconds with the given school-bus roll. -/
def frame8 (busRoll : Int) : Cmd := .advance 8 (envAt 8 0 busRoll)

/-- Commands that bring the tow truck of `crashedPair` next to the crash: it is
dispatched, drives 560 frames toward the crash, changes lane in 55 frames and
drives 111 frames more. -/
def towApproach : List Cmd :=
  [.dispatchTow] ++ List.replicate 560 still ++ List.replicate 55 still ++
    List.replicate 111 still

/-- The state in which the game is over, the accident is still active and the
tow truck has just finished its work: the last life was lost in the frame in
which `hasPickedUp` was set. -/
def gameOverTow : Simulation :=
  { crashedPair with
    vehiclesTop :=
      [Vehicle.new 1 1366 120 2 true .Car,
       Vehicle.new 4 (-1492) 120 2 true .Car,
       { Vehicle.new 6 (-1500) 120 2 true .Car with forcedStop := true },
       { Vehicle.new 8 (-1500) 120 2 true .Car with forcedStop := true },
       { Vehicle.new 10 (-1500) 120 2 true .Car with forcedStop := true }]
    vehiclesBottom :=
      [wreckA, wreckB,
       { Vehicle.new 3 3680 335 (5 / 2) false
           (.Depannage { hasPickedUp := true, isWorking := false, targetX := 3801,
                         workTimer := 8 })
         with changedLane := true },
       Vehicle.new 5 5490 290 (5 / 2) false .Car,
       { Vehicle.new 7 5500 290 (5 / 2) false .Car with forcedStop := true },
       { Vehicle.new 9 5500 290 (5 / 2) false .Car with forcedStop := true },
       { Vehicle.new 11 5500 290 (5 / 2) false .Car with forcedStop := true }]
    playerStars := 0, currentMission := .MISSION_NONE, missionTimer := 0
    busCooldown := 15, gameOver := true, nextId := 12 }

/-- Commands that lead from `crashedPair` to `gameOverTow`: after the approach,
four frames of 8 seconds, in which the ambulance mission and two school-bus
missions expire while the tow truck arrives at its pick-up point (third frame)
and finishes its work (fourth). -/
def gameOverScript : List Cmd :=
  towApproach ++ [frame8 50, frame8 0, frame8 50, frame8 0]

/-- The state in which the tow truck has just finished its work, the accident is
active and two lives are left; both lights have turned red. -/
def pickedUpTow : Simulation :=
  { crashedPair with
    vehiclesTop := [Vehicle.new 1 1366 120 2 true .Car, Vehicle.new 4 (-1498) 120 2 true .Car]
    vehiclesBottom :=
      [wreckA, wreckB,
       { Vehicle.new 3 3680 335 (5 / 2) false
           (.Depannage { hasPickedUp := true, isWorking := false, targetX := 3801,
                         workTimer := 8 })
         with changedLane := true },
       Vehicle.new 5 (10995 / 2) 290 (5 / 2) false .Car]
    lightTop := { Simulation.init.lightTop with timer := 0, red := true }
    lightBottom := { Simulation.init.lightBottom with timer := 0, red := true }
    playerStars := 2, currentMission := .MISSION_NONE, missionTimer := 0
    busCooldown := -1, nextId := 6 }

/-- Commands that lead from `crashedPair` to `pickedUpTow`: after the approach,
the tow truck arrives in three frames and finishes its work in a frame of 8
seconds, in which the ambulance mission expires. -/
def pickedUpScript : List Cmd :=
  towApproach ++ List.replicate 3 still ++ [frame8 50]

/-- What the stages after the tow resolution keep of a towed vehicle: the flags
and the towing members. -/
def TowedKept (v w : Vehicle) : Prop :=
  w.id = v.id ∧
    (v.isTowed = true →
      w.isTowed = true ∧ w.isCrashed = v.isCrashed ∧
        w.isAccidentTarget = v.isAccidentTarget ∧ w.isReckless = v.isReckless ∧
        w.towOffsetX = v.towOffsetX ∧ w.myTower = v.myTower)

/-- A tow truck 120 units to the right of its target, neither working nor done. -/
def towShort : Vehicle :=
  Vehicle.new 0 3921 (laneYBottom 0) (5 / 2) false
    (.Depannage { hasPickedUp := false, isWorking := false, targetX := 3801, workTimer := 0 })

/-- A tow truck 120 units to the left of its target, neither working nor done. -/
def towPast : Vehicle :=
  Vehicle.new 0 3681 (laneYBottom 0) (5 / 2) false
    (.Depannage { hasPickedUp := false, isWorking := false, targetX := 3801, workTimer := 0 })

/-- An ambulance assigned to the accident at `(x, y)`: it is in state
`TO_ACCIDENT`, its recorded target is `(x, y)` and its target lane is `y`. -/
def Vehicle.AssignedTo (v : Vehicle) (x y : ℚ) : Prop :=
  ∃ d, v.cls = .Ambulance d ∧ d.state = .TO_ACCIDENT ∧ d.accidentX = x ∧ d.accidentY = y ∧
    v.targetY = y

/-- The pending accident of `pendingNearState` with an ambulance that is leaving
the hospital and one that is waiting there. -/
def pendingNearAmbulances : Simulation :=
  { pendingNearState with
    vehiclesBottom :=
      pendingNearState.vehiclesBottom ++
        [Vehicle.new 2 60 (laneYBottom 2) (9 / 2) false
           (.Ambulance { state := .LEAVING, stateTimer := 6, accidentX := 500,
                         accidentY := laneYBottom 1 }),
         { Vehicle.new 3 80 (laneYBottom 2) (9 / 2) false
             (.Ambulance { state := .WAIT_AT_HOSPITAL, stateTimer := 1, accidentX := 500,
                           accidentY := laneYBottom 1 })
           with moving := false }]
    nextId := 4 }

/-- The pending accident of `pendingNearTowState`, whose last tow truck has
already picked up, with an ambulance that is leaving the hospital and one that
is waiting there. -/
def pendingNearTowAmbulances : Simulation :=
  { pendingNearTowState with
    vehiclesBottom :=
      pendingNearTowState.vehiclesBottom ++
        [Vehicle.new 3 60 (laneYBottom 2) (9 / 2) false
           (.Ambulance { state := .LEAVING, stateTimer := 6, accidentX := 500,
                         accidentY := laneYBottom 1 }),
         { Vehicle.new 4 80 (laneYBottom 2) (9 / 2) false
             (.Ambulance { state := .WAIT_AT_HOSPITAL, stateTimer := 1, accidentX := 500,
                           accidentY := laneYBottom 1 })
           with moving := false }]
    nextId := 5 }

/-- The commands the claim on the countdown admits: an advance needs `dt >= 0`. -/
def Cmd.nonneg : Cmd → Prop
  | .advance delta _ => 0 ≤ delta
  | _ => True

/-- While a mission is active its countdown lies in `(0, missionMaxTime]`. -/
def Simulation.TimerOK (s : Simulation) : Prop :=
  s.currentMission ≠ .MISSION_NONE → 0 < s.missionTimer ∧ s.missionTimer ≤ missionMaxTime

/-- The inbound collection when the main loop reaches index `i`: its first `i`
iterations have run. -/
def passPrefix (acc : Accident) (light : TrafficLight) (aAmb aTow : Option Nat)
    (frameTime : ℚ) (vs : List Vehicle) (i : Nat) : List Vehicle :=
  (List.range i).foldl (bottomStep acc light aAmb aTow frameTime) vs

/-- The accident record the main loop of an advance reads. -/
def Simulation.passAccident (s : Simulation) (delta : ℚ) (env : Env) : Accident :=
  (s.afterCull delta env).steered.currentAccident

/-- The inbound light the main loop of an advance reads. -/
def Simulation.passLight (s : Simulation) (delta : ℚ) (env : Env) : TrafficLight :=
  (s.afterCull delta env).steered.lightBottom

/-- The pointer `activeAmbulance` of an advance, as an index. -/
def Simulation.passAmbulance (s : Simulation) (delta : ℚ) (env : Env) : Option Nat :=
  activeAmbulance (s.afterCull delta env).transitionStage.vehiclesBottom

/-- The pointer `activeTow` of an advance, as an index. -/
def Simulation.passTow (s : Simulation) (delta : ℚ) (env : Env) : Option Nat :=
  activeTow (s.afterCull delta env).transitionStage.vehiclesBottom

/-- The inbound collection of an advance when its main loop reaches index `i`. -/
def Simulation.atTurn (s : Simulation) (delta : ℚ) (env : Env) (i : Nat) : List Vehicle :=
  passPrefix (s.passAccident delta env) (s.passLight delta env) (s.passAmbulance delta env)
    (s.passTow delta env) env.frameTime (s.afterCull delta env).steered.vehiclesBottom i

/-- The vehicle `o` is too close ahead of `v`, whose target lane is `ty`: `o` is
not towed, is neither crashed nor an accident target when `v` is a tow truck,
has its target lane within 5 of `ty`, is to the left of `v`, and the gap from
its front `o.x + VEHICLE_WIDTH` to `v.x` is below the limit: 10 if `v` is an
ambulance, else 250 if `o` is a tow truck, else 150 if `o` is an ambulance that
is not moving, else 45. -/
def TooClose (v : Vehicle) (ty : ℚ) (o : Vehicle) : Prop :=
  o.isTowed = false ∧
    (v.IsDepannage = true → o.isCrashed = false ∧ o.isAccidentTarget = false) ∧
    |ty - o.targetY| < 5 ∧ o.x < v.x ∧
    v.x - (o.x + VEHICLE_WIDTH) <
      (if v.IsAmbulance = true then 10
       else if o.IsDepannage = true then 250
       else if o.IsAmbulance = true ∧ o.moving = false then 150
       else 45)

/-- The state one frame before the two cars of `crashedPair` crash: the reckless
car is 78.5 units behind the leading one. -/
def preCrash : Simulation :=
  { pendingFar with
    vehiclesTop := [Vehicle.new 1 (-96) 120 2 true .Car]
    vehiclesBottom :=
      [{ Vehicle.new 0 3756 290 1 false .Car with isAccidentTarget := true, laneLock := true },
       { Vehicle.new 2 (7669 / 2) 290 7 false .Car with isReckless := true, laneLock := true }] }

/-- The reckless car of `pendingFar`. -/
def recklessFar : Vehicle :=
  { Vehicle.new 2 (7795 / 2) 290 7 false .Car with isReckless := true, laneLock := true }

/-- A car on lane 1 with an ambulance on patrol 200 units ahead of it (to its
left) on the same lane. -/
def ambulanceAhead : Simulation :=
  { Simulation.init with
    vehiclesBottom :=
      [Vehicle.new 0 1000 (laneYBottom 1) 2 false .Car,
       Vehicle.new 1 800 (laneYBottom 1) (9 / 2) false
         (.Ambulance { state := .PATROL, stateTimer := 0, accidentX := 0, accidentY := 0 })]
    nextId := 2 }

/-- A car on lane 1 with an ambulance on patrol 200 units behind it (to its
right) on the same lane, and a second ambulance, later in the collection, far
away on lane 0. -/
def ambulanceNotLast : Simulation :=
  { Simulation.init with
    vehiclesBottom :=
      [Vehicle.new 0 1000 (laneYBottom 1) 2 false .Car,
       Vehicle.new 1 1200 (laneYBottom 1) (9 / 2) false
         (.Ambulance { state := .PATROL, stateTimer := 0, accidentX := 0, accidentY := 0 }),
       Vehicle.new 2 3000 (laneYBottom 0) (9 / 2) false
         (.Ambulance { state := .PATROL, stateTimer := 0, accidentX := 0, accidentY := 0 })]
    nextId := 3 }

/-- A car on lane 1 with an ambulance on patrol 200 units behind it (to its
right) on the same lane. -/
def ambulanceBehind : Simulation :=
  { Simulation.init with
    vehiclesBottom :=
      [Vehicle.new 0 1000 (laneYBottom 1) 2 false .Car,
       Vehicle.new 1 1200 (laneYBottom 1) (9 / 2) false
         (.Ambulance { state := .PATROL, stateTimer := 0, accidentX := 0, accidentY := 0 })]
    nextId := 2 }

/-- A car at the inbound stop line while the inbound light is red. -/
def atRedLight : Simulation :=
  { Simulation.init with
    vehiclesBottom := [Vehicle.new 0 (Simulation.init.lightBottom.GetStopLineX true + 10)
      (laneYBottom 0) 2 false .Car]
    nextId := 1 }

/-- What the stages of an advance that precede the main loop keep of a vehicle:
its identity and, unless it is towed when they are done, its x (and it was not
towed before). -/
def XKept (u v : Vehicle) : Prop :=
  v.id = u.id ∧ (v.isTowed = false → u.isTowed = false ∧ v.x = u.x)

/-- What the part of an advance that follows the placement of the towed vehicles
keeps of a vehicle: its identity and, when it is towed, the towing members and
both coordinates. -/
def TowedStill (v w : Vehicle) : Prop :=
  w.id = v.id ∧
    (v.isTowed = true →
      w.isTowed = true ∧ w.myTower = v.myTower ∧ w.towOffsetX = v.towOffsetX ∧
        w.x = v.x ∧ w.y = v.y)

/-- The lane discipline of an inbound car that is not towed: its target lane is
one of the three lanes, it sits on its target lane as long as it has not changed
lane, its y lies between lane 0 and lane 2, and once its target is not lane 2
its y is at least one easing step (7.2 units) away from lane 2. -/
def Vehicle.OnLane (v : Vehicle) : Prop :=
  v.cls = .Car → v.isTowed = false →
    (v.targetY = laneYBottom 0 ∨ v.targetY = laneYBottom 1 ∨ v.targetY = laneYBottom 2) ∧
      (v.changedLane = false → v.y = v.targetY) ∧
      laneYBottom 0 ≤ v.y ∧ v.y ≤ laneYBottom 2 ∧
      (v.targetY ≠ laneYBottom 2 → v.y ≤ laneYBottom 2 - 36 / 5)

/-- The invariant of the reachable states about lanes: every inbound vehicle
satisfies `OnLane`. -/
def Simulation.Laned (s : Simulation) : Prop := ∀ v ∈ s.vehiclesBottom, v.OnLane

/-- A stage keeps the lane discipline of a vehicle. -/
def LaneKept (v w : Vehicle) : Prop := v.OnLane → w.OnLane

/-- What the spec requires of each vehicle of a pair the trigger scan selects:
it is not an ambulance, a tow truck, a school bus, off-screen, towed, crashed,
flagged reckless or accident-target, and it is not in the bus lane, neither by
its target lane nor by its position. -/
def Vehicle.Eligible (v : Vehicle) : Prop :=
  v.IsAmbulance = false ∧ v.IsDepannage = false ∧ v.IsSchoolBus = false ∧
    v.IsOffScreen = false ∧ v.isTowed = false ∧ v.isCrashed = false ∧
    v.isReckless = false ∧ v.isAccidentTarget = false ∧
    ¬ |v.targetY - laneYBottom 2| < 5 ∧ laneIdx v ≠ 2

/-! ## Stage lemmas: what each stage leaves untouched -/

section frame

variable (s : Simulation) (delta : ℚ) (env : Env) (aAmb aTow : Option Nat)

@[simp] theorem spawnStage_currentAccident :
    (s.spawnStage delta env).currentAccident = s.currentAccident := by
  unfold Simulation.spawnStage Simulation.SpawnCarTop Simulation.SpawnCarBottom
  dsimp only
  split_ifs <;> rfl

@[simp] theorem busStage_currentAccident :
    (s.busStage delta env).currentAccident = s.currentAccident := by
  unfold Simulation.busStage
  dsimp only
  split_ifs <;> rfl

@[simp] theorem missionStage_currentAccident :
    (s.missionStage delta).currentAccident = s.currentAccident := by
  unfold Simulation.missionStage
  dsimp only
  split_ifs <;> rfl

@[simp] theorem lightStage_currentAccident :
    (s.lightStage delta).currentAccident = s.currentAccident := rfl

@[simp] theorem ambulanceStage_currentAccident :
    (s.ambulanceStage aAmb aTow).currentAccident = s.currentAccident := by
  unfold Simulation.ambulanceStage
  split
  · rfl
  · split
    · rfl
    · dsimp only
      split_ifs <;> rfl

@[simp] theorem alertStage_currentAccident :
    (s.alertStage aAmb delta).currentAccident = s.currentAccident := by
  unfold Simulation.alertStage
  dsimp only
  split_ifs <;> rfl

/-- The accident record after the vehicle stages is the one the tow resolution leaves. -/
theorem vehicleStages_currentAccident :
    (s.vehicleStages delta env).currentAccident =
      (s.cullStage.transitionStage.resolutionStage
        (activeTow s.cullStage.transitionStage.vehiclesBottom)).currentAccident := by
  simp [Simulation.vehicleStages, Simulation.postCullStages]

end frame

/-! ## The accident record: `pending` and `active` exclude each other -/

theorem cullPred_exclusive (v : Vehicle) (acc : Accident) (w : Bool)
    (h : acc.Exclusive) : (cullPred v acc w).acc.Exclusive := by
  unfold cullPred
  unfold Accident.Exclusive at *
  dsimp only
  split_ifs <;> simp_all

theorem cullBottom_exclusive (vs : List Vehicle) (acc : Accident) (w : Bool)
    (h : acc.Exclusive) : (cullBottom vs acc w).acc.Exclusive := by
  induction vs generalizing acc w with
  | nil => simpa [cullBottom] using h
  | cons v vs ih =>
    simp only [cullBottom]
    exact ih _ _ (cullPred_exclusive v acc w h)

theorem cullStage_exclusive (s : Simulation) (h : s.currentAccident.Exclusive) :
    s.cullStage.currentAccident.Exclusive := by
  simpa [Simulation.cullStage] using cullBottom_exclusive _ _ _ h

theorem transitionStage_exclusive (s : Simulation) (h : s.currentAccident.Exclusive) :
    s.transitionStage.currentAccident.Exclusive := by
  unfold Simulation.transitionStage
  dsimp only
  split_ifs with hp
  · split
    · split
      · split_ifs
        · simp [Accident.Exclusive]
        · exact h
      · exact h
    · simp [Accident.Exclusive]
  · exact h

theorem resolutionStage_exclusive (s : Simulation) (aTow : Option Nat)
    (h : s.currentAccident.Exclusive) :
    (s.resolutionStage aTow).currentAccident.Exclusive := by
  unfold Simulation.resolutionStage
  split
  · exact h
  · split
    · exact h
    · split_ifs
      · simp [Accident.Exclusive]
      · exact h

theorem TriggerRandomAccident_exclusive (s : Simulation) (h : s.currentAccident.Exclusive) :
    s.TriggerRandomAccident.currentAccident.Exclusive := by
  unfold Simulation.TriggerRandomAccident
  split_ifs with hw ha
  · exact h
  · exact h
  · split
    · exact h
    · simp only [Bool.or_eq_true, not_or, Bool.not_eq_true] at ha
      simp [Accident.Exclusive, ha.1]

theorem Update_exclusive (s : Simulation) (delta : ℚ) (env : Env)
    (h : s.currentAccident.Exclusive) : (s.Update delta env).currentAccident.Exclusive := by
  unfold Simulation.Update
  split_ifs
  · exact h
  · dsimp only
    rw [vehicleStages_currentAccident]
    apply resolutionStage_exclusive
    apply transitionStage_exclusive
    apply cullStage_exclusive
    simp only [lightStage_currentAccident, missionStage_currentAccident,
      busStage_currentAccident]
    unfold Simulation.randomTriggerStage
    split_ifs
    · apply TriggerRandomAccident_exclusive
      simpa using h
    · simpa using h

theorem CallAmbulance_exclusive (s : Simulation) (h : s.currentAccident.Exclusive) :
    s.CallAmbulance.currentAccident.Exclusive := by
  unfold Simulation.CallAmbulance
  dsimp only
  split_ifs
  · exact TriggerRandomAccident_exclusive s h
  · exact h

theorem CallDepannage_exclusive (s : Simulation) (h : s.currentAccident.Exclusive) :
    s.CallDepannage.currentAccident.Exclusive := by
  unfold Simulation.CallDepannage
  split_ifs <;> exact h

theorem step_exclusive (s : Simulation) (c : Cmd) (h : s.currentAccident.Exclusive) :
    (s.step c).currentAccident.Exclusive := by
  cases c with
  | advance delta env => exact Update_exclusive s delta env h
  | dispatchAmbulance => exact CallAmbulance_exclusive s h
  | dispatchTow => exact CallDepannage_exclusive s h
  | dispatchSchoolBus => exact h
  | triggerAccidentNow => exact TriggerRandomAccident_exclusive s h
  | reset => simp [Simulation.step, Simulation.Reset, Accident.Exclusive]

/-- Induction over the commands that lead to a reachable state. -/
theorem run_induction (P : Simulation → Prop) (h0 : P Simulation.init)
    (hstep : ∀ s c, P s → P (s.step c)) (cmds : List Cmd) : P (run cmds) := by
  unfold run
  induction cmds using List.reverseRecOn with
  | nil => exact h0
  | append_singleton cs c ih =>
    rw [List.foldl_append]
    exact hstep _ c ih

/-- C1: in every state reachable from the constructed simulation by any sequence
of advance, dispatchAmbulance, dispatchTow, dispatchSchoolBus, triggerAccidentNow
and reset, the accident record is never pending and active at once. -/
theorem accident_pending_active_exclusive (s : Simulation) (h : Reachable s) :
    ¬ (s.currentAccident.pending = true ∧ s.currentAccident.active = true) := by
  obtain ⟨cmds, rfl⟩ := h
  exact run_induction (fun s => s.currentAccident.Exclusive)
    (by simp [Accident.Exclusive, Simulation.init]) step_exclusive cmds

theorem accident_pending_active_exclusive_witness :
    ¬ ((run [.dispatchSchoolBus, .dispatchAmbulance, .reset]).currentAccident.pending = true ∧
        (run [.dispatchSchoolBus, .dispatchAmbulance, .reset]).currentAccident.active = true) :=
  accident_pending_active_exclusive _ ⟨_, rfl⟩

/-! ## Lives and game over -/

section lives

variable (s : Simulation) (delta : ℚ) (env : Env) (aAmb aTow : Option Nat)

theorem spawnStage_lives :
    (s.spawnStage delta env).playerStars = s.playerStars ∧
      (s.spawnStage delta env).gameOver = s.gameOver := by
  unfold Simulation.spawnStage Simulation.SpawnCarTop Simulation.SpawnCarBottom
  dsimp only
  split_ifs <;> exact ⟨rfl, rfl⟩

theorem TriggerRandomAccident_lives :
    s.TriggerRandomAccident.playerStars = s.playerStars ∧
      s.TriggerRandomAccident.gameOver = s.gameOver := by
  unfold Simulation.TriggerRandomAccident
  split_ifs
  · exact ⟨rfl, rfl⟩
  · exact ⟨rfl, rfl⟩
  · split <;> exact ⟨rfl, rfl⟩

theorem randomTriggerStage_lives :
    (s.randomTriggerStage env).playerStars = s.playerStars ∧
      (s.randomTriggerStage env).gameOver = s.gameOver := by
  unfold Simulation.randomTriggerStage
  split_ifs
  · exact TriggerRandomAccident_lives s
  · exact ⟨rfl, rfl⟩

theorem busStage_lives :
    (s.busStage delta env).playerStars = s.playerStars ∧
      (s.busStage delta env).gameOver = s.gameOver := by
  unfold Simulation.busStage
  dsimp only
  split_ifs <;> exact ⟨rfl, rfl⟩

theorem transitionStage_lives :
    s.transitionStage.playerStars = s.playerStars ∧
      s.transitionStage.gameOver = s.gameOver := by
  unfold Simulation.transitionStage
  dsimp only
  split_ifs
  · split
    · split
      · split_ifs <;> exact ⟨rfl, rfl⟩
      · exact ⟨rfl, rfl⟩
    · exact ⟨rfl, rfl⟩
  · exact ⟨rfl, rfl⟩

theorem resolutionStage_lives :
    (s.resolutionStage aTow).playerStars = s.playerStars ∧
      (s.resolutionStage aTow).gameOver = s.gameOver := by
  unfold Simulation.resolutionStage
  split
  · exact ⟨rfl, rfl⟩
  · split
    · exact ⟨rfl, rfl⟩
    · split_ifs <;> exact ⟨rfl, rfl⟩

theorem ambulanceStage_lives :
    (s.ambulanceStage aAmb aTow).playerStars = s.playerStars ∧
      (s.ambulanceStage aAmb aTow).gameOver = s.gameOver := by
  unfold Simulation.ambulanceStage
  split
  · exact ⟨rfl, rfl⟩
  · split
    · exact ⟨rfl, rfl⟩
    · dsimp only
      split_ifs <;> exact ⟨rfl, rfl⟩

theorem alertStage_lives :
    (s.alertStage aAmb delta).playerStars = s.playerStars ∧
      (s.alertStage aAmb delta).gameOver = s.gameOver := by
  unfold Simulation.alertStage
  dsimp only
  split_ifs <;> exact ⟨rfl, rfl⟩

theorem vehicleStages_lives :
    (s.vehicleStages delta env).playerStars = s.playerStars ∧
      (s.vehicleStages delta env).gameOver = s.gameOver := by
  unfold Simulation.vehicleStages Simulation.postCullStages
  dsimp only
  rw [(alertStage_lives _ _ _).1, (alertStage_lives _ _ _).2]
  dsimp only
  rw [(ambulanceStage_lives _ _ _).1, (ambulanceStage_lives _ _ _).2]
  dsimp only
  rw [(resolutionStage_lives _ _).1, (resolutionStage_lives _ _).2,
    (transitionStage_lives _).1, (transitionStage_lives _).2]
  exact ⟨rfl, rfl⟩

theorem beforeCountdown_lives :
    (s.beforeCountdown delta env).playerStars = s.playerStars ∧
      (s.beforeCountdown delta env).gameOver = s.gameOver := by
  unfold Simulation.beforeCountdown
  rw [(busStage_lives _ _ _).1, (busStage_lives _ _ _).2, (randomTriggerStage_lives _ _).1,
    (randomTriggerStage_lives _ _).2]
  exact spawnStage_lives s delta env

/-- The lives and the game-over flag after `Update` are those the countdown
block leaves. -/
theorem Update_lives (h : s.gameOver = false) :
    (s.Update delta env).playerStars =
        ((s.beforeCountdown delta env).missionStage delta).playerStars ∧
      (s.Update delta env).gameOver =
        ((s.beforeCountdown delta env).missionStage delta).gameOver := by
  unfold Simulation.Update
  simp only [h, Bool.false_eq_true, if_false]
  rw [(vehicleStages_lives _ _ _).1, (vehicleStages_lives _ _ _).2]
  exact ⟨rfl, rfl⟩

end lives

theorem missionStage_livesOK (s : Simulation) (delta : ℚ) (h : s.LivesOK)
    (hg : s.gameOver = false) : (s.missionStage delta).LivesOK := by
  obtain ⟨⟨h0, h3⟩, hiff⟩ := h
  have hne : s.playerStars ≠ 0 := fun h => by simp [hiff.2 h] at hg
  unfold Simulation.missionStage Simulation.LivesOK
  dsimp only
  split_ifs with h1 h2 h4
  · dsimp only at h4 ⊢
    refine ⟨⟨by omega, by omega⟩, ?_⟩
    constructor
    · intro _; omega
    · intro _; rfl
  · dsimp only at h4 ⊢
    refine ⟨⟨by omega, by omega⟩, ?_⟩
    simp only [hg, Bool.false_eq_true, false_iff]
    omega
  · exact ⟨⟨h0, h3⟩, hiff⟩
  · exact ⟨⟨h0, h3⟩, hiff⟩

theorem missionStage_lives_le (s : Simulation) (delta : ℚ) :
    (s.missionStage delta).playerStars ≤ s.playerStars := by
  unfold Simulation.missionStage
  dsimp only
  split_ifs <;> simp

theorem Update_livesOK (s : Simulation) (delta : ℚ) (env : Env) (h : s.LivesOK) :
    (s.Update delta env).LivesOK := by
  by_cases hg : s.gameOver = true
  · simpa [Simulation.Update, hg] using h
  · simp only [Bool.not_eq_true] at hg
    have hb := beforeCountdown_lives s delta env
    have hm := missionStage_livesOK (s.beforeCountdown delta env) delta
      (by unfold Simulation.LivesOK; rw [hb.1, hb.2]; exact h) (by rw [hb.2]; exact hg)
    unfold Simulation.LivesOK
    rw [(Update_lives s delta env hg).1, (Update_lives s delta env hg).2]
    exact hm

theorem Update_lives_le (s : Simulation) (delta : ℚ) (env : Env) :
    (s.Update delta env).playerStars ≤ s.playerStars := by
  by_cases hg : s.gameOver = true
  · simp [Simulation.Update, hg]
  · simp only [Bool.not_eq_true] at hg
    rw [(Update_lives s delta env hg).1]
    calc ((s.beforeCountdown delta env).missionStage delta).playerStars
        ≤ (s.beforeCountdown delta env).playerStars := missionStage_lives_le _ _
      _ = s.playerStars := (beforeCountdown_lives s delta env).1

theorem CallAmbulance_lives (s : Simulation) :
    s.CallAmbulance.playerStars = s.playerStars ∧ s.CallAmbulance.gameOver = s.gameOver := by
  unfold Simulation.CallAmbulance
  dsimp only
  split_ifs
  · exact TriggerRandomAccident_lives s
  · exact ⟨rfl, rfl⟩

theorem CallDepannage_lives (s : Simulation) :
    s.CallDepannage.playerStars = s.playerStars ∧ s.CallDepannage.gameOver = s.gameOver := by
  unfold Simulation.CallDepannage
  split_ifs <;> exact ⟨rfl, rfl⟩

theorem step_livesOK (s : Simulation) (c : Cmd) (h : s.LivesOK) : (s.step c).LivesOK := by
  cases c with
  | advance delta env => exact Update_livesOK s delta env h
  | dispatchAmbulance =>
    unfold Simulation.LivesOK Simulation.step
    rw [(CallAmbulance_lives s).1, (CallAmbulance_lives s).2]; exact h
  | dispatchTow =>
    unfold Simulation.LivesOK Simulation.step
    rw [(CallDepannage_lives s).1, (CallDepannage_lives s).2]; exact h
  | dispatchSchoolBus => exact h
  | triggerAccidentNow =>
    unfold Simulation.LivesOK Simulation.step
    rw [(TriggerRandomAccident_lives s).1, (TriggerRandomAccident_lives s).2]; exact h
  | reset => simp [Simulation.step, Simulation.Reset, Simulation.LivesOK]

theorem step_lives_le (s : Simulation) (c : Cmd) (hc : c ≠ .reset) :
    (s.step c).playerStars ≤ s.playerStars := by
  cases c with
  | advance delta env => exact Update_lives_le s delta env
  | dispatchAmbulance => exact le_of_eq (CallAmbulance_lives s).1
  | dispatchTow => exact le_of_eq (CallDepannage_lives s).1
  | dispatchSchoolBus => exact le_refl _
  | triggerAccidentNow => exact le_of_eq (TriggerRandomAccident_lives s).1
  | reset => exact absurd rfl hc

/-- C3: in every state reachable from the constructed simulation (lives 3, game
not over) by advance, the dispatch commands, triggerAccidentNow and reset, the
lives are between 0 and 3, the game is over exactly when the lives are 0, and no
command other than reset increases the lives. It holds for every `delta`, the
non-negative ones included. -/
theorem lives_bounds_gameOver_iff (s : Simulation) (h : Reachable s) :
    (0 ≤ s.playerStars ∧ s.playerStars ≤ 3) ∧ (s.gameOver = true ↔ s.playerStars = 0) ∧
      ∀ c : Cmd, c ≠ .reset → (s.step c).playerStars ≤ s.playerStars := by
  obtain ⟨cmds, rfl⟩ := h
  have hinv := run_induction Simulation.LivesOK
    (by simp [Simulation.LivesOK, Simulation.init]) step_livesOK cmds
  exact ⟨hinv.1, hinv.2, fun c hc => step_lives_le _ c hc⟩

theorem lives_bounds_gameOver_iff_witness :
    (0 ≤ (run [.dispatchAmbulance, .triggerAccidentNow]).playerStars ∧
        (run [.dispatchAmbulance, .triggerAccidentNow]).playerStars ≤ 3) ∧
      ((run [.dispatchAmbulance, .triggerAccidentNow]).gameOver = true ↔
        (run [.dispatchAmbulance, .triggerAccidentNow]).playerStars = 0) ∧
      ∀ c : Cmd, c ≠ .reset →
        ((run [.dispatchAmbulance, .triggerAccidentNow]).step c).playerStars ≤
          (run [.dispatchAmbulance, .triggerAccidentNow]).playerStars :=
  lives_bounds_gameOver_iff _ ⟨_, rfl⟩

/-- C4: in a state where the game is over, advance returns the state unchanged
for every delta, and no command other than reset (advance, dispatchAmbulance,
dispatchTow, dispatchSchoolBus, triggerAccidentNow) makes game-over false or
changes the lives. -/
theorem gameOver_terminal (s : Simulation) (h : s.gameOver = true) :
    (∀ delta env, s.Update delta env = s) ∧
      ∀ c : Cmd, c ≠ .reset →
        (s.step c).gameOver = true ∧ (s.step c).playerStars = s.playerStars := by
  have hU : ∀ delta env, s.Update delta env = s := fun delta env => by
    simp [Simulation.Update, h]
  refine ⟨hU, fun c hc => ?_⟩
  cases c with
  | advance delta env =>
    show (s.Update delta env).gameOver = true ∧ (s.Update delta env).playerStars = s.playerStars
    rw [hU]; exact ⟨h, rfl⟩
  | dispatchAmbulance =>
    exact ⟨(CallAmbulance_lives s).2.trans h, (CallAmbulance_lives s).1⟩
  | dispatchTow => exact ⟨(CallDepannage_lives s).2.trans h, (CallDepannage_lives s).1⟩
  | dispatchSchoolBus => exact ⟨h, rfl⟩
  | triggerAccidentNow =>
    exact ⟨(TriggerRandomAccident_lives s).2.trans h, (TriggerRandomAccident_lives s).1⟩
  | reset => exact absurd rfl hc

theorem gameOver_terminal_witness :
    (∀ delta env, gameOverState.Update delta env = gameOverState) ∧
      ∀ c : Cmd, c ≠ .reset →
        (gameOverState.step c).gameOver = true ∧
          (gameOverState.step c).playerStars = gameOverState.playerStars :=
  gameOver_terminal gameOverState rfl

/-- C5: reset is idempotent, and after reset both vehicle collections are empty,
the accident is neither pending nor active and references no participant, no
mission is active, the lives are 3 and the game is not over. -/
theorem reset_idempotent (s : Simulation) :
    s.Reset.Reset = s.Reset ∧ s.Reset.vehiclesTop = [] ∧ s.Reset.vehiclesBottom = [] ∧
      s.Reset.currentAccident.pending = false ∧ s.Reset.currentAccident.active = false ∧
      s.Reset.currentAccident.car1 = none ∧ s.Reset.currentAccident.car2 = none ∧
      s.Reset.currentMission = .MISSION_NONE ∧ s.Reset.playerStars = 3 ∧
      s.Reset.gameOver = false :=
  ⟨rfl, rfl, rfl, rfl, rfl, rfl, rfl, rfl, rfl, rfl⟩

/-- C6: dispatchTow changes the state exactly when the accident is active. With
no active accident the whole state is unchanged; with an active accident exactly
one tow truck is appended to the inbound collection, its target x is the accident
x and its lane y (position and target lane) is the accident y, and nothing else
of the vehicles changes. -/
theorem dispatchTow_iff_active (s : Simulation) :
    (s.CallDepannage ≠ s ↔ s.currentAccident.active = true) ∧
      (s.currentAccident.active = false → s.CallDepannage = s) ∧
      (s.currentAccident.active = true →
        ∃ tow d, s.CallDepannage.vehiclesBottom = s.vehiclesBottom ++ [tow] ∧
          tow.cls = .Depannage d ∧ d.targetX = s.currentAccident.x ∧
          tow.y = s.currentAccident.y ∧ tow.targetY = s.currentAccident.y ∧
          s.CallDepannage.vehiclesTop = s.vehiclesTop) := by
  have hoff : s.currentAccident.active = false → s.CallDepannage = s := fun h => by
    simp [Simulation.CallDepannage, h]
  have hon : s.currentAccident.active = true →
      ∃ tow d, s.CallDepannage.vehiclesBottom = s.vehiclesBottom ++ [tow] ∧
        tow.cls = .Depannage d ∧ d.targetX = s.currentAccident.x ∧
        tow.y = s.currentAccident.y ∧ tow.targetY = s.currentAccident.y ∧
        s.CallDepannage.vehiclesTop = s.vehiclesTop := fun h => by
    unfold Simulation.CallDepannage
    rw [if_neg (by simp [h])]
    exact ⟨_, _, rfl, rfl, rfl, rfl, rfl, rfl⟩
  refine ⟨⟨fun hne => ?_, fun h heq => ?_⟩, hoff, hon⟩
  · by_contra hna
    exact hne (hoff (by simpa using hna))
  · obtain ⟨tow, d, hvb, _⟩ := hon h
    have hlen := congrArg List.length hvb
    rw [heq] at hlen
    simp at hlen

/-! ## Dispatching an ambulance -/

theorem modifyAt_map_eq {α : Type} (g : Vehicle → α) (f : Vehicle → Vehicle)
    (hf : ∀ v, g (f v) = g v) (n : Nat) (vs : List Vehicle) :
    (modifyAt f n vs).map g = vs.map g := by
  induction vs generalizing n with
  | nil => cases n <;> rfl
  | cons v vs ih =>
    cases n with
    | zero => simp [modifyAt, hf]
    | succ n => simp [modifyAt, ih]

/-- The trigger scan keeps the objects of the collection and their classes. -/
theorem TriggerRandomAccident_map (s : Simulation) :
    s.TriggerRandomAccident.vehiclesBottom.map Vehicle.id = s.vehiclesBottom.map Vehicle.id ∧
      s.TriggerRandomAccident.vehiclesBottom.map Vehicle.cls =
        s.vehiclesBottom.map Vehicle.cls := by
  unfold Simulation.TriggerRandomAccident
  split_ifs
  · exact ⟨rfl, rfl⟩
  · exact ⟨rfl, rfl⟩
  · split
    · exact ⟨rfl, rfl⟩
    · dsimp only
      constructor
      · rw [modifyAt_map_eq Vehicle.id markTarget (fun _ => rfl),
          modifyAt_map_eq Vehicle.id markReckless (fun _ => rfl)]
      · rw [modifyAt_map_eq Vehicle.cls markTarget (fun _ => rfl),
          modifyAt_map_eq Vehicle.cls markReckless (fun _ => rfl)]

/-- The trigger scan leaves the `active` flag and the location of the record. -/
theorem TriggerRandomAccident_active (s : Simulation) :
    s.TriggerRandomAccident.currentAccident.active = s.currentAccident.active ∧
      s.TriggerRandomAccident.currentAccident.x = s.currentAccident.x ∧
      s.TriggerRandomAccident.currentAccident.y = s.currentAccident.y := by
  unfold Simulation.TriggerRandomAccident
  split_ifs
  · exact ⟨rfl, rfl, rfl⟩
  · exact ⟨rfl, rfl, rfl⟩
  · split <;> exact ⟨rfl, rfl, rfl⟩

/-- C9: dispatchAmbulance appends exactly one vehicle, an ambulance, to the
inbound collection (the vehicles already there stay, in order, with their
classes). If an accident is active at dispatch time the ambulance is in state
ToAccident, its recorded target is the accident location and its target lane y
is the accident y; otherwise it is in state Patrol. -/
theorem dispatchAmbulance_appends (s : Simulation) :
    ∃ front amb d,
      s.CallAmbulance.vehiclesBottom = front ++ [amb] ∧
      front.map Vehicle.id = s.vehiclesBottom.map Vehicle.id ∧
      front.map Vehicle.cls = s.vehiclesBottom.map Vehicle.cls ∧
      amb.cls = .Ambulance d ∧
      (s.currentAccident.active = true →
        d.state = .TO_ACCIDENT ∧ d.accidentX = s.currentAccident.x ∧
          d.accidentY = s.currentAccident.y ∧ amb.targetY = s.currentAccident.y) ∧
      (s.currentAccident.active = false → d.state = .PATROL) := by
  by_cases hact : s.currentAccident.active = true
  · refine ⟨s.vehiclesBottom,
      { (Vehicle.new s.nextId (WORLD_WIDTH + 1500) (laneYBottom 1) (9 / 2) false
          (.Ambulance { state := .PATROL, stateTimer := 0, accidentX := 0,
                        accidentY := 0 })).AssignAccident
          s.currentAccident.x s.currentAccident.y with targetY := s.currentAccident.y },
      { state := .TO_ACCIDENT, stateTimer := 0, accidentX := s.currentAccident.x,
        accidentY := s.currentAccident.y }, ?_, rfl, rfl, rfl, fun _ => ⟨rfl, rfl, rfl, rfl⟩,
      fun h => ?_⟩
    · simp only [Simulation.CallAmbulance, hact, Bool.not_true, Bool.false_and,
        Bool.false_eq_true, if_false, if_true]
    · rw [hact] at h; exact absurd h (by decide)
  · simp only [Bool.not_eq_true] at hact
    have hact2 : (if (!s.currentAccident.active && !s.currentAccident.pending) = true
        then s.TriggerRandomAccident else s).currentAccident.active = false := by
      split_ifs
      · rw [(TriggerRandomAccident_active s).1]; exact hact
      · exact hact
    refine ⟨(if (!s.currentAccident.active && !s.currentAccident.pending) = true
        then s.TriggerRandomAccident else s).vehiclesBottom,
      Vehicle.new (if (!s.currentAccident.active && !s.currentAccident.pending) = true
          then s.TriggerRandomAccident else s).nextId (WORLD_WIDTH + 1500) (laneYBottom 1)
        (9 / 2) false
        (.Ambulance { state := .PATROL, stateTimer := 0, accidentX := 0, accidentY := 0 }),
      { state := .PATROL, stateTimer := 0, accidentX := 0, accidentY := 0 },
      ?_, ?_, ?_, rfl, fun h => ?_, fun _ => rfl⟩
    · simp only [Simulation.CallAmbulance, hact2, Bool.false_eq_true, if_false]
    · split_ifs
      · exact (TriggerRandomAccident_map s).1
      · rfl
    · split_ifs
      · exact (TriggerRandomAccident_map s).2
      · rfl
    · rw [hact] at h; exact absurd h (by decide)

/-! ## Dispatch commands and the mission -/

theorem TriggerRandomAccident_of_scanIdle (s : Simulation) (h : s.scanIdle) :
    s.TriggerRandomAccident = s := by
  unfold Simulation.TriggerRandomAccident
  rcases h with h | h | h | h
  · simp [h]
  · simp [h]
  · simp [h]
  · simp [h]

theorem TriggerRandomAccident_of_not_scanIdle (s : Simulation) (h : ¬ s.scanIdle) :
    s.TriggerRandomAccident.currentMission = .MISSION_CALL_AMBULANCE ∧
      s.TriggerRandomAccident.missionTimer = missionMaxTime ∧
      s.TriggerRandomAccident.currentAccident.pending = true := by
  unfold Simulation.scanIdle at h
  simp only [not_or, Bool.not_eq_true] at h
  obtain ⟨hw, ha, hp, hs⟩ := h
  unfold Simulation.TriggerRandomAccident
  simp only [hw, ha, hp, Bool.false_eq_true, if_false, Bool.or_self]
  split
  · rename_i heq
    exact absurd heq hs
  · exact ⟨rfl, rfl, rfl⟩

/-- C7, refuted as stated: with a school-bus mission active (not the kind that
matches dispatchAmbulance) and two cars 200 units apart on one lane,
dispatchAmbulance changes the mission kind from CallBus to None and the
countdown from 5 to 8. -/
theorem dispatchAmbulance_clears_other_mission :
    busMissionState.currentMission = .MISSION_CALL_BUS ∧
      busMissionState.CallAmbulance.currentMission = .MISSION_NONE ∧
      busMissionState.missionTimer = 5 ∧
      busMissionState.CallAmbulance.missionTimer = 8 := by
  decide!

/-- C7, amended: dispatchTow and dispatchSchoolBus leave the mission kind and the
countdown as they were whenever the active mission is not their matching kind.
dispatchAmbulance does so when the mission is not CallAmbulance and the trigger
scan it runs selects no pair (an accident is already pending or active, the scan
is suppressed, or no pair qualifies); when that scan does select a pair,
dispatchAmbulance ends with mission None and the countdown at the max time. -/
theorem dispatch_unmatched_mission (s : Simulation) :
    (s.currentMission ≠ .MISSION_CALL_TOW →
        s.CallDepannage.currentMission = s.currentMission ∧
          s.CallDepannage.missionTimer = s.missionTimer) ∧
      (s.currentMission ≠ .MISSION_CALL_BUS →
        s.CallSchoolBus.currentMission = s.currentMission ∧
          s.CallSchoolBus.missionTimer = s.missionTimer) ∧
      (s.currentMission ≠ .MISSION_CALL_AMBULANCE → s.scanIdle →
        s.CallAmbulance.currentMission = s.currentMission ∧
          s.CallAmbulance.missionTimer = s.missionTimer) ∧
      (¬ s.scanIdle →
        s.CallAmbulance.currentMission = .MISSION_NONE ∧
          s.CallAmbulance.missionTimer = missionMaxTime) := by
  refine ⟨fun h => ?_, fun h => ?_, fun h hidle => ?_, fun hidle => ?_⟩
  · unfold Simulation.CallDepannage
    split_ifs
    · exact ⟨rfl, rfl⟩
    · exact ⟨rfl, rfl⟩
  · unfold Simulation.CallSchoolBus
    simp [h]
  · have ht := TriggerRandomAccident_of_scanIdle s hidle
    unfold Simulation.CallAmbulance
    simp only [ht, ite_self, h, if_false]
    exact ⟨trivial, trivial⟩
  · obtain ⟨hm, ht, _⟩ := TriggerRandomAccident_of_not_scanIdle s hidle
    have hap : (!s.currentAccident.active && !s.currentAccident.pending) = true := by
      unfold Simulation.scanIdle at hidle
      simp only [not_or, Bool.not_eq_true] at hidle
      simp [hidle.2.1, hidle.2.2.1]
    unfold Simulation.CallAmbulance
    simp only [hap, if_true, hm, ht]
    exact ⟨trivial, trivial⟩

/-! ## The mission countdown -/

section mission

variable (s : Simulation) (delta : ℚ) (env : Env) (aAmb aTow : Option Nat)

theorem spawnStage_mission :
    (s.spawnStage delta env).currentMission = s.currentMission ∧
      (s.spawnStage delta env).missionTimer = s.missionTimer := by
  unfold Simulation.spawnStage Simulation.SpawnCarTop Simulation.SpawnCarBottom
  dsimp only
  split_ifs <;> exact ⟨rfl, rfl⟩

theorem transitionStage_mission :
    s.transitionStage.currentMission = s.currentMission ∧
      s.transitionStage.missionTimer = s.missionTimer := by
  unfold Simulation.transitionStage
  dsimp only
  split_ifs
  · split
    · split
      · split_ifs <;> exact ⟨rfl, rfl⟩
      · exact ⟨rfl, rfl⟩
    · exact ⟨rfl, rfl⟩
  · exact ⟨rfl, rfl⟩

theorem resolutionStage_mission :
    (s.resolutionStage aTow).currentMission = s.currentMission ∧
      (s.resolutionStage aTow).missionTimer = s.missionTimer := by
  unfold Simulation.resolutionStage
  split
  · exact ⟨rfl, rfl⟩
  · split
    · exact ⟨rfl, rfl⟩
    · split_ifs <;> exact ⟨rfl, rfl⟩

theorem alertStage_mission :
    (s.alertStage aAmb delta).currentMission = s.currentMission ∧
      (s.alertStage aAmb delta).missionTimer = s.missionTimer := by
  unfold Simulation.alertStage
  dsimp only
  split_ifs <;> exact ⟨rfl, rfl⟩

/-- What the ambulance block does to the mission: nothing, or it raises the tow
mission with a fresh countdown, which needs an active accident, no tow truck and
no mission. -/
theorem ambulanceStage_mission :
    ((s.ambulanceStage aAmb aTow).currentMission = s.currentMission ∧
        (s.ambulanceStage aAmb aTow).missionTimer = s.missionTimer) ∨
      ((s.ambulanceStage aAmb aTow).currentMission = .MISSION_CALL_TOW ∧
        (s.ambulanceStage aAmb aTow).missionTimer = missionMaxTime ∧
        s.currentMission = .MISSION_NONE ∧ s.currentAccident.active = true ∧ aTow = none) := by
  unfold Simulation.ambulanceStage
  split
  · exact Or.inl ⟨rfl, rfl⟩
  · split
    · exact Or.inl ⟨rfl, rfl⟩
    · dsimp only
      split_ifs with h1 h2 h3
      · exact Or.inr ⟨rfl, rfl, h2.2.2, h2.1, h2.2.1⟩
      · exact Or.inl ⟨rfl, rfl⟩
      · exact Or.inl ⟨rfl, rfl⟩
      · exact Or.inl ⟨rfl, rfl⟩

end mission

theorem cullPred_flags (v : Vehicle) (acc : Accident) (w : Bool) :
    ((cullPred v acc w).acc.active = true → acc.active = true) ∧
      ((cullPred v acc w).acc.pending = true → acc.pending = true) := by
  unfold cullPred
  dsimp only
  split_ifs <;> simp

theorem cullBottom_flags (vs : List Vehicle) (acc : Accident) (w : Bool) :
    ((cullBottom vs acc w).acc.active = true → acc.active = true) ∧
      ((cullBottom vs acc w).acc.pending = true → acc.pending = true) := by
  induction vs generalizing acc w with
  | nil => simp [cullBottom]
  | cons v vs ih =>
    simp only [cullBottom]
    exact ⟨fun h => (cullPred_flags v acc w).1 ((ih _ _).1 h),
      fun h => (cullPred_flags v acc w).2 ((ih _ _).2 h)⟩

theorem transitionStage_active (s : Simulation)
    (h : s.transitionStage.currentAccident.active = true) :
    s.currentAccident.active = true ∨ s.currentAccident.pending = true := by
  by_cases hp : s.currentAccident.pending = true
  · exact Or.inr hp
  · left
    unfold Simulation.transitionStage at h
    simpa [hp] using h

theorem resolutionStage_active (s : Simulation) (aTow : Option Nat)
    (h : (s.resolutionStage aTow).currentAccident.active = true) :
    s.currentAccident.active = true := by
  unfold Simulation.resolutionStage at h
  split at h
  · exact h
  · split at h
    · exact h
    · split_ifs at h
      exact h

/-- What the stages from the culling on do to the mission: nothing, or the tow
mission is raised with a fresh countdown, which needs that no mission was active
and that the accident was active or pending. -/
theorem vehicleStages_mission (s : Simulation) (delta : ℚ) (env : Env) :
    ((s.vehicleStages delta env).currentMission = s.currentMission ∧
        (s.vehicleStages delta env).missionTimer = s.missionTimer) ∨
      ((s.vehicleStages delta env).currentMission = .MISSION_CALL_TOW ∧
        (s.vehicleStages delta env).missionTimer = missionMaxTime ∧
        s.currentMission = .MISSION_NONE ∧
        (s.currentAccident.active = true ∨ s.currentAccident.pending = true)) := by
  unfold Simulation.vehicleStages Simulation.postCullStages
  dsimp only
  rw [(alertStage_mission _ _ _).1, (alertStage_mission _ _ _).2]
  dsimp only
  have hm : (s.cullStage.transitionStage.resolutionStage
        (activeTow s.cullStage.transitionStage.vehiclesBottom)).currentMission =
      s.currentMission := by
    rw [(resolutionStage_mission _ _).1, (transitionStage_mission _).1]; rfl
  have ht : (s.cullStage.transitionStage.resolutionStage
        (activeTow s.cullStage.transitionStage.vehiclesBottom)).missionTimer =
      s.missionTimer := by
    rw [(resolutionStage_mission _ _).2, (transitionStage_mission _).2]; rfl
  rcases ambulanceStage_mission
      { s.cullStage.transitionStage.resolutionStage
          (activeTow s.cullStage.transitionStage.vehiclesBottom) with
        vehiclesBottom := towedPlacement (s.cullStage.transitionStage.resolutionStage
          (activeTow s.cullStage.transitionStage.vehiclesBottom)).vehiclesBottom }
      (activeAmbulance s.cullStage.transitionStage.vehiclesBottom)
      (activeTow s.cullStage.transitionStage.vehiclesBottom) with h | h
  · left
    rw [h.1, h.2]
    exact ⟨hm, ht⟩
  · right
    refine ⟨h.1, h.2.1, hm ▸ h.2.2.1, ?_⟩
    have hact := resolutionStage_active _ _ h.2.2.2.1
    rcases transitionStage_active _ hact with h' | h'
    · exact Or.inl ((cullBottom_flags _ _ _).1 h')
    · exact Or.inr ((cullBottom_flags _ _ _).2 h')

/-- C2, refuted as stated. First state: a school-bus mission with 5 seconds left
and a frame of 5 seconds in which the random accident trigger fires; the trigger
replaces the mission by CallAmbulance with a fresh countdown, so no life is lost
and the mission is not None. Second state: a tow mission with 1 second left
while the ambulance is still in ToHospital and no tow truck is present; a life is
lost but the tow mission is raised again in the same frame. -/
theorem countdown_expiry_fails :
    (busMissionState.gameOver = false ∧ busMissionState.currentMission ≠ .MISSION_NONE ∧
      busMissionState.missionTimer - 5 ≤ 0 ∧
      (busMissionState.Update 5 envTrigger).playerStars = busMissionState.playerStars ∧
      (busMissionState.Update 5 envTrigger).currentMission = .MISSION_CALL_AMBULANCE) ∧
    (towMissionState.gameOver = false ∧ towMissionState.currentMission ≠ .MISSION_NONE ∧
      towMissionState.missionTimer - 1 ≤ 0 ∧
      (towMissionState.Update 1 envQuiet).playerStars = towMissionState.playerStars - 1 ∧
      (towMissionState.Update 1 envQuiet).currentMission = .MISSION_CALL_TOW) := by
  decide!

/-- C2, amended: for every state that is not game over and has an active
mission, every delta >= 0 with countdown - delta <= 0 and every outcome of the
draws in which the random accident trigger selects no pair in this frame (it does
not fire, is suppressed, or finds none): after advance the lives are exactly one
less than before, and the mission kind is None, or it is CallTow with the
countdown at the max time (the ambulance block raising the tow mission in the
same frame); it is None whenever no accident was active or pending. -/
theorem countdown_expiry (s : Simulation) (delta : ℚ) (env : Env)
    (hg : s.gameOver = false) (hm : s.currentMission ≠ .MISSION_NONE) (_hd : 0 ≤ delta)
    (ht : s.missionTimer - delta ≤ 0)
    (hidle : 5 ≤ env.accidentRoll ∨ (s.spawnStage delta env).scanIdle) :
    (s.Update delta env).playerStars = s.playerStars - 1 ∧
      ((s.Update delta env).currentMission = .MISSION_NONE ∨
        ((s.Update delta env).currentMission = .MISSION_CALL_TOW ∧
          (s.Update delta env).missionTimer = missionMaxTime)) ∧
      (s.currentAccident.active = false → s.currentAccident.pending = false →
        (s.Update delta env).currentMission = .MISSION_NONE) := by
  -- the random trigger leaves the state as the spawns left it
  have htrig : (s.spawnStage delta env).randomTriggerStage env = s.spawnStage delta env := by
    unfold Simulation.randomTriggerStage
    rcases hidle with h | h
    · rw [if_neg (by omega)]
    · rw [TriggerRandomAccident_of_scanIdle _ h, ite_self]
  have hsm := spawnStage_mission s delta env
  -- the bus block only moves the cooldown
  have hbus : ((s.spawnStage delta env).busStage delta env).currentMission = s.currentMission ∧
      ((s.spawnStage delta env).busStage delta env).missionTimer = s.missionTimer ∧
      ((s.spawnStage delta env).busStage delta env).playerStars = s.playerStars ∧
      ((s.spawnStage delta env).busStage delta env).currentAccident = s.currentAccident := by
    refine ⟨?_, ?_, ?_, ?_⟩
    · unfold Simulation.busStage
      simp [hsm.1, hm]
    · unfold Simulation.busStage
      simp [hsm.1, hsm.2, hm]
    · rw [(busStage_lives _ _ _).1, (spawnStage_lives _ _ _).1]
    · simp
  -- the countdown block takes a life and clears the mission
  have hcount : (((s.spawnStage delta env).busStage delta env).missionStage delta).playerStars =
        s.playerStars - 1 ∧
      (((s.spawnStage delta env).busStage delta env).missionStage delta).currentMission =
        .MISSION_NONE ∧
      (((s.spawnStage delta env).busStage delta env).missionStage delta).currentAccident =
        s.currentAccident := by
    refine ⟨?_, ?_, by simp⟩
    · unfold Simulation.missionStage
      simp only [hbus.1, hbus.2.1, hbus.2.2.1, ne_eq, hm, not_false_eq_true, if_true, ht]
      split_ifs <;> rfl
    · unfold Simulation.missionStage
      simp only [hbus.1, hbus.2.1, ne_eq, hm, not_false_eq_true, if_true, ht]
      split_ifs <;> rfl
  have hU : s.Update delta env =
      ((((s.spawnStage delta env).busStage delta env).missionStage delta).lightStage
        delta).vehicleStages delta env := by
    unfold Simulation.Update
    simp only [hg, Bool.false_eq_true, if_false, htrig]
  rw [hU]
  refine ⟨?_, ?_, fun ha hp => ?_⟩
  · rw [(vehicleStages_lives _ _ _).1]
    exact hcount.1
  · rcases vehicleStages_mission ((((s.spawnStage delta env).busStage delta env).missionStage
      delta).lightStage delta) delta env with h | h
    · left
      rw [h.1]
      exact hcount.2.1
    · exact Or.inr ⟨h.1, h.2.1⟩
  · rcases vehicleStages_mission ((((s.spawnStage delta env).busStage delta env).missionStage
      delta).lightStage delta) delta env with h | h
    · rw [h.1]
      exact hcount.2.1
    · exfalso
      have h4 := h.2.2.2
      rw [lightStage_currentAccident, hcount.2.2] at h4
      rcases h4 with h4 | h4
      · rw [ha] at h4; exact absurd h4 (by decide)
      · rw [hp] at h4; exact absurd h4 (by decide)

theorem countdown_expiry_witness :
    (towMissionState.Update 1 envQuiet).playerStars = towMissionState.playerStars - 1 ∧
      ((towMissionState.Update 1 envQuiet).currentMission = .MISSION_NONE ∨
        ((towMissionState.Update 1 envQuiet).currentMission = .MISSION_CALL_TOW ∧
          (towMissionState.Update 1 envQuiet).missionTimer = missionMaxTime)) ∧
      (towMissionState.currentAccident.active = false →
        towMissionState.currentAccident.pending = false →
        (towMissionState.Update 1 envQuiet).currentMission = .MISSION_NONE) :=
  countdown_expiry towMissionState 1 envQuiet (by decide!) (by decide!) (by decide!)
    (by decide!) (Or.inl (by decide!))

/-! ## Collections related vehicle by vehicle -/

section pointwise

variable {R : Vehicle → Vehicle → Prop}

theorem forall2_self (hrefl : ∀ v, R v v) (vs : List Vehicle) : List.Forall₂ R vs vs := by
  induction vs with
  | nil => exact List.Forall₂.nil
  | cons v vs ih => exact List.Forall₂.cons (hrefl v) ih

theorem forall2_chain (htrans : ∀ u v w, R u v → R v w → R u w) {as bs cs : List Vehicle}
    (h1 : List.Forall₂ R as bs) (h2 : List.Forall₂ R bs cs) : List.Forall₂ R as cs := by
  induction h1 generalizing cs with
  | nil => cases h2; exact List.Forall₂.nil
  | cons hab _ ih =>
    cases h2 with
    | cons hbc h2 => exact List.Forall₂.cons (htrans _ _ _ hab hbc) (ih h2)

theorem forall2_map (f : Vehicle → Vehicle) (h : ∀ v, R v (f v)) (vs : List Vehicle) :
    List.Forall₂ R vs (vs.map f) := by
  induction vs with
  | nil => exact List.Forall₂.nil
  | cons v vs ih => exact List.Forall₂.cons (h v) ih

theorem forall2_modifyAt (hrefl : ∀ v, R v v) (f : Vehicle → Vehicle) (i : Nat)
    (vs : List Vehicle) (h : ∀ v, vs[i]? = some v → R v (f v)) :
    List.Forall₂ R vs (modifyAt f i vs) := by
  induction vs generalizing i with
  | nil => cases i <;> exact List.Forall₂.nil
  | cons v vs ih =>
    cases i with
    | zero => exact List.Forall₂.cons (h v (by simp)) (forall2_self hrefl vs)
    | succ n =>
      exact List.Forall₂.cons (hrefl v) (ih n (fun u hu => h u (by simpa using hu)))

theorem forall2_foldl (hrefl : ∀ v, R v v) (htrans : ∀ u v w, R u v → R v w → R u w)
    (step : List Vehicle → Nat → List Vehicle)
    (hstep : ∀ vs i, List.Forall₂ R vs (step vs i)) (idxs : List Nat) (vs : List Vehicle) :
    List.Forall₂ R vs (idxs.foldl step vs) := by
  induction idxs generalizing vs with
  | nil => exact forall2_self hrefl vs
  | cons i idxs ih => exact forall2_chain htrans (hstep vs i) (ih (step vs i))

theorem findById_forall2 (hid : ∀ v w, R v w → w.id = v.id) {vs ws : List Vehicle}
    (h : List.Forall₂ R vs ws) {c : Nat} {a : Vehicle} (hf : findById vs c = some a) :
    ∃ b, findById ws c = some b ∧ R a b := by
  induction h with
  | nil => simp [findById] at hf
  | @cons v w vs ws hvw _ ih =>
    unfold findById at hf ⊢
    rw [List.find?_cons] at hf ⊢
    rw [hid v w hvw]
    cases hc : (v.id == c) with
    | true =>
      rw [hc] at hf
      simp only [Option.some.injEq] at hf
      exact ⟨w, rfl, hf ▸ hvw⟩
    | false =>
      rw [hc] at hf
      exact ih hf

end pointwise

theorem forall2_get {R : Vehicle → Vehicle → Prop} {vs ws : List Vehicle}
    (h : List.Forall₂ R vs ws) {i : Nat} {v w : Vehicle} (hv : vs[i]? = some v)
    (hw : ws[i]? = some w) : R v w := by
  induction h generalizing i with
  | nil => simp at hv
  | cons hab _ ih =>
    cases i with
    | zero =>
      simp only [List.getElem?_cons_zero, Option.some.injEq] at hv hw
      exact hv ▸ hw ▸ hab
    | succ n =>
      simp only [List.getElem?_cons_succ] at hv hw
      exact ih hv hw

theorem forall2_length {R : Vehicle → Vehicle → Prop} {vs ws : List Vehicle}
    (h : List.Forall₂ R vs ws) : ws.length = vs.length := by
  induction h with
  | nil => rfl
  | cons _ _ ih => simp [ih]

theorem forall2_imp {R S : Vehicle → Vehicle → Prop} (hRS : ∀ v w, R v w → S v w)
    {vs ws : List Vehicle} (h : List.Forall₂ R vs ws) : List.Forall₂ S vs ws := by
  induction h with
  | nil => exact List.Forall₂.nil
  | cons hab _ ih => exact List.Forall₂.cons (hRS _ _ hab) ih

/-! ## What the `Update` methods leave untouched -/

theorem status_core {v w : Vehicle} (h : w.status = v.status) : w.core = v.core := by
  unfold Vehicle.status at h
  unfold Vehicle.core
  simp only [Prod.mk.injEq, Vehicle.mk.injEq] at h ⊢
  tauto

theorem easeY_status (v : Vehicle) : v.easeY.status = v.status := by
  unfold Vehicle.easeY
  split_ifs <;> rfl

theorem baseUpdate_status (v : Vehicle) (st : Bool) : (v.baseUpdate st).status = v.status := by
  unfold Vehicle.baseUpdate
  split_ifs
  · rfl
  · rfl
  · rw [easeY_status]
    split_ifs <;> rfl
  · rw [easeY_status]
    split_ifs <;> rfl

theorem schoolBusUpdate_status (v : Vehicle) (d : SchoolBusData) (st : Bool) (ft : ℚ)
    (hv : v.cls = .SchoolBus d) : (SchoolBus.Update v d st ft).status = v.status := by
  unfold SchoolBus.Update
  rw [easeY_status]
  dsimp only
  split_ifs <;>
    simp [Vehicle.status, Vehicle.IsAmbulance, Vehicle.IsDepannage, Vehicle.IsSchoolBus, hv]

theorem ambulanceUpdate_status (v : Vehicle) (d : AmbulanceData) (st : Bool) (ft : ℚ)
    (hv : v.cls = .Ambulance d) : (Ambulance.Update v d st ft).status = v.status := by
  unfold Ambulance.Update
  rw [easeY_status]
  dsimp only
  split
  · exact baseUpdate_status v st
  all_goals
    first
    | (split_ifs <;>
        simp [Vehicle.status, Vehicle.IsAmbulance, Vehicle.IsDepannage, Vehicle.IsSchoolBus,
          hv])
    | simp [Vehicle.status, Vehicle.IsAmbulance, Vehicle.IsDepannage, Vehicle.IsSchoolBus, hv]

theorem depannageUpdate_status (v : Vehicle) (d : DepannageData) (st : Bool) (ft : ℚ)
    (hv : v.cls = .Depannage d) : (Depannage.Update v d st ft).status = v.status := by
  unfold Depannage.Update
  dsimp only
  split_ifs <;>
    first
    | exact baseUpdate_status v st
    | simp [Vehicle.status, Vehicle.IsAmbulance, Vehicle.IsDepannage, Vehicle.IsSchoolBus, hv]

/-- No `Update` method changes the identity, the class, the accident flags, the
speed, the direction, the target lane or the tow link of a vehicle. -/
theorem Update_status (v : Vehicle) (st : Bool) (ft : ℚ) :
    (v.Update st ft).status = v.status := by
  unfold Vehicle.Update
  split
  · exact baseUpdate_status v st
  · exact schoolBusUpdate_status v _ st ft (by assumption)
  · exact ambulanceUpdate_status v _ st ft (by assumption)
  · exact depannageUpdate_status v _ st ft (by assumption)

theorem changeLane_core (v : Vehicle) : (changeLane v).core = v.core := rfl

theorem avoidAccident_core (acc : Accident) (v : Vehicle) :
    (avoidAccident acc v).core = v.core := by
  unfold avoidAccident
  split_ifs <;> rfl

theorem core_flags {v w : Vehicle} (h : w.core = v.core) :
    w.id = v.id ∧ w.isCrashed = v.isCrashed ∧ w.isTowed = v.isTowed ∧
      w.isReckless = v.isReckless ∧ w.isAccidentTarget = v.isAccidentTarget ∧
      w.laneLock = v.laneLock ∧ w.toBeRemoved = v.toBeRemoved := by
  unfold Vehicle.core at h
  simp only [Prod.mk.injEq, Vehicle.mk.injEq] at h
  tauto

/-! ## The stages after the culling, vehicle by vehicle -/

theorem towedPlacementStep_sansPos (vs : List Vehicle) (i : Nat) :
    List.Forall₂ (fun v w => w.sansPos = v.sansPos ∧ (v.isTowed = false → w = v)) vs
      (towedPlacementStep vs i) := by
  have hrefl : ∀ v : Vehicle, v.sansPos = v.sansPos ∧ (v.isTowed = false → v = v) :=
    fun v => ⟨rfl, fun _ => rfl⟩
  unfold towedPlacementStep
  split
  · exact forall2_self hrefl vs
  · rename_i v hv
    split_ifs with ht
    · split
      · exact forall2_self hrefl vs
      · split
        · exact forall2_self hrefl vs
        · refine forall2_modifyAt hrefl _ i vs (fun u hu => ⟨rfl, fun hf => ?_⟩)
          rw [hv] at hu
          simp only [Option.some.injEq] at hu
          rw [← hu, ht] at hf
          exact absurd hf (by decide)
    · exact forall2_self hrefl vs

/-- The placement loop only moves towed vehicles, and only their position. -/
theorem towedPlacement_sansPos (vs : List Vehicle) :
    List.Forall₂ (fun v w => w.sansPos = v.sansPos ∧ (v.isTowed = false → w = v)) vs
      (towedPlacement vs) := by
  unfold towedPlacement
  refine forall2_foldl (fun v => ⟨rfl, fun _ => rfl⟩) ?_ towedPlacementStep
    towedPlacementStep_sansPos _ vs
  intro u v w huv hvw
  refine ⟨hvw.1.trans huv.1, fun hu => ?_⟩
  have hvu := huv.2 hu
  have hvt : v.isTowed = false := by rw [hvu]; exact hu
  rw [hvw.2 hvt, hvu]

/-- The ambulance block only writes the target lane of vehicles. -/
theorem ambulanceStage_sansTargetY (s : Simulation) (aAmb aTow : Option Nat) :
    List.Forall₂ (fun v w => w.sansTargetY = v.sansTargetY) s.vehiclesBottom
      (s.ambulanceStage aAmb aTow).vehiclesBottom := by
  have hrefl : ∀ v : Vehicle, v.sansTargetY = v.sansTargetY := fun _ => rfl
  unfold Simulation.ambulanceStage
  split
  · exact forall2_self hrefl _
  · split
    · exact forall2_self hrefl _
    · dsimp only
      split_ifs
      · exact forall2_modifyAt hrefl _ _ _ (fun _ _ => rfl)
      · exact forall2_modifyAt hrefl _ _ _ (fun _ _ => rfl)
      · exact forall2_modifyAt hrefl _ _ _ (fun _ _ => rfl)
      · exact forall2_self hrefl _

theorem passKept_refl (v : Vehicle) : PassKept v v := ⟨fun _ => rfl, rfl⟩

theorem passKept_trans (u v w : Vehicle) (h1 : PassKept u v) (h2 : PassKept v w) :
    PassKept u w := by
  refine ⟨fun hu => ?_, h2.2.trans h1.2⟩
  have hvu := h1.1 hu
  rw [h2.1 (by rw [hvu]; exact hu), hvu]

theorem tryYield_passKept (vs : List Vehicle) (i e : Nat) (v0 : Vehicle)
    (h0 : vs[i]? = some v0) (hc : v0.isCrashed = false) (ht : v0.isTowed = false) :
    List.Forall₂ PassKept vs (tryYield vs i e) := by
  unfold tryYield
  split
  · split_ifs
    · refine forall2_modifyAt passKept_refl _ i vs (fun u hu => ?_)
      rw [h0] at hu
      simp only [Option.some.injEq] at hu
      subst hu
      exact ⟨fun h => by simp [hc, ht] at h, changeLane_core _⟩
    · exact forall2_self passKept_refl vs
    · exact forall2_self passKept_refl vs
  · exact forall2_self passKept_refl vs

theorem yieldStep_passKept (aAmb aTow : Option Nat) (vs : List Vehicle) (i : Nat)
    (v0 : Vehicle) (h0 : vs[i]? = some v0) (hc : v0.isCrashed = false)
    (ht : v0.isTowed = false) : List.Forall₂ PassKept vs (yieldStep aAmb aTow vs i) := by
  -- the first `tryYield`, on the ambulance
  have h1 : List.Forall₂ PassKept vs
      (match aAmb with
        | some e => tryYield vs i e
        | none => vs) := by
    split
    · exact tryYield_passKept vs i _ v0 h0 hc ht
    · exact forall2_self passKept_refl vs
  unfold yieldStep
  rw [h0]
  dsimp only
  split_ifs
  · split
    · exact h1
    · split
      · exact h1
      · split_ifs
        · -- the second `tryYield`, on the working tow truck
          refine forall2_chain passKept_trans h1 ?_
          have hlen := forall2_length h1
          have hi : i < vs.length := by
            by_contra hge
            rw [List.getElem?_eq_none (by omega)] at h0
            exact absurd h0 (by simp)
          obtain ⟨v1, hv1⟩ : ∃ v1, (match aAmb with
              | some e => tryYield vs i e
              | none => vs)[i]? = some v1 :=
            ⟨_, List.getElem?_eq_getElem (by omega)⟩
          have hk := forall2_get h1 h0 hv1
          have hf := core_flags hk.2
          exact tryYield_passKept _ i _ v1 hv1 (hf.2.1.trans hc) (hf.2.2.1.trans ht)
        · exact h1
  · exact forall2_self passKept_refl vs

/-- One iteration of the main loop leaves crashed and towed vehicles alone and
keeps the `core` of every vehicle. -/
theorem bottomStep_passKept (acc : Accident) (light : TrafficLight) (aAmb aTow : Option Nat)
    (ft : ℚ) (vs : List Vehicle) (i : Nat) :
    List.Forall₂ PassKept vs (bottomStep acc light aAmb aTow ft vs i) := by
  unfold bottomStep
  split
  · exact forall2_self passKept_refl vs
  · rename_i v0 h0
    split_ifs with hskip
    · exact forall2_self passKept_refl vs
    · simp only [Bool.or_eq_true, not_or, Bool.not_eq_true] at hskip
      have hy := yieldStep_passKept aAmb aTow vs i v0 h0 hskip.1 hskip.2
      dsimp only
      split
      · exact hy
      · rename_i v hv
        have hk := forall2_get hy h0 hv
        have hf := core_flags hk.2
        have hvc : v.isCrashed = false := hf.2.1.trans hskip.1
        have hvt : v.isTowed = false := hf.2.2.1.trans hskip.2
        refine forall2_chain passKept_trans hy ?_
        split_ifs
        · refine forall2_modifyAt passKept_refl _ i _ (fun u hu => ?_)
          rw [hv] at hu
          simp only [Option.some.injEq] at hu
          subst hu
          refine ⟨fun h => by simp [hvc, hvt] at h, ?_⟩
          exact status_core ((Update_status _ _ _).trans rfl)
        · refine forall2_modifyAt passKept_refl _ i _ (fun u hu => ?_)
          rw [hv] at hu
          simp only [Option.some.injEq] at hu
          subst hu
          refine ⟨fun h => by simp [hvc, hvt] at h, ?_⟩
          refine (status_core ((Update_status _ _ _).trans ?_)).trans (avoidAccident_core acc _)
          rfl

/-- The main loop leaves crashed and towed vehicles alone and keeps the `core`
of every vehicle. -/
theorem bottomPass_passKept (acc : Accident) (light : TrafficLight) (aAmb aTow : Option Nat)
    (ft : ℚ) (vs : List Vehicle) :
    List.Forall₂ PassKept vs (bottomPass acc light aAmb aTow ft vs) := by
  unfold bottomPass
  exact forall2_foldl passKept_refl passKept_trans _
    (bottomStep_passKept acc light aAmb aTow ft) _ vs

/-! ## The frame after the culling -/

theorem alertStage_vehiclesBottom (s : Simulation) (aAmb : Option Nat) (delta : ℚ) :
    (s.alertStage aAmb delta).vehiclesBottom = s.vehiclesBottom := by
  unfold Simulation.alertStage
  dsimp only
  split_ifs <;> rfl

theorem ambulanceStage_lightBottom (s : Simulation) (aAmb aTow : Option Nat) :
    (s.ambulanceStage aAmb aTow).lightBottom = s.lightBottom := by
  unfold Simulation.ambulanceStage
  split
  · rfl
  · split
    · rfl
    · dsimp only
      split_ifs <;> rfl

/-- The inbound collection a frame ends with is the main loop run on the state
the ambulance block leaves. -/
theorem postCullStages_vehiclesBottom (s : Simulation) (delta : ℚ) (env : Env) :
    (s.postCullStages delta env).vehiclesBottom =
      bottomPass s.steered.currentAccident s.steered.lightBottom
        (activeAmbulance s.transitionStage.vehiclesBottom)
        (activeTow s.transitionStage.vehiclesBottom) env.frameTime s.steered.vehiclesBottom := by
  unfold Simulation.postCullStages
  dsimp only
  rw [alertStage_vehiclesBottom]
  rfl

/-- The accident record a frame ends with is the one the tow resolution leaves. -/
theorem postCullStages_currentAccident (s : Simulation) (delta : ℚ) (env : Env) :
    (s.postCullStages delta env).currentAccident = s.resolved.currentAccident := by
  unfold Simulation.postCullStages
  dsimp only
  rw [alertStage_currentAccident]
  dsimp only
  rw [ambulanceStage_currentAccident]
  rfl

/-- `Update` on a running game is the culling followed by the later stages. -/
theorem Update_eq_postCull (s : Simulation) (delta : ℚ) (env : Env) (hg : s.gameOver = false) :
    s.Update delta env = (s.afterCull delta env).postCullStages delta env := by
  unfold Simulation.Update
  simp only [hg, Bool.false_eq_true, if_false]
  rfl

theorem sansPos_flags {v w : Vehicle} (h : w.sansPos = v.sansPos) :
    w.id = v.id ∧ w.isCrashed = v.isCrashed ∧ w.moving = v.moving ∧
      w.isReckless = v.isReckless ∧ w.isTowed = v.isTowed ∧
      w.isAccidentTarget = v.isAccidentTarget ∧ w.cls = v.cls :=
  ⟨(congrArg Vehicle.id h : w.sansPos.id = v.sansPos.id),
    (congrArg Vehicle.isCrashed h : w.sansPos.isCrashed = v.sansPos.isCrashed),
    (congrArg Vehicle.moving h : w.sansPos.moving = v.sansPos.moving),
    (congrArg Vehicle.isReckless h : w.sansPos.isReckless = v.sansPos.isReckless),
    (congrArg Vehicle.isTowed h : w.sansPos.isTowed = v.sansPos.isTowed),
    (congrArg Vehicle.isAccidentTarget h :
      w.sansPos.isAccidentTarget = v.sansPos.isAccidentTarget),
    (congrArg Vehicle.cls h : w.sansPos.cls = v.sansPos.cls)⟩

theorem sansTargetY_flags {v w : Vehicle} (h : w.sansTargetY = v.sansTargetY) :
    w.id = v.id ∧ w.isCrashed = v.isCrashed ∧ w.moving = v.moving ∧
      w.isReckless = v.isReckless ∧ w.isTowed = v.isTowed ∧
      w.isAccidentTarget = v.isAccidentTarget ∧ w.cls = v.cls :=
  ⟨(congrArg Vehicle.id h : w.sansTargetY.id = v.sansTargetY.id),
    (congrArg Vehicle.isCrashed h : w.sansTargetY.isCrashed = v.sansTargetY.isCrashed),
    (congrArg Vehicle.moving h : w.sansTargetY.moving = v.sansTargetY.moving),
    (congrArg Vehicle.isReckless h : w.sansTargetY.isReckless = v.sansTargetY.isReckless),
    (congrArg Vehicle.isTowed h : w.sansTargetY.isTowed = v.sansTargetY.isTowed),
    (congrArg Vehicle.isAccidentTarget h :
      w.sansTargetY.isAccidentTarget = v.sansTargetY.isAccidentTarget),
    (congrArg Vehicle.cls h : w.sansTargetY.cls = v.sansTargetY.cls)⟩

/-- From the tow resolution to the end of the frame, every vehicle keeps its
identity, a crashed vehicle stays crashed with the same `moving` and
`isReckless`, and no vehicle becomes crashed. -/
theorem resolved_to_end (s : Simulation) (delta : ℚ) (env : Env) :
    List.Forall₂ (fun v w => CrashKept v w ∧ NoNewCrash v w)
      (s.transitionStage.resolutionStage
        (activeTow s.transitionStage.vehiclesBottom)).vehiclesBottom
      (s.postCullStages delta env).vehiclesBottom := by
  have htrans : ∀ u v w : Vehicle, (CrashKept u v ∧ NoNewCrash u v) →
      (CrashKept v w ∧ NoNewCrash v w) → (CrashKept u w ∧ NoNewCrash u w) := by
    intro u v w ⟨⟨a1, a2⟩, ⟨_, a4⟩⟩ ⟨⟨b1, b2⟩, ⟨_, b4⟩⟩
    refine ⟨⟨b1.trans a1, fun hu => ?_⟩, ⟨b1.trans a1, fun hw => a4 (b4 hw)⟩⟩
    obtain ⟨c1, c2, c3⟩ := a2 hu
    obtain ⟨d1, d2, d3⟩ := b2 c1
    exact ⟨d1, d2.trans c2, d3.trans c3⟩
  rw [postCullStages_vehiclesBottom]
  -- placement of the towed vehicles
  have h1 : List.Forall₂ (fun v w => CrashKept v w ∧ NoNewCrash v w)
      (s.transitionStage.resolutionStage
        (activeTow s.transitionStage.vehiclesBottom)).vehiclesBottom
      s.resolved.vehiclesBottom := by
    refine forall2_imp ?_ (towedPlacement_sansPos _)
    intro v w ⟨h, _⟩
    obtain ⟨hid, hcr, hmv, hre, _⟩ := sansPos_flags h
    exact ⟨⟨hid, fun hv => ⟨hcr.trans hv, hmv, hre⟩⟩, ⟨hid, fun hw => hcr ▸ hw⟩⟩
  -- the ambulance block
  have h2 : List.Forall₂ (fun v w => CrashKept v w ∧ NoNewCrash v w)
      s.resolved.vehiclesBottom s.steered.vehiclesBottom := by
    refine forall2_imp ?_ (ambulanceStage_sansTargetY _ _ _)
    intro v w h
    obtain ⟨hid, hcr, hmv, hre, _⟩ := sansTargetY_flags h
    exact ⟨⟨hid, fun hv => ⟨hcr.trans hv, hmv, hre⟩⟩, ⟨hid, fun hw => hcr ▸ hw⟩⟩
  -- the main loop
  have h3 : List.Forall₂ (fun v w => CrashKept v w ∧ NoNewCrash v w)
      s.steered.vehiclesBottom
      (bottomPass s.steered.currentAccident s.steered.lightBottom
        (activeAmbulance s.transitionStage.vehiclesBottom)
        (activeTow s.transitionStage.vehiclesBottom) env.frameTime s.steered.vehiclesBottom) := by
    refine forall2_imp ?_ (bottomPass_passKept _ _ _ _ _ _)
    intro v w ⟨hfix, hcore⟩
    have hf := core_flags hcore
    refine ⟨⟨hf.1, fun hv => ?_⟩, ⟨hf.1, fun hw => hf.2.1 ▸ hw⟩⟩
    rw [hfix (Or.inl hv)]
    exact ⟨hv, rfl, rfl⟩
  exact forall2_chain htrans (forall2_chain htrans h1 h2) h3

/-! ## The pending-to-active transition -/

theorem assignIfAmbulance_flags (accX accY : ℚ) (v : Vehicle) :
    (assignIfAmbulance accX accY v).id = v.id ∧
      (assignIfAmbulance accX accY v).isCrashed = v.isCrashed ∧
      (assignIfAmbulance accX accY v).moving = v.moving ∧
      (assignIfAmbulance accX accY v).isReckless = v.isReckless ∧
      (assignIfAmbulance accX accY v).x = v.x ∧ (assignIfAmbulance accX accY v).y = v.y ∧
      (assignIfAmbulance accX accY v).IsDepannage = v.IsDepannage ∧
      (assignIfAmbulance accX accY v).hasPickedUp = v.hasPickedUp := by
  unfold assignIfAmbulance Vehicle.AssignAccident
  split_ifs with h
  · unfold Vehicle.IsAmbulance at h
    split <;> simp_all [Vehicle.IsDepannage, Vehicle.hasPickedUp]
  · exact ⟨rfl, rfl, rfl, rfl, rfl, rfl, rfl, rfl⟩

theorem crashFlags_spec (c1 c2 : Nat) (v : Vehicle) :
    (crashFlags c1 c2 v).id = v.id ∧ (crashFlags c1 c2 v).x = v.x ∧
      (crashFlags c1 c2 v).y = v.y ∧ (crashFlags c1 c2 v).cls = v.cls ∧
      (v.id = c1 ∨ v.id = c2 →
        (crashFlags c1 c2 v).isCrashed = true ∧ (crashFlags c1 c2 v).moving = false) ∧
      (v.id = c2 → (crashFlags c1 c2 v).isReckless = false) := by
  unfold crashFlags
  by_cases h1 : v.id = c1
  · subst h1
    by_cases h2 : v.id = c2
    · subst h2; simp
    · simp [h2]
  · by_cases h2 : v.id = c2
    · subst h2; simp [h1]
    · simp [h1, h2]

/-- What the transition writes to a vehicle: its identity, position and tow
truck members stay; the participants end crashed and not moving, the trailing
one not reckless. -/
theorem crashWrites_spec (c1 c2 : Nat) (accX accY : ℚ) (v : Vehicle) :
    (crashWrites c1 c2 accX accY v).id = v.id ∧
      (crashWrites c1 c2 accX accY v).x = v.x ∧ (crashWrites c1 c2 accX accY v).y = v.y ∧
      (crashWrites c1 c2 accX accY v).IsDepannage = v.IsDepannage ∧
      (crashWrites c1 c2 accX accY v).hasPickedUp = v.hasPickedUp ∧
      (v.id = c1 ∨ v.id = c2 →
        (crashWrites c1 c2 accX accY v).isCrashed = true ∧
          (crashWrites c1 c2 accX accY v).moving = false) ∧
      (v.id = c2 → (crashWrites c1 c2 accX accY v).isReckless = false) := by
  unfold crashWrites
  obtain ⟨e1, e2, e3, e4, e5, e6, e7, e8⟩ := assignIfAmbulance_flags accX accY
    (crashFlags c1 c2 v)
  obtain ⟨f1, f2, f3, f4, f5, f6⟩ := crashFlags_spec c1 c2 v
  rw [e1, e2, e3, e4, e5, e6, e7, e8, f1, f2, f3]
  refine ⟨rfl, rfl, rfl, ?_, ?_, f5, f6⟩
  · unfold Vehicle.IsDepannage; rw [f4]
  · unfold Vehicle.hasPickedUp; rw [f4]

/-- The statements of the transition, one after the other, are `crashWrites`
applied to every vehicle. -/
theorem transition_writes_eq (c1 c2 : Nat) (accX accY : ℚ) (vs : List Vehicle) :
    (modifyById c2 (fun v => { v with moving := false })
      (modifyById c1 (fun v => { v with moving := false })
        (modifyById c2 (fun v => { v with isReckless := false })
          (modifyById c2 (fun v => { v with isCrashed := true })
            (modifyById c1 (fun v => { v with isCrashed := true }) vs))))).map
        (assignIfAmbulance accX accY) =
      vs.map (crashWrites c1 c2 accX accY) := by
  unfold modifyById
  simp only [List.map_map]
  rfl

/-- The transition when the gap is inside the window. -/
theorem transitionStage_crash (t : Simulation) (c1 c2 : Nat) (a b : Vehicle)
    (hp : t.currentAccident.pending = true) (h1 : t.currentAccident.car1 = some c1)
    (h2 : t.currentAccident.car2 = some c2) (ha : findById t.vehiclesBottom c1 = some a)
    (hb : findById t.vehiclesBottom c2 = some b)
    (hwin : b.x - a.x < VEHICLE_WIDTH - 10 ∧ b.x - a.x > -VEHICLE_WIDTH) :
    t.transitionStage =
      { t with
        currentAccident :=
          { t.currentAccident with
            pending := false, active := true, x := a.x + VEHICLE_WIDTH / 2, y := a.y }
        vehiclesBottom :=
          t.vehiclesBottom.map (crashWrites c1 c2 (a.x + VEHICLE_WIDTH / 2) a.y) } := by
  unfold Simulation.transitionStage
  simp only [hp, h1, h2, ha, hb, if_true, hwin, and_self]
  rw [transition_writes_eq]

/-- The transition when the gap is outside the window. -/
theorem transitionStage_wait (t : Simulation) (c1 c2 : Nat) (a b : Vehicle)
    (hp : t.currentAccident.pending = true) (h1 : t.currentAccident.car1 = some c1)
    (h2 : t.currentAccident.car2 = some c2) (ha : findById t.vehiclesBottom c1 = some a)
    (hb : findById t.vehiclesBottom c2 = some b)
    (hwin : ¬ (b.x - a.x < VEHICLE_WIDTH - 10 ∧ b.x - a.x > -VEHICLE_WIDTH)) :
    t.transitionStage = t := by
  unfold Simulation.transitionStage
  simp only [hp, h1, h2, ha, hb, if_true, hwin, if_false]

theorem findById_map (f : Vehicle → Vehicle) (hf : ∀ v, (f v).id = v.id) (vs : List Vehicle)
    (c : Nat) : findById (vs.map f) c = (findById vs c).map f := by
  unfold findById
  induction vs with
  | nil => rfl
  | cons v vs ih =>
    simp only [List.map_cons, List.find?_cons, hf]
    cases (v.id == c) <;> simp [ih]

theorem lastIdx_map (p : Vehicle → Bool) (f : Vehicle → Vehicle) (hf : ∀ v, p (f v) = p v)
    (vs : List Vehicle) (i : Nat) (r : Option Nat) :
    lastIdx p (vs.map f) i r = lastIdx p vs i r := by
  induction vs generalizing i r with
  | nil => rfl
  | cons v vs ih => simp only [List.map_cons, lastIdx, hf, ih]

/-- The tow resolution does nothing when the active tow truck has not picked up. -/
theorem resolutionStage_idle (u : Simulation) (aTow : Option Nat)
    (h : ∀ t tow, aTow = some t → u.vehiclesBottom[t]? = some tow → tow.hasPickedUp = false) :
    u.resolutionStage aTow = u := by
  unfold Simulation.resolutionStage
  split
  · rfl
  · rename_i t
    split
    · rfl
    · rename_i tow htow
      rw [h t tow rfl htow]
      simp

/-- The tow resolution keeps identities and the `pending` flag, and crashes no
vehicle. -/
theorem resolutionStage_noNewCrash (s : Simulation) (aTow : Option Nat) :
    List.Forall₂ NoNewCrash s.vehiclesBottom (s.resolutionStage aTow).vehiclesBottom ∧
      (s.resolutionStage aTow).currentAccident.pending = s.currentAccident.pending := by
  have hrefl : ∀ v, NoNewCrash v v := fun v => ⟨rfl, fun h => h⟩
  have htrans : ∀ u v w, NoNewCrash u v → NoNewCrash v w → NoNewCrash u w :=
    fun u v w h1 h2 => ⟨h2.1.trans h1.1, fun hw => h1.2 (h2.2 hw)⟩
  have hmod : ∀ (c : Nat) (f : Vehicle → Vehicle) (vs : List Vehicle),
      (∀ v, NoNewCrash v (f v)) → List.Forall₂ NoNewCrash vs (modifyById c f vs) := by
    intro c f vs hf
    unfold modifyById
    refine forall2_map _ (fun v => ?_) vs
    split_ifs
    · exact hf v
    · exact hrefl v
  unfold Simulation.resolutionStage
  split
  · exact ⟨forall2_self hrefl _, rfl⟩
  · split
    · exact ⟨forall2_self hrefl _, rfl⟩
    · rename_i tow _
      split_ifs
      · refine ⟨?_, rfl⟩
        have hF : ∀ v, NoNewCrash v (towFirst tow v) :=
          fun v => ⟨rfl, fun h => Bool.noConfusion (h : false = true)⟩
        have hS : ∀ v, NoNewCrash v (towSecond tow v) :=
          fun v => ⟨rfl, fun h => Bool.noConfusion (h : false = true)⟩
        dsimp only
        cases s.currentAccident.car1 <;> cases s.currentAccident.car2 <;> dsimp only
        · exact forall2_self hrefl _
        · exact hmod _ _ _ hS
        · exact hmod _ _ _ hF
        · exact forall2_chain htrans (hmod _ _ _ hF) (hmod _ _ _ hS)
      · exact ⟨forall2_self hrefl _, rfl⟩

theorem findById_id {vs : List Vehicle} {c : Nat} {a : Vehicle} (h : findById vs c = some a) :
    a.id = c := by
  unfold findById at h
  have := List.find?_some h
  simpa using this

/-- C10, refuted as stated. A pending accident with both participants on the road
and gap 50 (inside the window): when the game is over, advance changes nothing,
so the accident is not active afterwards; and when a tow truck that has already
picked up is on the road, the accident turned active is resolved in the same
advance, which ends with the accident not active and the leading car not crashed. -/
theorem pending_gap_transition_fails :
    (pendingGameOverState.currentAccident.pending = true ∧
      (pendingGameOverState.Update (1 / 60) envQuiet).currentAccident.active = false) ∧
    (pendingNearTowState.currentAccident.pending = true ∧
      (pendingNearTowState.Update (1 / 60) envQuiet).currentAccident.active = false ∧
      (findById (pendingNearTowState.Update (1 / 60) envQuiet).vehiclesBottom 0).map
        (fun v => (v.isCrashed, v.isTowed)) = some (false, true) ∧
      (findById pendingNearTowState.vehiclesBottom 1).map (fun v => v.x) = some 1050 ∧
      (findById pendingNearTowState.vehiclesBottom 0).map (fun v => v.x) = some 1000) := by
  decide!

/-- C10, amended: for every state that is not game over in which, after the
culling of this advance, the accident is pending and both participants are still
in the inbound collection, with gap g = (trailing x) - (leading x): if
-90 < g < 80 and the active tow truck (the last tow truck of the collection), if
there is one, has not picked up, then after the advance the accident is active
and not pending, both participants are crashed and not moving, and the trailing
participant is not reckless; if g is outside that open interval, the accident is
still pending after the advance and neither participant has become crashed. -/
theorem pending_gap_transition (s : Simulation) (delta : ℚ) (env : Env) (c1 c2 : Nat)
    (a b : Vehicle) (hg : s.gameOver = false)
    (hp : (s.afterCull delta env).currentAccident.pending = true)
    (h1 : (s.afterCull delta env).currentAccident.car1 = some c1)
    (h2 : (s.afterCull delta env).currentAccident.car2 = some c2)
    (ha : findById (s.afterCull delta env).vehiclesBottom c1 = some a)
    (hb : findById (s.afterCull delta env).vehiclesBottom c2 = some b) :
    ((-VEHICLE_WIDTH < b.x - a.x ∧ b.x - a.x < VEHICLE_WIDTH - 10) →
      (∀ t tow, activeTow (s.afterCull delta env).vehiclesBottom = some t →
        (s.afterCull delta env).vehiclesBottom[t]? = some tow → tow.hasPickedUp = false) →
      (s.Update delta env).currentAccident.active = true ∧
        (s.Update delta env).currentAccident.pending = false ∧
        ∃ a' b', findById (s.Update delta env).vehiclesBottom c1 = some a' ∧
          findById (s.Update delta env).vehiclesBottom c2 = some b' ∧
          a'.isCrashed = true ∧ b'.isCrashed = true ∧ a'.moving = false ∧
          b'.moving = false ∧ b'.isReckless = false) ∧
    (¬ (-VEHICLE_WIDTH < b.x - a.x ∧ b.x - a.x < VEHICLE_WIDTH - 10) →
      (s.Update delta env).currentAccident.pending = true ∧
        ∃ a' b', findById (s.Update delta env).vehiclesBottom c1 = some a' ∧
          findById (s.Update delta env).vehiclesBottom c2 = some b' ∧
          (a'.isCrashed = true → a.isCrashed = true) ∧
          (b'.isCrashed = true → b.isCrashed = true)) := by
  rw [Update_eq_postCull s delta env hg]
  have hend := resolved_to_end (s.afterCull delta env) delta env
  have hacc := postCullStages_currentAccident (s.afterCull delta env) delta env
  have hida : a.id = c1 := findById_id ha
  have hidb : b.id = c2 := findById_id hb
  constructor
  · intro hwin hnotow
    have hT := transitionStage_crash _ c1 c2 a b hp h1 h2 ha hb ⟨hwin.2, hwin.1⟩
    have hspec := crashWrites_spec c1 c2 (a.x + VEHICLE_WIDTH / 2) a.y
    -- the active tow truck is the same before and after the transition
    have hTow : activeTow (s.afterCull delta env).transitionStage.vehiclesBottom =
        activeTow (s.afterCull delta env).vehiclesBottom := by
      rw [hT]
      exact lastIdx_map _ _ (fun v => (hspec v).2.2.2.1) _ _ _
    -- so the tow resolution does nothing
    have hR : (s.afterCull delta env).transitionStage.resolutionStage
        (activeTow (s.afterCull delta env).transitionStage.vehiclesBottom) =
        (s.afterCull delta env).transitionStage := by
      apply resolutionStage_idle
      intro t tow ht htow
      rw [hTow] at ht
      rw [hT] at htow
      simp only [List.getElem?_map, Option.map_eq_some'] at htow
      obtain ⟨tow0, htow0, rfl⟩ := htow
      rw [(hspec tow0).2.2.2.2.1]
      exact hnotow t tow0 ht htow0
    rw [hR] at hend
    have hacc2 : ((s.afterCull delta env).postCullStages delta env).currentAccident =
        (s.afterCull delta env).transitionStage.currentAccident := by
      rw [hacc]
      show ((s.afterCull delta env).transitionStage.resolutionStage _).currentAccident = _
      rw [hR]
    rw [hacc2]
    have hfa : findById (s.afterCull delta env).transitionStage.vehiclesBottom c1 =
        some (crashWrites c1 c2 (a.x + VEHICLE_WIDTH / 2) a.y a) := by
      rw [hT]
      show findById (List.map _ _) c1 = _
      rw [findById_map _ (fun v => (hspec v).1), ha]
      rfl
    have hfb : findById (s.afterCull delta env).transitionStage.vehiclesBottom c2 =
        some (crashWrites c1 c2 (a.x + VEHICLE_WIDTH / 2) a.y b) := by
      rw [hT]
      show findById (List.map _ _) c2 = _
      rw [findById_map _ (fun v => (hspec v).1), hb]
      rfl
    obtain ⟨a', ha', hka, _⟩ := findById_forall2 (fun v w h => h.1.1) hend hfa
    obtain ⟨b', hb', hkb, _⟩ := findById_forall2 (fun v w h => h.1.1) hend hfb
    have hca := (hspec a).2.2.2.2.2.1 (Or.inl hida)
    have hcb := (hspec b).2.2.2.2.2.1 (Or.inr hidb)
    have hrb := (hspec b).2.2.2.2.2.2 hidb
    obtain ⟨ka1, ka2, _⟩ := hka.2 hca.1
    obtain ⟨kb1, kb2, kb3⟩ := hkb.2 hcb.1
    refine ⟨?_, ?_, a', b', ha', hb', ka1, kb1, ka2.trans hca.2, kb2.trans hcb.2,
      kb3.trans hrb⟩
    · rw [hT]
    · rw [hT]
  · intro hwin
    have hT := transitionStage_wait _ c1 c2 a b hp h1 h2 ha hb
      (fun h => hwin ⟨h.2, h.1⟩)
    obtain ⟨hres, hpend⟩ := resolutionStage_noNewCrash (s.afterCull delta env).transitionStage
      (activeTow (s.afterCull delta env).transitionStage.vehiclesBottom)
    have hall : List.Forall₂ NoNewCrash (s.afterCull delta env).vehiclesBottom
        ((s.afterCull delta env).postCullStages delta env).vehiclesBottom := by
      have h3 := forall2_chain
        (fun u v w (h1 : NoNewCrash u v) (h2 : NoNewCrash v w) =>
          (⟨h2.1.trans h1.1, fun hw => h1.2 (h2.2 hw)⟩ : NoNewCrash u w))
        hres (forall2_imp (fun v w h => h.2) hend)
      rw [hT] at h3
      exact h3
    obtain ⟨a', ha', hka⟩ := findById_forall2 (fun v w h => h.1) hall ha
    obtain ⟨b', hb', hkb⟩ := findById_forall2 (fun v w h => h.1) hall hb
    refine ⟨?_, a', b', ha', hb', hka.2, hkb.2⟩
    rw [hacc]
    show ((s.afterCull delta env).transitionStage.resolutionStage _).currentAccident.pending = _
    rw [hpend, hT]
    exact hp

theorem pending_gap_transition_witness :
    ((-VEHICLE_WIDTH < (markReckless { carB with x := 1050 }).x - (markTarget carA).x ∧
        (markReckless { carB with x := 1050 }).x - (markTarget carA).x < VEHICLE_WIDTH - 10) →
      (∀ t tow, activeTow (pendingNearState.afterCull (1 / 60) envQuiet).vehiclesBottom = some t →
        (pendingNearState.afterCull (1 / 60) envQuiet).vehiclesBottom[t]? = some tow →
        tow.hasPickedUp = false) →
      (pendingNearState.Update (1 / 60) envQuiet).currentAccident.active = true ∧
        (pendingNearState.Update (1 / 60) envQuiet).currentAccident.pending = false ∧
        ∃ a' b', findById (pendingNearState.Update (1 / 60) envQuiet).vehiclesBottom 0 = some a' ∧
          findById (pendingNearState.Update (1 / 60) envQuiet).vehiclesBottom 1 = some b' ∧
          a'.isCrashed = true ∧ b'.isCrashed = true ∧ a'.moving = false ∧
          b'.moving = false ∧ b'.isReckless = false) ∧
    (¬ (-VEHICLE_WIDTH < (markReckless { carB with x := 1050 }).x - (markTarget carA).x ∧
        (markReckless { carB with x := 1050 }).x - (markTarget carA).x < VEHICLE_WIDTH - 10) →
      (pendingNearState.Update (1 / 60) envQuiet).currentAccident.pending = true ∧
        ∃ a' b', findById (pendingNearState.Update (1 / 60) envQuiet).vehiclesBottom 0 = some a' ∧
          findById (pendingNearState.Update (1 / 60) envQuiet).vehiclesBottom 1 = some b' ∧
          (a'.isCrashed = true → (markTarget carA).isCrashed = true) ∧
          (b'.isCrashed = true → (markReckless { carB with x := 1050 }).isCrashed = true)) :=
  pending_gap_transition pendingNearState (1 / 60) envQuiet 0 1 (markTarget carA)
    (markReckless { carB with x := 1050 }) (by decide!) (by decide!) (by decide!) (by decide!)
    (by decide!) (by decide!)

/-! ## The invariant behind the tow mission -/

theorem forall2_map_id {R : Vehicle → Vehicle → Prop} (hid : ∀ v w, R v w → w.id = v.id)
    {vs ws : List Vehicle} (h : List.Forall₂ R vs ws) :
    ws.map Vehicle.id = vs.map Vehicle.id := by
  induction h with
  | nil => rfl
  | cons hab _ ih => simp [hid _ _ hab, ih]

theorem forall2_mem_right {R : Vehicle → Vehicle → Prop} {vs ws : List Vehicle}
    (h : List.Forall₂ R vs ws) {w : Vehicle} (hw : w ∈ ws) : ∃ v ∈ vs, R v w := by
  induction h with
  | nil => simp at hw
  | cons hab _ ih =>
    rcases List.mem_cons.1 hw with rfl | hw
    · exact ⟨_, List.mem_cons_self _ _, hab⟩
    · obtain ⟨v, hv, hr⟩ := ih hw
      exact ⟨v, List.mem_cons_of_mem _ hv, hr⟩

theorem forall2_mem_left {R : Vehicle → Vehicle → Prop} {vs ws : List Vehicle}
    (h : List.Forall₂ R vs ws) {v : Vehicle} (hv : v ∈ vs) : ∃ w ∈ ws, R v w := by
  induction h with
  | nil => simp at hv
  | cons hab _ ih =>
    rcases List.mem_cons.1 hv with rfl | hv
    · exact ⟨_, List.mem_cons_self _ _, hab⟩
    · obtain ⟨w, hw, hr⟩ := ih hv
      exact ⟨w, List.mem_cons_of_mem _ hw, hr⟩

/-- Two vehicles of a collection with the same identity are the same object. -/
theorem eq_of_id_eq {vs : List Vehicle} (hn : (vs.map Vehicle.id).Nodup) {v w : Vehicle}
    (hv : v ∈ vs) (hw : w ∈ vs) (h : v.id = w.id) : v = w :=
  List.inj_on_of_nodup_map hn hv hw h

theorem core_more {v w : Vehicle} (h : w.core = v.core) :
    w.speed = v.speed ∧ w.dirRight = v.dirRight ∧ w.IsDepannage = v.IsDepannage ∧
      w.IsAmbulance = v.IsAmbulance ∧ w.IsSchoolBus = v.IsSchoolBus := by
  unfold Vehicle.core at h
  simp only [Prod.mk.injEq, Vehicle.mk.injEq] at h
  tauto

theorem cls_car_iff (v : Vehicle) :
    v.cls = .Car ↔
      v.IsAmbulance = false ∧ v.IsDepannage = false ∧ v.IsSchoolBus = false := by
  unfold Vehicle.IsAmbulance Vehicle.IsDepannage Vehicle.IsSchoolBus
  cases v.cls <;> simp

/-- Transport of the invariant along a stage that relates the inbound vehicles
one to one by `Q`, keeps the accident record and does not lower `nextId`. -/
theorem Inv.transport {Q : Vehicle → Vehicle → Prop} {g g' : ℚ} {s s' : Simulation}
    (hinv : Inv g s)
    (hvs : List.Forall₂ Q s.vehiclesBottom s'.vehiclesBottom)
    (hacc : s'.currentAccident = s.currentAccident) (hnext : s.nextId ≤ s'.nextId)
    (hmis : s'.currentMission = .MISSION_CALL_TOW →
      s.currentMission = .MISSION_CALL_TOW ∨
        (s.currentAccident.active = true ∧ ∀ v ∈ s.vehiclesBottom, v.IsDepannage = false))
    (hcore : ∀ v w, Q v w → w.core = v.core)
    (hcar : ∀ v w, Q v w → v.cls = .Car → w.cls = .Car ∧ w.moving = v.moving)
    (hfix : ∀ v w, Q v w → v.isCrashed = true → v.isTowed = false → w.x = v.x)
    (hgap : ∀ a a' b b', Q a a' → Q b b' → PairLead a → PairTrail b → g ≤ b.x - a.x →
      300 < 23 * a.x - 5 * (b.x - a.x) →
      g' ≤ b'.x - a'.x ∧ 300 < 23 * a'.x - 5 * (b'.x - a'.x)) :
    Inv g' s' := by
  have hids := forall2_map_id (fun v w h => (core_flags (hcore v w h)).1) hvs
  refine
    { nodup := by rw [hids]; exact hinv.nodup
      fresh := ?_, excl := by rw [hacc]; exact hinv.excl
      tow := ?_, keep := ?_, crashed := ?_, roam := ?_, pair := ?_, wreck := ?_, plain := ?_ }
  · intro w hw
    obtain ⟨v, hv, hq⟩ := forall2_mem_right hvs hw
    have := hinv.fresh v hv
    rw [(core_flags (hcore v w hq)).1]
    omega
  · intro hm
    have hnotow : (∀ v ∈ s.vehiclesBottom, v.IsDepannage = false) →
        ∀ w ∈ s'.vehiclesBottom, w.IsDepannage = false := by
      intro h w hw
      obtain ⟨v, hv, hq⟩ := forall2_mem_right hvs hw
      rw [(core_more (hcore v w hq)).2.2.1]
      exact h v hv
    rw [hacc]
    rcases hmis hm with h | h
    · exact ⟨(hinv.tow h).1, hnotow (hinv.tow h).2⟩
    · exact ⟨h.1, hnotow h.2⟩
  · intro w hw
    obtain ⟨v, hv, hq⟩ := forall2_mem_right hvs hw
    rw [(core_flags (hcore v w hq)).2.2.2.2.2.2]
    exact hinv.keep v hv
  · intro w hw hc
    obtain ⟨v, hv, hq⟩ := forall2_mem_right hvs hw
    have hf := core_flags (hcore v w hq)
    rw [hf.2.1] at hc
    obtain ⟨hx, ht⟩ := hinv.crashed v hv hc
    rw [hfix v w hq hc ht, hf.2.2.1]
    exact ⟨hx, ht⟩
  · intro w hw hfl hc
    obtain ⟨v, hv, hq⟩ := forall2_mem_right hvs hw
    have hf := core_flags (hcore v w hq)
    rw [hf.2.2.2.1, hf.2.2.2.2.1] at hfl
    rw [hf.2.1] at hc
    rw [hacc, hf.1]
    exact hinv.roam v hv hfl hc
  · intro hp
    rw [hacc] at hp ⊢
    obtain ⟨a, ha, b, hb, h1, h2, hl, ht, hg1, hg2⟩ := hinv.pair hp
    obtain ⟨a', ha', hqa⟩ := forall2_mem_left hvs ha
    obtain ⟨b', hb', hqb⟩ := forall2_mem_left hvs hb
    have hfa := core_flags (hcore a a' hqa)
    have hfb := core_flags (hcore b b' hqb)
    have hma := core_more (hcore a a' hqa)
    have hmb := core_more (hcore b b' hqb)
    obtain ⟨hg1', hg2'⟩ := hgap a a' b b' hqa hqb hl ht hg1 hg2
    refine ⟨a', ha', b', hb', by rw [hfa.1]; exact h1, by rw [hfb.1]; exact h2, ?_, ?_, hg1',
      hg2'⟩
    · exact
        { cls := (hcar a a' hqa hl.cls).1
          notCrashed := hfa.2.1.trans hl.notCrashed
          notTowed := hfa.2.2.1.trans hl.notTowed
          target := hfa.2.2.2.2.1.trans hl.target
          notReckless := hfa.2.2.2.1.trans hl.notReckless
          dir := hma.2.1.trans hl.dir
          speed_nonneg := by rw [hma.1]; exact hl.speed_nonneg
          speed_le := by rw [hma.1]; exact hl.speed_le }
    · exact
        { cls := (hcar b b' hqb ht.cls).1
          notCrashed := hfb.2.1.trans ht.notCrashed
          notTowed := hfb.2.2.1.trans ht.notTowed
          reckless := hfb.2.2.2.1.trans ht.reckless
          notTarget := hfb.2.2.2.2.1.trans ht.notTarget
          dir := hmb.2.1.trans ht.dir
          moving := ((hcar b b' hqb ht.cls).2).trans ht.moving
          speed_ge := by rw [hmb.1]; exact ht.speed_ge
          speed_le := by rw [hmb.1]; exact ht.speed_le }
  · intro hact
    rw [hacc] at hact ⊢
    obtain ⟨a, ha, b, hb, h1, h2, hca, hcb, hra, hrb, htb, hka, hkb⟩ := hinv.wreck hact
    obtain ⟨a', ha', hqa⟩ := forall2_mem_left hvs ha
    obtain ⟨b', hb', hqb⟩ := forall2_mem_left hvs hb
    have hfa := core_flags (hcore a a' hqa)
    have hfb := core_flags (hcore b b' hqb)
    exact ⟨a', ha', b', hb', by rw [hfa.1]; exact h1, by rw [hfb.1]; exact h2,
      hfa.2.1.trans hca, hfb.2.1.trans hcb, hfa.2.2.2.1.trans hra, hfb.2.2.2.1.trans hrb,
      hfb.2.2.2.2.1.trans htb, (hcar a a' hqa hka).1, (hcar b b' hqb hkb).1⟩
  · intro w hw hpl
    obtain ⟨v, hv, hq⟩ := forall2_mem_right hvs hw
    have hf := core_flags (hcore v w hq)
    have hm := core_more (hcore v w hq)
    obtain ⟨p1, p2, p3, p4, p5⟩ := hpl
    have hvc : v.cls = .Car := by
      rw [cls_car_iff] at p1 ⊢
      rw [← hm.2.2.2.1, ← hm.2.2.1, ← hm.2.2.2.2]
      exact p1
    have hv2 := hinv.plain v hv
      ⟨hvc, hf.2.2.2.1 ▸ p2, hf.2.2.2.2.1 ▸ p3, hf.2.1 ▸ p4, hf.2.2.1 ▸ p5⟩
    rw [hm.1, hm.2.1, (hcar v w hq hvc).2]
    exact hv2

/-- The invariant survives a stage that keeps the inbound vehicles and the
accident record. -/
theorem Inv.of_same {g : ℚ} {s s' : Simulation} (hinv : Inv g s)
    (hvs : s'.vehiclesBottom = s.vehiclesBottom)
    (hacc : s'.currentAccident = s.currentAccident) (hnext : s.nextId ≤ s'.nextId)
    (hmis : s'.currentMission = .MISSION_CALL_TOW → s.currentMission = .MISSION_CALL_TOW) :
    Inv g s' := by
  refine Inv.transport (Q := fun v w => w = v) hinv ?_ hacc hnext (fun h => Or.inl (hmis h))
    (fun v w h => by rw [h]) (fun v w h hc => by rw [h]; exact ⟨hc, rfl⟩)
    (fun v w h _ _ => by rw [h]) ?_
  · rw [hvs]
    exact forall2_self (R := fun v w => w = v) (fun _ => rfl) _
  · intro a a' b b' ha hb _ _ h1 h2
    rw [ha, hb]
    exact ⟨h1, h2⟩

/-- The invariant survives the arrival of a freshly allocated vehicle without
accident flags (a spawned car, a school bus, an ambulance, or a tow truck when
the tow mission is not left active). -/
theorem Inv.append {g : ℚ} {s s' : Simulation} (hinv : Inv g s) (n : Vehicle)
    (hvs : s'.vehiclesBottom = s.vehiclesBottom ++ [n])
    (hacc : s'.currentAccident = s.currentAccident) (hnext : s'.nextId = s.nextId + 1)
    (hid : n.id = s.nextId)
    (hflags : n.isCrashed = false ∧ n.isReckless = false ∧ n.isAccidentTarget = false ∧
      n.toBeRemoved = false)
    (hcar : n.cls = .Car → 2 ≤ n.speed ∧ n.speed ≤ 5 / 2 ∧ n.dirRight = false ∧ n.moving = true)
    (hmis : s'.currentMission = .MISSION_CALL_TOW →
      s.currentMission = .MISSION_CALL_TOW ∧ n.IsDepannage = false) :
    Inv g s' := by
  obtain ⟨n1, n2, n3, n4⟩ := hflags
  have hmem : ∀ w, w ∈ s'.vehiclesBottom ↔ w ∈ s.vehiclesBottom ∨ w = n := by
    intro w; rw [hvs]; simp
  refine
    { nodup := ?_, fresh := ?_, excl := by rw [hacc]; exact hinv.excl
      tow := ?_, keep := ?_, crashed := ?_, roam := ?_, pair := ?_, wreck := ?_, plain := ?_ }
  · rw [hvs, List.map_append, List.nodup_append]
    refine ⟨hinv.nodup, by simp, ?_⟩
    intro c hc1 hc2
    simp only [List.map_cons, List.map_nil, List.mem_singleton] at hc2
    obtain ⟨v, hv, rfl⟩ := List.mem_map.1 hc1
    have := hinv.fresh v hv
    omega
  · intro w hw
    rcases (hmem w).1 hw with h | rfl
    · have := hinv.fresh w h; omega
    · omega
  · intro hm
    obtain ⟨hm1, hm2⟩ := hmis hm
    rw [hacc]
    refine ⟨(hinv.tow hm1).1, fun w hw => ?_⟩
    rcases (hmem w).1 hw with h | rfl
    · exact (hinv.tow hm1).2 w h
    · exact hm2
  · intro w hw
    rcases (hmem w).1 hw with h | rfl
    · exact hinv.keep w h
    · exact n4
  · intro w hw hc
    rcases (hmem w).1 hw with h | rfl
    · exact hinv.crashed w h hc
    · rw [n1] at hc; exact absurd hc (by decide)
  · intro w hw hfl hc
    rw [hacc]
    rcases (hmem w).1 hw with h | rfl
    · exact hinv.roam w h hfl hc
    · rcases hfl with h | h
      · rw [n2] at h; exact absurd h (by decide)
      · rw [n3] at h; exact absurd h (by decide)
  · intro hp
    rw [hacc] at hp ⊢
    obtain ⟨a, ha, b, hb, rest⟩ := hinv.pair hp
    exact ⟨a, (hmem a).2 (Or.inl ha), b, (hmem b).2 (Or.inl hb), rest⟩
  · intro hact
    rw [hacc] at hact ⊢
    obtain ⟨a, ha, b, hb, rest⟩ := hinv.wreck hact
    exact ⟨a, (hmem a).2 (Or.inl ha), b, (hmem b).2 (Or.inl hb), rest⟩
  · intro w hw hpl
    rcases (hmem w).1 hw with h | rfl
    · exact hinv.plain w h hpl
    · exact hcar hpl.1

theorem Inv.init : Inv 73 Simulation.init :=
  { nodup := List.nodup_nil
    fresh := fun _ h => absurd h (List.not_mem_nil _)
    excl := fun h => Bool.noConfusion h.1
    tow := fun h => MissionType.noConfusion h
    keep := fun _ h => absurd h (List.not_mem_nil _)
    crashed := fun _ h => absurd h (List.not_mem_nil _)
    roam := fun _ h => absurd h (List.not_mem_nil _)
    pair := fun h => Bool.noConfusion h
    wreck := fun h => Bool.noConfusion h
    plain := fun _ h => absurd h (List.not_mem_nil _) }

theorem Inv.Reset {g : ℚ} (s : Simulation) : Inv g s.Reset :=
  { nodup := List.nodup_nil
    fresh := fun _ h => absurd h (List.not_mem_nil _)
    excl := fun h => Bool.noConfusion h.1
    tow := fun h => MissionType.noConfusion h
    keep := fun _ h => absurd h (List.not_mem_nil _)
    crashed := fun _ h => absurd h (List.not_mem_nil _)
    roam := fun _ h => absurd h (List.not_mem_nil _)
    pair := fun h => Bool.noConfusion h
    wreck := fun h => Bool.noConfusion h
    plain := fun _ h => absurd h (List.not_mem_nil _) }

theorem Inv.CallSchoolBus {g : ℚ} {s : Simulation} (hinv : Inv g s) : Inv g s.CallSchoolBus := by
  refine Inv.append hinv _ rfl rfl rfl rfl ⟨rfl, rfl, rfl, rfl⟩
    (fun h => VehicleClass.noConfusion h) (fun hm => ⟨?_, rfl⟩)
  unfold Simulation.CallSchoolBus at hm
  dsimp only at hm
  split_ifs at hm
  exact hm

theorem Inv.CallDepannage {g : ℚ} {s : Simulation} (hinv : Inv g s) :
    Inv g s.CallDepannage := by
  unfold Simulation.CallDepannage
  by_cases h : (!s.currentAccident.active) = true
  · rw [if_pos h]; exact hinv
  · rw [if_neg h]
    refine Inv.append hinv _ rfl rfl rfl rfl ⟨rfl, rfl, rfl, rfl⟩
      (fun h => VehicleClass.noConfusion h) (fun hm => ?_)
    dsimp only at hm
    by_cases h2 : s.currentMission = .MISSION_CALL_TOW
    · rw [if_pos h2] at hm; exact MissionType.noConfusion hm
    · rw [if_neg h2] at hm; exact absurd hm h2

theorem Inv.spawnStage {g : ℚ} {s : Simulation} (hinv : Inv g s) (delta : ℚ) (env : Env) :
    Inv g (s.spawnStage delta env) := by
  have hs : ∀ r : Fin 6, (2 : ℚ) ≤ 2 + (r.val : ℚ) / 10 ∧ 2 + (r.val : ℚ) / 10 ≤ 5 / 2 := by
    intro r
    have h0 : (0 : ℚ) ≤ (r.val : ℚ) := Nat.cast_nonneg _
    have h5 : (r.val : ℚ) ≤ 5 := by
      have : r.val ≤ 5 := by omega
      exact_mod_cast this
    constructor <;> linarith
  unfold Simulation.spawnStage
  dsimp only
  split_ifs with h1 h2 h2
  · refine Inv.append (s := ({ s with carSpawnTimerTop := 0 } : Simulation).SpawnCarTop env)
      (Inv.of_same hinv rfl rfl (Nat.le_succ _) (fun h => h)) _ rfl rfl rfl rfl
      ⟨rfl, rfl, rfl, rfl⟩ (fun _ => ⟨(hs _).1, (hs _).2, rfl, rfl⟩) (fun hm => ⟨hm, rfl⟩)
  · exact Inv.of_same hinv rfl rfl (Nat.le_succ _) (fun h => h)
  · refine Inv.append (s := s) hinv _ rfl rfl rfl rfl
      ⟨rfl, rfl, rfl, rfl⟩ (fun _ => ⟨(hs _).1, (hs _).2, rfl, rfl⟩) (fun hm => ⟨hm, rfl⟩)
  · exact Inv.of_same hinv rfl rfl (le_refl _) (fun h => h)

/-! ### The trigger scan -/

theorem getElem?_modifyAt (f : Vehicle → Vehicle) (i k : Nat) (vs : List Vehicle) :
    (modifyAt f i vs)[k]? = if k = i then (vs[k]?).map f else vs[k]? := by
  induction vs generalizing i k with
  | nil => cases i <;> simp [modifyAt]
  | cons v vs ih =>
    cases i with
    | zero =>
      cases k with
      | zero => simp [modifyAt]
      | succ k => simp [modifyAt]
    | succ i =>
      cases k with
      | zero => simp [modifyAt]
      | succ k => simp [modifyAt, ih]

/-- What the inner loop of the scan returns: an index other than `i` of a vehicle
the loop does not skip and that forms a selected pair with `v1`. -/
theorem scanInner_spec (v1 : Vehicle) (i : Nat) (vs : List Vehicle) (j0 j : Nat)
    (h : scanInner v1 i vs j0 = some j) :
    ∃ v2, vs[j - j0]? = some v2 ∧ j0 ≤ j ∧ i ≠ j ∧ scanSkips v2 = false ∧
      pairSelected v1 v2 = true := by
  induction vs generalizing j0 with
  | nil => simp [scanInner] at h
  | cons v vs ih =>
    unfold scanInner at h
    split_ifs at h with h1 h2 h3
    · obtain ⟨v2, hv, hle, rest⟩ := ih (j0 + 1) h
      refine ⟨v2, ?_, by omega, rest⟩
      have : j - j0 = (j - (j0 + 1)) + 1 := by omega
      rw [this, List.getElem?_cons_succ]
      exact hv
    · obtain ⟨v2, hv, hle, rest⟩ := ih (j0 + 1) h
      refine ⟨v2, ?_, by omega, rest⟩
      have : j - j0 = (j - (j0 + 1)) + 1 := by omega
      rw [this, List.getElem?_cons_succ]
      exact hv
    · simp only [Option.some.injEq] at h
      subst h
      exact ⟨v, by simp, le_refl _, h1, by simpa using h2, h3⟩
    · obtain ⟨v2, hv, hle, rest⟩ := ih (j0 + 1) h
      refine ⟨v2, ?_, by omega, rest⟩
      have : j - j0 = (j - (j0 + 1)) + 1 := by omega
      rw [this, List.getElem?_cons_succ]
      exact hv

/-- What the scan returns: two different indices of vehicles that neither loop
skips, the first not on the bus lane, forming a selected pair. -/
theorem scanOuter_spec (all vs : List Vehicle) (i0 i j : Nat)
    (h : scanOuter all vs i0 = some (i, j)) :
    ∃ v1 v2, vs[i - i0]? = some v1 ∧ i0 ≤ i ∧ all[j]? = some v2 ∧ i ≠ j ∧
      scanSkips v1 = false ∧ ¬ |v1.targetY - laneYBottom 2| < 5 ∧ scanSkips v2 = false ∧
      pairSelected v1 v2 = true := by
  induction vs generalizing i0 with
  | nil => simp [scanOuter] at h
  | cons v vs ih =>
    have hstep : ∀ (h' : scanOuter all vs (i0 + 1) = some (i, j)),
        ∃ v1 v2, (v :: vs)[i - i0]? = some v1 ∧ i0 ≤ i ∧ all[j]? = some v2 ∧ i ≠ j ∧
          scanSkips v1 = false ∧ ¬ |v1.targetY - laneYBottom 2| < 5 ∧ scanSkips v2 = false ∧
          pairSelected v1 v2 = true := by
      intro h'
      obtain ⟨v1, v2, hv, hle, rest⟩ := ih (i0 + 1) h'
      refine ⟨v1, v2, ?_, by omega, rest⟩
      have : i - i0 = (i - (i0 + 1)) + 1 := by omega
      rw [this, List.getElem?_cons_succ]
      exact hv
    unfold scanOuter at h
    split_ifs at h with h1 h2
    · exact hstep h
    · exact hstep h
    · split at h
      · rename_i j' hj
        simp only [Option.some.injEq, Prod.mk.injEq] at h
        obtain ⟨rfl, rfl⟩ := h
        obtain ⟨v2, hv2, _, hne, hs2, hsel⟩ := scanInner_spec v i0 all 0 j' hj
        exact ⟨v, v2, by simp, le_refl _, by simpa using hv2, hne, by simpa using h1, h2, hs2,
          hsel⟩
      · exact hstep h

theorem scanSkips_false {v : Vehicle} (h : scanSkips v = false) :
    v.cls = .Car ∧ v.isTowed = false ∧ v.isCrashed = false := by
  unfold scanSkips at h
  simp only [Bool.or_eq_false_iff] at h
  exact ⟨(cls_car_iff v).2 ⟨h.1.1.1.1, h.1.1.1.2, h.1.1.2⟩, h.2.1, h.2.2⟩

theorem pairSelected_true {v1 v2 : Vehicle} (h : pairSelected v1 v2 = true) :
    v1.x - v2.x < 400 ∧ 110 < v1.x - v2.x ∧ 100 < v2.x := by
  unfold pairSelected at h
  simp only [Bool.and_eq_true, decide_eq_true_eq] at h
  exact ⟨h.2.1.1.1, h.2.1.1.2, h.2.2⟩

/-- The trigger scan keeps the invariant: the pair it selects consists of two
cars without accident flags, more than 110 apart, the leading one beyond x = 100. -/
theorem Inv.TriggerRandomAccident {s : Simulation} (hinv : Inv 73 s) :
    Inv 73 s.TriggerRandomAccident := by
  unfold Simulation.TriggerRandomAccident
  split_ifs with hw hap
  · exact hinv
  · exact hinv
  · split
    · exact hinv
    · rename_i i j hscan
      simp only [Bool.or_eq_true, not_or, Bool.not_eq_true] at hap
      obtain ⟨hact, hpend⟩ := hap
      obtain ⟨v1, v2, hv1, _, hv2, hij, hs1, _, hs2, hsel⟩ :=
        scanOuter_spec _ _ 0 i j hscan
      simp only [Nat.sub_zero] at hv1
      have hm1 : v1 ∈ s.vehiclesBottom := List.getElem?_mem hv1
      have hm2 : v2 ∈ s.vehiclesBottom := List.getElem?_mem hv2
      -- no vehicle carries a flag of an earlier, unfinished accident
      have hclean : ∀ v ∈ s.vehiclesBottom, v.isCrashed = false →
          v.isReckless = false ∧ v.isAccidentTarget = false := by
        intro v hv hc
        by_contra hcon
        have hfl : v.isReckless = true ∨ v.isAccidentTarget = true := by
          by_contra hno
          simp only [not_or, Bool.not_eq_true] at hno
          exact hcon hno
        have := (hinv.roam v hv hfl hc).1
        rw [hpend] at this
        exact Bool.noConfusion this
      obtain ⟨k1, t1, c1⟩ := scanSkips_false hs1
      obtain ⟨k2, t2, c2⟩ := scanSkips_false hs2
      obtain ⟨r1, a1⟩ := hclean v1 hm1 c1
      obtain ⟨r2, a2⟩ := hclean v2 hm2 c2
      obtain ⟨sl1, su1, d1, mv1⟩ := hinv.plain v1 hm1 ⟨k1, r1, a1, c1, t1⟩
      obtain ⟨sl2, su2, d2, _⟩ := hinv.plain v2 hm2 ⟨k2, r2, a2, c2, t2⟩
      obtain ⟨g1, g2, g3⟩ := pairSelected_true hsel
      -- the collection after the two writes, index by index
      have hget : ∀ k, (modifyAt markTarget j (modifyAt markReckless i s.vehiclesBottom))[k]? =
          if k = j then some (markTarget v2) else if k = i then some (markReckless v1)
          else s.vehiclesBottom[k]? := by
        intro k
        rw [getElem?_modifyAt, getElem?_modifyAt]
        by_cases hkj : k = j
        · subst hkj
          simp [Ne.symm hij, hv2]
        · by_cases hki : k = i
          · subst hki
            simp [hkj, hv1]
          · simp [hkj, hki]
      have hmem : ∀ w, w ∈ modifyAt markTarget j (modifyAt markReckless i s.vehiclesBottom) →
          w = markTarget v2 ∨ w = markReckless v1 ∨ w ∈ s.vehiclesBottom := by
        intro w hw
        obtain ⟨k, hk⟩ := List.mem_iff_getElem?.1 hw
        rw [hget] at hk
        split_ifs at hk
        · left; simpa using hk.symm
        · right; left; simpa using hk.symm
        · right; right; exact List.getElem?_mem hk
      have hT : markTarget v2 ∈ modifyAt markTarget j (modifyAt markReckless i s.vehiclesBottom) :=
        List.mem_iff_getElem?.2 ⟨j, by rw [hget]; simp⟩
      have hR : markReckless v1 ∈
          modifyAt markTarget j (modifyAt markReckless i s.vehiclesBottom) :=
        List.mem_iff_getElem?.2 ⟨i, by rw [hget]; simp [hij]⟩
      exact
        { nodup := by
            show (List.map Vehicle.id (modifyAt markTarget j (modifyAt markReckless i _))).Nodup
            rw [modifyAt_map_eq Vehicle.id markTarget (fun _ => rfl),
              modifyAt_map_eq Vehicle.id markReckless (fun _ => rfl)]
            exact hinv.nodup
          fresh := by
            intro w hw
            rcases hmem w hw with rfl | rfl | h
            · exact hinv.fresh v2 hm2
            · exact hinv.fresh v1 hm1
            · exact hinv.fresh w h
          excl := fun h => by
            have : s.currentAccident.active = true := h.2
            rw [hact] at this
            exact Bool.noConfusion this
          tow := fun h => MissionType.noConfusion h
          keep := by
            intro w hw
            rcases hmem w hw with rfl | rfl | h
            · exact hinv.keep v2 hm2
            · exact hinv.keep v1 hm1
            · exact hinv.keep w h
          crashed := by
            intro w hw hc
            rcases hmem w hw with rfl | rfl | h
            · exact hinv.crashed v2 hm2 hc
            · exact hinv.crashed v1 hm1 hc
            · exact hinv.crashed w h hc
          roam := by
            intro w hw hfl hc
            refine ⟨rfl, ?_⟩
            rcases hmem w hw with rfl | rfl | h
            · left
              show (s.vehiclesBottom[j]?).map (fun v => v.id) = _
              rw [hv2]; rfl
            · right
              show (s.vehiclesBottom[i]?).map (fun v => v.id) = _
              rw [hv1]; rfl
            · obtain ⟨hr, ha⟩ := hclean w h hc
              rcases hfl with hfl | hfl
              · rw [hr] at hfl; exact Bool.noConfusion hfl
              · rw [ha] at hfl; exact Bool.noConfusion hfl
          pair := by
            intro _
            refine ⟨markTarget v2, hT, markReckless v1, hR, ?_, ?_, ?_, ?_, ?_, ?_⟩
            · show (s.vehiclesBottom[j]?).map (fun v => v.id) = _
              rw [hv2]; rfl
            · show (s.vehiclesBottom[i]?).map (fun v => v.id) = _
              rw [hv1]; rfl
            · exact
                { cls := k2, notCrashed := c2, notTowed := t2, target := rfl, notReckless := r2
                  dir := d2
                  speed_nonneg := by show 0 ≤ v2.speed * (2 / 5); linarith
                  speed_le := by show v2.speed * (2 / 5) ≤ 1; linarith }
            · exact
                { cls := k1, notCrashed := c1, notTowed := t1, reckless := rfl, notTarget := a1
                  dir := d1, moving := mv1
                  speed_ge := by show 28 / 5 ≤ v1.speed * (14 / 5); linarith
                  speed_le := by show v1.speed * (14 / 5) ≤ 7; linarith }
            · show 73 ≤ v1.x - v2.x
              linarith
            · show 300 < 23 * v2.x - 5 * (v1.x - v2.x)
              linarith
          wreck := fun h => by
            have : s.currentAccident.active = true := h
            rw [hact] at this
            exact Bool.noConfusion this
          plain := by
            intro w hw hpl
            rcases hmem w hw with rfl | rfl | h
            · exact Bool.noConfusion (hpl.2.2.1 : true = false)
            · exact Bool.noConfusion (hpl.2.1 : true = false)
            · exact hinv.plain w h hpl }

/-! ### The culling -/

theorem cullPred_remove (v : Vehicle) (acc : Accident) (w : Bool) :
    (cullPred v acc w).remove = cullRemoves v := by
  unfold cullPred cullRemoves
  by_cases h1 : v.IsDepannage = true
  · rw [if_pos h1, if_pos h1]
  · rw [if_neg h1, if_neg h1]
    by_cases h2 : v.IsSchoolBus = true
    · rw [if_pos h2, if_pos h2]
    · rw [if_neg h2, if_neg h2]
      by_cases h3 : (v.isReckless || v.isAccidentTarget || v.isCrashed || v.isTowed) = true
      · rw [if_pos h3, if_pos h3]
        by_cases h4 : (decide (v.x > -2000) && !v.toBeRemoved) = true
        · rw [if_pos h4, h4]; rfl
        · rw [if_neg h4]
          simp only [Bool.not_eq_true] at h4
          rw [h4]; rfl
      · rw [if_neg h3, if_neg h3]
        by_cases h4 : (v.IsOffScreen || v.toBeRemoved) = true
        · rw [if_pos h4, h4]
          split_ifs <;> rfl
        · rw [if_neg h4]
          simp only [Bool.not_eq_true] at h4
          rw [h4]

/-- The vehicles the culling keeps are those on which the predicate is false. -/
theorem cullBottom_vehicles (vs : List Vehicle) (acc : Accident) (w : Bool) :
    (cullBottom vs acc w).vehicles = vs.filter (fun v => !cullRemoves v) := by
  induction vs generalizing acc w with
  | nil => rfl
  | cons v vs ih =>
    simp only [cullBottom, cullPred_remove, ih, List.filter_cons]
    cases cullRemoves v <;> simp

/-- The predicate leaves the accident record alone on a tow truck, a school bus,
a vehicle it keeps, and a vehicle that is no participant and has none of the
flags reckless, accident-target, crashed. -/
theorem cullPred_acc_eq (v : Vehicle) (acc : Accident) (w : Bool)
    (h : v.IsDepannage = true ∨ v.IsSchoolBus = true ∨ cullRemoves v = false ∨
      (acc.car1 ≠ some v.id ∧ acc.car2 ≠ some v.id ∧ v.isAccidentTarget = false ∧
        v.isReckless = false ∧ v.isCrashed = false)) :
    (cullPred v acc w).acc = acc := by
  have hrem := cullPred_remove v acc w
  unfold cullPred at hrem ⊢
  by_cases h1 : v.IsDepannage = true
  · rw [if_pos h1]
  · rw [if_neg h1] at hrem ⊢
    by_cases h2 : v.IsSchoolBus = true
    · rw [if_pos h2]
    · rw [if_neg h2] at hrem ⊢
      have hcase : cullRemoves v = false ∨
          (acc.car1 ≠ some v.id ∧ acc.car2 ≠ some v.id ∧ v.isAccidentTarget = false ∧
            v.isReckless = false ∧ v.isCrashed = false) := by
        rcases h with h | h | h | h
        · exact absurd h h1
        · exact absurd h h2
        · exact Or.inl h
        · exact Or.inr h
      by_cases h3 : (v.isReckless || v.isAccidentTarget || v.isCrashed || v.isTowed) = true
      · rw [if_pos h3] at hrem ⊢
        by_cases h4 : (decide (v.x > -2000) && !v.toBeRemoved) = true
        · rw [if_pos h4]
        · rw [if_neg h4] at hrem ⊢
          rcases hcase with hc | ⟨c1, c2, c3, c4, c5⟩
          · rw [hc] at hrem
            exact Bool.noConfusion (hrem : true = false)
          · dsimp only
            rw [if_neg c1, if_neg c2, if_neg (by simp [c3, c4, c5])]
      · rw [if_neg h3] at hrem ⊢
        by_cases h4 : (v.IsOffScreen || v.toBeRemoved) = true
        · rw [if_pos h4] at hrem ⊢
          rcases hcase with hc | ⟨c1, c2, _⟩
          · rw [hc] at hrem
            split_ifs at hrem
          · rw [if_neg (by simp [c1, c2])]
        · rw [if_neg h4]

theorem cullBottom_acc_eq (vs : List Vehicle) (acc : Accident) (w : Bool)
    (h : ∀ v ∈ vs, v.IsDepannage = true ∨ v.IsSchoolBus = true ∨ cullRemoves v = false ∨
      (acc.car1 ≠ some v.id ∧ acc.car2 ≠ some v.id ∧ v.isAccidentTarget = false ∧
        v.isReckless = false ∧ v.isCrashed = false)) :
    (cullBottom vs acc w).acc = acc := by
  induction vs generalizing w with
  | nil => rfl
  | cons v vs ih =>
    simp only [cullBottom]
    rw [cullPred_acc_eq v acc w (h v (List.mem_cons_self _ _))]
    exact ih _ (fun u hu => h u (List.mem_cons_of_mem _ hu))

theorem cullRemoves_flagged {v : Vehicle} (hd : v.IsDepannage = false)
    (hb : v.IsSchoolBus = false)
    (hfl : v.isReckless = true ∨ v.isAccidentTarget = true ∨ v.isCrashed = true)
    (hx : -2000 < v.x) (hr : v.toBeRemoved = false) : cullRemoves v = false := by
  unfold cullRemoves
  rw [if_neg (by rw [hd]; decide), if_neg (by rw [hb]; decide),
    if_pos (by rcases hfl with h | h | h <;> simp [h])]
  simp [hx, hr]

theorem cullRemoves_flagged_car {v : Vehicle} (hk : v.cls = .Car)
    (hfl : v.isReckless = true ∨ v.isAccidentTarget = true ∨ v.isCrashed = true)
    (hx : -2000 < v.x) (hr : v.toBeRemoved = false) : cullRemoves v = false :=
  cullRemoves_flagged ((cls_car_iff v).1 hk).2.1 ((cls_car_iff v).1 hk).2.2 hfl hx hr

/-- The culling keeps the invariant: it removes no participant of a pending or
active accident and no vehicle flagged reckless, accident-target or crashed, so
it leaves the `pending` and `active` flags as they are. -/
theorem Inv.cullStage {s : Simulation} (hinv : Inv 73 s) : Inv 73 s.cullStage := by
  have hvb : s.cullStage.vehiclesBottom =
      s.vehiclesBottom.filter (fun v => !cullRemoves v) := cullBottom_vehicles _ _ _
  have hsub : ∀ w, w ∈ s.cullStage.vehiclesBottom → w ∈ s.vehiclesBottom := by
    intro w hw
    rw [hvb] at hw
    exact (List.mem_filter.1 hw).1
  have hkept : ∀ w ∈ s.vehiclesBottom, cullRemoves w = false →
      w ∈ s.cullStage.vehiclesBottom := by
    intro w hw hr
    rw [hvb]
    exact List.mem_filter.2 ⟨hw, by simp [hr]⟩
  -- the participants stay on the road
  have hptr : (s.currentAccident.pending = true ∨ s.currentAccident.active = true) →
      ∀ v ∈ s.vehiclesBottom,
        (s.currentAccident.car1 = some v.id ∨ s.currentAccident.car2 = some v.id) →
        cullRemoves v = false := by
    intro hph v hv hp
    rcases hph with hpend | hact
    · obtain ⟨a, ha, b, hb, h1, h2, hl, ht, hg1, hg2⟩ := hinv.pair hpend
      have hva : v = a ∨ v = b := by
        rcases hp with hp | hp
        · rw [h1] at hp
          exact Or.inl (eq_of_id_eq hinv.nodup hv ha (Option.some.inj hp).symm)
        · rw [h2] at hp
          exact Or.inr (eq_of_id_eq hinv.nodup hv hb (Option.some.inj hp).symm)
      rcases hva with rfl | rfl
      · exact cullRemoves_flagged_car hl.cls (Or.inr (Or.inl hl.target)) (by linarith)
          (hinv.keep _ ha)
      · exact cullRemoves_flagged_car ht.cls (Or.inl ht.reckless) (by linarith)
          (hinv.keep _ hb)
    · obtain ⟨a, ha, b, hb, h1, h2, hca, hcb, _, _, _, hka, hkb⟩ := hinv.wreck hact
      have hva : v = a ∨ v = b := by
        rcases hp with hp | hp
        · rw [h1] at hp
          exact Or.inl (eq_of_id_eq hinv.nodup hv ha (Option.some.inj hp).symm)
        · rw [h2] at hp
          exact Or.inr (eq_of_id_eq hinv.nodup hv hb (Option.some.inj hp).symm)
      rcases hva with rfl | rfl
      · exact cullRemoves_flagged_car hka (Or.inr (Or.inr hca)) (hinv.crashed _ ha hca).1
          (hinv.keep _ ha)
      · exact cullRemoves_flagged_car hkb (Or.inr (Or.inr hcb)) (hinv.crashed _ hb hcb).1
          (hinv.keep _ hb)
  -- so the record is untouched while an accident is pending or active
  have hacc : (s.currentAccident.pending = true ∨ s.currentAccident.active = true) →
      s.cullStage.currentAccident = s.currentAccident := by
    intro hph
    refine cullBottom_acc_eq _ _ _ (fun v hv => ?_)
    by_cases hp : s.currentAccident.car1 = some v.id ∨ s.currentAccident.car2 = some v.id
    · exact Or.inr (Or.inr (Or.inl (hptr hph v hv hp)))
    · simp only [not_or] at hp
      by_cases hd : v.IsDepannage = true
      · exact Or.inl hd
      by_cases hb : v.IsSchoolBus = true
      · exact Or.inr (Or.inl hb)
      simp only [Bool.not_eq_true] at hd hb
      by_cases hc : v.isCrashed = true
      · exact Or.inr (Or.inr (Or.inl (cullRemoves_flagged hd hb (Or.inr (Or.inr hc))
          (hinv.crashed v hv hc).1 (hinv.keep v hv))))
      · simp only [Bool.not_eq_true] at hc
        by_cases hfl : v.isReckless = true ∨ v.isAccidentTarget = true
        · exact absurd (hinv.roam v hv hfl hc).2 (by simp [hp.1, hp.2])
        · simp only [not_or, Bool.not_eq_true] at hfl
          exact Or.inr (Or.inr (Or.inr ⟨hp.1, hp.2, hfl.2, hfl.1, hc⟩))
  -- without an accident the flags stay down
  have hidle : s.currentAccident.pending = false → s.currentAccident.active = false →
      s.cullStage.currentAccident.pending = false ∧
        s.cullStage.currentAccident.active = false := by
    intro hp ha
    have hf := cullBottom_flags s.vehiclesBottom s.currentAccident s.waitingForTowToLeave
    constructor
    · by_contra hcon
      simp only [Bool.not_eq_false] at hcon
      have := hf.2 hcon
      rw [hp] at this
      exact Bool.noConfusion this
    · by_contra hcon
      simp only [Bool.not_eq_false] at hcon
      have := hf.1 hcon
      rw [ha] at this
      exact Bool.noConfusion this
  have hflags : s.cullStage.currentAccident.pending = s.currentAccident.pending ∧
      s.cullStage.currentAccident.active = s.currentAccident.active := by
    by_cases hph : s.currentAccident.pending = true ∨ s.currentAccident.active = true
    · rw [hacc hph]; exact ⟨rfl, rfl⟩
    · simp only [not_or, Bool.not_eq_true] at hph
      obtain ⟨h1, h2⟩ := hidle hph.1 hph.2
      rw [h1, h2, hph.1, hph.2]; exact ⟨rfl, rfl⟩
  exact
    { nodup := by
        rw [hvb]
        exact hinv.nodup.sublist ((List.filter_sublist _).map _)
      fresh := fun w hw => hinv.fresh w (hsub w hw)
      excl := by rw [hflags.1, hflags.2]; exact hinv.excl
      tow := fun hm => by
        rw [hflags.2]
        exact ⟨(hinv.tow hm).1, fun w hw => (hinv.tow hm).2 w (hsub w hw)⟩
      keep := fun w hw => hinv.keep w (hsub w hw)
      crashed := fun w hw => hinv.crashed w (hsub w hw)
      roam := fun w hw hfl hc => by
        have hr := hinv.roam w (hsub w hw) hfl hc
        rw [hacc (Or.inl hr.1)]
        exact hr
      pair := fun hp => by
        rw [hflags.1] at hp
        rw [hacc (Or.inl hp)]
        obtain ⟨a, ha, b, hb, h1, h2, rest⟩ := hinv.pair hp
        exact ⟨a, hkept a ha (hptr (Or.inl hp) a ha (Or.inl h1)), b,
          hkept b hb (hptr (Or.inl hp) b hb (Or.inr h2)), h1, h2, rest⟩
      wreck := fun ha' => by
        rw [hflags.2] at ha'
        rw [hacc (Or.inr ha')]
        obtain ⟨a, ha, b, hb, h1, h2, rest⟩ := hinv.wreck ha'
        exact ⟨a, hkept a ha (hptr (Or.inr ha') a ha (Or.inl h1)), b,
          hkept b hb (hptr (Or.inr ha') b hb (Or.inr h2)), h1, h2, rest⟩
      plain := fun w hw => hinv.plain w (hsub w hw) }

/-! ### The transition and the tow resolution -/

theorem findById_of_mem {vs : List Vehicle} (hn : (vs.map Vehicle.id).Nodup) {a : Vehicle}
    (ha : a ∈ vs) : findById vs a.id = some a := by
  unfold findById
  induction vs with
  | nil => simp at ha
  | cons v vs ih =>
    rw [List.map_cons, List.nodup_cons] at hn
    rw [List.find?_cons]
    rcases List.mem_cons.1 ha with rfl | h
    · simp
    · have hne : v.id ≠ a.id := fun he => hn.1 (he ▸ List.mem_map_of_mem _ h)
      have : (v.id == a.id) = false := by simpa using hne
      rw [this]
      exact ih hn.2 h

/-- The invariant with another gap bound, when a pending pair meets it. -/
theorem Inv.regap {g g' : ℚ} {s : Simulation} (hinv : Inv g s)
    (h : s.currentAccident.pending = true → ∀ a ∈ s.vehiclesBottom, ∀ b ∈ s.vehiclesBottom,
      s.currentAccident.car1 = some a.id → s.currentAccident.car2 = some b.id →
      g' ≤ b.x - a.x) : Inv g' s :=
  { nodup := hinv.nodup, fresh := hinv.fresh, excl := hinv.excl, tow := hinv.tow
    keep := hinv.keep, crashed := hinv.crashed, roam := hinv.roam
    pair := fun hp => by
      obtain ⟨a, ha, b, hb, h1, h2, hl, ht, _, hg2⟩ := hinv.pair hp
      exact ⟨a, ha, b, hb, h1, h2, hl, ht, h hp a ha b hb h1 h2, hg2⟩
    wreck := hinv.wreck, plain := hinv.plain }

theorem assignIfAmbulance_car (accX accY : ℚ) (v : Vehicle) (h : v.IsAmbulance = false) :
    assignIfAmbulance accX accY v = v := by
  unfold assignIfAmbulance
  rw [if_neg (by rw [h]; decide)]

theorem assignIfAmbulance_core (accX accY : ℚ) (v : Vehicle) :
    (assignIfAmbulance accX accY v).core = v.core := by
  unfold assignIfAmbulance Vehicle.AssignAccident
  split_ifs with h
  · unfold Vehicle.IsAmbulance at h
    split
    · rename_i d hd
      simp [Vehicle.core, Vehicle.IsAmbulance, Vehicle.IsDepannage, Vehicle.IsSchoolBus, hd]
    · rename_i hd
      split at h
      · rename_i d' hd'
        exact absurd hd' (hd d')
      · exact absurd h (by decide)
  · rfl

/-- The writes of the transition to the flags, by cases on the identity. -/
theorem crashFlags_cases (c1 c2 : Nat) (v : Vehicle) :
    (v.id ≠ c1 → v.id ≠ c2 → crashFlags c1 c2 v = v) ∧
      (v.id = c1 → v.id ≠ c2 →
        crashFlags c1 c2 v = { v with isCrashed := true, moving := false }) ∧
      (v.id = c2 →
        crashFlags c1 c2 v = { v with isCrashed := true, isReckless := false, moving := false }) := by
  unfold crashFlags
  refine ⟨fun h1 h2 => ?_, fun h1 h2 => ?_, fun h2 => ?_⟩
  · simp [h1, h2]
  · subst h1
    simp [h2]
  · subst h2
    by_cases h1 : v.id = c1
    · subst h1; simp
    · simp [h1]

/-- The transition keeps the invariant and leaves a pending pair at least 80
apart: a pair closer than 80 (and, by the invariant, at least 73 apart) crashes. -/
theorem Inv.transitionStage {s : Simulation} (hinv : Inv 73 s) : Inv 80 s.transitionStage := by
  by_cases hp : s.currentAccident.pending = true
  swap
  · have hT : s.transitionStage = s := by
      unfold Simulation.transitionStage
      simp [hp]
    rw [hT]
    exact hinv.regap (fun h => absurd h hp)
  obtain ⟨a, ha, b, hb, h1, h2, hl, ht, hg1, hg2⟩ := hinv.pair hp
  have hfa := findById_of_mem hinv.nodup ha
  have hfb := findById_of_mem hinv.nodup hb
  have hab : a.id ≠ b.id := by
    intro he
    have := eq_of_id_eq hinv.nodup ha hb he
    rw [this] at hg1
    linarith
  by_cases hwin : b.x - a.x < VEHICLE_WIDTH - 10 ∧ b.x - a.x > -VEHICLE_WIDTH
  swap
  · rw [transitionStage_wait s a.id b.id a b hp h1 h2 hfa hfb hwin]
    refine hinv.regap (fun _ a' ha' b' hb' e1 e2 => ?_)
    rw [h1] at e1
    rw [h2] at e2
    rw [← eq_of_id_eq hinv.nodup ha ha' (Option.some.inj e1),
      ← eq_of_id_eq hinv.nodup hb hb' (Option.some.inj e2)]
    unfold VEHICLE_WIDTH at hwin
    by_contra hcon
    exact hwin ⟨by linarith, by linarith⟩
  rw [transitionStage_crash s a.id b.id a b hp h1 h2 hfa hfb hwin]
  -- the writes, vehicle by vehicle
  have hcase : ∀ v ∈ s.vehiclesBottom, v = a ∨ v = b ∨ (v.id ≠ a.id ∧ v.id ≠ b.id) := by
    intro v hv
    by_cases e1 : v.id = a.id
    · exact Or.inl (eq_of_id_eq hinv.nodup hv ha e1)
    · by_cases e2 : v.id = b.id
      · exact Or.inr (Or.inl (eq_of_id_eq hinv.nodup hv hb e2))
      · exact Or.inr (Or.inr ⟨e1, e2⟩)
  have hFa : crashWrites a.id b.id (a.x + VEHICLE_WIDTH / 2) a.y a =
      { a with isCrashed := true, moving := false } := by
    unfold crashWrites
    rw [(crashFlags_cases a.id b.id a).2.1 rfl hab]
    refine assignIfAmbulance_car _ _ _ ?_
    show Vehicle.IsAmbulance { a with isCrashed := true, moving := false } = false
    unfold Vehicle.IsAmbulance
    simp [hl.cls]
  have hFb : crashWrites a.id b.id (a.x + VEHICLE_WIDTH / 2) a.y b =
      { b with isCrashed := true, isReckless := false, moving := false } := by
    unfold crashWrites
    rw [(crashFlags_cases a.id b.id b).2.2 rfl]
    refine assignIfAmbulance_car _ _ _ ?_
    unfold Vehicle.IsAmbulance
    simp [ht.cls]
  have hFo : ∀ v : Vehicle, v.id ≠ a.id → v.id ≠ b.id →
      crashWrites a.id b.id (a.x + VEHICLE_WIDTH / 2) a.y v =
        assignIfAmbulance (a.x + VEHICLE_WIDTH / 2) a.y v := by
    intro v n1 n2
    unfold crashWrites
    rw [(crashFlags_cases a.id b.id v).1 n1 n2]
  have hspec := crashWrites_spec a.id b.id (a.x + VEHICLE_WIDTH / 2) a.y
  exact
    { nodup := by
        show (List.map Vehicle.id (List.map _ s.vehiclesBottom)).Nodup
        rw [List.map_map]
        have : (Vehicle.id ∘ crashWrites a.id b.id (a.x + VEHICLE_WIDTH / 2) a.y) =
            Vehicle.id := funext (fun v => (hspec v).1)
        rw [this]
        exact hinv.nodup
      fresh := by
        intro w hw
        obtain ⟨v, hv, rfl⟩ := List.mem_map.1 hw
        rw [(hspec v).1]
        exact hinv.fresh v hv
      excl := fun h => Bool.noConfusion h.1
      tow := fun hm => absurd ⟨hp, (hinv.tow hm).1⟩ hinv.excl
      keep := by
        intro w hw
        obtain ⟨v, hv, rfl⟩ := List.mem_map.1 hw
        rcases hcase v hv with rfl | rfl | ⟨n1, n2⟩
        · rw [hFa]; exact hinv.keep v hv
        · rw [hFb]; exact hinv.keep v hv
        · rw [hFo v n1 n2, (core_flags (assignIfAmbulance_core _ _ v)).2.2.2.2.2.2]
          exact hinv.keep v hv
      crashed := by
        intro w hw hc
        obtain ⟨v, hv, rfl⟩ := List.mem_map.1 hw
        rcases hcase v hv with rfl | rfl | ⟨n1, n2⟩
        · rw [hFa]
          exact ⟨show -2000 < v.x by linarith, hl.notTowed⟩
        · rw [hFb]
          exact ⟨show -2000 < v.x by linarith, ht.notTowed⟩
        · rw [hFo v n1 n2] at hc
          have hf := core_flags (assignIfAmbulance_core (a.x + VEHICLE_WIDTH / 2) a.y v)
          rw [hf.2.1] at hc
          rw [(hspec v).2.1, hFo v n1 n2, hf.2.2.1]
          exact hinv.crashed v hv hc
      roam := by
        intro w hw hfl hc
        obtain ⟨v, hv, rfl⟩ := List.mem_map.1 hw
        rcases hcase v hv with rfl | rfl | ⟨n1, n2⟩
        · rw [hFa] at hc; exact Bool.noConfusion hc
        · rw [hFb] at hc; exact Bool.noConfusion hc
        · rw [hFo v n1 n2] at hc hfl
          have hf := core_flags (assignIfAmbulance_core (a.x + VEHICLE_WIDTH / 2) a.y v)
          rw [hf.2.1] at hc
          rw [hf.2.2.2.1, hf.2.2.2.2.1] at hfl
          have hr := (hinv.roam v hv hfl hc).2
          rw [h1, h2] at hr
          rcases hr with hr | hr
          · exact absurd (Option.some.inj hr).symm n1
          · exact absurd (Option.some.inj hr).symm n2
      pair := fun h => Bool.noConfusion h
      wreck := by
        intro _
        refine ⟨_, List.mem_map_of_mem _ ha, _, List.mem_map_of_mem _ hb, ?_, ?_, ?_⟩
        · rw [(hspec a).1]; exact h1
        · rw [(hspec b).1]; exact h2
        · rw [hFa, hFb]
          exact ⟨rfl, rfl, hl.notReckless, rfl, ht.notTarget, hl.cls, ht.cls⟩
      plain := by
        intro w hw hpl
        obtain ⟨v, hv, rfl⟩ := List.mem_map.1 hw
        rcases hcase v hv with rfl | rfl | ⟨n1, n2⟩
        · rw [hFa] at hpl; exact Bool.noConfusion hpl.2.2.2.1
        · rw [hFb] at hpl; exact Bool.noConfusion hpl.2.2.2.1
        · rw [hFo v n1 n2] at hpl ⊢
          have hcm := core_more (assignIfAmbulance_core (a.x + VEHICLE_WIDTH / 2) a.y v)
          have hamb : v.IsAmbulance = false := by
            rw [← hcm.2.2.2.1]
            exact ((cls_car_iff _).1 hpl.1).1
          rw [assignIfAmbulance_car _ _ v hamb] at hpl ⊢
          exact hinv.plain v hv hpl }

theorem hasPickedUp_isDepannage {v : Vehicle} (h : v.hasPickedUp = true) :
    v.IsDepannage = true := by
  unfold Vehicle.hasPickedUp at h
  unfold Vehicle.IsDepannage
  split at h
  · rfl
  · exact Bool.noConfusion h

/-- The two statements of the tow resolution are `towWrites` on every vehicle. -/
theorem resolution_writes_eq (c1 c2 : Nat) (tow : Vehicle) (vs : List Vehicle) :
    modifyById c2 (towSecond tow) (modifyById c1 (towFirst tow) vs) =
      vs.map (towWrites c1 c2 tow) := by
  unfold modifyById
  rw [List.map_map]
  rfl

/-- What the tow resolution writes to a vehicle: a participant ends towed and not
crashed, the leading one without its accident-target flag; every other vehicle
is left as it is. -/
theorem towWrites_spec (c1 c2 : Nat) (tow v : Vehicle) :
    (towWrites c1 c2 tow v).id = v.id ∧
      (towWrites c1 c2 tow v).toBeRemoved = v.toBeRemoved ∧
      (towWrites c1 c2 tow v).isReckless = v.isReckless ∧
      (v.id = c1 ∨ v.id = c2 →
        (towWrites c1 c2 tow v).isCrashed = false ∧ (towWrites c1 c2 tow v).isTowed = true) ∧
      (v.id = c1 → (towWrites c1 c2 tow v).isAccidentTarget = false) ∧
      (v.id ≠ c1 → (towWrites c1 c2 tow v).isAccidentTarget = v.isAccidentTarget) ∧
      (v.id ≠ c1 → v.id ≠ c2 → towWrites c1 c2 tow v = v) := by
  unfold towWrites
  by_cases e1 : v.id = c1
  · have hu : (if v.id = c1 then towFirst tow v else v) = towFirst tow v := if_pos e1
    rw [hu]
    by_cases e2 : (towFirst tow v).id = c2
    · rw [if_pos e2]
      exact ⟨rfl, rfl, rfl, fun _ => ⟨rfl, rfl⟩, fun _ => rfl, fun h => absurd e1 h,
        fun h => absurd e1 h⟩
    · rw [if_neg e2]
      exact ⟨rfl, rfl, rfl, fun _ => ⟨rfl, rfl⟩, fun _ => rfl, fun h => absurd e1 h,
        fun h => absurd e1 h⟩
  · have hu : (if v.id = c1 then towFirst tow v else v) = v := if_neg e1
    rw [hu]
    by_cases e2 : v.id = c2
    · rw [if_pos e2]
      exact ⟨rfl, rfl, rfl, fun _ => ⟨rfl, rfl⟩, fun h => absurd h e1, fun _ => rfl,
        fun _ h => absurd e2 h⟩
    · rw [if_neg e2]
      exact ⟨rfl, rfl, rfl, fun h => by rcases h with h | h <;> contradiction,
        fun h => absurd h e1, fun _ => rfl, fun _ _ => rfl⟩

/-- The tow resolution keeps the invariant: it only fires with a tow truck on the
road, hence not during a tow mission, and it leaves the two wrecks towed without
any accident flag. -/
theorem Inv.resolutionStage {g : ℚ} {s : Simulation} (hinv : Inv g s) (aTow : Option Nat) :
    Inv g (s.resolutionStage aTow) := by
  unfold Simulation.resolutionStage
  split
  · exact hinv
  · rename_i t
    split
    · exact hinv
    · rename_i tow htow
      split_ifs with hfire
      swap
      · exact hinv
      simp only [Bool.and_eq_true] at hfire
      obtain ⟨hpick, hact⟩ := hfire
      have htowmem : tow ∈ s.vehiclesBottom := List.getElem?_mem htow
      obtain ⟨a, ha, b, hb, h1, h2, hca, hcb, hra, hrb, htb, hka, hkb⟩ := hinv.wreck hact
      have hpend : s.currentAccident.pending = false := by
        by_contra hcon
        simp only [Bool.not_eq_false] at hcon
        exact hinv.excl ⟨hcon, hact⟩
      rw [h1, h2]
      dsimp only
      rw [resolution_writes_eq]
      have hG := towWrites_spec a.id b.id tow
      exact
        { nodup := by
            show (List.map Vehicle.id (List.map _ s.vehiclesBottom)).Nodup
            rw [List.map_map]
            have : (Vehicle.id ∘ towWrites a.id b.id tow) = Vehicle.id :=
              funext (fun v => (hG v).1)
            rw [this]
            exact hinv.nodup
          fresh := by
            intro w hw
            obtain ⟨v, hv, rfl⟩ := List.mem_map.1 hw
            rw [(hG v).1]
            exact hinv.fresh v hv
          excl := fun h => Bool.noConfusion h.2
          tow := fun hm => by
            have := (hinv.tow hm).2 tow htowmem
            rw [hasPickedUp_isDepannage hpick] at this
            exact Bool.noConfusion this
          keep := by
            intro w hw
            obtain ⟨v, hv, rfl⟩ := List.mem_map.1 hw
            rw [(hG v).2.1]
            exact hinv.keep v hv
          crashed := by
            intro w hw hc
            obtain ⟨v, hv, rfl⟩ := List.mem_map.1 hw
            by_cases e : v.id = a.id ∨ v.id = b.id
            · rw [((hG v).2.2.2.1 e).1] at hc
              exact Bool.noConfusion hc
            · simp only [not_or] at e
              rw [(hG v).2.2.2.2.2.2 e.1 e.2] at hc ⊢
              exact hinv.crashed v hv hc
          roam := by
            intro w hw hfl hc
            obtain ⟨v, hv, rfl⟩ := List.mem_map.1 hw
            exfalso
            rw [(hG v).2.2.1] at hfl
            by_cases e1 : v.id = a.id
            · have hva := eq_of_id_eq hinv.nodup hv ha e1
              rw [(hG v).2.2.2.2.1 e1, hva, hra] at hfl
              rcases hfl with h | h <;> exact Bool.noConfusion h
            · rw [(hG v).2.2.2.2.2.1 e1] at hfl
              by_cases e2 : v.id = b.id
              · have hvb := eq_of_id_eq hinv.nodup hv hb e2
                rw [hvb, hrb, htb] at hfl
                rcases hfl with h | h <;> exact Bool.noConfusion h
              · rw [(hG v).2.2.2.2.2.2 e1 e2] at hc
                have := (hinv.roam v hv hfl hc).1
                rw [hpend] at this
                exact Bool.noConfusion this
          pair := fun hp => by
            have : s.currentAccident.pending = true := hp
            rw [hpend] at this
            exact Bool.noConfusion this
          wreck := fun h => Bool.noConfusion h
          plain := by
            intro w hw hpl
            obtain ⟨v, hv, rfl⟩ := List.mem_map.1 hw
            by_cases e : v.id = a.id ∨ v.id = b.id
            · have := hpl.2.2.2.2
              rw [((hG v).2.2.2.1 e).2] at this
              exact Bool.noConfusion this
            · simp only [not_or] at e
              rw [(hG v).2.2.2.2.2.2 e.1 e.2] at hpl ⊢
              exact hinv.plain v hv hpl }

/-! ### The main loop, vehicle by vehicle -/

theorem forall2_of_getElem {R : Vehicle → Vehicle → Prop} {vs ws : List Vehicle}
    (hlen : ws.length = vs.length)
    (h : ∀ (k : Nat) v w, vs[k]? = some v → ws[k]? = some w → R v w) :
    List.Forall₂ R vs ws := by
  induction vs generalizing ws with
  | nil =>
    cases ws with
    | nil => exact List.Forall₂.nil
    | cons w ws => simp at hlen
  | cons v vs ih =>
    cases ws with
    | nil => simp at hlen
    | cons w ws =>
      refine List.Forall₂.cons (h 0 v w (by simp) (by simp)) (ih (by simpa using hlen) ?_)
      intro k v' w' hv hw
      exact h (k + 1) v' w' (by simpa using hv) (by simpa using hw)

/-- A loop whose iteration `i` only writes element `i` relates every element to
what its own iteration makes of it. -/
theorem fold_pointwise {R : Vehicle → Vehicle → Prop}
    (step : List Vehicle → Nat → List Vehicle)
    (hne : ∀ vs i k, k ≠ i → (step vs i)[k]? = vs[k]?)
    (hat : ∀ vs i v, vs[i]? = some v → ∃ w, (step vs i)[i]? = some w ∧ R v w)
    (idxs : List Nat) (hnd : idxs.Nodup) (vs : List Vehicle) (k : Nat) (v : Vehicle)
    (hv : vs[k]? = some v) :
    ∃ w, (idxs.foldl step vs)[k]? = some w ∧ (k ∈ idxs → R v w) ∧ (k ∉ idxs → w = v) := by
  induction idxs generalizing vs v with
  | nil => exact ⟨v, hv, fun h => absurd h (List.not_mem_nil _), fun _ => rfl⟩
  | cons i idxs ih =>
    rw [List.nodup_cons] at hnd
    rw [List.foldl_cons]
    by_cases hki : k = i
    · subst hki
      obtain ⟨w, hw, hr⟩ := hat vs k v hv
      obtain ⟨w', hw', _, hsame⟩ := ih hnd.2 (step vs k) w hw
      refine ⟨w', hw', fun _ => ?_, fun h => absurd (List.mem_cons_self _ _) h⟩
      rw [hsame hnd.1]
      exact hr
    · have hv' : (step vs i)[k]? = some v := by rw [hne vs i k hki]; exact hv
      obtain ⟨w', hw', hin, hout⟩ := ih hnd.2 (step vs i) v hv'
      refine ⟨w', hw', fun h => ?_, fun h => ?_⟩
      · rcases List.mem_cons.1 h with h | h
        · exact absurd h hki
        · exact hin h
      · exact hout (fun h' => h (List.mem_cons_of_mem _ h'))

theorem easeY_fields (v : Vehicle) :
    v.easeY.x = v.x ∧ v.easeY.cls = v.cls ∧ v.easeY.moving = v.moving := by
  unfold Vehicle.easeY
  split_ifs <;> exact ⟨rfl, rfl, rfl⟩

/-- The motion of the base-class `Update`: the class and `moving` stay, `x` stays
or advances by the stride, and it advances for a reckless moving vehicle that is
neither crashed nor towed. -/
theorem baseUpdate_motion (u : Vehicle) (st : Bool) :
    (u.baseUpdate st).cls = u.cls ∧ (u.baseUpdate st).moving = u.moving ∧
      ((u.baseUpdate st).x = u.x ∨ (u.baseUpdate st).x = u.x + u.stride) ∧
      (u.isReckless = true → u.moving = true → u.isCrashed = false → u.isTowed = false →
        (u.baseUpdate st).x = u.x + u.stride) := by
  unfold Vehicle.baseUpdate Vehicle.stride
  by_cases hc : (u.isCrashed && !u.isTowed) = true
  · rw [if_pos hc]
    refine ⟨rfl, rfl, Or.inl rfl, fun _ _ h1 h2 => ?_⟩
    rw [h1] at hc
    exact Bool.noConfusion hc
  · rw [if_neg hc]
    by_cases ht : u.isTowed = true
    · rw [if_pos ht]
      refine ⟨rfl, rfl, Or.inl rfl, fun _ _ _ h2 => ?_⟩
      rw [h2] at ht
      exact Bool.noConfusion ht
    · rw [if_neg ht]
      dsimp only
      rw [(easeY_fields _).1, (easeY_fields _).2.1, (easeY_fields _).2.2]
      by_cases hr : u.isReckless = true
      · simp only [hr, if_true]
        by_cases hm : u.moving = true
        · simp [hm]
        · simp [hm]
      · simp only [hr, if_false, Bool.false_eq_true]
        split_ifs <;> simp [hr]

theorem sansLane_fields {v w : Vehicle} (h : w.sansLane = v.sansLane) :
    w.x = v.x ∧ w.cls = v.cls ∧ w.moving = v.moving ∧ w.speed = v.speed ∧
      w.dirRight = v.dirRight ∧ w.isReckless = v.isReckless ∧ w.isCrashed = v.isCrashed ∧
      w.isTowed = v.isTowed :=
  ⟨(congrArg Vehicle.x h : w.sansLane.x = v.sansLane.x),
    (congrArg Vehicle.cls h : w.sansLane.cls = v.sansLane.cls),
    (congrArg Vehicle.moving h : w.sansLane.moving = v.sansLane.moving),
    (congrArg Vehicle.speed h : w.sansLane.speed = v.sansLane.speed),
    (congrArg Vehicle.dirRight h : w.sansLane.dirRight = v.sansLane.dirRight),
    (congrArg Vehicle.isReckless h : w.sansLane.isReckless = v.sansLane.isReckless),
    (congrArg Vehicle.isCrashed h : w.sansLane.isCrashed = v.sansLane.isCrashed),
    (congrArg Vehicle.isTowed h : w.sansLane.isTowed = v.sansLane.isTowed)⟩

theorem avoidAccident_sansLane (acc : Accident) (v : Vehicle) :
    (avoidAccident acc v).sansLane = v.sansLane := by
  unfold avoidAccident
  split_ifs <;> rfl

theorem tryYield_ne (vs : List Vehicle) (i e k : Nat) (hk : k ≠ i) :
    (tryYield vs i e)[k]? = vs[k]? := by
  unfold tryYield
  split
  · split_ifs
    · rw [getElem?_modifyAt, if_neg hk]
    · rfl
    · rfl
  · rfl

theorem tryYield_at (vs : List Vehicle) (i e : Nat) (v : Vehicle) (hv : vs[i]? = some v) :
    ∃ w, (tryYield vs i e)[i]? = some w ∧ w.sansLane = v.sansLane := by
  unfold tryYield
  split
  · split_ifs
    · refine ⟨changeLane v, ?_, rfl⟩
      rw [getElem?_modifyAt, if_pos rfl, hv]
      rfl
    · exact ⟨v, hv, rfl⟩
    · exact ⟨v, hv, rfl⟩
  · exact ⟨v, hv, rfl⟩

theorem yieldStep_ne (aAmb aTow : Option Nat) (vs : List Vehicle) (i k : Nat) (hk : k ≠ i) :
    (yieldStep aAmb aTow vs i)[k]? = vs[k]? := by
  -- the second `tryYield`, on any collection
  have h2 : ∀ ws : List Vehicle,
      (match aTow with
        | none => ws
        | some t =>
          match ws[t]? with
          | none => ws
          | some tw => if tw.isWorking then tryYield ws i t else ws)[k]? = ws[k]? := by
    intro ws
    cases aTow with
    | none => rfl
    | some t =>
      show (match ws[t]? with
        | none => ws
        | some tw => if tw.isWorking then tryYield ws i t else ws)[k]? = ws[k]?
      cases ws[t]? with
      | none => rfl
      | some tw =>
        show (if tw.isWorking then tryYield ws i t else ws)[k]? = ws[k]?
        split_ifs
        · exact tryYield_ne ws i t k hk
        · rfl
  unfold yieldStep
  cases vs[i]? with
  | none => rfl
  | some v =>
    dsimp only
    split_ifs
    · cases aAmb with
      | none => exact h2 vs
      | some e => exact (h2 (tryYield vs i e)).trans (tryYield_ne vs i e k hk)
    · rfl

theorem yieldStep_at (aAmb aTow : Option Nat) (vs : List Vehicle) (i : Nat) (v : Vehicle)
    (hv : vs[i]? = some v) :
    ∃ w, (yieldStep aAmb aTow vs i)[i]? = some w ∧ w.sansLane = v.sansLane := by
  -- the second `tryYield`, on any collection
  have h2 : ∀ (ws : List Vehicle) (u : Vehicle), ws[i]? = some u →
      ∃ w : Vehicle, (match aTow with
        | none => ws
        | some t =>
          match ws[t]? with
          | none => ws
          | some tw => if tw.isWorking then tryYield ws i t else ws)[i]? = some w ∧
        w.sansLane = u.sansLane := by
    intro ws u hu
    cases aTow with
    | none => exact ⟨u, hu, rfl⟩
    | some t =>
      show ∃ w : Vehicle, (match ws[t]? with
        | none => ws
        | some tw => if tw.isWorking then tryYield ws i t else ws)[i]? = some w ∧
        w.sansLane = u.sansLane
      cases ws[t]? with
      | none => exact ⟨u, hu, rfl⟩
      | some tw =>
        show ∃ w : Vehicle, (if tw.isWorking then tryYield ws i t else ws)[i]? = some w ∧
          w.sansLane = u.sansLane
        split_ifs
        · exact tryYield_at ws i t u hu
        · exact ⟨u, hu, rfl⟩
  unfold yieldStep
  rw [hv]
  dsimp only
  split_ifs
  · cases aAmb with
    | none => exact h2 vs v hv
    | some e =>
      obtain ⟨w1, hw1, e1⟩ := tryYield_at vs i e v hv
      obtain ⟨w2, hw2, e2⟩ := h2 (tryYield vs i e) w1 hw1
      exact ⟨w2, hw2, e2.trans e1⟩
  · exact ⟨v, hv, rfl⟩

theorem bottomStep_ne (acc : Accident) (light : TrafficLight) (aAmb aTow : Option Nat)
    (ft : ℚ) (vs : List Vehicle) (i k : Nat) (hk : k ≠ i) :
    (bottomStep acc light aAmb aTow ft vs i)[k]? = vs[k]? := by
  unfold bottomStep
  split
  · rfl
  · split_ifs
    · rfl
    · dsimp only
      split
      · exact yieldStep_ne aAmb aTow vs i k hk
      · split_ifs
        · rw [getElem?_modifyAt, if_neg hk]
          exact yieldStep_ne aAmb aTow vs i k hk
        · rw [getElem?_modifyAt, if_neg hk]
          exact yieldStep_ne aAmb aTow vs i k hk

theorem Update_car (v : Vehicle) (st : Bool) (ft : ℚ) (h : v.cls = .Car) :
    v.Update st ft = v.baseUpdate st := by
  unfold Vehicle.Update
  rw [h]

/-- What one iteration of the main loop makes of its own vehicle. -/
theorem bottomStep_at (acc : Accident) (light : TrafficLight) (aAmb aTow : Option Nat)
    (ft : ℚ) (vs : List Vehicle) (i : Nat) (v0 : Vehicle) (h0 : vs[i]? = some v0) :
    ∃ w, (bottomStep acc light aAmb aTow ft vs i)[i]? = some w ∧ Moved v0 w := by
  have hkept := bottomStep_passKept acc light aAmb aTow ft vs i
  have hi : i < vs.length := by
    by_contra hge
    rw [List.getElem?_eq_none (by omega)] at h0
    exact absurd h0 (by simp)
  obtain ⟨w, hw⟩ : ∃ w, (bottomStep acc light aAmb aTow ft vs i)[i]? = some w :=
    ⟨_, List.getElem?_eq_getElem (by rw [forall2_length hkept]; exact hi)⟩
  refine ⟨w, hw, forall2_get hkept h0 hw, fun hcar => ?_⟩
  unfold bottomStep at hw
  rw [h0] at hw
  dsimp only at hw
  by_cases hskip : (v0.isCrashed || v0.isTowed) = true
  · rw [if_pos hskip, h0] at hw
    simp only [Option.some.injEq] at hw
    subst hw
    refine ⟨hcar, rfl, Or.inl rfl, fun _ _ hc ht => ?_⟩
    rw [hc, ht] at hskip
    exact Bool.noConfusion hskip
  · rw [if_neg hskip] at hw
    obtain ⟨v, hv, hlane⟩ := yieldStep_at aAmb aTow vs i v0 h0
    obtain ⟨e1, e2, e3, e4, e5, e6, e7, e8⟩ := sansLane_fields hlane
    rw [hv] at hw
    dsimp only at hw
    have hstride : ∀ u : Vehicle, u.speed = v0.speed → u.dirRight = v0.dirRight →
        u.stride = v0.stride := by
      intro u h1 h2
      unfold Vehicle.stride
      rw [h1, h2]
    by_cases hr : v.isReckless = true
    · rw [if_pos hr, getElem?_modifyAt, if_pos rfl, hv] at hw
      simp only [Option.map_some', Option.some.injEq] at hw
      subst hw
      rw [Update_car _ _ _ (by show v.cls = _; rw [e2]; exact hcar)]
      obtain ⟨m1, m2, m3, m4⟩ := baseUpdate_motion { v with forcedStop := false } false
      rw [m1, m2]
      have hs := hstride { v with forcedStop := false } e4 e5
      rw [hs] at m3 m4
      refine ⟨by show v.cls = _; rw [e2]; exact hcar, e3, ?_, fun a1 a2 a3 a4 => ?_⟩
      · rcases m3 with m3 | m3
        · left; rw [m3]; exact e1
        · right; rw [m3]; show v.x + _ = _; rw [e1]
      · rw [m4 (e6.trans a1) (e3.trans a2) (e7.trans a3) (e8.trans a4)]
        show v.x + _ = _
        rw [e1]
    · rw [if_neg hr, getElem?_modifyAt, if_pos rfl, hv] at hw
      simp only [Option.map_some', Option.some.injEq] at hw
      subst hw
      obtain ⟨f1, f2, f3, f4, f5, f6, f7, f8⟩ := sansLane_fields (avoidAccident_sansLane acc v)
      rw [Update_car _ _ _ (by show (avoidAccident acc v).cls = _; rw [f2, e2]; exact hcar)]
      obtain ⟨m1, m2, m3, m4⟩ := baseUpdate_motion
        { avoidAccident acc v with
          forcedStop := computeStop light (yieldStep aAmb aTow vs i) i (avoidAccident acc v) }
        (computeStop light (yieldStep aAmb aTow vs i) i (avoidAccident acc v))
      rw [m1, m2]
      have hs := hstride
        { avoidAccident acc v with
          forcedStop := computeStop light (yieldStep aAmb aTow vs i) i (avoidAccident acc v) }
        (f4.trans e4) (f5.trans e5)
      rw [hs] at m3 m4
      refine ⟨by show (avoidAccident acc v).cls = _; rw [f2, e2]; exact hcar, f3.trans e3, ?_,
        fun a1 _ _ _ => ?_⟩
      · rcases m3 with m3 | m3
        · left; rw [m3]; exact f1.trans e1
        · right; rw [m3]; show (avoidAccident acc v).x + _ = _; rw [f1, e1]
      · rw [← e6] at a1
        exact absurd a1 hr

/-- The main loop relates every inbound vehicle to what its own iteration makes
of it. -/
theorem bottomPass_moved (acc : Accident) (light : TrafficLight) (aAmb aTow : Option Nat)
    (ft : ℚ) (vs : List Vehicle) :
    List.Forall₂ Moved vs (bottomPass acc light aAmb aTow ft vs) := by
  refine forall2_of_getElem (forall2_length (bottomPass_passKept acc light aAmb aTow ft vs))
    (fun k v w hv hw => ?_)
  have hk : k < vs.length := by
    by_contra hge
    rw [List.getElem?_eq_none (by omega)] at hv
    exact absurd hv (by simp)
  obtain ⟨w', hw', hin, _⟩ := fold_pointwise (R := Moved)
    (bottomStep acc light aAmb aTow ft) (bottomStep_ne acc light aAmb aTow ft)
    (bottomStep_at acc light aAmb aTow ft) (List.range vs.length) (List.nodup_range _) vs k v hv
  have hwe : w' = w := by
    unfold bottomPass at hw
    rw [hw'] at hw
    exact Option.some.inj hw
  rw [← hwe]
  exact hin (List.mem_range.2 hk)

/-! ### The invariant through a frame -/

theorem sansPos_core {v w : Vehicle} (h : w.sansPos = v.sansPos) : w.core = v.core := by
  unfold Vehicle.sansPos at h
  unfold Vehicle.core Vehicle.IsAmbulance Vehicle.IsDepannage Vehicle.IsSchoolBus
  simp only [Vehicle.mk.injEq] at h
  obtain ⟨h1, _, _, h4, h5, h6, h7, h8, h9, h10, h11, h12, h13, h14, h15, h16, h17, h18⟩ := h
  simp only [Prod.mk.injEq, Vehicle.mk.injEq]
  rw [h18]
  simp [h1, h5, h7, h10, h11, h12, h13, h14, h15, h16, h17]

theorem sansTargetY_core {v w : Vehicle} (h : w.sansTargetY = v.sansTargetY) :
    w.core = v.core := by
  unfold Vehicle.sansTargetY at h
  unfold Vehicle.core Vehicle.IsAmbulance Vehicle.IsDepannage Vehicle.IsSchoolBus
  simp only [Vehicle.mk.injEq] at h
  obtain ⟨h1, _, _, _, h5, h6, h7, h8, h9, h10, h11, h12, h13, h14, h15, h16, h17, h18⟩ := h
  simp only [Prod.mk.injEq, Vehicle.mk.injEq]
  rw [h18]
  simp [h1, h5, h7, h10, h11, h12, h13, h14, h15, h16, h17]

/-- The placement of the towed vehicles keeps the invariant. -/
theorem Inv.placement {g : ℚ} {s : Simulation} (hinv : Inv g s) :
    Inv g { s with vehiclesBottom := towedPlacement s.vehiclesBottom } := by
  refine Inv.transport hinv (towedPlacement_sansPos s.vehiclesBottom) rfl (le_refl _)
    (fun h => Or.inl h) (fun v w h => sansPos_core h.1)
    (fun v w h hc => ⟨(sansPos_flags h.1).2.2.2.2.2.2.trans hc, (sansPos_flags h.1).2.2.1⟩)
    (fun v w h _ ht => by rw [h.2 ht]) ?_
  intro a a' b b' ha hb hl ht h1 h2
  rw [ha.2 hl.notTowed, hb.2 ht.notTowed]
  exact ⟨h1, h2⟩

/-- The ambulance block keeps the invariant: it raises the tow mission only with
an active accident and no tow truck on the road. -/
theorem Inv.ambulanceStage {g : ℚ} {s : Simulation} (hinv : Inv g s) (aAmb aTow : Option Nat)
    (hnone : aTow = none → ∀ v ∈ s.vehiclesBottom, v.IsDepannage = false) :
    Inv g (s.ambulanceStage aAmb aTow) := by
  have hx : ∀ v w : Vehicle, w.sansTargetY = v.sansTargetY → w.x = v.x := fun v w h =>
    (congrArg Vehicle.x h : w.sansTargetY.x = v.sansTargetY.x)
  refine Inv.transport hinv (ambulanceStage_sansTargetY s aAmb aTow)
    (ambulanceStage_currentAccident s aAmb aTow) ?_ ?_ (fun v w h => sansTargetY_core h)
    (fun v w h hc => ⟨(sansTargetY_flags h).2.2.2.2.2.2.trans hc, (sansTargetY_flags h).2.2.1⟩)
    (fun v w h _ _ => hx v w h) ?_
  · unfold Simulation.ambulanceStage
    split
    · exact le_refl _
    · split
      · exact le_refl _
      · dsimp only
        split_ifs <;> exact le_refl _
  · intro hm
    rcases ambulanceStage_mission s aAmb aTow with h | h
    · left; rw [← h.1]; exact hm
    · right; exact ⟨h.2.2.2.1, hnone h.2.2.2.2⟩
  · intro a a' b b' ha hb _ _ h1 h2
    rw [hx a a' ha, hx b b' hb]
    exact ⟨h1, h2⟩

/-- The main loop keeps the invariant: a pending pair at least 80 apart is still
at least 73 apart after it, and the leading car has not run away. -/
theorem Inv.mainLoop {s : Simulation} (hinv : Inv 80 s) (acc : Accident)
    (light : TrafficLight) (aAmb aTow : Option Nat) (ft : ℚ) :
    Inv 73 { s with vehiclesBottom := bottomPass acc light aAmb aTow ft s.vehiclesBottom } := by
  refine Inv.transport hinv (bottomPass_moved acc light aAmb aTow ft s.vehiclesBottom) rfl
    (le_refl _) (fun h => Or.inl h) (fun v w h => h.1.2)
    (fun v w h hc => ⟨(h.2 hc).1, (h.2 hc).2.1⟩)
    (fun v w h hc _ => by rw [h.1.1 (Or.inl hc)]) ?_
  intro a a' b b' ha hb hl ht h1 h2
  obtain ⟨_, _, hax, _⟩ := ha.2 hl.cls
  obtain ⟨_, _, _, hbx⟩ := hb.2 ht.cls
  have hbx' := hbx ht.reckless ht.moving ht.notCrashed ht.notTowed
  have hsa : a.stride = -a.speed := by unfold Vehicle.stride; rw [hl.dir]; rfl
  have hsb : b.stride = -b.speed := by unfold Vehicle.stride; rw [ht.dir]; rfl
  rw [hsa] at hax
  rw [hsb] at hbx'
  have := hl.speed_nonneg
  have := hl.speed_le
  have := ht.speed_ge
  have := ht.speed_le
  rcases hax with hax | hax
  · rw [hax, hbx']
    constructor <;> linarith
  · rw [hax, hbx']
    constructor <;> linarith

theorem lastIdx_none (p : Vehicle → Bool) (vs : List Vehicle) (i : Nat) (r : Option Nat)
    (h : lastIdx p vs i r = none) : r = none ∧ ∀ v ∈ vs, p v = false := by
  induction vs generalizing i r with
  | nil => exact ⟨h, fun _ hv => absurd hv (List.not_mem_nil _)⟩
  | cons v vs ih =>
    unfold lastIdx at h
    obtain ⟨hr, hall⟩ := ih _ _ h
    by_cases hp : p v = true
    · rw [if_pos hp] at hr
      exact Option.noConfusion hr
    · rw [if_neg hp] at hr
      refine ⟨hr, fun u hu => ?_⟩
      rcases List.mem_cons.1 hu with rfl | hu
      · simpa using hp
      · exact hall u hu

/-- The stages after the culling keep the invariant. -/
theorem Inv.postCullStages {s : Simulation} (hinv : Inv 73 s) (delta : ℚ) (env : Env) :
    Inv 73 (s.postCullStages delta env) := by
  have h1 := hinv.transitionStage
  have h2 := h1.resolutionStage (activeTow s.transitionStage.vehiclesBottom)
  have h3 := h2.placement
  have hnone : activeTow s.transitionStage.vehiclesBottom = none →
      ∀ v ∈ towedPlacement (s.transitionStage.resolutionStage
        (activeTow s.transitionStage.vehiclesBottom)).vehiclesBottom, v.IsDepannage = false := by
    intro hn w hw
    rw [hn] at hw
    have hw' : w ∈ towedPlacement s.transitionStage.vehiclesBottom := hw
    obtain ⟨v, hv, hq⟩ := forall2_mem_right (towedPlacement_sansPos _) hw'
    rw [(core_more (sansPos_core hq.1)).2.2.1]
    exact (lastIdx_none _ _ _ _ hn).2 v hv
  have h4 := h3.ambulanceStage (activeAmbulance s.transitionStage.vehiclesBottom)
    (activeTow s.transitionStage.vehiclesBottom) hnone
  have h5 := h4.mainLoop s.steered.currentAccident s.steered.lightBottom
    (activeAmbulance s.transitionStage.vehiclesBottom)
    (activeTow s.transitionStage.vehiclesBottom) env.frameTime
  refine Inv.of_same h5 ?_ ?_ ?_ ?_
  · rw [postCullStages_vehiclesBottom]; rfl
  · rw [postCullStages_currentAccident]
    show _ = (s.resolved.ambulanceStage _ _).currentAccident
    rw [ambulanceStage_currentAccident]
  · unfold Simulation.postCullStages Simulation.alertStage
    dsimp only
    split_ifs <;> exact le_refl _
  · intro hm
    unfold Simulation.postCullStages at hm
    dsimp only at hm
    rw [(alertStage_mission _ _ _).1] at hm
    exact hm

theorem TriggerRandomAccident_mission (s : Simulation) :
    s.TriggerRandomAccident.currentMission = s.currentMission ∨
      s.TriggerRandomAccident.currentMission = .MISSION_CALL_AMBULANCE := by
  unfold Simulation.TriggerRandomAccident
  split_ifs
  · exact Or.inl rfl
  · exact Or.inl rfl
  · split
    · exact Or.inl rfl
    · exact Or.inr rfl

theorem busStage_mission (s : Simulation) (delta : ℚ) (env : Env) :
    (s.busStage delta env).currentMission = s.currentMission ∨
      (s.busStage delta env).currentMission = .MISSION_CALL_BUS := by
  unfold Simulation.busStage
  dsimp only
  split_ifs
  · exact Or.inr rfl
  · exact Or.inl rfl
  · exact Or.inl rfl

theorem missionStage_mission (s : Simulation) (delta : ℚ) :
    (s.missionStage delta).currentMission = s.currentMission ∨
      (s.missionStage delta).currentMission = .MISSION_NONE := by
  unfold Simulation.missionStage
  dsimp only
  split_ifs
  · exact Or.inr rfl
  · exact Or.inr rfl
  · exact Or.inl rfl
  · exact Or.inl rfl

theorem busStage_frame (s : Simulation) (delta : ℚ) (env : Env) :
    (s.busStage delta env).vehiclesBottom = s.vehiclesBottom ∧
      (s.busStage delta env).nextId = s.nextId := by
  unfold Simulation.busStage
  dsimp only
  split_ifs <;> exact ⟨rfl, rfl⟩

theorem missionStage_frame (s : Simulation) (delta : ℚ) :
    (s.missionStage delta).vehiclesBottom = s.vehiclesBottom ∧
      (s.missionStage delta).nextId = s.nextId := by
  unfold Simulation.missionStage
  dsimp only
  split_ifs <;> exact ⟨rfl, rfl⟩

/-- A frame keeps the invariant. -/
theorem Inv.Update {s : Simulation} (hinv : Inv 73 s) (delta : ℚ) (env : Env) :
    Inv 73 (s.Update delta env) := by
  unfold Simulation.Update
  split_ifs
  · exact hinv
  · dsimp only
    have h1 := hinv.spawnStage delta env
    have h2 : Inv 73 ((s.spawnStage delta env).randomTriggerStage env) := by
      unfold Simulation.randomTriggerStage
      split_ifs
      · exact h1.TriggerRandomAccident
      · exact h1
    have h3 : Inv 73 (((s.spawnStage delta env).randomTriggerStage env).busStage delta env) := by
      refine Inv.of_same h2 (busStage_frame _ _ _).1 (busStage_currentAccident _ _ _)
        (le_of_eq (busStage_frame _ _ _).2.symm) (fun hm => ?_)
      rcases busStage_mission ((s.spawnStage delta env).randomTriggerStage env) delta env
        with h | h
      · rw [← h]; exact hm
      · rw [h] at hm; exact MissionType.noConfusion hm
    have h4 : Inv 73 ((((s.spawnStage delta env).randomTriggerStage env).busStage delta
        env).missionStage delta) := by
      refine Inv.of_same h3 (missionStage_frame _ _).1 (missionStage_currentAccident _ _)
        (le_of_eq (missionStage_frame _ _).2.symm) (fun hm => ?_)
      rcases missionStage_mission (((s.spawnStage delta env).randomTriggerStage env).busStage
        delta env) delta with h | h
      · rw [← h]; exact hm
      · rw [h] at hm; exact MissionType.noConfusion hm
    have h5 : Inv 73 (((((s.spawnStage delta env).randomTriggerStage env).busStage delta
        env).missionStage delta).lightStage delta) :=
      Inv.of_same h4 rfl rfl (le_refl _) (fun hm => hm)
    exact h5.cullStage.postCullStages delta env

/-- The part of `CallAmbulance` after the trigger scan keeps the invariant. -/
theorem Inv.addAmbulance {g : ℚ} {s : Simulation} (hinv : Inv g s) :
    Inv g
      { s with
        currentMission :=
          if s.currentMission = .MISSION_CALL_AMBULANCE then MissionType.MISSION_NONE
          else s.currentMission
        vehiclesBottom := s.vehiclesBottom ++
          [if s.currentAccident.active then
            { (Vehicle.new s.nextId (WORLD_WIDTH + 1500) (laneYBottom 1) (9 / 2) false
                (.Ambulance { state := .PATROL, stateTimer := 0, accidentX := 0,
                              accidentY := 0 })).AssignAccident
                s.currentAccident.x s.currentAccident.y with targetY := s.currentAccident.y }
          else
            Vehicle.new s.nextId (WORLD_WIDTH + 1500) (laneYBottom 1) (9 / 2) false
              (.Ambulance { state := .PATROL, stateTimer := 0, accidentX := 0, accidentY := 0 })]
        ambulanceActive := true
        nextId := s.nextId + 1 } := by
  refine Inv.append hinv _ rfl rfl rfl ?_ ?_ ?_ ?_
  · split_ifs <;> rfl
  · split_ifs <;> exact ⟨rfl, rfl, rfl, rfl⟩
  · intro hc
    split_ifs at hc <;> exact VehicleClass.noConfusion hc
  · intro hm
    dsimp only at hm
    constructor
    · by_cases h2 : s.currentMission = .MISSION_CALL_AMBULANCE
      · rw [if_pos h2] at hm; exact MissionType.noConfusion hm
      · rw [if_neg h2] at hm; exact hm
    · split_ifs <;> rfl

/-- Dispatching an ambulance keeps the invariant. -/
theorem Inv.CallAmbulance {s : Simulation} (hinv : Inv 73 s) : Inv 73 s.CallAmbulance := by
  have h1 : Inv 73 (if (!s.currentAccident.active && !s.currentAccident.pending) = true
      then s.TriggerRandomAccident else s) := by
    split_ifs
    · exact hinv.TriggerRandomAccident
    · exact hinv
  exact h1.addAmbulance

/-- Every command keeps the invariant. -/
theorem Inv.step {s : Simulation} (hinv : Inv 73 s) (c : Cmd) : Inv 73 (s.step c) := by
  cases c with
  | advance delta env => exact hinv.Update delta env
  | dispatchAmbulance => exact hinv.CallAmbulance
  | dispatchTow => exact hinv.CallDepannage
  | dispatchSchoolBus => exact hinv.CallSchoolBus
  | triggerAccidentNow => exact hinv.TriggerRandomAccident
  | reset => exact Inv.Reset s

/-- The invariant holds in every reachable state. -/
theorem Inv.of_reachable {s : Simulation} (h : Reachable s) : Inv 73 s := by
  obtain ⟨cmds, rfl⟩ := h
  exact run_induction (Inv 73) Inv.init (fun s c h => h.step c) cmds

/-- C8: in every state reachable from the constructed simulation, the dispatch
command that matches the active mission (dispatchAmbulance for CallAmbulance,
dispatchTow for CallTow, dispatchSchoolBus for CallBus) leaves the mission kind
None. For dispatchTow this rests on the invariant that the tow mission is only
active while the accident is active. -/
theorem matching_dispatch_clears_mission (s : Simulation) (h : Reachable s) :
    (s.currentMission = .MISSION_CALL_AMBULANCE →
        s.CallAmbulance.currentMission = .MISSION_NONE) ∧
      (s.currentMission = .MISSION_CALL_TOW →
        s.CallDepannage.currentMission = .MISSION_NONE) ∧
      (s.currentMission = .MISSION_CALL_BUS →
        s.CallSchoolBus.currentMission = .MISSION_NONE) := by
  refine ⟨fun hm => ?_, fun hm => ?_, fun hm => ?_⟩
  · have h1 : (if (!s.currentAccident.active && !s.currentAccident.pending) = true
        then s.TriggerRandomAccident else s).currentMission = .MISSION_CALL_AMBULANCE := by
      split_ifs
      · rcases TriggerRandomAccident_mission s with h' | h'
        · rw [h']; exact hm
        · exact h'
      · exact hm
    unfold Simulation.CallAmbulance
    dsimp only
    rw [if_pos h1]
  · have hact := ((Inv.of_reachable h).tow hm).1
    unfold Simulation.CallDepannage
    rw [if_neg (by rw [hact]; decide)]
    dsimp only
    rw [if_pos hm]
  · unfold Simulation.CallSchoolBus
    dsimp only
    rw [if_pos hm]

theorem matching_dispatch_clears_mission_witness :
    (run busMissionScript).currentMission = .MISSION_CALL_BUS ∧
      (run busMissionScript).CallSchoolBus.currentMission = .MISSION_NONE :=
  ⟨by decide!,
    (matching_dispatch_clears_mission (run busMissionScript) ⟨busMissionScript, rfl⟩).2.2
      (by decide!)⟩

/-! ## Traffic lights -/

/-- C16: for a light with elapsed timer t, cycle duration c and any dt, if
t + dt >= c then Update(dt) negates red and sets the timer to 0, and otherwise it
leaves red and sets the timer to t + dt; so red changes only when t + dt >= c,
the light shows exactly one of red and green, and the cycle duration and the
box are never written. -/
theorem light_update_cycle (l : TrafficLight) (dt : ℚ) :
    (l.timer + dt ≥ l.cycleTime →
        (l.Update dt).red = (!l.red) ∧ (l.Update dt).timer = 0) ∧
      (¬ l.timer + dt ≥ l.cycleTime →
        (l.Update dt).red = l.red ∧ (l.Update dt).timer = l.timer + dt) ∧
      ((l.Update dt).red ≠ l.red → l.timer + dt ≥ l.cycleTime) ∧
      ((l.Update dt).IsRed = !(l.Update dt).IsGreen) ∧
      (l.Update dt).cycleTime = l.cycleTime ∧ (l.Update dt).box = l.box := by
  unfold TrafficLight.Update TrafficLight.IsRed TrafficLight.IsGreen
  dsimp only
  by_cases h : l.timer + dt ≥ l.cycleTime
  · rw [if_pos h]
    refine ⟨fun _ => ⟨rfl, rfl⟩, fun h' => absurd h h', fun _ => h, ?_, rfl, rfl⟩
    simp
  · rw [if_neg h]
    refine ⟨fun h' => absurd h' h, fun _ => ⟨rfl, rfl⟩, fun h' => absurd rfl h', ?_, rfl, rfl⟩
    simp

theorem lightUpdate_box (l : TrafficLight) (dt : ℚ) : (l.Update dt).box = l.box := by
  unfold TrafficLight.Update
  dsimp only
  split_ifs <;> rfl

theorem lightAfter_box (l : TrafficLight) (deltas : List ℚ) : (l.after deltas).box = l.box := by
  unfold TrafficLight.after
  induction deltas generalizing l with
  | nil => rfl
  | cons d ds ih =>
    rw [List.foldl_cons, ih, lightUpdate_box]

/-- C17 fails for the rightward approach: the stop line of the outbound light
lies 60 units, not 40, beyond the light's x position. -/
theorem stopLine_rightward_not_40 :
    Simulation.init.lightTop.GetStopLineX false = Simulation.init.lightTop.box.x + 60 ∧
      Simulation.init.lightTop.GetStopLineX false ≠ Simulation.init.lightTop.box.x + 40 := by
  decide!

/-- C17, amended: for every light constructed at x position X, after any number
of updates, the stop line is X - 40 for a vehicle approaching leftward and
X + 60 (the width 20 of the light's box plus 40) for one approaching rightward. -/
theorem stopLine_offsets (X y c : ℚ) (deltas : List ℚ) :
    ((TrafficLight.new X y c).after deltas).GetStopLineX true = X - 40 ∧
      ((TrafficLight.new X y c).after deltas).GetStopLineX false = X + 60 := by
  unfold TrafficLight.GetStopLineX
  rw [lightAfter_box]
  constructor
  · simp [TrafficLight.new]
  · simp only [TrafficLight.new, Bool.false_eq_true, if_false]
    ring

/-! ## Easing toward the target lane -/

theorem easeY_closer (v : Vehicle) : YCloser v v.easeY ∧ YSnaps v v.easeY := by
  unfold Vehicle.easeY YCloser YSnaps
  by_cases h : |v.targetY - v.y| > 1 / 2
  · rw [if_pos h]
    refine ⟨⟨rfl, ?_⟩, fun h' => absurd h (not_lt.2 h')⟩
    show |v.targetY - (v.y + (v.targetY - v.y) * (2 / 25))| ≤ |v.targetY - v.y|
    have e : v.targetY - (v.y + (v.targetY - v.y) * (2 / 25)) =
        (23 / 25) * (v.targetY - v.y) := by ring
    rw [e, abs_mul, abs_of_pos (by norm_num : (0 : ℚ) < 23 / 25)]
    have := abs_nonneg (v.targetY - v.y)
    linarith
  · rw [if_neg h]
    refine ⟨⟨rfl, ?_⟩, fun _ => rfl⟩
    show |v.targetY - v.targetY| ≤ |v.targetY - v.y|
    rw [sub_self, abs_zero]
    exact abs_nonneg _

/-- Easing after a step that kept `y` and `targetY`. -/
theorem easeY_after {v u : Vehicle} (hy : u.y = v.y) (ht : u.targetY = v.targetY) :
    YCloser v u.easeY ∧ YSnaps v u.easeY := by
  have h := easeY_closer u
  unfold YCloser YSnaps at *
  rw [hy, ht] at h
  exact h

/-- Easing twice. -/
theorem easeY_twice {v u : Vehicle} (h : YCloser v u ∧ YSnaps v u) :
    YCloser v u.easeY ∧ YSnaps v u.easeY := by
  have h2 := easeY_closer u
  unfold YCloser YSnaps at *
  obtain ⟨⟨ht, hle⟩, hs⟩ := h
  obtain ⟨⟨ht2, hle2⟩, hs2⟩ := h2
  rw [ht] at ht2 hle2 hs2
  refine ⟨⟨ht2, le_trans hle2 hle⟩, fun hh => ?_⟩
  have hy := hs hh
  apply hs2
  rw [hy, sub_self, abs_zero]
  norm_num

theorem yCloser_of_same {v u : Vehicle} (hy : u.y = v.y) (ht : u.targetY = v.targetY) :
    YCloser v u := by
  unfold YCloser
  rw [hy, ht]
  exact ⟨rfl, le_refl _⟩

/-- A vehicle that is neither crashed nor towed reaches the easing statement of
`Vehicle::Update`. -/
theorem baseUpdate_eases (v : Vehicle) (st : Bool) (hc : v.isCrashed = false)
    (ht : v.isTowed = false) :
    ∃ u : Vehicle, u.y = v.y ∧ u.targetY = v.targetY ∧ v.baseUpdate st = u.easeY := by
  unfold Vehicle.baseUpdate
  rw [if_neg (by rw [hc]; simp), if_neg (by rw [ht]; simp)]
  dsimp only
  refine ⟨_, ?_, ?_, rfl⟩ <;> split_ifs <;> rfl

/-- A crashed or towed vehicle is left alone by `Vehicle::Update`. -/
theorem baseUpdate_idle (v : Vehicle) (st : Bool)
    (h : v.isCrashed = true ∨ v.isTowed = true) : v.baseUpdate st = v := by
  unfold Vehicle.baseUpdate
  by_cases ht : v.isTowed = true
  · by_cases hc : (v.isCrashed && !v.isTowed) = true
    · rw [if_pos hc]
    · rw [if_neg hc, if_pos ht]
  · rcases h with h | h
    · rw [if_pos (by rw [h]; simpa using ht)]
    · exact absurd h ht

theorem baseUpdate_y (v : Vehicle) (st : Bool) :
    YCloser v (v.baseUpdate st) ∧
      (v.isCrashed = false → v.isTowed = false → YSnaps v (v.baseUpdate st)) := by
  by_cases hc : v.isCrashed = false
  · by_cases ht : v.isTowed = false
    · obtain ⟨u, hy, htg, he⟩ := baseUpdate_eases v st hc ht
      rw [he]
      exact ⟨(easeY_after hy htg).1, fun _ _ => (easeY_after hy htg).2⟩
    · refine ⟨?_, fun _ h => absurd h ht⟩
      rw [baseUpdate_idle v st (Or.inr (by simpa using ht))]
      exact yCloser_of_same rfl rfl
  · refine ⟨?_, fun h => absurd h hc⟩
    rw [baseUpdate_idle v st (Or.inl (by simpa using hc))]
    exact yCloser_of_same rfl rfl

theorem schoolBusUpdate_y (v : Vehicle) (d : SchoolBusData) (st : Bool) (ft : ℚ) :
    YCloser v (SchoolBus.Update v d st ft) ∧ YSnaps v (SchoolBus.Update v d st ft) := by
  unfold SchoolBus.Update
  dsimp only
  apply easeY_after <;> split_ifs <;> rfl

theorem ambulanceUpdate_y (v : Vehicle) (d : AmbulanceData) (st : Bool) (ft : ℚ) :
    YCloser v (Ambulance.Update v d st ft) ∧ YSnaps v (Ambulance.Update v d st ft) := by
  unfold Ambulance.Update
  dsimp only
  cases hs : d.state
  · -- PATROL: `Vehicle::Update`, then the easing statement once more
    dsimp only
    by_cases h : v.isCrashed = true ∨ v.isTowed = true
    · rw [baseUpdate_idle v st h]
      exact easeY_closer v
    · obtain ⟨u, hy, htg, he⟩ := baseUpdate_eases v st (by simpa using fun hc => h (Or.inl hc))
        (by simpa using fun ht => h (Or.inr ht))
      rw [he]
      exact easeY_twice (easeY_after hy htg)
  all_goals
    dsimp only
    apply easeY_after <;> first | rfl | (split_ifs <;> rfl)

theorem depannageUpdate_y (v : Vehicle) (d : DepannageData) (st : Bool) (ft : ℚ) :
    YCloser v (Depannage.Update v d st ft) ∧
      (d.isWorking = false → (!d.hasPickedUp && decide (v.x ≤ d.targetX - 120)) = false →
        v.isCrashed = false → v.isTowed = false → YSnaps v (Depannage.Update v d st ft)) := by
  unfold Depannage.Update
  by_cases hw : d.isWorking = true
  · rw [if_pos hw]
    dsimp only
    refine ⟨?_, fun h => absurd hw (by rw [h]; simp)⟩
    split_ifs <;> exact yCloser_of_same rfl rfl
  · rw [if_neg hw]
    by_cases ha : (!d.hasPickedUp && decide (v.x ≤ d.targetX - 120)) = true
    · rw [if_pos ha]
      exact ⟨yCloser_of_same rfl rfl, fun _ h => absurd ha (by rw [h]; simp)⟩
    · rw [if_neg ha]
      exact ⟨(baseUpdate_y v st).1, fun _ _ hc ht => (baseUpdate_y v st).2 hc ht⟩

/-- C18 fails in its second half: a tow truck at work returns from `Update`
before the easing statement, so its y stays 1/4 away from the target lane. -/
theorem working_tow_does_not_snap :
    |towOffLane.targetY - towOffLane.y| ≤ 1 / 2 ∧
      (towOffLane.Update false (1 / 60)).y ≠ towOffLane.targetY := by
  decide!

/-- C18, amended: over exact arithmetic, one call of `Update` on a vehicle of any
role keeps the target lane and does not increase |targetY - y|; and when
|targetY - y| <= 1/2 before the call and the call reaches the easing statement
(always for a school bus or an ambulance; for a car that is neither crashed nor
towed; for a tow truck that is neither working, nor arriving at its pick-up
point, nor crashed or towed), y equals targetY after it. -/
theorem update_eases_y (v : Vehicle) (stopForRed : Bool) (frameTime : ℚ) :
    (v.Update stopForRed frameTime).targetY = v.targetY ∧
      |v.targetY - (v.Update stopForRed frameTime).y| ≤ |v.targetY - v.y| ∧
      (|v.targetY - v.y| ≤ 1 / 2 → v.easesY = true →
        (v.Update stopForRed frameTime).y = v.targetY) := by
  have key : YCloser v (v.Update stopForRed frameTime) ∧
      (v.easesY = true → YSnaps v (v.Update stopForRed frameTime)) := by
    unfold Vehicle.Update Vehicle.easesY
    cases hcls : v.cls with
    | Car =>
      dsimp only
      refine ⟨(baseUpdate_y v stopForRed).1, fun h => ?_⟩
      simp only [Bool.and_eq_true, Bool.not_eq_true'] at h
      exact (baseUpdate_y v stopForRed).2 h.1 h.2
    | SchoolBus d =>
      exact ⟨(schoolBusUpdate_y v d stopForRed frameTime).1,
        fun _ => (schoolBusUpdate_y v d stopForRed frameTime).2⟩
    | Ambulance d =>
      exact ⟨(ambulanceUpdate_y v d stopForRed frameTime).1,
        fun _ => (ambulanceUpdate_y v d stopForRed frameTime).2⟩
    | Depannage d =>
      dsimp only
      refine ⟨(depannageUpdate_y v d stopForRed frameTime).1, fun h => ?_⟩
      simp only [Bool.and_eq_true, Bool.not_eq_true'] at h
      exact (depannageUpdate_y v d stopForRed frameTime).2 h.1.1 h.1.2 h.2.1 h.2.2
  exact ⟨key.1.1, key.1.2, fun hle he => key.2 he hle⟩

/-! ## The trigger scan -/

/-- C19: when the trigger scan runs (no accident pending or active, the
waiting-for-tow flag not set) and selects the pair (i, j) of indices, the
trailing vehicle v1 = vehiclesBottom[i] and the leading vehicle
v2 = vehiclesBottom[j] are distinct, their gap d = v1.x - v2.x satisfies
110 < d < 400, v1.x < WORLD_WIDTH - 100 and v2.x > 100; v1 becomes reckless and
lane-locked with its speed multiplied by 2.8, v2 becomes accident-target and
lane-locked with its speed multiplied by 0.4, every other vehicle of both
collections is unchanged, the record becomes pending (not active) with v2 as
first and v1 as second participant, and the mission becomes CallAmbulance with
the countdown at the max time 8. -/
theorem trigger_selects_pair (s : Simulation) (i j : Nat)
    (hw : s.waitingForTowToLeave = false) (ha : s.currentAccident.active = false)
    (hp : s.currentAccident.pending = false)
    (hscan : scanOuter s.vehiclesBottom s.vehiclesBottom 0 = some (i, j)) :
    ∃ v1 v2 : Vehicle, s.vehiclesBottom[i]? = some v1 ∧ s.vehiclesBottom[j]? = some v2 ∧ i ≠ j ∧
      110 < v1.x - v2.x ∧ v1.x - v2.x < 400 ∧ v1.x < WORLD_WIDTH - 100 ∧ 100 < v2.x ∧
      s.TriggerRandomAccident.vehiclesBottom[i]? =
        some { v1 with isReckless := true, laneLock := true, speed := v1.speed * (14 / 5) } ∧
      s.TriggerRandomAccident.vehiclesBottom[j]? =
        some { v2 with isAccidentTarget := true, laneLock := true, speed := v2.speed * (2 / 5) } ∧
      (∀ k : Nat, k ≠ i → k ≠ j →
        s.TriggerRandomAccident.vehiclesBottom[k]? = s.vehiclesBottom[k]?) ∧
      s.TriggerRandomAccident.vehiclesBottom.length = s.vehiclesBottom.length ∧
      s.TriggerRandomAccident.vehiclesTop = s.vehiclesTop ∧
      s.TriggerRandomAccident.currentAccident.pending = true ∧
      s.TriggerRandomAccident.currentAccident.active = false ∧
      s.TriggerRandomAccident.currentAccident.car1 = some v2.id ∧
      s.TriggerRandomAccident.currentAccident.car2 = some v1.id ∧
      s.TriggerRandomAccident.currentMission = .MISSION_CALL_AMBULANCE ∧
      s.TriggerRandomAccident.missionTimer = missionMaxTime ∧ missionMaxTime = 8 := by
  obtain ⟨v1, v2, hv1, _, hv2, hne, _, _, _, hsel⟩ := scanOuter_spec _ _ 0 i j hscan
  rw [Nat.sub_zero] at hv1
  have hT : s.TriggerRandomAccident =
      { s with
        currentAccident :=
          { s.currentAccident with
            pending := true
            car1 := (s.vehiclesBottom[j]?).map (fun v => v.id)
            car2 := (s.vehiclesBottom[i]?).map (fun v => v.id) }
        waitingForTowToLeave := true
        vehiclesBottom := modifyAt markTarget j (modifyAt markReckless i s.vehiclesBottom)
        currentMission := .MISSION_CALL_AMBULANCE
        missionTimer := missionMaxTime } := by
    unfold Simulation.TriggerRandomAccident
    rw [if_neg (by rw [hw]; simp), if_neg (by rw [ha, hp]; simp), hscan]
  have hsel' := hsel
  unfold pairSelected at hsel'
  simp only [Bool.and_eq_true, decide_eq_true_eq] at hsel'
  refine ⟨v1, v2, hv1, hv2, hne, hsel'.2.1.1.2, hsel'.2.1.1.1, hsel'.2.1.2, hsel'.2.2, ?_, ?_,
    ?_, ?_, ?_, ?_, ?_, ?_, ?_, ?_, ?_, rfl⟩
  · rw [hT]
    show (modifyAt markTarget j (modifyAt markReckless i s.vehiclesBottom))[i]? = _
    rw [getElem?_modifyAt, if_neg hne, getElem?_modifyAt, if_pos rfl, hv1]
    rfl
  · rw [hT]
    show (modifyAt markTarget j (modifyAt markReckless i s.vehiclesBottom))[j]? = _
    rw [getElem?_modifyAt, if_pos rfl, getElem?_modifyAt, if_neg (Ne.symm hne), hv2]
    rfl
  · intro k hki hkj
    rw [hT]
    show (modifyAt markTarget j (modifyAt markReckless i s.vehiclesBottom))[k]? = _
    rw [getElem?_modifyAt, if_neg hkj, getElem?_modifyAt, if_neg hki]
  · rw [hT]
    show (modifyAt markTarget j (modifyAt markReckless i s.vehiclesBottom)).length = _
    have hlen : ∀ (f : Vehicle → Vehicle) (n : Nat) (vs : List Vehicle),
        (modifyAt f n vs).length = vs.length := by
      intro f n vs
      induction vs generalizing n with
      | nil => cases n <;> rfl
      | cons v vs ih => cases n <;> simp [modifyAt, ih]
    rw [hlen, hlen]
  · rw [hT]
  · rw [hT]
  · rw [hT]
    exact ha
  · rw [hT]
    show (s.vehiclesBottom[j]?).map (fun v => v.id) = _
    rw [hv2]
    rfl
  · rw [hT]
    show (s.vehiclesBottom[i]?).map (fun v => v.id) = _
    rw [hv1]
    rfl
  · rw [hT]
  · rw [hT]

theorem trigger_selects_pair_witness :
    ∃ v1 v2 : Vehicle, busMissionState.vehiclesBottom[1]? = some v1 ∧
      busMissionState.vehiclesBottom[0]? = some v2 ∧ 1 ≠ 0 ∧
      110 < v1.x - v2.x ∧ v1.x - v2.x < 400 ∧ v1.x < WORLD_WIDTH - 100 ∧ 100 < v2.x ∧
      busMissionState.TriggerRandomAccident.vehiclesBottom[1]? =
        some { v1 with isReckless := true, laneLock := true, speed := v1.speed * (14 / 5) } ∧
      busMissionState.TriggerRandomAccident.vehiclesBottom[0]? =
        some { v2 with isAccidentTarget := true, laneLock := true, speed := v2.speed * (2 / 5) } ∧
      (∀ k : Nat, k ≠ 1 → k ≠ 0 →
        busMissionState.TriggerRandomAccident.vehiclesBottom[k]? =
          busMissionState.vehiclesBottom[k]?) ∧
      busMissionState.TriggerRandomAccident.vehiclesBottom.length =
        busMissionState.vehiclesBottom.length ∧
      busMissionState.TriggerRandomAccident.vehiclesTop = busMissionState.vehiclesTop ∧
      busMissionState.TriggerRandomAccident.currentAccident.pending = true ∧
      busMissionState.TriggerRandomAccident.currentAccident.active = false ∧
      busMissionState.TriggerRandomAccident.currentAccident.car1 = some v2.id ∧
      busMissionState.TriggerRandomAccident.currentAccident.car2 = some v1.id ∧
      busMissionState.TriggerRandomAccident.currentMission = .MISSION_CALL_AMBULANCE ∧
      busMissionState.TriggerRandomAccident.missionTimer = missionMaxTime ∧
      missionMaxTime = 8 :=
  trigger_selects_pair busMissionState 1 0 (by decide!) (by decide!) (by decide!) (by decide!)

theorem spawnStage_waiting (s : Simulation) (delta : ℚ) (env : Env) :
    (s.spawnStage delta env).waitingForTowToLeave = s.waitingForTowToLeave := by
  unfold Simulation.spawnStage Simulation.SpawnCarTop Simulation.SpawnCarBottom
  dsimp only
  split_ifs <;> rfl

/-- C20 fails for the tow-truck reading: with a tow truck on the inbound roadway
but the waiting-for-tow flag not set, the scan runs and makes a pair pending,
both on the command and inside `Update`. -/
theorem trigger_with_tow_present :
    towPresentState.vehiclesBottom.any Vehicle.IsDepannage = true ∧
      towPresentState.TriggerRandomAccident ≠ towPresentState ∧
      towPresentState.TriggerRandomAccident.currentAccident.pending = true ∧
      (towPresentState.Update (1 / 60) envTrigger).currentAccident.pending = true := by
  decide!

/-- C20, amended: the trigger scan, called by the command triggerAccidentNow or
by the random trigger of `Update`, leaves the state unchanged whenever an
accident is pending or active or the flag `waitingForTowToLeave` is set; in
particular it never replaces a pending pair. The flag, not the presence of a tow
truck, is what the scan tests. -/
theorem trigger_suppressed (s : Simulation) (delta : ℚ) (env : Env)
    (h : s.currentAccident.pending = true ∨ s.currentAccident.active = true ∨
      s.waitingForTowToLeave = true) :
    s.step .triggerAccidentNow = s ∧ s.randomTriggerStage env = s ∧
      (s.spawnStage delta env).randomTriggerStage env = s.spawnStage delta env := by
  have key : ∀ t : Simulation,
      (t.currentAccident.pending = true ∨ t.currentAccident.active = true ∨
        t.waitingForTowToLeave = true) → t.TriggerRandomAccident = t := by
    intro t ht
    unfold Simulation.TriggerRandomAccident
    by_cases hw : t.waitingForTowToLeave = true
    · rw [if_pos hw]
    · rw [if_neg hw]
      rcases ht with ht | ht | ht
      · rw [if_pos (by rw [ht]; simp)]
      · rw [if_pos (by rw [ht]; simp)]
      · exact absurd ht hw
  have hsp : (s.spawnStage delta env).currentAccident.pending = true ∨
      (s.spawnStage delta env).currentAccident.active = true ∨
      (s.spawnStage delta env).waitingForTowToLeave = true := by
    rw [spawnStage_currentAccident, spawnStage_waiting]
    exact h
  refine ⟨key s h, ?_, ?_⟩
  · unfold Simulation.randomTriggerStage
    split_ifs
    · exact key s h
    · rfl
  · unfold Simulation.randomTriggerStage
    split_ifs
    · exact key _ hsp
    · rfl

theorem trigger_suppressed_witness :
    pendingNearState.step .triggerAccidentNow = pendingNearState ∧
      pendingNearState.randomTriggerStage envTrigger = pendingNearState ∧
      (pendingNearState.spawnStage (1 / 60) envTrigger).randomTriggerStage envTrigger =
        pendingNearState.spawnStage (1 / 60) envTrigger :=
  trigger_suppressed pendingNearState (1 / 60) envTrigger (Or.inl (by decide!))

/-! ## The location of the accident -/

/-- Where the accident becomes active in the transition, a pending pair with
both participants on the road has its gap inside the window. -/
theorem transitionStage_becomes_active (t : Simulation)
    (h0 : t.currentAccident.active = false)
    (h1 : t.transitionStage.currentAccident.active = true) :
    ∃ c1 c2 a b, t.currentAccident.pending = true ∧ t.currentAccident.car1 = some c1 ∧
      t.currentAccident.car2 = some c2 ∧ findById t.vehiclesBottom c1 = some a ∧
      findById t.vehiclesBottom c2 = some b ∧
      (b.x - a.x < VEHICLE_WIDTH - 10 ∧ b.x - a.x > -VEHICLE_WIDTH) := by
  have hno : ¬ t.currentAccident.active = true := by rw [h0]; decide
  unfold Simulation.transitionStage at h1
  dsimp only at h1
  by_cases hp : t.currentAccident.pending = true
  · rw [if_pos hp] at h1
    cases hc1 : t.currentAccident.car1 with
    | none =>
      rw [hc1] at h1
      exact absurd h1 hno
    | some c1 =>
      cases hc2 : t.currentAccident.car2 with
      | none =>
        rw [hc1, hc2] at h1
        exact absurd h1 hno
      | some c2 =>
        rw [hc1, hc2] at h1
        dsimp only at h1
        cases ha : findById t.vehiclesBottom c1 with
        | none =>
          rw [ha] at h1
          exact absurd h1 hno
        | some a =>
          cases hb : findById t.vehiclesBottom c2 with
          | none =>
            rw [ha, hb] at h1
            exact absurd h1 hno
          | some b =>
            rw [ha, hb] at h1
            dsimp only at h1
            by_cases hwin : b.x - a.x < VEHICLE_WIDTH - 10 ∧ b.x - a.x > -VEHICLE_WIDTH
            · exact ⟨c1, c2, a, b, hp, rfl, rfl, ha, hb, hwin⟩
            · rw [if_neg hwin] at h1
              exact absurd h1 hno
  · rw [if_neg hp] at h1
    exact absurd h1 hno

/-- The tow resolution that leaves the accident active has done nothing. -/
theorem resolutionStage_of_active (u : Simulation) (aTow : Option Nat)
    (h : (u.resolutionStage aTow).currentAccident.active = true) :
    u.resolutionStage aTow = u := by
  unfold Simulation.resolutionStage at h ⊢
  cases aTow with
  | none => rfl
  | some t =>
    dsimp only at h ⊢
    cases ht : u.vehiclesBottom[t]? with
    | none => rfl
    | some tow =>
      rw [ht] at h
      dsimp only at h ⊢
      by_cases hc : (tow.hasPickedUp && u.currentAccident.active) = true
      · rw [if_pos hc] at h
        exact absurd h (by simp)
      · rw [if_neg hc]

theorem afterCull_active (s : Simulation) (delta : ℚ) (env : Env)
    (h : (s.afterCull delta env).currentAccident.active = true) :
    s.currentAccident.active = true := by
  unfold Simulation.afterCull Simulation.cullStage at h
  have h2 := (cullBottom_flags _ _ _).1 h
  unfold Simulation.beforeCull at h2
  rw [lightStage_currentAccident, missionStage_currentAccident, busStage_currentAccident] at h2
  unfold Simulation.randomTriggerStage at h2
  split_ifs at h2
  · rw [(TriggerRandomAccident_active _).1, spawnStage_currentAccident] at h2
    exact h2
  · rw [spawnStage_currentAccident] at h2
    exact h2

theorem crashWrites_isTowed (c1 c2 : Nat) (accX accY : ℚ) (v : Vehicle) :
    (crashWrites c1 c2 accX accY v).isTowed = v.isTowed := by
  have h1 := (core_flags (assignIfAmbulance_core accX accY (crashFlags c1 c2 v))).2.2.1
  unfold crashWrites
  rw [h1]
  unfold crashFlags
  dsimp only
  split_ifs <;> rfl

/-- From the transition to the end of the frame a vehicle that is crashed and
not towed keeps its position, and stays crashed and not towed, as long as the
tow resolution does nothing. -/
theorem crashed_stays_put (t : Simulation) (delta : ℚ) (env : Env)
    (hres : t.transitionStage.resolutionStage (activeTow t.transitionStage.vehiclesBottom) =
      t.transitionStage) :
    List.Forall₂
      (fun v w => w.id = v.id ∧ (v.isCrashed = true → v.isTowed = false →
        w.x = v.x ∧ w.y = v.y ∧ w.isCrashed = true ∧ w.isTowed = false))
      t.transitionStage.vehiclesBottom (t.postCullStages delta env).vehiclesBottom := by
  have hrefl : ∀ v : Vehicle, v.id = v.id ∧ (v.isCrashed = true → v.isTowed = false →
      v.x = v.x ∧ v.y = v.y ∧ v.isCrashed = true ∧ v.isTowed = false) :=
    fun v => ⟨rfl, fun h1 h2 => ⟨rfl, rfl, h1, h2⟩⟩
  have htrans : ∀ u v w : Vehicle,
      (v.id = u.id ∧ (u.isCrashed = true → u.isTowed = false →
        v.x = u.x ∧ v.y = u.y ∧ v.isCrashed = true ∧ v.isTowed = false)) →
      (w.id = v.id ∧ (v.isCrashed = true → v.isTowed = false →
        w.x = v.x ∧ w.y = v.y ∧ w.isCrashed = true ∧ w.isTowed = false)) →
      (w.id = u.id ∧ (u.isCrashed = true → u.isTowed = false →
        w.x = u.x ∧ w.y = u.y ∧ w.isCrashed = true ∧ w.isTowed = false)) := by
    intro u v w ⟨a1, a2⟩ ⟨b1, b2⟩
    refine ⟨b1.trans a1, fun hc ht => ?_⟩
    obtain ⟨e1, e2, e3, e4⟩ := a2 hc ht
    obtain ⟨f1, f2, f3, f4⟩ := b2 e3 e4
    exact ⟨f1.trans e1, f2.trans e2, f3, f4⟩
  rw [postCullStages_vehiclesBottom]
  have h1 : List.Forall₂
      (fun v w => w.id = v.id ∧ (v.isCrashed = true → v.isTowed = false →
        w.x = v.x ∧ w.y = v.y ∧ w.isCrashed = true ∧ w.isTowed = false))
      t.transitionStage.vehiclesBottom t.resolved.vehiclesBottom := by
    have hp := towedPlacement_sansPos t.transitionStage.vehiclesBottom
    have hr : t.resolved.vehiclesBottom = towedPlacement t.transitionStage.vehiclesBottom := by
      unfold Simulation.resolved
      rw [hres]
    rw [hr]
    refine forall2_imp ?_ hp
    intro v w ⟨hs, hfix⟩
    refine ⟨(sansPos_flags hs).1, fun hc ht => ?_⟩
    rw [hfix ht]
    exact ⟨rfl, rfl, hc, ht⟩
  have h2 : List.Forall₂
      (fun v w => w.id = v.id ∧ (v.isCrashed = true → v.isTowed = false →
        w.x = v.x ∧ w.y = v.y ∧ w.isCrashed = true ∧ w.isTowed = false))
      t.resolved.vehiclesBottom t.steered.vehiclesBottom := by
    refine forall2_imp ?_ (ambulanceStage_sansTargetY _ _ _)
    intro v w h
    obtain ⟨hid, hcr, _, _, htw, _⟩ := sansTargetY_flags h
    refine ⟨hid, fun hc ht => ⟨?_, ?_, hcr.trans hc, htw.trans ht⟩⟩
    · exact (congrArg Vehicle.x h : w.sansTargetY.x = v.sansTargetY.x)
    · exact (congrArg Vehicle.y h : w.sansTargetY.y = v.sansTargetY.y)
  have h3 : List.Forall₂
      (fun v w => w.id = v.id ∧ (v.isCrashed = true → v.isTowed = false →
        w.x = v.x ∧ w.y = v.y ∧ w.isCrashed = true ∧ w.isTowed = false))
      t.steered.vehiclesBottom
      (bottomPass t.steered.currentAccident t.steered.lightBottom
        (activeAmbulance t.transitionStage.vehiclesBottom)
        (activeTow t.transitionStage.vehiclesBottom) env.frameTime t.steered.vehiclesBottom) := by
    refine forall2_imp ?_ (bottomPass_passKept _ _ _ _ _ _)
    intro v w ⟨hfix, hcore⟩
    refine ⟨(core_flags hcore).1, fun hc ht => ?_⟩
    rw [hfix (Or.inl hc)]
    exact ⟨rfl, rfl, hc, ht⟩
  exact forall2_chain htrans (forall2_chain htrans h1 h2) h3

/-- C11 fails for the x coordinate: after the transition the record holds the
leading vehicle's x plus 45, not its x. -/
theorem accident_x_not_leading_x :
    pendingNearState.currentAccident.pending = true ∧
      (pendingNearState.Update (1 / 60) envQuiet).currentAccident.active = true ∧
      (pendingNearState.Update (1 / 60) envQuiet).currentAccident.car1 = some 0 ∧
      (findById (pendingNearState.Update (1 / 60) envQuiet).vehiclesBottom 0).map
        (fun v => v.x) = some 1000 ∧
      (pendingNearState.Update (1 / 60) envQuiet).currentAccident.x = 1045 := by
  decide!

/-- C11, amended: whenever an advance turns an accident that was not active into
an active one, the accident was pending after the culling with its leading
participant `a` (the first reference of the record) on the inbound roadway, and
the location recorded is that vehicle's position at that moment shifted by half
a vehicle width: accident.x = a.x + VEHICLE_WIDTH / 2 = a.x + 45 and
accident.y = a.y; unless it was towed, the leading vehicle still has that
position when the advance returns. -/
theorem accident_location_at_crash (s : Simulation) (delta : ℚ) (env : Env)
    (hact : s.currentAccident.active = false)
    (hpost : (s.Update delta env).currentAccident.active = true) :
    ∃ c1 a, (s.afterCull delta env).currentAccident.pending = true ∧
      (s.afterCull delta env).currentAccident.car1 = some c1 ∧
      findById (s.afterCull delta env).vehiclesBottom c1 = some a ∧
      (s.Update delta env).currentAccident.car1 = some c1 ∧
      (s.Update delta env).currentAccident.x = a.x + VEHICLE_WIDTH / 2 ∧
      (s.Update delta env).currentAccident.y = a.y ∧ VEHICLE_WIDTH / 2 = 45 ∧
      (a.isTowed = false →
        ∃ a', findById (s.Update delta env).vehiclesBottom c1 = some a' ∧
          a'.x = a.x ∧ a'.y = a.y) := by
  have hno : ¬ s.currentAccident.active = true := by rw [hact]; decide
  have hg : s.gameOver = false := by
    by_contra hg
    have hg' : s.gameOver = true := by simpa using hg
    have hU : s.Update delta env = s := by
      unfold Simulation.Update
      rw [if_pos hg']
    rw [hU] at hpost
    exact hno hpost
  rw [Update_eq_postCull s delta env hg] at hpost ⊢
  have hacc := postCullStages_currentAccident (s.afterCull delta env) delta env
  rw [hacc] at hpost
  have hres := resolutionStage_of_active _ _ hpost
  have hpost2 : (s.afterCull delta env).transitionStage.currentAccident.active = true := by
    have h := hpost
    unfold Simulation.resolved at h
    rw [hres] at h
    exact h
  have h0 : (s.afterCull delta env).currentAccident.active = false := by
    by_contra h
    exact hno (afterCull_active s delta env (by simpa using h))
  obtain ⟨c1, c2, a, b, hp, h1, h2, ha, hb, hwin⟩ :=
    transitionStage_becomes_active _ h0 hpost2
  have hT := transitionStage_crash _ c1 c2 a b hp h1 h2 ha hb hwin
  have haccEq : (s.afterCull delta env).resolved.currentAccident =
      (s.afterCull delta env).transitionStage.currentAccident := by
    unfold Simulation.resolved
    rw [hres]
  refine ⟨c1, a, hp, h1, ha, ?_, ?_, ?_, by norm_num [VEHICLE_WIDTH], fun htow => ?_⟩
  · rw [hacc, haccEq, hT]
    exact h1
  · rw [hacc, haccEq, hT]
  · rw [hacc, haccEq, hT]
  · have hstay := crashed_stays_put (s.afterCull delta env) delta env hres
    have hspec := crashWrites_spec c1 c2 (a.x + VEHICLE_WIDTH / 2) a.y
    have hfa : findById (s.afterCull delta env).transitionStage.vehiclesBottom c1 =
        some (crashWrites c1 c2 (a.x + VEHICLE_WIDTH / 2) a.y a) := by
      rw [hT]
      show findById ((s.afterCull delta env).vehiclesBottom.map _) c1 = _
      rw [findById_map _ (fun v => (hspec v).1), ha]
      rfl
    obtain ⟨a', hfa', hQ⟩ := findById_forall2 (fun v w h => h.1) hstay hfa
    have hida : a.id = c1 := findById_id ha
    obtain ⟨e1, e2, _, _⟩ := hQ.2 ((hspec a).2.2.2.2.2.1 (Or.inl hida)).1
      ((crashWrites_isTowed c1 c2 _ _ a).trans htow)
    exact ⟨a', hfa', e1.trans (hspec a).2.1, e2.trans (hspec a).2.2.1⟩

theorem accident_location_at_crash_witness :
    ∃ c1 a, (pendingNearState.afterCull (1 / 60) envQuiet).currentAccident.pending = true ∧
      (pendingNearState.afterCull (1 / 60) envQuiet).currentAccident.car1 = some c1 ∧
      findById (pendingNearState.afterCull (1 / 60) envQuiet).vehiclesBottom c1 = some a ∧
      (pendingNearState.Update (1 / 60) envQuiet).currentAccident.car1 = some c1 ∧
      (pendingNearState.Update (1 / 60) envQuiet).currentAccident.x = a.x + VEHICLE_WIDTH / 2 ∧
      (pendingNearState.Update (1 / 60) envQuiet).currentAccident.y = a.y ∧
      VEHICLE_WIDTH / 2 = 45 ∧
      (a.isTowed = false →
        ∃ a', findById (pendingNearState.Update (1 / 60) envQuiet).vehiclesBottom c1 = some a' ∧
          a'.x = a.x ∧ a'.y = a.y) :=
  accident_location_at_crash pendingNearState (1 / 60) envQuiet (by decide!) (by decide!)

/-! ## A run that ends in a crash -/

theorem runFrom_append (s : Simulation) (as bs : List Cmd) :
    runFrom s (as ++ bs) = runFrom (runFrom s as) bs := by
  unfold runFrom
  rw [List.foldl_append]

theorem reachable_runFrom {s : Simulation} (h : Reachable s) (cmds : List Cmd) :
    Reachable (runFrom s cmds) := by
  obtain ⟨pre, rfl⟩ := h
  refine ⟨pre ++ cmds, ?_⟩
  unfold run runFrom
  rw [List.foldl_append]

set_option maxRecDepth 100000 in
theorem spawn_frames :
    runFrom Simulation.init [.advance 4 (envAt 4 0 50), .advance 4 (envAt 4 0 50)] =
      afterSpawns := by
  decide!

set_option maxRecDepth 100000 in
theorem wait_frames : runFrom afterSpawns (List.replicate 52 still) = cruise (-1394) 5365 := by
  decide!

set_option maxHeartbeats 4000000 in
/-- One frame of two cars under way. -/
theorem cruise_step (xt x : ℚ) (h1 : -1500 ≤ x) (h2 : xt ≤ 5500) :
    (cruise xt x).step still = cruise (xt + 2) (x - 5 / 2) := by
  have e1 : ¬ (x < -1500) := not_lt.2 h1
  have e2 : ¬ (x + 265 / 2 < -1500) := by linarith
  have e3 : ¬ (xt > 5500) := not_lt.2 h2
  have e4 : x + 265 / 2 - (x + -(5 / 2) + 90) = 45 := by ring
  norm_num [cruise, still, envAt, Simulation.step, Simulation.Update, Simulation.init,
    Simulation.spawnStage, Simulation.randomTriggerStage, Simulation.busStage,
    Simulation.missionStage, Simulation.lightStage, Simulation.vehicleStages,
    Simulation.cullStage, Simulation.postCullStages, Simulation.transitionStage,
    Simulation.resolutionStage, Simulation.ambulanceStage, Simulation.alertStage,
    TrafficLight.Update, TrafficLight.new, cullBottom, cullPred, Vehicle.new,
    Vehicle.IsDepannage, Vehicle.IsSchoolBus, Vehicle.IsAmbulance, Vehicle.IsOffScreen,
    activeAmbulance, activeTow, lastIdx, towedPlacement, towedPlacementStep,
    bottomPass, bottomStep, yieldStep, avoidAccident, computeStop, followScan, followLimit,
    topPass, topStep, topScan, modifyAt, Vehicle.Update, Vehicle.baseUpdate, Vehicle.easeY,
    TrafficLight.IsRed, TrafficLight.GetStopLineX, WORLD_WIDTH, VEHICLE_WIDTH, SAFE_DISTANCE,
    ROAD_Y_TOP, ROAD_Y_BOTTOM, ROAD_HEIGHT, List.range, List.range.loop, e1, e2, e3, e4]
  constructor <;> ring

/-- Any number of frames of two cars under way, as long as the first stays on
the road. -/
theorem cruise_frames (n : Nat) (xt x : ℚ) (h1 : -1500 ≤ x - 5 / 2 * n)
    (h2 : xt + 2 * n ≤ 5500) :
    runFrom (cruise xt x) (List.replicate n still) = cruise (xt + 2 * n) (x - 5 / 2 * n) := by
  induction n generalizing xt x with
  | zero => simp [runFrom]
  | succ n ih =>
    have hn : (0 : ℚ) ≤ n := Nat.cast_nonneg n
    push_cast at h1 h2
    have hstep := cruise_step xt x (by linarith) (by linarith)
    show runFrom ((cruise xt x).step still) (List.replicate n still) = _
    rw [hstep, ih (xt + 2) (x - 5 / 2) (by linarith) (by linarith)]
    push_cast
    congr 1 <;> ring

set_option maxRecDepth 100000 in
theorem trigger_far : runFrom (cruise (-114) 3765) [.triggerAccidentNow] = pendingFar := by
  decide!

set_option maxRecDepth 100000 in
theorem crash_frames : runFrom pendingFar (List.replicate 10 still) = crashedPair := by
  decide!

theorem crashScript_run : run crashScript = crashedPair := by
  have h := cruise_frames 640 (-1394) 5365 (by norm_num) (by norm_num)
  norm_num at h
  show runFrom Simulation.init crashScript = crashedPair
  unfold crashScript
  rw [runFrom_append, runFrom_append, runFrom_append, runFrom_append, spawn_frames, wait_frames,
    h, trigger_far, crash_frames]

theorem crashedPair_reachable : Reachable crashedPair := ⟨crashScript, crashScript_run⟩

/-! ## Flags and references in the reachable states -/

theorem core_tow {v w : Vehicle} (h : w.core = v.core) :
    w.myTower = v.myTower ∧ w.towOffsetX = v.towOffsetX := by
  unfold Vehicle.core at h
  simp only [Prod.mk.injEq, Vehicle.mk.injEq] at h
  exact ⟨h.1.2.2.2.2.2.2.2.2.2.2.2.2.2.2.2.2.1, h.1.2.2.2.2.2.2.2.2.2.2.2.2.2.2.2.1⟩

theorem linked_of_core {v w : Vehicle} (h : w.core = v.core) : Linked v w := by
  have hf := core_flags h
  have hm := core_more h
  have ht := core_tow h
  refine ⟨hf.1, fun hc => ?_, hm.2.2.1, fun _ => ⟨hm.1, hm.2.1⟩, ht.1, ht.2, hf.2.2.1⟩
  rw [cls_car_iff] at hc ⊢
  rw [hm.2.2.2.1, hm.2.2.1, hm.2.2.2.2]
  exact hc

theorem linked_refl (v : Vehicle) : Linked v v :=
  ⟨rfl, fun h => h, rfl, fun _ => ⟨rfl, rfl⟩, rfl, rfl, rfl⟩

/-- The invariant survives a stage that relates the inbound vehicles one by one,
keeping what `Linked` lists. -/
theorem tidy_transport {Q : Vehicle → Vehicle → Prop} {s s' : Simulation} (ht : Tidy s)
    (hvs : List.Forall₂ Q s.vehiclesBottom s'.vehiclesBottom)
    (hQ : ∀ v w, Q v w → Linked v w)
    (hcalm : ∀ v w, Q v w → v ∈ s.vehiclesBottom → w.isCrashed = true → w.isReckless = false)
    (htop : ∀ v ∈ s'.vehiclesTop, v.unflagged)
    (hrefs : ∀ c, s'.currentAccident.car1 = some c ∨ s'.currentAccident.car2 = some c →
      ∃ v ∈ s.vehiclesBottom, v.id = c ∧ v.cls = .Car) :
    Tidy s' := by
  refine { top := htop, calm := ?_, refs := ?_, towSpeed := ?_, tower := ?_ }
  · intro w hw hc
    obtain ⟨v, hv, hq⟩ := forall2_mem_right hvs hw
    exact hcalm v w hq hv hc
  · intro c hc
    obtain ⟨v, hv, hid, hcar⟩ := hrefs c hc
    obtain ⟨w, hw, hq⟩ := forall2_mem_left hvs hv
    obtain ⟨l1, l2, _⟩ := hQ v w hq
    exact ⟨w, hw, l1.trans hid, l2 hcar⟩
  · intro w hw hd
    obtain ⟨v, hv, hq⟩ := forall2_mem_right hvs hw
    obtain ⟨_, _, l3, l4, _⟩ := hQ v w hq
    rw [l3] at hd
    obtain ⟨e1, e2⟩ := l4 hd
    rw [e1, e2]
    exact ht.towSpeed v hv hd
  · intro w hw t hwt
    obtain ⟨v, hv, hq⟩ := forall2_mem_right hvs hw
    obtain ⟨_, l2, _, _, l5, l6, l7⟩ := hQ v w hq
    rw [l5] at hwt
    obtain ⟨t1, t2, t3, u, hu, hut, hud⟩ := ht.tower v hv t hwt
    obtain ⟨u', hu', hqu⟩ := forall2_mem_left hvs hu
    obtain ⟨m1, _, m3, _⟩ := hQ u u' hqu
    exact ⟨l2 t1, l7.trans t2, by rw [l6]; exact t3, u', hu', m1.trans hut, m3.trans hud⟩

/-- The invariant survives a stage that keeps both collections and the
references of the accident record. -/
theorem tidy_of_same {s s' : Simulation} (ht : Tidy s)
    (hvs : s'.vehiclesBottom = s.vehiclesBottom) (htop : s'.vehiclesTop = s.vehiclesTop)
    (h1 : s'.currentAccident.car1 = s.currentAccident.car1)
    (h2 : s'.currentAccident.car2 = s.currentAccident.car2) : Tidy s' := by
  refine tidy_transport (Q := fun v w => w = v) ht ?_ (fun v w h => by rw [h]; exact linked_refl v)
    (fun v w h hv hc => ?_) (fun v hv => ht.top v (htop ▸ hv)) (fun c hc => ?_)
  · rw [hvs]
    exact forall2_self (R := fun v w => w = v) (fun _ => rfl) _
  · rw [h] at hc ⊢
    exact ht.calm v hv hc
  · rw [h1, h2] at hc
    exact ht.refs c hc

/-- The invariant survives the arrival of a freshly allocated inbound vehicle
without flags or tower; a tow truck arrives at speed 2.5, heading leftward. -/
theorem tidy_append {s s' : Simulation} (ht : Tidy s) (n : Vehicle)
    (hvs : s'.vehiclesBottom = s.vehiclesBottom ++ [n])
    (htop : s'.vehiclesTop = s.vehiclesTop)
    (h1 : s'.currentAccident.car1 = s.currentAccident.car1)
    (h2 : s'.currentAccident.car2 = s.currentAccident.car2)
    (hcr : n.isCrashed = false) (htw : n.myTower = none)
    (hdep : n.IsDepannage = true → n.speed = 5 / 2 ∧ n.dirRight = false) : Tidy s' := by
  have hmem : ∀ w, w ∈ s'.vehiclesBottom ↔ w ∈ s.vehiclesBottom ∨ w = n := by
    intro w; rw [hvs]; simp
  refine { top := fun v hv => ht.top v (htop ▸ hv), calm := ?_, refs := ?_, towSpeed := ?_,
           tower := ?_ }
  · intro w hw hc
    rcases (hmem w).1 hw with h | rfl
    · exact ht.calm w h hc
    · rw [hcr] at hc; exact absurd hc (by decide)
  · intro c hc
    rw [h1, h2] at hc
    obtain ⟨v, hv, rest⟩ := ht.refs c hc
    exact ⟨v, (hmem v).2 (Or.inl hv), rest⟩
  · intro w hw hd
    rcases (hmem w).1 hw with h | rfl
    · exact ht.towSpeed w h hd
    · exact hdep hd
  · intro w hw t hwt
    rcases (hmem w).1 hw with h | rfl
    · obtain ⟨t1, t2, t3, u, hu, rest⟩ := ht.tower w h t hwt
      exact ⟨t1, t2, t3, u, (hmem u).2 (Or.inl hu), rest⟩
    · rw [htw] at hwt; exact Option.noConfusion hwt

theorem tidy_init : Tidy Simulation.init :=
  { top := fun v hv => absurd hv (List.not_mem_nil _)
    calm := fun v hv => absurd hv (List.not_mem_nil _)
    refs := fun c hc => by
      rcases hc with h | h <;> exact Option.noConfusion h
    towSpeed := fun v hv => absurd hv (List.not_mem_nil _)
    tower := fun v hv => absurd hv (List.not_mem_nil _) }

theorem tidy_Reset (s : Simulation) : Tidy s.Reset :=
  { top := fun v hv => absurd hv (List.not_mem_nil _)
    calm := fun v hv => absurd hv (List.not_mem_nil _)
    refs := fun c hc => by
      rcases hc with h | h <;> exact Option.noConfusion h
    towSpeed := fun v hv => absurd hv (List.not_mem_nil _)
    tower := fun v hv => absurd hv (List.not_mem_nil _) }

theorem tidy_CallSchoolBus {s : Simulation} (ht : Tidy s) : Tidy s.CallSchoolBus :=
  tidy_append ht _ rfl rfl rfl rfl rfl rfl (fun h => Bool.noConfusion h)

theorem tidy_CallDepannage {s : Simulation} (ht : Tidy s) : Tidy s.CallDepannage := by
  unfold Simulation.CallDepannage
  by_cases h : (!s.currentAccident.active) = true
  · rw [if_pos h]; exact ht
  · rw [if_neg h]
    exact tidy_append ht _ rfl rfl rfl rfl rfl rfl (fun _ => ⟨rfl, rfl⟩)

theorem tidy_spawnStage {s : Simulation} (ht : Tidy s) (delta : ℚ) (env : Env) :
    Tidy (s.spawnStage delta env) := by
  -- the outbound spawn
  have htop : Tidy (({ s with carSpawnTimerTop := 0 } : Simulation).SpawnCarTop env) := by
    refine { top := ?_, calm := ht.calm, refs := ht.refs, towSpeed := ht.towSpeed,
             tower := ht.tower }
    intro v hv
    rcases List.mem_append.1 hv with h | h
    · exact ht.top v h
    · rw [List.mem_singleton.1 h]
      exact ⟨rfl, rfl, rfl, rfl, rfl⟩
  unfold Simulation.spawnStage
  dsimp only
  split_ifs with h1 h2 h2
  · exact tidy_append (s := ({ s with carSpawnTimerTop := 0 } : Simulation).SpawnCarTop env)
      htop _ rfl rfl rfl rfl rfl rfl (fun h => Bool.noConfusion h)
  · exact tidy_of_same htop rfl rfl rfl rfl
  · exact tidy_append (s := s) ht _ rfl rfl rfl rfl rfl rfl (fun h => Bool.noConfusion h)
  · exact tidy_of_same ht rfl rfl rfl rfl

theorem modifyAt_length (f : Vehicle → Vehicle) (n : Nat) (vs : List Vehicle) :
    (modifyAt f n vs).length = vs.length := by
  induction vs generalizing n with
  | nil => cases n <;> rfl
  | cons v vs ih => cases n <;> simp [modifyAt, ih]

/-- The trigger scan, vehicle by vehicle. -/
theorem trigger_marked (s : Simulation) :
    List.Forall₂ Marked s.vehiclesBottom s.TriggerRandomAccident.vehiclesBottom := by
  have hrefl : ∀ v : Vehicle, Marked v v := fun v => Or.inl rfl
  unfold Simulation.TriggerRandomAccident
  split_ifs
  · exact forall2_self hrefl _
  · exact forall2_self hrefl _
  · split
    · exact forall2_self hrefl _
    · rename_i i j hscan
      obtain ⟨v1, v2, hv1, _, hv2, hij, hs1, _, hs2, _⟩ := scanOuter_spec _ _ 0 i j hscan
      simp only [Nat.sub_zero] at hv1
      refine forall2_of_getElem (by rw [modifyAt_length, modifyAt_length]) (fun k v w hv hw => ?_)
      have hw' : (modifyAt markTarget j (modifyAt markReckless i s.vehiclesBottom))[k]? =
          some w := hw
      rw [getElem?_modifyAt, getElem?_modifyAt] at hw'
      by_cases hkj : k = j
      · subst hkj
        rw [if_pos rfl, if_neg (Ne.symm hij), hv] at hw'
        rw [hv2] at hv
        simp only [Option.some.injEq] at hv
        simp only [Option.map_some', Option.some.injEq] at hw'
        subst hv
        exact Or.inr ⟨hs2, Or.inr hw'.symm⟩
      · rw [if_neg hkj] at hw'
        by_cases hki : k = i
        · subst hki
          rw [if_pos rfl, hv] at hw'
          rw [hv1] at hv
          simp only [Option.some.injEq] at hv
          simp only [Option.map_some', Option.some.injEq] at hw'
          subst hv
          exact Or.inr ⟨hs1, Or.inl hw'.symm⟩
        · rw [if_neg hki, hv] at hw'
          simp only [Option.some.injEq] at hw'
          exact Or.inl hw'.symm

/-- The references the trigger scan leaves are the old ones or designate
vehicles the scan does not skip. -/
theorem trigger_refs (s : Simulation) (c : Nat)
    (h : s.TriggerRandomAccident.currentAccident.car1 = some c ∨
      s.TriggerRandomAccident.currentAccident.car2 = some c) :
    (s.currentAccident.car1 = some c ∨ s.currentAccident.car2 = some c) ∨
      ∃ v ∈ s.vehiclesBottom, v.id = c ∧ scanSkips v = false := by
  unfold Simulation.TriggerRandomAccident at h
  split_ifs at h
  · exact Or.inl h
  · exact Or.inl h
  · split at h
    · exact Or.inl h
    · rename_i i j hscan
      obtain ⟨v1, v2, hv1, _, hv2, hij, hs1, _, hs2, _⟩ := scanOuter_spec _ _ 0 i j hscan
      simp only [Nat.sub_zero] at hv1
      right
      dsimp only at h
      rw [hv1, hv2] at h
      simp only [Option.map_some', Option.some.injEq] at h
      rcases h with h | h
      · exact ⟨v2, List.getElem?_mem hv2, h, hs2⟩
      · exact ⟨v1, List.getElem?_mem hv1, h, hs1⟩

theorem TriggerRandomAccident_vehiclesTop (s : Simulation) :
    s.TriggerRandomAccident.vehiclesTop = s.vehiclesTop := by
  unfold Simulation.TriggerRandomAccident
  split_ifs
  · rfl
  · rfl
  · split <;> rfl

theorem marked_linked {v w : Vehicle} (h : Marked v w) :
    Linked v w ∧ w.isCrashed = v.isCrashed ∧ w.x = v.x ∧
      (w.isReckless = true → v.isReckless = true ∨ v.isCrashed = false) := by
  rcases h with rfl | ⟨hs, rfl | rfl⟩
  · exact ⟨linked_refl _, rfl, rfl, fun h => Or.inl h⟩
  · obtain ⟨hk, _, hc⟩ := scanSkips_false hs
    have hd := ((cls_car_iff v).1 hk).2.1
    refine ⟨⟨rfl, fun h => h, rfl, fun h => ?_, rfl, rfl, rfl⟩, rfl, rfl, fun _ => Or.inr hc⟩
    rw [hd] at h
    exact Bool.noConfusion h
  · obtain ⟨hk, _, hc⟩ := scanSkips_false hs
    have hd := ((cls_car_iff v).1 hk).2.1
    refine ⟨⟨rfl, fun h => h, rfl, fun h => ?_, rfl, rfl, rfl⟩, rfl, rfl, fun h => Or.inl h⟩
    rw [hd] at h
    exact Bool.noConfusion h

theorem tidy_TriggerRandomAccident {s : Simulation} (ht : Tidy s) :
    Tidy s.TriggerRandomAccident := by
  refine tidy_transport ht (trigger_marked s) (fun v w h => (marked_linked h).1)
    (fun v w h hv hc => ?_) (fun v hv => ht.top v (TriggerRandomAccident_vehiclesTop s ▸ hv))
    (fun c hc => ?_)
  · obtain ⟨_, e1, _, e2⟩ := marked_linked h
    rw [e1] at hc
    have hr := ht.calm v hv hc
    by_contra hcon
    rcases e2 (by simpa using hcon) with h1 | h1
    · rw [hr] at h1; exact Bool.noConfusion h1
    · rw [hc] at h1; exact Bool.noConfusion h1
  · rcases trigger_refs s c hc with h | ⟨v, hv, hid, hs⟩
    · exact ht.refs c h
    · exact ⟨v, hv, hid, (scanSkips_false hs).1⟩

/-- The part of `CallAmbulance` after the trigger scan keeps the invariant. -/
theorem tidy_CallAmbulance {s : Simulation} (ht : Tidy s) : Tidy s.CallAmbulance := by
  have h1 : Tidy (if (!s.currentAccident.active && !s.currentAccident.pending) = true
      then s.TriggerRandomAccident else s) := by
    split_ifs
    · exact tidy_TriggerRandomAccident ht
    · exact ht
  unfold Simulation.CallAmbulance
  refine tidy_append h1 _ rfl rfl rfl rfl ?_ ?_ ?_
  · dsimp only
    split_ifs <;> rfl
  · dsimp only
    split_ifs <;> rfl
  · intro h
    dsimp only at h
    split_ifs at h <;> exact Bool.noConfusion h

/-! ### References through the culling -/

/-- One call of the culling predicate only clears references. -/
theorem cullPred_car_sub (v : Vehicle) (acc : Accident) (w : Bool) (c : Nat) :
    ((cullPred v acc w).acc.car1 = some c → acc.car1 = some c) ∧
      ((cullPred v acc w).acc.car2 = some c → acc.car2 = some c) := by
  unfold cullPred
  split_ifs <;> (try dsimp only) <;> (try split_ifs) <;> constructor <;> intro h <;>
    first
      | exact h
      | exact False.elim h

/-- One call of the culling predicate only clears references, and it clears the
references to a car it removes. -/
theorem cullPred_refs (v : Vehicle) (acc : Accident) (w : Bool) (c : Nat)
    (h : (cullPred v acc w).acc.car1 = some c ∨ (cullPred v acc w).acc.car2 = some c) :
    (acc.car1 = some c ∨ acc.car2 = some c) ∧
      (v.id = c → v.cls = .Car → cullRemoves v = false) := by
  have hrem := cullPred_remove v acc w
  by_cases hk : v.cls = .Car
  · obtain ⟨_, hd, hb⟩ := (cls_car_iff v).1 hk
    unfold cullPred at h hrem
    rw [if_neg (by rw [hd]; decide), if_neg (by rw [hb]; decide)] at h hrem
    by_cases h3 : (v.isReckless || v.isAccidentTarget || v.isCrashed || v.isTowed) = true
    · rw [if_pos h3] at h hrem
      by_cases h4 : (decide (v.x > -2000) && !v.toBeRemoved) = true
      · rw [if_pos h4] at h hrem
        exact ⟨h, fun _ _ => hrem.symm⟩
      · rw [if_neg h4] at h
        dsimp only at h
        by_cases c3 : (v.isAccidentTarget || v.isReckless || v.isCrashed) = true
        · by_cases c1 : acc.car1 = some v.id
          · by_cases c2 : acc.car2 = some v.id
            · simp only [c1, c2, c3, if_true] at h
              rcases h with h | h <;> exact Option.noConfusion h
            · simp only [c1, c2, c3, if_true, if_false] at h
              rcases h with h | h
              · exact Option.noConfusion h
              · refine ⟨Or.inr h, fun hid => ?_⟩
                subst hid
                exact absurd h c2
          · by_cases c2 : acc.car2 = some v.id
            · simp only [c1, c2, c3, if_true, if_false] at h
              rcases h with h | h
              · refine ⟨Or.inl h, fun hid => ?_⟩
                subst hid
                exact absurd h c1
              · exact Option.noConfusion h
            · simp only [c1, c2, c3, if_true, if_false] at h
              refine ⟨h, fun hid => ?_⟩
              subst hid
              rcases h with h | h
              · exact absurd h c1
              · exact absurd h c2
        · by_cases c1 : acc.car1 = some v.id
          · by_cases c2 : acc.car2 = some v.id
            · simp only [c1, c2, c3, if_true, if_false] at h
              rcases h with h | h <;> exact Option.noConfusion h
            · simp only [c1, c2, c3, if_true, if_false] at h
              rcases h with h | h
              · exact Option.noConfusion h
              · refine ⟨Or.inr h, fun hid => ?_⟩
                subst hid
                exact absurd h c2
          · by_cases c2 : acc.car2 = some v.id
            · simp only [c1, c2, c3, if_true, if_false] at h
              rcases h with h | h
              · refine ⟨Or.inl h, fun hid => ?_⟩
                subst hid
                exact absurd h c1
              · exact Option.noConfusion h
            · simp only [c1, c2, c3, if_true, if_false] at h
              refine ⟨h, fun hid => ?_⟩
              subst hid
              rcases h with h | h
              · exact absurd h c1
              · exact absurd h c2
    · rw [if_neg h3] at h hrem
      by_cases h4 : (v.IsOffScreen || v.toBeRemoved) = true
      · rw [if_pos h4] at h
        by_cases h5 : acc.car1 = some v.id ∨ acc.car2 = some v.id
        · rw [if_pos h5] at h
          rcases h with h | h <;> exact Option.noConfusion h
        · rw [if_neg h5] at h
          refine ⟨h, fun hid => ?_⟩
          subst hid
          exact absurd h h5
      · rw [if_neg h4] at h hrem
        exact ⟨h, fun _ _ => hrem.symm⟩
  · exact ⟨by
      rcases h with h | h
      · exact Or.inl ((cullPred_car_sub v acc w c).1 h)
      · exact Or.inr ((cullPred_car_sub v acc w c).2 h), fun _ h' => absurd h' hk⟩

/-- The culling only clears references, and it clears the references to the
cars it removes. -/
theorem cullBottom_refs (vs : List Vehicle) (acc : Accident) (w : Bool) (c : Nat)
    (h : (cullBottom vs acc w).acc.car1 = some c ∨ (cullBottom vs acc w).acc.car2 = some c) :
    (acc.car1 = some c ∨ acc.car2 = some c) ∧
      ∀ v ∈ vs, v.id = c → v.cls = .Car → cullRemoves v = false := by
  induction vs generalizing acc w with
  | nil => exact ⟨h, fun v hv => absurd hv (List.not_mem_nil _)⟩
  | cons u us ih =>
    simp only [cullBottom] at h
    obtain ⟨h1, h2⟩ := ih _ _ h
    obtain ⟨h3, h4⟩ := cullPred_refs u acc w c h1
    refine ⟨h3, fun v hv => ?_⟩
    rcases List.mem_cons.1 hv with rfl | hv
    · exact h4
    · exact h2 v hv

theorem cullStage_vehiclesBottom (s : Simulation) :
    s.cullStage.vehiclesBottom = s.vehiclesBottom.filter (fun v => !cullRemoves v) :=
  cullBottom_vehicles _ _ _

/-- A towed car hitched to a tow truck that the culling removes is removed
with it. -/
theorem cullRemoves_hitched {v w : Vehicle} (hk : v.cls = .Car) (ht : v.isTowed = true)
    (hoff : v.towOffsetX ≤ 200) (hd : w.IsDepannage = true)
    (hx : v.x ≤ w.x + v.towOffsetX + 5 / 2) (hv : cullRemoves v = false) :
    cullRemoves w = false := by
  obtain ⟨_, hvd, hvb⟩ := (cls_car_iff v).1 hk
  unfold cullRemoves at hv ⊢
  rw [if_pos hd]
  rw [if_neg (by rw [hvd]; decide), if_neg (by rw [hvb]; decide),
    if_pos (by rw [ht]; simp)] at hv
  simp only [Bool.not_eq_false', Bool.and_eq_true, decide_eq_true_eq,
    Bool.not_eq_true'] at hv
  simp only [decide_eq_false_iff_not, not_lt]
  linarith [hv.1]

/-- The culling keeps the invariant: the references it leaves designate cars it
keeps, and a towed car it keeps still has its tower. -/
theorem tidy_cullStage {s : Simulation} (ht : Tidy s) (hh : Hitched (5 / 2) s) :
    Tidy s.cullStage := by
  have hvb := cullStage_vehiclesBottom s
  have hsub : ∀ w, w ∈ s.cullStage.vehiclesBottom → w ∈ s.vehiclesBottom := by
    intro w hw
    rw [hvb] at hw
    exact (List.mem_filter.1 hw).1
  have hkeep : ∀ w, w ∈ s.cullStage.vehiclesBottom → cullRemoves w = false := by
    intro w hw
    rw [hvb] at hw
    simpa using (List.mem_filter.1 hw).2
  have hkept : ∀ w ∈ s.vehiclesBottom, cullRemoves w = false →
      w ∈ s.cullStage.vehiclesBottom := by
    intro w hw hr
    rw [hvb]
    exact List.mem_filter.2 ⟨hw, by simp [hr]⟩
  refine { top := ?_, calm := fun w hw => ht.calm w (hsub w hw), refs := ?_,
           towSpeed := fun w hw => ht.towSpeed w (hsub w hw), tower := ?_ }
  · intro v hv
    exact ht.top v (List.mem_filter.1 hv).1
  · intro c hc
    obtain ⟨h1, h2⟩ := cullBottom_refs s.vehiclesBottom s.currentAccident
      s.waitingForTowToLeave c hc
    obtain ⟨v, hv, hid, hk⟩ := ht.refs c h1
    exact ⟨v, hkept v hv (h2 v hv hid hk), hid, hk⟩
  · intro v hv t hvt
    obtain ⟨t1, t2, t3, w, hw, hwt, hwd⟩ := ht.tower v (hsub v hv) t hvt
    refine ⟨t1, t2, t3, w, hkept w hw ?_, hwt, hwd⟩
    exact cullRemoves_hitched t1 t2 t3 hwd (hh v (hsub v hv) t hvt w hw hwt) (hkeep v hv)

/-! ### References through the transition and the tow resolution -/

theorem linked_trans {u v w : Vehicle} (h1 : Linked u v) (h2 : Linked v w) : Linked u w := by
  obtain ⟨a1, a2, a3, a4, a5, a6, a7⟩ := h1
  obtain ⟨b1, b2, b3, b4, b5, b6, b7⟩ := h2
  refine ⟨b1.trans a1, fun h => b2 (a2 h), b3.trans a3, fun h => ?_, b5.trans a5, b6.trans a6,
    b7.trans a7⟩
  obtain ⟨c1, c2⟩ := a4 h
  obtain ⟨d1, d2⟩ := b4 (a3.trans h)
  exact ⟨d1.trans c1, d2.trans c2⟩

theorem findById_mem {vs : List Vehicle} {c : Nat} {a : Vehicle}
    (h : findById vs c = some a) : a ∈ vs := by
  unfold findById at h
  exact List.mem_of_find?_eq_some h

theorem crashFlags_linked (c1 c2 : Nat) (v : Vehicle) : Linked v (crashFlags c1 c2 v) := by
  obtain ⟨h1, h2, h3⟩ := crashFlags_cases c1 c2 v
  by_cases e2 : v.id = c2
  · rw [h3 e2]
    exact ⟨rfl, fun h => h, rfl, fun _ => ⟨rfl, rfl⟩, rfl, rfl, rfl⟩
  · by_cases e1 : v.id = c1
    · rw [h2 e1 e2]
      exact ⟨rfl, fun h => h, rfl, fun _ => ⟨rfl, rfl⟩, rfl, rfl, rfl⟩
    · rw [h1 e1 e2]
      exact linked_refl v

theorem crashWrites_linked (c1 c2 : Nat) (accX accY : ℚ) (v : Vehicle) :
    Linked v (crashWrites c1 c2 accX accY v) :=
  linked_trans (crashFlags_linked c1 c2 v)
    (linked_of_core (assignIfAmbulance_core accX accY (crashFlags c1 c2 v)))

/-- The three outcomes of the transition block: nothing, a pending accident with
a missing participant abandoned, or the crash. -/
theorem transitionStage_cases (t : Simulation) :
    t.transitionStage = t ∨
      t.transitionStage =
        { t with currentAccident := { t.currentAccident with pending := false },
                 waitingForTowToLeave := false } ∨
      ∃ c1 c2 a b, t.currentAccident.pending = true ∧ t.currentAccident.car1 = some c1 ∧
        t.currentAccident.car2 = some c2 ∧ findById t.vehiclesBottom c1 = some a ∧
        findById t.vehiclesBottom c2 = some b ∧
        t.transitionStage =
          { t with
            currentAccident :=
              { t.currentAccident with
                pending := false, active := true, x := a.x + VEHICLE_WIDTH / 2, y := a.y }
            vehiclesBottom :=
              t.vehiclesBottom.map (crashWrites c1 c2 (a.x + VEHICLE_WIDTH / 2) a.y) } := by
  by_cases hp : t.currentAccident.pending = true
  · cases hc1 : t.currentAccident.car1 with
    | none =>
      right; left
      unfold Simulation.transitionStage
      simp only [hp, hc1, if_true]
    | some c1 =>
      cases hc2 : t.currentAccident.car2 with
      | none =>
        right; left
        unfold Simulation.transitionStage
        simp only [hp, hc1, hc2, if_true]
      | some c2 =>
        cases ha : findById t.vehiclesBottom c1 with
        | none =>
          left
          unfold Simulation.transitionStage
          simp only [hp, hc1, hc2, ha, if_true]
        | some a =>
          cases hb : findById t.vehiclesBottom c2 with
          | none =>
            left
            unfold Simulation.transitionStage
            simp only [hp, hc1, hc2, ha, hb, if_true]
          | some b =>
            by_cases hwin : b.x - a.x < VEHICLE_WIDTH - 10 ∧ b.x - a.x > -VEHICLE_WIDTH
            · right; right
              exact ⟨c1, c2, a, b, hp, rfl, rfl, ha, hb,
                transitionStage_crash t c1 c2 a b hp hc1 hc2 ha hb hwin⟩
            · left
              exact transitionStage_wait t c1 c2 a b hp hc1 hc2 ha hb hwin
  · left
    unfold Simulation.transitionStage
    simp only [hp, if_false, Bool.false_eq_true]

/-- The transition keeps the invariant: the leading car it crashes is not
reckless and the trailing one loses its reckless flag. -/
theorem tidy_transitionStage {s : Simulation} (hinv : Inv 73 s) (ht : Tidy s) :
    Tidy s.transitionStage := by
  rcases transitionStage_cases s with h | h | ⟨c1, c2, a, b, hp, h1, h2, ha, hb, h⟩
  · rw [h]; exact ht
  · rw [h]
    exact tidy_of_same ht rfl rfl rfl rfl
  · rw [h]
    obtain ⟨a', ha', b', hb', e1, e2, hl, _⟩ := hinv.pair hp
    rw [h1] at e1
    rw [h2] at e2
    simp only [Option.some.injEq] at e1 e2
    refine tidy_transport
      (Q := fun v w => w = crashWrites c1 c2 (a.x + VEHICLE_WIDTH / 2) a.y v) ht
      (forall2_map (R := fun v w => w = crashWrites c1 c2 (a.x + VEHICLE_WIDTH / 2) a.y v) _
        (fun v => rfl) s.vehiclesBottom)
      (fun v w hw => by rw [hw]; exact crashWrites_linked _ _ _ _ v) (fun v w hw hv hc => ?_)
      ht.top ht.refs
    subst hw
    have hcore := core_flags (assignIfAmbulance_core (a.x + VEHICLE_WIDTH / 2) a.y
      (crashFlags c1 c2 v))
    have hR : (crashWrites c1 c2 (a.x + VEHICLE_WIDTH / 2) a.y v).isReckless =
        (crashFlags c1 c2 v).isReckless := hcore.2.2.2.1
    have hC : (crashWrites c1 c2 (a.x + VEHICLE_WIDTH / 2) a.y v).isCrashed =
        (crashFlags c1 c2 v).isCrashed := hcore.2.1
    rw [hR]
    rw [hC] at hc
    obtain ⟨k1, k2, k3⟩ := crashFlags_cases c1 c2 v
    by_cases i2 : v.id = c2
    · rw [k3 i2]
    · by_cases i1 : v.id = c1
      · rw [k2 i1 i2]
        have hva : v = a' := eq_of_id_eq hinv.nodup hv ha' (i1.trans e1)
        show v.isReckless = false
        rw [hva]
        exact hl.notReckless
      · rw [k1 i1 i2] at hc ⊢
        exact ht.calm v hv hc

theorem towWrites_linked (c1 c2 : Nat) (tow v : Vehicle) :
    (towWrites c1 c2 tow v).id = v.id ∧ (towWrites c1 c2 tow v).cls = v.cls ∧
      (towWrites c1 c2 tow v).speed = v.speed ∧
      (towWrites c1 c2 tow v).dirRight = v.dirRight ∧
      (towWrites c1 c2 tow v).isReckless = v.isReckless ∧
      (towWrites c1 c2 tow v).x = v.x ∧
      (v.id = c1 ∨ v.id = c2 →
        (towWrites c1 c2 tow v).myTower = some tow.id ∧
          (towWrites c1 c2 tow v).isTowed = true ∧
          (towWrites c1 c2 tow v).isCrashed = false ∧
          (towWrites c1 c2 tow v).towOffsetX ≤ 200) ∧
      (v.id = c1 → v.id ≠ c2 → (towWrites c1 c2 tow v).towOffsetX = 100 ∧
        (towWrites c1 c2 tow v).isAccidentTarget = false) ∧
      (v.id = c2 → (towWrites c1 c2 tow v).towOffsetX = 200 ∧
        ((towWrites c1 c2 tow v).isAccidentTarget = true → v.id ≠ c1 →
          v.isAccidentTarget = true)) := by
  unfold towWrites
  by_cases e1 : v.id = c1
  · have hu : (if v.id = c1 then towFirst tow v else v) = towFirst tow v := if_pos e1
    rw [hu]
    by_cases e2 : (towFirst tow v).id = c2
    · rw [if_pos e2]
      refine ⟨rfl, rfl, rfl, rfl, rfl, rfl, fun _ => ⟨rfl, rfl, rfl, le_refl _⟩,
        fun _ h => absurd e2 h, fun _ => ⟨rfl, fun _ h => absurd e1 h⟩⟩
    · rw [if_neg e2]
      refine ⟨rfl, rfl, rfl, rfl, rfl, rfl, fun _ => ⟨rfl, rfl, rfl, by norm_num [towFirst]⟩,
        fun _ _ => ⟨rfl, rfl⟩, fun h => absurd h e2⟩
  · have hu : (if v.id = c1 then towFirst tow v else v) = v := if_neg e1
    rw [hu]
    by_cases e2 : v.id = c2
    · rw [if_pos e2]
      refine ⟨rfl, rfl, rfl, rfl, rfl, rfl, fun _ => ⟨rfl, rfl, rfl, le_refl _⟩,
        fun h => absurd h e1, fun _ => ⟨rfl, fun h _ => h⟩⟩
    · rw [if_neg e2]
      refine ⟨rfl, rfl, rfl, rfl, rfl, rfl, fun h => ?_, fun h => absurd h e1,
        fun h => absurd h e2⟩
      rcases h with h | h <;> contradiction

/-- The tow resolution either does nothing or, with the active tow truck picked
up and the accident active, tows both wrecks and clears the `active` flag. -/
theorem resolutionStage_cases {g : ℚ} {s : Simulation} (hinv : Inv g s) (aTow : Option Nat) :
    s.resolutionStage aTow = s ∨
      ∃ t tow a b, aTow = some t ∧ s.vehiclesBottom[t]? = some tow ∧
        tow.hasPickedUp = true ∧ s.currentAccident.active = true ∧
        a ∈ s.vehiclesBottom ∧ b ∈ s.vehiclesBottom ∧
        s.currentAccident.car1 = some a.id ∧ s.currentAccident.car2 = some b.id ∧
        s.resolutionStage aTow =
          { s with
            vehiclesBottom := s.vehiclesBottom.map (towWrites a.id b.id tow)
            currentAccident := { s.currentAccident with active := false } } := by
  cases aTow with
  | none => left; rfl
  | some t =>
    cases htow : s.vehiclesBottom[t]? with
    | none =>
      left
      unfold Simulation.resolutionStage
      simp only [htow]
    | some tow =>
      by_cases hfire : (tow.hasPickedUp && s.currentAccident.active) = true
      · right
        have hfire' := hfire
        simp only [Bool.and_eq_true] at hfire'
        obtain ⟨hpick, hact⟩ := hfire'
        obtain ⟨a, ha, b, hb, h1, h2, _⟩ := hinv.wreck hact
        refine ⟨t, tow, a, b, rfl, htow, hpick, hact, ha, hb, h1, h2, ?_⟩
        unfold Simulation.resolutionStage
        simp only [htow, hfire, if_true, h1, h2]
        rw [resolution_writes_eq]
      · left
        unfold Simulation.resolutionStage
        simp only [htow, hfire, if_false, Bool.false_eq_true]

/-- The tow resolution keeps the invariant: the wrecks it tows are cars, hitched
to the active tow truck at offsets 100 and 200. -/
theorem tidy_resolutionStage {g : ℚ} {s : Simulation} (hinv : Inv g s) (ht : Tidy s)
    (aTow : Option Nat) : Tidy (s.resolutionStage aTow) := by
  rcases resolutionStage_cases hinv aTow with h | ⟨t, tow, a, b, _, htow, hpick, hact, ha, hb,
    h1, h2, h⟩
  · rw [h]; exact ht
  · rw [h]
    have hG := towWrites_linked a.id b.id tow
    have htm : tow ∈ s.vehiclesBottom := List.getElem?_mem htow
    obtain ⟨a', ha', b', hb', e1, e2, _, _, _, _, _, hka, hkb⟩ := hinv.wreck hact
    rw [h1] at e1
    rw [h2] at e2
    simp only [Option.some.injEq] at e1 e2
    have hka' : a.cls = .Car := by
      rw [eq_of_id_eq hinv.nodup ha ha' e1]; exact hka
    have hkb' : b.cls = .Car := by
      rw [eq_of_id_eq hinv.nodup hb hb' e2]; exact hkb
    have hmap : ∀ u ∈ s.vehiclesBottom,
        towWrites a.id b.id tow u ∈ s.vehiclesBottom.map (towWrites a.id b.id tow) :=
      fun u hu => List.mem_map.2 ⟨u, hu, rfl⟩
    refine { top := ht.top, calm := ?_, refs := ?_, towSpeed := ?_, tower := ?_ }
    · intro w hw hc
      obtain ⟨v, hv, rfl⟩ := List.mem_map.1 hw
      rw [(hG v).2.2.2.2.1]
      by_cases e : v.id = a.id ∨ v.id = b.id
      · rw [((hG v).2.2.2.2.2.2.1 e).2.2.1] at hc
        exact Bool.noConfusion hc
      · simp only [not_or] at e
        rw [(towWrites_spec a.id b.id tow v).2.2.2.2.2.2 e.1 e.2] at hc
        exact ht.calm v hv hc
    · intro c hc
      obtain ⟨v, hv, hid, hk⟩ := ht.refs c hc
      exact ⟨_, hmap v hv, (hG v).1.trans hid, (hG v).2.1.trans hk⟩
    · intro w hw hd
      obtain ⟨v, hv, rfl⟩ := List.mem_map.1 hw
      have hd' : v.IsDepannage = true := by
        unfold Vehicle.IsDepannage at hd ⊢
        rw [(hG v).2.1] at hd
        exact hd
      rw [(hG v).2.2.1, (hG v).2.2.2.1]
      exact ht.towSpeed v hv hd'
    · intro w hw t' hwt
      obtain ⟨v, hv, rfl⟩ := List.mem_map.1 hw
      by_cases e : v.id = a.id ∨ v.id = b.id
      · obtain ⟨g1, g2, _, g4⟩ := (hG v).2.2.2.2.2.2.1 e
        rw [g1] at hwt
        simp only [Option.some.injEq] at hwt
        have hvk : v.cls = .Car := by
          rcases e with e | e
          · rw [eq_of_id_eq hinv.nodup hv ha e]; exact hka'
          · rw [eq_of_id_eq hinv.nodup hv hb e]; exact hkb'
        refine ⟨(hG v).2.1.trans hvk, g2, g4, _, hmap tow htm, (hG tow).1.trans hwt, ?_⟩
        unfold Vehicle.IsDepannage
        rw [(hG tow).2.1]
        exact hasPickedUp_isDepannage hpick
      · simp only [not_or] at e
        rw [(towWrites_spec a.id b.id tow v).2.2.2.2.2.2 e.1 e.2] at hwt ⊢
        obtain ⟨t1, t2, t3, u, hu, hut, hud⟩ := ht.tower v hv t' hwt
        refine ⟨t1, t2, t3, _, hmap u hu, (hG u).1.trans hut, ?_⟩
        unfold Vehicle.IsDepannage at hud ⊢
        rw [(hG u).2.1]
        exact hud

/-! ### Flags and references through the rest of the frame -/

theorem topStep_status (light : TrafficLight) (ft : ℚ) (vs : List Vehicle) (i : Nat) :
    List.Forall₂ (fun v w => w.status = v.status) vs (topStep light ft vs i) := by
  have hrefl : ∀ v : Vehicle, v.status = v.status := fun _ => rfl
  unfold topStep
  split
  · exact forall2_self hrefl vs
  · rename_i v hv
    refine forall2_modifyAt hrefl _ i vs (fun u hu => ?_)
    rw [hv] at hu
    simp only [Option.some.injEq] at hu
    subst hu
    rw [Update_status]
    rfl

/-- The loop over the outbound vehicles only writes what `status` blanks. -/
theorem topPass_status (light : TrafficLight) (ft : ℚ) (vs : List Vehicle) :
    List.Forall₂ (fun v w => w.status = v.status) vs (topPass light ft vs) := by
  unfold topPass
  exact forall2_foldl (R := fun v w => w.status = v.status) (fun _ => rfl)
    (fun u v w h1 h2 => h2.trans h1) _ (topStep_status light ft) _ vs

theorem unflagged_of_core {v w : Vehicle} (h : w.core = v.core) (hv : v.unflagged) :
    w.unflagged := by
  obtain ⟨_, f2, f3, f4, f5, _⟩ := core_flags h
  obtain ⟨a, b, c, d, e⟩ := hv
  exact ⟨f4.trans a, f5.trans b, f2.trans c, f3.trans d, (core_tow h).1.trans e⟩

theorem resolutionStage_top (s : Simulation) (aTow : Option Nat) :
    (s.resolutionStage aTow).vehiclesTop = s.vehiclesTop ∧
      (s.resolutionStage aTow).lightTop = s.lightTop := by
  unfold Simulation.resolutionStage
  split
  · exact ⟨rfl, rfl⟩
  · split
    · exact ⟨rfl, rfl⟩
    · split_ifs <;> exact ⟨rfl, rfl⟩

theorem transitionStage_top (s : Simulation) :
    s.transitionStage.vehiclesTop = s.vehiclesTop ∧ s.transitionStage.lightTop = s.lightTop := by
  rcases transitionStage_cases s with h | h | ⟨c1, c2, a, b, _, _, _, _, _, h⟩ <;> rw [h] <;>
    exact ⟨rfl, rfl⟩

theorem ambulanceStage_top (s : Simulation) (aAmb aTow : Option Nat) :
    (s.ambulanceStage aAmb aTow).vehiclesTop = s.vehiclesTop ∧
      (s.ambulanceStage aAmb aTow).lightTop = s.lightTop := by
  unfold Simulation.ambulanceStage
  split
  · exact ⟨rfl, rfl⟩
  · split
    · exact ⟨rfl, rfl⟩
    · dsimp only
      split_ifs <;> exact ⟨rfl, rfl⟩

theorem alertStage_top (s : Simulation) (aAmb : Option Nat) (delta : ℚ) :
    (s.alertStage aAmb delta).vehiclesTop = s.vehiclesTop := by
  unfold Simulation.alertStage
  dsimp only
  split_ifs <;> rfl

/-- The outbound collection a frame ends with is the outbound loop run on the
collection the culling leaves. -/
theorem postCullStages_vehiclesTop (s : Simulation) (delta : ℚ) (env : Env) :
    (s.postCullStages delta env).vehiclesTop =
      topPass s.lightTop env.frameTime s.vehiclesTop := by
  unfold Simulation.postCullStages
  dsimp only
  rw [alertStage_top]
  dsimp only
  rw [(ambulanceStage_top _ _ _).1, (ambulanceStage_top _ _ _).2]
  dsimp only
  rw [(resolutionStage_top _ _).1, (resolutionStage_top _ _).2, (transitionStage_top _).1,
    (transitionStage_top _).2]

/-- The state of a frame after the main loop over the inbound vehicles, given the
state after the culling. -/
theorem tidy_steered {s : Simulation} (hinv : Inv 73 s) (ht : Tidy s) : Tidy s.steered := by
  have h1 := tidy_transitionStage hinv ht
  have h2 := tidy_resolutionStage hinv.transitionStage h1
    (activeTow s.transitionStage.vehiclesBottom)
  have h3 : Tidy s.resolved := by
    refine tidy_transport h2 (towedPlacement_sansPos _)
      (fun v w h => linked_of_core (sansPos_core h.1)) (fun v w h hv hc => ?_) h2.top h2.refs
    obtain ⟨_, e1, _, e2, _⟩ := sansPos_flags h.1
    rw [e2]
    exact h2.calm v hv (e1 ▸ hc)
  refine tidy_transport h3 (ambulanceStage_sansTargetY _ _ _)
    (fun v w h => linked_of_core (sansTargetY_core h)) (fun v w h hv hc => ?_) ?_ ?_
  · obtain ⟨_, e1, _, e2, _⟩ := sansTargetY_flags h
    rw [e2]
    exact h3.calm v hv (e1 ▸ hc)
  · intro v hv
    unfold Simulation.steered at hv
    rw [(ambulanceStage_top _ _ _).1] at hv
    exact h3.top v hv
  · intro c hc
    unfold Simulation.steered at hc
    rw [ambulanceStage_currentAccident] at hc
    exact h3.refs c hc

/-- The stages after the culling keep the invariant. -/
theorem tidy_postCullStages {s : Simulation} (hinv : Inv 73 s) (ht : Tidy s) (delta : ℚ)
    (env : Env) : Tidy (s.postCullStages delta env) := by
  have h4 := tidy_steered hinv ht
  refine tidy_transport (Q := PassKept) h4 ?_ (fun v w h => linked_of_core h.2)
    (fun v w h hv hc => ?_) ?_ ?_
  · rw [postCullStages_vehiclesBottom]
    exact bottomPass_passKept _ _ _ _ _ _
  · obtain ⟨_, e1, _, e2, _⟩ := core_flags h.2
    rw [e2]
    exact h4.calm v hv (e1 ▸ hc)
  · intro w hw
    rw [postCullStages_vehiclesTop] at hw
    obtain ⟨v, hv, hq⟩ := forall2_mem_right (topPass_status _ _ _) hw
    exact unflagged_of_core (status_core hq) (ht.top v hv)
  · intro c hc
    rw [postCullStages_currentAccident] at hc
    refine h4.refs c ?_
    unfold Simulation.steered
    rw [ambulanceStage_currentAccident]
    exact hc

/-! ### Towed vehicles and their tower -/

/-- A loop whose iteration `i` only writes element `i`, with a property of the
collection that every iteration keeps. -/
theorem fold_pointwise_inv {R : Vehicle → Vehicle → Prop} (J : List Vehicle → Prop)
    (step : List Vehicle → Nat → List Vehicle)
    (hJ : ∀ vs i, J vs → J (step vs i))
    (hne : ∀ vs i k, k ≠ i → (step vs i)[k]? = vs[k]?)
    (hat : ∀ vs i v, J vs → vs[i]? = some v → ∃ w, (step vs i)[i]? = some w ∧ R v w)
    (idxs : List Nat) (hnd : idxs.Nodup) (vs : List Vehicle) (hvs : J vs) (k : Nat)
    (v : Vehicle) (hv : vs[k]? = some v) :
    ∃ w, (idxs.foldl step vs)[k]? = some w ∧ (k ∈ idxs → R v w) ∧ (k ∉ idxs → w = v) := by
  induction idxs generalizing vs v with
  | nil => exact ⟨v, hv, fun h => absurd h (List.not_mem_nil _), fun _ => rfl⟩
  | cons i idxs ih =>
    rw [List.nodup_cons] at hnd
    rw [List.foldl_cons]
    by_cases hki : k = i
    · subst hki
      obtain ⟨w, hw, hr⟩ := hat vs k v hvs hv
      obtain ⟨w', hw', _, hsame⟩ := ih hnd.2 (step vs k) (hJ vs k hvs) w hw
      refine ⟨w', hw', fun _ => ?_, fun h => absurd (List.mem_cons_self _ _) h⟩
      rw [hsame hnd.1]
      exact hr
    · have hv' : (step vs i)[k]? = some v := by rw [hne vs i k hki]; exact hv
      obtain ⟨w', hw', hin, hout⟩ := ih hnd.2 (step vs i) (hJ vs i hvs) v hv'
      refine ⟨w', hw', fun h => ?_, fun h => ?_⟩
      · rcases List.mem_cons.1 h with h | h
        · exact absurd h hki
        · exact hin h
      · exact hout (fun h' => h (List.mem_cons_of_mem _ h'))

theorem fold_inv (J : List Vehicle → Prop) (step : List Vehicle → Nat → List Vehicle)
    (hJ : ∀ vs i, J vs → J (step vs i)) (idxs : List Nat) (vs : List Vehicle) (hvs : J vs) :
    J (idxs.foldl step vs) := by
  induction idxs generalizing vs with
  | nil => exact hvs
  | cons i idxs ih => exact ih (step vs i) (hJ vs i hvs)

theorem towedPlacementStep_ne (vs : List Vehicle) (i k : Nat) (hk : k ≠ i) :
    (towedPlacementStep vs i)[k]? = vs[k]? := by
  unfold towedPlacementStep
  split
  · rfl
  · split_ifs
    · split
      · rfl
      · split
        · rfl
        · rw [getElem?_modifyAt, if_neg hk]
    · rfl

theorem sansPos_tow {v w : Vehicle} (h : w.sansPos = v.sansPos) :
    w.myTower = v.myTower ∧ w.towOffsetX = v.towOffsetX ∧ w.IsDepannage = v.IsDepannage :=
  ⟨(core_tow (sansPos_core h)).1, (core_tow (sansPos_core h)).2,
    (core_more (sansPos_core h)).2.2.1⟩

/-- After the placement loop every vehicle with a tower reference sits exactly
its tow offset to the right of its tower. -/
theorem placement_hitched (vs0 : List Vehicle) (hn : (vs0.map Vehicle.id).Nodup)
    (htower : ∀ v ∈ vs0, ∀ t, v.myTower = some t →
      v.cls = .Car ∧ v.isTowed = true ∧ ∃ w ∈ vs0, w.id = t ∧ w.IsDepannage = true) :
    ∀ v ∈ towedPlacement vs0, ∀ t, v.myTower = some t →
      ∀ w ∈ towedPlacement vs0, w.id = t → v.x ≤ w.x + v.towOffsetX + 0 := by
  -- what every iteration keeps: only positions change, and no tow truck moves
  have hP_id : ∀ cur, List.Forall₂
      (fun v w => w.sansPos = v.sansPos ∧ (v.IsDepannage = true → w = v)) vs0 cur →
      (cur.map Vehicle.id).Nodup := by
    intro cur hcur
    rw [forall2_map_id (fun v w h => (sansPos_flags h.1).1) hcur]
    exact hn
  have hfind : ∀ cur, List.Forall₂
      (fun v w => w.sansPos = v.sansPos ∧ (v.IsDepannage = true → w = v)) vs0 cur →
      ∀ u ∈ vs0, u.IsDepannage = true → findById cur u.id = some u := by
    intro cur hcur u hu hd
    obtain ⟨u', hu', hq⟩ := forall2_mem_left hcur hu
    rw [hq.2 hd] at hu'
    exact findById_of_mem (hP_id cur hcur) hu'
  have hJ : ∀ cur i, List.Forall₂
      (fun v w => w.sansPos = v.sansPos ∧ (v.IsDepannage = true → w = v)) vs0 cur →
      List.Forall₂ (fun v w => w.sansPos = v.sansPos ∧ (v.IsDepannage = true → w = v)) vs0
        (towedPlacementStep cur i) := by
    intro cur i hcur
    have hstep := towedPlacementStep_sansPos cur i
    refine forall2_of_getElem ((forall2_length hstep).trans (forall2_length hcur))
      (fun k v w hv hw => ?_)
    have hk : k < cur.length := by
      by_contra hge
      have : k < vs0.length := by
        by_contra hge'
        rw [List.getElem?_eq_none (by omega)] at hv
        exact absurd hv (by simp)
      rw [← forall2_length hcur] at this
      exact hge this
    obtain ⟨c, hc⟩ : ∃ c, cur[k]? = some c := ⟨_, List.getElem?_eq_getElem hk⟩
    have h1 := forall2_get hcur hv hc
    have h2 := forall2_get hstep hc hw
    refine ⟨h2.1.trans h1.1, fun hd => ?_⟩
    have hcv := h1.2 hd
    subst hcv
    by_cases hki : k = i
    · subst hki
      -- a tow truck has no tower, so its own iteration leaves it alone
      have hnone : c.myTower = none := by
        cases hmt : c.myTower with
        | none => rfl
        | some t =>
          have hk' := (htower c (List.getElem?_mem hv) t hmt).1
          rw [((cls_car_iff c).1 hk').2.1] at hd
          exact Bool.noConfusion hd
      unfold towedPlacementStep at hw
      rw [hc] at hw
      dsimp only at hw
      rw [hnone] at hw
      split_ifs at hw
      · rw [hc] at hw
        exact (Option.some.inj hw).symm
      · rw [hc] at hw
        exact (Option.some.inj hw).symm
    · rw [towedPlacementStep_ne cur i k hki, hc] at hw
      exact (Option.some.inj hw).symm
  have hJ0 : List.Forall₂
      (fun v w => w.sansPos = v.sansPos ∧ (v.IsDepannage = true → w = v)) vs0 vs0 :=
    forall2_self (R := fun v w => w.sansPos = v.sansPos ∧ (v.IsDepannage = true → w = v))
      (fun v => ⟨rfl, fun _ => rfl⟩) vs0
  have hJend : List.Forall₂
      (fun v w => w.sansPos = v.sansPos ∧ (v.IsDepannage = true → w = v)) vs0
      (towedPlacement vs0) := by
    unfold towedPlacement
    exact fold_inv _ towedPlacementStep hJ _ vs0 hJ0
  -- what its own iteration makes of a vehicle
  have hat : ∀ cur i v, List.Forall₂
      (fun v w => w.sansPos = v.sansPos ∧ (v.IsDepannage = true → w = v)) vs0 cur →
      cur[i]? = some v →
      ∃ w, (towedPlacementStep cur i)[i]? = some w ∧
        (w.sansPos = v.sansPos ∧
          ∀ u ∈ vs0, v.isTowed = true → v.myTower = some u.id → u.IsDepannage = true →
            w.x = u.x + w.towOffsetX) := by
    intro cur i v hcur hv
    by_cases hfire : v.isTowed = true ∧ ∃ u ∈ vs0, v.myTower = some u.id ∧ u.IsDepannage = true
    · obtain ⟨htw, u, hu, hmt, hd⟩ := hfire
      refine ⟨{ v with x := u.x + v.towOffsetX, y := u.y }, ?_, rfl, fun u' hu' _ hmt' _ => ?_⟩
      · unfold towedPlacementStep
        rw [hv]
        dsimp only
        rw [if_pos htw, hmt]
        dsimp only
        rw [hfind cur hcur u hu hd]
        dsimp only
        rw [getElem?_modifyAt, if_pos rfl, hv]
        simp only [Option.map_some', hmt]
      · rw [hmt] at hmt'
        have := eq_of_id_eq hn hu hu' (Option.some.inj hmt')
        rw [← this]
    · have hstep := towedPlacementStep_sansPos cur i
      have hi : i < cur.length := by
        by_contra hge
        rw [List.getElem?_eq_none (by omega)] at hv
        exact absurd hv (by simp)
      obtain ⟨w, hw⟩ : ∃ w, (towedPlacementStep cur i)[i]? = some w :=
        ⟨_, List.getElem?_eq_getElem (by rw [forall2_length hstep]; exact hi)⟩
      refine ⟨w, hw, (forall2_get hstep hv hw).1, fun u hu htw hmt hd => ?_⟩
      exact absurd ⟨htw, u, hu, hmt, hd⟩ hfire
  intro w hw t hwt u' hu' hut
  -- the vehicle and its tower before the loop
  obtain ⟨k, hk⟩ := List.mem_iff_getElem?.1 hw
  have hklt : k < vs0.length := by
    by_contra hge
    rw [List.getElem?_eq_none (by rw [forall2_length hJend]; omega)] at hk
    exact absurd hk (by simp)
  obtain ⟨v, hv⟩ : ∃ v, vs0[k]? = some v := ⟨_, List.getElem?_eq_getElem hklt⟩
  obtain ⟨w', hw', hin, _⟩ := fold_pointwise_inv
    (R := fun v w => w.sansPos = v.sansPos ∧
      ∀ u ∈ vs0, v.isTowed = true → v.myTower = some u.id → u.IsDepannage = true →
        w.x = u.x + w.towOffsetX)
    (fun cur => List.Forall₂
      (fun v w => w.sansPos = v.sansPos ∧ (v.IsDepannage = true → w = v)) vs0 cur)
    towedPlacementStep hJ towedPlacementStep_ne hat (List.range vs0.length)
    (List.nodup_range _) vs0 hJ0 k v hv
  have hww : w' = w := by
    unfold towedPlacement at hk
    rw [hw'] at hk
    exact Option.some.inj hk
  subst hww
  obtain ⟨hs, hx⟩ := hin (List.mem_range.2 hklt)
  have hvm := List.getElem?_mem hv
  have hvt : v.myTower = some t := by rw [← (sansPos_tow hs).1]; exact hwt
  obtain ⟨_, htw, u, hu, hut', hud⟩ := htower v hvm t hvt
  -- the tower after the loop is the tower before it
  obtain ⟨u2, hu2, hq⟩ := forall2_mem_left hJend hu
  rw [hq.2 hud] at hu2
  have hsame : u' = u := eq_of_id_eq (hP_id _ hJend) hu' hu2 (hut.trans hut'.symm)
  rw [hsame, hx u hu htw (by rw [hvt, hut']) hud]
  linarith

/-! ### Tow trucks in the main loop -/

theorem towStep_refl (v : Vehicle) : TowStep v v :=
  fun d hd => ⟨d, hd, rfl, fun h => h, Or.inl rfl⟩

/-- One call of `Update` on a tow truck. -/
theorem depannageUpdate_towStep (u : Vehicle) (st : Bool) (ft : ℚ) :
    TowStep u (u.Update st ft) := by
  intro d hd
  unfold Vehicle.Update
  rw [hd]
  dsimp only
  unfold Depannage.Update
  by_cases hw : d.isWorking = true
  · rw [if_pos hw]
    dsimp only
    by_cases ht : d.workTimer + ft > 2
    · rw [if_pos ht]
      exact ⟨_, rfl, rfl, fun _ => rfl, Or.inl rfl⟩
    · rw [if_neg ht]
      exact ⟨_, rfl, rfl, fun h => h, Or.inl rfl⟩
  · rw [if_neg hw]
    by_cases ha : (!d.hasPickedUp && decide (u.x ≤ d.targetX - 120)) = true
    · rw [if_pos ha]
      exact ⟨_, rfl, rfl, fun h => h, Or.inl rfl⟩
    · rw [if_neg ha]
      obtain ⟨m1, _, m3, _⟩ := baseUpdate_motion u st
      refine ⟨d, m1.trans hd, rfl, fun h => h, ?_⟩
      rcases m3 with m3 | m3
      · exact Or.inl m3
      · refine Or.inr ⟨m3, rfl, fun hp => ?_⟩
        rw [hp] at ha
        simp only [Bool.not_false, Bool.true_and, decide_eq_true_eq, not_le] at ha
        exact ha

/-- What one iteration of the main loop makes of its own vehicle when it is a
tow truck. -/
theorem bottomStep_tow (acc : Accident) (light : TrafficLight) (aAmb aTow : Option Nat)
    (ft : ℚ) (vs : List Vehicle) (i : Nat) (v0 : Vehicle) (h0 : vs[i]? = some v0) :
    ∃ w, (bottomStep acc light aAmb aTow ft vs i)[i]? = some w ∧ TowStep v0 w := by
  have hkept := bottomStep_passKept acc light aAmb aTow ft vs i
  have hi : i < vs.length := by
    by_contra hge
    rw [List.getElem?_eq_none (by omega)] at h0
    exact absurd h0 (by simp)
  obtain ⟨w, hw⟩ : ∃ w, (bottomStep acc light aAmb aTow ft vs i)[i]? = some w :=
    ⟨_, List.getElem?_eq_getElem (by rw [forall2_length hkept]; exact hi)⟩
  refine ⟨w, hw, ?_⟩
  -- a vehicle that differs from `v0` in the lane members and `forcedStop` only
  have hkey : ∀ u : Vehicle, u.x = v0.x → u.cls = v0.cls → u.speed = v0.speed →
      u.dirRight = v0.dirRight → ∀ st, TowStep v0 (u.Update st ft) := by
    intro u hx hc hs hd st d hd0
    obtain ⟨d', e1, e2, e3, e4⟩ := depannageUpdate_towStep u st ft d (hc.trans hd0)
    have hstr : u.stride = v0.stride := by
      unfold Vehicle.stride
      rw [hs, hd]
    rw [hx, hstr] at e4
    exact ⟨d', e1, e2, e3, e4⟩
  unfold bottomStep at hw
  rw [h0] at hw
  dsimp only at hw
  by_cases hskip : (v0.isCrashed || v0.isTowed) = true
  · rw [if_pos hskip, h0] at hw
    simp only [Option.some.injEq] at hw
    subst hw
    exact towStep_refl _
  · rw [if_neg hskip] at hw
    obtain ⟨v, hv, hlane⟩ := yieldStep_at aAmb aTow vs i v0 h0
    obtain ⟨e1, e2, _, e4, e5, _⟩ := sansLane_fields hlane
    rw [hv] at hw
    dsimp only at hw
    by_cases hr : v.isReckless = true
    · rw [if_pos hr, getElem?_modifyAt, if_pos rfl, hv] at hw
      simp only [Option.map_some', Option.some.injEq] at hw
      subst hw
      exact hkey { v with forcedStop := false } e1 e2 e4 e5 false
    · rw [if_neg hr, getElem?_modifyAt, if_pos rfl, hv] at hw
      simp only [Option.map_some', Option.some.injEq] at hw
      subst hw
      obtain ⟨f1, f2, _, f4, f5, _⟩ := sansLane_fields (avoidAccident_sansLane acc v)
      exact hkey
        { avoidAccident acc v with
          forcedStop := computeStop light (yieldStep aAmb aTow vs i) i (avoidAccident acc v) }
        (f1.trans e1) (f2.trans e2) (f4.trans e4) (f5.trans e5) _

/-- The main loop relates every tow truck to what its own iteration makes of it. -/
theorem bottomPass_tow (acc : Accident) (light : TrafficLight) (aAmb aTow : Option Nat)
    (ft : ℚ) (vs : List Vehicle) :
    List.Forall₂ (fun v w => PassKept v w ∧ TowStep v w) vs
      (bottomPass acc light aAmb aTow ft vs) := by
  have hpk := bottomPass_passKept acc light aAmb aTow ft vs
  refine forall2_of_getElem (forall2_length hpk) (fun k v w hv hw => ?_)
  have hk : k < vs.length := by
    by_contra hge
    rw [List.getElem?_eq_none (by omega)] at hv
    exact absurd hv (by simp)
  obtain ⟨w', hw', hin, _⟩ := fold_pointwise (R := TowStep)
    (bottomStep acc light aAmb aTow ft) (bottomStep_ne acc light aAmb aTow ft)
    (bottomStep_tow acc light aAmb aTow ft) (List.range vs.length) (List.nodup_range _) vs k v hv
  have hwe : w' = w := by
    unfold bottomPass at hw
    rw [hw'] at hw
    exact Option.some.inj hw
  rw [← hwe]
  refine ⟨?_, hin (List.mem_range.2 hk)⟩
  rw [hwe]
  exact forall2_get hpk hv hw

/-! ### The hitch through a frame -/

theorem hitched_transport {Q : Vehicle → Vehicle → Prop} {k : ℚ} {s s' : Simulation}
    (hh : Hitched k s) (hvs : List.Forall₂ Q s.vehiclesBottom s'.vehiclesBottom)
    (hQ : ∀ v w, Q v w →
      w.id = v.id ∧ w.x = v.x ∧ w.myTower = v.myTower ∧ w.towOffsetX = v.towOffsetX) :
    Hitched k s' := by
  intro v' hv' t hvt w' hw' hwt
  obtain ⟨v, hv, hqv⟩ := forall2_mem_right hvs hv'
  obtain ⟨w, hw, hqw⟩ := forall2_mem_right hvs hw'
  obtain ⟨_, a2, a3, a4⟩ := hQ v v' hqv
  obtain ⟨b1, b2, _, _⟩ := hQ w w' hqw
  rw [a2, a4, b2]
  exact hh v hv t (a3 ▸ hvt) w hw (b1 ▸ hwt)

theorem hitched_of_same {k : ℚ} {s s' : Simulation} (hh : Hitched k s)
    (hvs : s'.vehiclesBottom = s.vehiclesBottom) : Hitched k s' := by
  unfold Hitched
  rw [hvs]
  exact hh

/-- The hitch survives the arrival of a freshly allocated vehicle without a
tower reference. -/
theorem hitched_append {k : ℚ} {s s' : Simulation} (hh : Hitched k s) (ht : Tidy s)
    (hfresh : ∀ v ∈ s.vehiclesBottom, v.id < s.nextId) (n : Vehicle)
    (hvs : s'.vehiclesBottom = s.vehiclesBottom ++ [n]) (hid : n.id = s.nextId)
    (htw : n.myTower = none) : Hitched k s' := by
  have hmem : ∀ w, w ∈ s'.vehiclesBottom ↔ w ∈ s.vehiclesBottom ∨ w = n := by
    intro w; rw [hvs]; simp
  intro v hv t hvt w hw hwt
  rcases (hmem v).1 hv with hv | rfl
  · rcases (hmem w).1 hw with hw | rfl
    · exact hh v hv t hvt w hw hwt
    · obtain ⟨_, _, _, u, hu, hut, _⟩ := ht.tower v hv t hvt
      have := hfresh u hu
      omega
  · rw [htw] at hvt
    exact Option.noConfusion hvt

theorem tidy_spawnTop {s : Simulation} (ht : Tidy s) (env : Env) :
    Tidy (({ s with carSpawnTimerTop := 0 } : Simulation).SpawnCarTop env) := by
  refine { top := ?_, calm := ht.calm, refs := ht.refs, towSpeed := ht.towSpeed,
           tower := ht.tower }
  intro v hv
  rcases List.mem_append.1 hv with h | h
  · exact ht.top v h
  · rw [List.mem_singleton.1 h]
    exact ⟨rfl, rfl, rfl, rfl, rfl⟩

theorem hitched_spawnStage {k : ℚ} {s : Simulation} (hh : Hitched k s) (ht : Tidy s)
    (hfresh : ∀ v ∈ s.vehiclesBottom, v.id < s.nextId) (delta : ℚ) (env : Env) :
    Hitched k (s.spawnStage delta env) := by
  unfold Simulation.spawnStage
  dsimp only
  split_ifs with h1 h2 h2
  · exact hitched_append (s := ({ s with carSpawnTimerTop := 0 } : Simulation).SpawnCarTop env)
      hh (tidy_spawnTop ht env) (fun v hv => Nat.lt_succ_of_lt (hfresh v hv)) _ rfl rfl rfl
  · exact hh
  · exact hitched_append (s := s) hh ht hfresh _ rfl rfl rfl
  · exact hh

theorem hitched_TriggerRandomAccident {k : ℚ} {s : Simulation} (hh : Hitched k s) :
    Hitched k s.TriggerRandomAccident :=
  hitched_transport hh (trigger_marked s) (fun _ _ h =>
    ⟨(marked_linked h).1.1, (marked_linked h).2.2.1, (marked_linked h).1.2.2.2.2.1,
      (marked_linked h).1.2.2.2.2.2.1⟩)

/-- The main loop loosens the hitch by at most one stride of a tow truck. -/
theorem hitched_mainLoop {s : Simulation} (hh : Hitched 0 s) (ht : Tidy s)
    (hn : (s.vehiclesBottom.map Vehicle.id).Nodup) (acc : Accident) (light : TrafficLight)
    (aAmb aTow : Option Nat) (ft : ℚ) :
    Hitched (5 / 2)
      { s with vehiclesBottom := bottomPass acc light aAmb aTow ft s.vehiclesBottom } := by
  have hvs := bottomPass_tow acc light aAmb aTow ft s.vehiclesBottom
  intro v' hv' t hvt w' hw' hwt
  obtain ⟨v, hv, hqv⟩ := forall2_mem_right hvs hv'
  obtain ⟨w, hw, hqw⟩ := forall2_mem_right hvs hw'
  have hvt' : v.myTower = some t := by rw [← (core_tow hqv.1.2).1]; exact hvt
  obtain ⟨_, htw, _, u, hu, hut, hud⟩ := ht.tower v hv t hvt'
  have hvv : v' = v := hqv.1.1 (Or.inr htw)
  have hwid : w.id = t := by rw [← (core_flags hqw.1.2).1]; exact hwt
  have hwu : w = u := eq_of_id_eq hn hw hu (hwid.trans hut.symm)
  have hwd : w.IsDepannage = true := by rw [hwu]; exact hud
  obtain ⟨hsp, hdir⟩ := ht.towSpeed w hw hwd
  have hstr : w.stride = -(5 / 2) := by
    unfold Vehicle.stride
    rw [hdir, hsp]
    rfl
  have hx : w.x - 5 / 2 ≤ w'.x := by
    unfold Vehicle.IsDepannage at hwd
    cases hc : w.cls with
    | Depannage d =>
      obtain ⟨d', _, _, _, e⟩ := hqw.2 d hc
      rcases e with e | ⟨e, _⟩
      · rw [e]; linarith
      · rw [e, hstr]; linarith
    | Car => rw [hc] at hwd; exact Bool.noConfusion hwd
    | SchoolBus d => rw [hc] at hwd; exact Bool.noConfusion hwd
    | Ambulance d => rw [hc] at hwd; exact Bool.noConfusion hwd
  have := hh v hv t hvt' w hw hwid
  rw [hvv]
  linarith

/-- The stages after the culling re-establish the hitch, whatever it was. -/
theorem hitched_postCullStages {s : Simulation} (hinv : Inv 73 s) (ht : Tidy s) (delta : ℚ)
    (env : Env) : Hitched (5 / 2) (s.postCullStages delta env) := by
  have i1 := hinv.transitionStage
  have i2 := i1.resolutionStage (activeTow s.transitionStage.vehiclesBottom)
  have t2 := tidy_resolutionStage i1 (tidy_transitionStage hinv ht)
    (activeTow s.transitionStage.vehiclesBottom)
  have h3 : Hitched 0 s.resolved := by
    unfold Simulation.resolved Hitched
    exact placement_hitched _ i2.nodup (fun v hv t hvt =>
      ⟨(t2.tower v hv t hvt).1, (t2.tower v hv t hvt).2.1, (t2.tower v hv t hvt).2.2.2⟩)
  have h4 : Hitched 0 s.steered :=
    hitched_transport h3 (ambulanceStage_sansTargetY _ _ _) (fun v w h =>
      ⟨(sansTargetY_flags h).1, (congrArg Vehicle.x h : w.sansTargetY.x = v.sansTargetY.x),
        (core_tow (sansTargetY_core h)).1, (core_tow (sansTargetY_core h)).2⟩)
  have hn3 : (s.resolved.vehiclesBottom.map Vehicle.id).Nodup := by
    unfold Simulation.resolved
    show ((towedPlacement _).map Vehicle.id).Nodup
    rw [forall2_map_id (fun v w h => (sansPos_flags h.1).1) (towedPlacement_sansPos _)]
    exact i2.nodup
  have hn4 : (s.steered.vehiclesBottom.map Vehicle.id).Nodup := by
    unfold Simulation.steered
    rw [forall2_map_id (fun v w h => (sansTargetY_flags h).1)
      (ambulanceStage_sansTargetY s.resolved _ _)]
    exact hn3
  have h5 := hitched_mainLoop h4 (tidy_steered hinv ht) hn4 s.steered.currentAccident
    s.steered.lightBottom (activeAmbulance s.transitionStage.vehiclesBottom)
    (activeTow s.transitionStage.vehiclesBottom) env.frameTime
  refine hitched_of_same h5 ?_
  rw [postCullStages_vehiclesBottom]

/-! ### Flags, references and the hitch in every reachable state -/

/-- The stages before the culling keep the tow-mission invariant. -/
theorem Inv.beforeCull {s : Simulation} (hinv : Inv 73 s) (delta : ℚ) (env : Env) :
    Inv 73 (s.beforeCull delta env) := by
  unfold Simulation.beforeCull
  have h1 := hinv.spawnStage delta env
  have h2 : Inv 73 ((s.spawnStage delta env).randomTriggerStage env) := by
    unfold Simulation.randomTriggerStage
    split_ifs
    · exact h1.TriggerRandomAccident
    · exact h1
  have h3 : Inv 73 (((s.spawnStage delta env).randomTriggerStage env).busStage delta env) := by
    refine Inv.of_same h2 (busStage_frame _ _ _).1 (busStage_currentAccident _ _ _)
      (le_of_eq (busStage_frame _ _ _).2.symm) (fun hm => ?_)
    rcases busStage_mission ((s.spawnStage delta env).randomTriggerStage env) delta env
      with h | h
    · rw [← h]; exact hm
    · rw [h] at hm; exact MissionType.noConfusion hm
  have h4 : Inv 73 ((((s.spawnStage delta env).randomTriggerStage env).busStage delta
      env).missionStage delta) := by
    refine Inv.of_same h3 (missionStage_frame _ _).1 (missionStage_currentAccident _ _)
      (le_of_eq (missionStage_frame _ _).2.symm) (fun hm => ?_)
    rcases missionStage_mission (((s.spawnStage delta env).randomTriggerStage env).busStage
      delta env) delta with h | h
    · rw [← h]; exact hm
    · rw [h] at hm; exact MissionType.noConfusion hm
  exact Inv.of_same h4 rfl rfl (le_refl _) (fun hm => hm)

theorem busStage_top (s : Simulation) (delta : ℚ) (env : Env) :
    (s.busStage delta env).vehiclesTop = s.vehiclesTop := by
  unfold Simulation.busStage
  dsimp only
  split_ifs <;> rfl

theorem missionStage_top (s : Simulation) (delta : ℚ) :
    (s.missionStage delta).vehiclesTop = s.vehiclesTop := by
  unfold Simulation.missionStage
  dsimp only
  split_ifs <;> rfl

/-- The inbound collection the culling starts from is the one the spawn and the
random trigger leave. -/
theorem beforeCull_vehiclesBottom (s : Simulation) (delta : ℚ) (env : Env) :
    (s.beforeCull delta env).vehiclesBottom =
      ((s.spawnStage delta env).randomTriggerStage env).vehiclesBottom := by
  unfold Simulation.beforeCull
  show ((((s.spawnStage delta env).randomTriggerStage env).busStage delta env).missionStage
    delta).vehiclesBottom = _
  rw [(missionStage_frame _ _).1, (busStage_frame _ _ _).1]

theorem beforeCull_currentAccident (s : Simulation) (delta : ℚ) (env : Env) :
    (s.beforeCull delta env).currentAccident =
      ((s.spawnStage delta env).randomTriggerStage env).currentAccident := by
  unfold Simulation.beforeCull
  rw [lightStage_currentAccident, missionStage_currentAccident, busStage_currentAccident]

theorem tidy_beforeCull {s : Simulation} (ht : Tidy s) (delta : ℚ) (env : Env) :
    Tidy (s.beforeCull delta env) := by
  have h1 := tidy_spawnStage ht delta env
  have h2 : Tidy ((s.spawnStage delta env).randomTriggerStage env) := by
    unfold Simulation.randomTriggerStage
    split_ifs
    · exact tidy_TriggerRandomAccident h1
    · exact h1
  refine tidy_of_same h2 (beforeCull_vehiclesBottom s delta env) ?_ ?_ ?_
  · unfold Simulation.beforeCull
    show ((((s.spawnStage delta env).randomTriggerStage env).busStage delta env).missionStage
      delta).vehiclesTop = _
    rw [missionStage_top, busStage_top]
  · rw [beforeCull_currentAccident]
  · rw [beforeCull_currentAccident]

theorem hitched_beforeCull {k : ℚ} {s : Simulation} (hinv : Inv 73 s) (ht : Tidy s)
    (hh : Hitched k s) (delta : ℚ) (env : Env) : Hitched k (s.beforeCull delta env) := by
  have h1 := hitched_spawnStage hh ht hinv.fresh delta env
  have h2 : Hitched k ((s.spawnStage delta env).randomTriggerStage env) := by
    unfold Simulation.randomTriggerStage
    split_ifs
    · exact hitched_TriggerRandomAccident h1
    · exact h1
  exact hitched_of_same h2 (beforeCull_vehiclesBottom s delta env)

/-- A frame keeps the invariant on flags and references, and the hitch. -/
theorem tidy_Update {s : Simulation} (hinv : Inv 73 s) (ht : Tidy s) (hh : Hitched (5 / 2) s)
    (delta : ℚ) (env : Env) :
    Tidy (s.Update delta env) ∧ Hitched (5 / 2) (s.Update delta env) := by
  by_cases hg : s.gameOver = true
  · have hU : s.Update delta env = s := by
      unfold Simulation.Update
      rw [if_pos hg]
    rw [hU]
    exact ⟨ht, hh⟩
  · rw [Update_eq_postCull s delta env (by simpa using hg)]
    have i5 := hinv.beforeCull delta env
    have t5 := tidy_beforeCull ht delta env
    have h5 := hitched_beforeCull hinv ht hh delta env
    have t6 : Tidy (s.afterCull delta env) := tidy_cullStage t5 h5
    have i6 : Inv 73 (s.afterCull delta env) := i5.cullStage
    exact ⟨tidy_postCullStages i6 t6 delta env, hitched_postCullStages i6 t6 delta env⟩

/-- Every command keeps the invariant on flags and references, and the hitch. -/
theorem tidy_step {s : Simulation} (hinv : Inv 73 s) (ht : Tidy s) (hh : Hitched (5 / 2) s)
    (c : Cmd) : Tidy (s.step c) ∧ Hitched (5 / 2) (s.step c) := by
  cases c with
  | advance delta env => exact tidy_Update hinv ht hh delta env
  | dispatchAmbulance =>
    refine ⟨tidy_CallAmbulance ht, ?_⟩
    have i1 : Inv 73 (if (!s.currentAccident.active && !s.currentAccident.pending) = true
        then s.TriggerRandomAccident else s) := by
      split_ifs
      · exact hinv.TriggerRandomAccident
      · exact hinv
    have t1 : Tidy (if (!s.currentAccident.active && !s.currentAccident.pending) = true
        then s.TriggerRandomAccident else s) := by
      split_ifs
      · exact tidy_TriggerRandomAccident ht
      · exact ht
    have h1 : Hitched (5 / 2)
        (if (!s.currentAccident.active && !s.currentAccident.pending) = true
          then s.TriggerRandomAccident else s) := by
      split_ifs
      · exact hitched_TriggerRandomAccident hh
      · exact hh
    refine hitched_append h1 t1 i1.fresh _ rfl ?_ ?_
    · dsimp only
      split_ifs <;> rfl
    · dsimp only
      split_ifs <;> rfl
  | dispatchTow =>
    refine ⟨tidy_CallDepannage ht, ?_⟩
    show Hitched (5 / 2) s.CallDepannage
    unfold Simulation.CallDepannage
    by_cases h : (!s.currentAccident.active) = true
    · rw [if_pos h]; exact hh
    · rw [if_neg h]
      exact hitched_append hh ht hinv.fresh _ rfl rfl rfl
  | dispatchSchoolBus =>
    exact ⟨tidy_CallSchoolBus ht, hitched_append hh ht hinv.fresh _ rfl rfl rfl⟩
  | triggerAccidentNow => exact ⟨tidy_TriggerRandomAccident ht, hitched_TriggerRandomAccident hh⟩
  | reset =>
    exact ⟨tidy_Reset s, fun v hv => absurd hv (List.not_mem_nil _)⟩

/-- The invariants hold in every reachable state. -/
theorem tidy_of_reachable {s : Simulation} (h : Reachable s) :
    Inv 73 s ∧ Tidy s ∧ Hitched (5 / 2) s := by
  obtain ⟨cmds, rfl⟩ := h
  refine run_induction (fun s => Inv 73 s ∧ Tidy s ∧ Hitched (5 / 2) s)
    ⟨Inv.init, tidy_init, fun v hv => absurd hv (List.not_mem_nil _)⟩ (fun s c h => ?_) cmds
  exact ⟨h.1.step c, tidy_step h.1 h.2.1 h.2.2 c⟩

/-! ## C15: the lifecycle flags of a vehicle -/

/-- A vehicle flagged reckless or accident-target and not crashed is one of the
two participants of the pending accident, as the trigger scan left them. -/
theorem flagged_is_participant {s : Simulation} (hinv : Inv 73 s) {v : Vehicle}
    (hv : v ∈ s.vehiclesBottom) (hfl : v.isReckless = true ∨ v.isAccidentTarget = true)
    (hc : v.isCrashed = false) : PairLead v ∨ PairTrail v := by
  obtain ⟨hp, href⟩ := hinv.roam v hv hfl hc
  obtain ⟨a, ha, b, hb, h1, h2, hl, ht, _, _⟩ := hinv.pair hp
  rcases href with h | h
  · rw [h1] at h
    rw [eq_of_id_eq hinv.nodup hv ha (Option.some.inj h).symm]
    exact Or.inl hl
  · rw [h2] at h
    rw [eq_of_id_eq hinv.nodup hv hb (Option.some.inj h).symm]
    exact Or.inr ht

/-- C15 fails: `crashedPair` is reachable (the cars spawn, the trigger scan
selects them, they close up and crash), and its leading participant is flagged
accident-target and crashed at once; the transition sets `isCrashed` on both
cars and clears only the trailing car's `isReckless`. -/
theorem crashed_car_keeps_target_flag :
    Reachable crashedPair ∧
      ∃ v ∈ crashedPair.vehiclesBottom, v.isAccidentTarget = true ∧ v.isCrashed = true :=
  ⟨crashedPair_reachable, _, List.mem_cons_self _ _, rfl, rfl⟩

/-- C15, amended: in every reachable state, every vehicle of either roadway has
at most one of the flags reckless, accident-target, crashed and towed set, except
that accident-target and crashed may be set together. -/
theorem phases_exclusive (s : Simulation) (h : Reachable s) :
    ∀ v, v ∈ s.vehiclesTop ∨ v ∈ s.vehiclesBottom → v.PhasesOK := by
  obtain ⟨hinv, ht, _⟩ := tidy_of_reachable h
  intro v hv
  rcases hv with hv | hv
  · obtain ⟨h1, h2, h3, h4, _⟩ := ht.top v hv
    refine ⟨?_, ?_, ?_, ?_, ?_⟩ <;> rintro ⟨ha, hb⟩
    · rw [h1] at ha; exact Bool.noConfusion ha
    · rw [h1] at ha; exact Bool.noConfusion ha
    · rw [h1] at ha; exact Bool.noConfusion ha
    · rw [h2] at ha; exact Bool.noConfusion ha
    · rw [h3] at ha; exact Bool.noConfusion ha
  · have key : v.isReckless = true ∨ v.isAccidentTarget = true → v.isCrashed = false →
        (v.isReckless = true → v.isAccidentTarget = false) ∧ v.isTowed = false := by
      intro hfl hc
      rcases flagged_is_participant hinv hv hfl hc with hl | hl
      · exact ⟨fun hr => by rw [hl.notReckless] at hr; exact Bool.noConfusion hr, hl.notTowed⟩
      · exact ⟨fun _ => hl.notTarget, hl.notTowed⟩
    have hcr : v.isCrashed = true → v.isReckless = false ∧ v.isTowed = false :=
      fun hc => ⟨ht.calm v hv hc, (hinv.crashed v hv hc).2⟩
    refine ⟨?_, ?_, ?_, ?_, ?_⟩ <;> rintro ⟨ha, hb⟩
    · by_cases hc : v.isCrashed = true
      · rw [(hcr hc).1] at ha; exact Bool.noConfusion ha
      · have := (key (Or.inl ha) (by simpa using hc)).1 ha
        rw [this] at hb; exact Bool.noConfusion hb
    · rw [(hcr hb).1] at ha; exact Bool.noConfusion ha
    · by_cases hc : v.isCrashed = true
      · rw [(hcr hc).2] at hb; exact Bool.noConfusion hb
      · have := (key (Or.inl ha) (by simpa using hc)).2
        rw [this] at hb; exact Bool.noConfusion hb
    · by_cases hc : v.isCrashed = true
      · rw [(hcr hc).2] at hb; exact Bool.noConfusion hb
      · have := (key (Or.inr ha) (by simpa using hc)).2
        rw [this] at hb; exact Bool.noConfusion hb
    · rw [(hcr ha).2] at hb; exact Bool.noConfusion hb

theorem phases_exclusive_witness :
    Reachable crashedPair ∧
      ∀ v, v ∈ crashedPair.vehiclesTop ∨ v ∈ crashedPair.vehiclesBottom → v.PhasesOK :=
  ⟨crashedPair_reachable, phases_exclusive crashedPair crashedPair_reachable⟩

/-! ## Participants and references through a frame -/

/-- While an accident is pending or active, the culling removes neither
participant. -/
theorem cull_keeps_participants {s : Simulation} (hinv : Inv 73 s)
    (hph : s.currentAccident.pending = true ∨ s.currentAccident.active = true)
    {v : Vehicle} (hv : v ∈ s.vehiclesBottom)
    (hp : s.currentAccident.car1 = some v.id ∨ s.currentAccident.car2 = some v.id) :
    cullRemoves v = false := by
  rcases hph with hpend | hact
  · obtain ⟨a, ha, b, hb, h1, h2, hl, ht, hg1, hg2⟩ := hinv.pair hpend
    have hva : v = a ∨ v = b := by
      rcases hp with hp | hp
      · rw [h1] at hp
        exact Or.inl (eq_of_id_eq hinv.nodup hv ha (Option.some.inj hp).symm)
      · rw [h2] at hp
        exact Or.inr (eq_of_id_eq hinv.nodup hv hb (Option.some.inj hp).symm)
    rcases hva with rfl | rfl
    · exact cullRemoves_flagged_car hl.cls (Or.inr (Or.inl hl.target)) (by linarith)
        (hinv.keep _ ha)
    · exact cullRemoves_flagged_car ht.cls (Or.inl ht.reckless) (by linarith)
        (hinv.keep _ hb)
  · obtain ⟨a, ha, b, hb, h1, h2, hca, hcb, _, _, _, hka, hkb⟩ := hinv.wreck hact
    have hva : v = a ∨ v = b := by
      rcases hp with hp | hp
      · rw [h1] at hp
        exact Or.inl (eq_of_id_eq hinv.nodup hv ha (Option.some.inj hp).symm)
      · rw [h2] at hp
        exact Or.inr (eq_of_id_eq hinv.nodup hv hb (Option.some.inj hp).symm)
    rcases hva with rfl | rfl
    · exact cullRemoves_flagged_car hka (Or.inr (Or.inr hca)) (hinv.crashed _ ha hca).1
        (hinv.keep _ ha)
    · exact cullRemoves_flagged_car hkb (Or.inr (Or.inr hcb)) (hinv.crashed _ hb hcb).1
        (hinv.keep _ hb)

/-- The stages after the culling keep the identities of the inbound vehicles. -/
theorem postCullStages_ids {t : Simulation} (hinv : Inv 73 t) (delta : ℚ) (env : Env) :
    (t.postCullStages delta env).vehiclesBottom.map Vehicle.id =
      t.vehiclesBottom.map Vehicle.id := by
  have e1 : t.transitionStage.vehiclesBottom.map Vehicle.id =
      t.vehiclesBottom.map Vehicle.id := by
    rcases transitionStage_cases t with e | e | ⟨c1, c2, a, b, _, _, _, _, _, e⟩
    · rw [e]
    · rw [e]
    · rw [e]
      exact forall2_map_id (R := fun v w => Linked v w) (fun v w h => h.1)
        (forall2_map _ (fun v => crashWrites_linked c1 c2 _ _ v) _)
  have e2 : (t.transitionStage.resolutionStage
      (activeTow t.transitionStage.vehiclesBottom)).vehiclesBottom.map Vehicle.id =
      t.transitionStage.vehiclesBottom.map Vehicle.id := by
    rcases resolutionStage_cases hinv.transitionStage
      (activeTow t.transitionStage.vehiclesBottom) with e | ⟨i, tow, a, b, _, _, _, _, _, _, _, _, e⟩
    · rw [e]
    · rw [e]
      exact forall2_map_id (R := fun v w => w.id = v.id) (fun v w h => h)
        (forall2_map _ (fun v => (towWrites_linked a.id b.id tow v).1) _)
  have e3 : t.resolved.vehiclesBottom.map Vehicle.id = t.vehiclesBottom.map Vehicle.id := by
    unfold Simulation.resolved
    show (towedPlacement _).map Vehicle.id = _
    rw [forall2_map_id (fun v w h => (sansPos_flags h.1).1) (towedPlacement_sansPos _), e2, e1]
  have e4 : t.steered.vehiclesBottom.map Vehicle.id = t.vehiclesBottom.map Vehicle.id := by
    unfold Simulation.steered
    rw [forall2_map_id (fun v w h => (sansTargetY_flags h).1)
      (ambulanceStage_sansTargetY t.resolved _ _), e3]
  rw [postCullStages_vehiclesBottom,
    forall2_map_id (fun v w h => (linked_of_core h.2).1) (bottomPass_passKept _ _ _ _ _ _), e4]

/-! ## C14: tower references after a frame -/

/-- C14: for every reachable state, after an advance every tower reference of a
vehicle of either roadway designates a tow truck that is still in the inbound
collection; so when a tow truck is removed, that is, it was in the collection
before the advance or when the culling began and is no longer in it after the
advance, no remaining vehicle keeps it as its tower. -/
theorem tower_reference_valid (s : Simulation) (h : Reachable s) (delta : ℚ) (env : Env) :
    (∀ v, v ∈ (s.Update delta env).vehiclesTop ∨ v ∈ (s.Update delta env).vehiclesBottom →
      ∀ t, v.myTower = some t →
        ∃ w ∈ (s.Update delta env).vehiclesBottom, w.id = t ∧ w.IsDepannage = true) ∧
    (∀ w, w ∈ s.vehiclesBottom ∨ w ∈ (s.beforeCull delta env).vehiclesBottom →
      w.IsDepannage = true →
      (∀ u ∈ (s.Update delta env).vehiclesBottom, u.id ≠ w.id) →
      ∀ v, v ∈ (s.Update delta env).vehiclesTop ∨ v ∈ (s.Update delta env).vehiclesBottom →
        v.myTower ≠ some w.id) := by
  obtain ⟨hinv, ht, hh⟩ := tidy_of_reachable h
  have hpost := (tidy_Update hinv ht hh delta env).1
  have key : ∀ v, v ∈ (s.Update delta env).vehiclesTop ∨
      v ∈ (s.Update delta env).vehiclesBottom → ∀ t, v.myTower = some t →
        ∃ w ∈ (s.Update delta env).vehiclesBottom, w.id = t ∧ w.IsDepannage = true := by
    intro v hv t hvt
    rcases hv with hv | hv
    · rw [(hpost.top v hv).2.2.2.2] at hvt
      exact Option.noConfusion hvt
    · exact (hpost.tower v hv t hvt).2.2.2
  refine ⟨key, fun w _ _ hgone v hv hvt => ?_⟩
  obtain ⟨u, hu, hid, _⟩ := key v hv w.id hvt
  exact hgone u hu hid


/-! ## A tow truck on its way to a crash -/

theorem towing_beforeCull (xt x y : ℚ) (ch : Bool) :
    (towing xt x y ch).beforeCull 0 (envAt 0 0 50) = towing xt x y ch := by
  norm_num [Simulation.beforeCull, Simulation.spawnStage, Simulation.randomTriggerStage,
    Simulation.busStage, Simulation.missionStage, Simulation.lightStage, towing, crashedPair,
    pendingFar, cruise, envAt, Simulation.init, TrafficLight.Update, TrafficLight.new]

theorem towing_cullStage (xt x y : ℚ) (ch : Bool) (h1 : 3681 < x) (h3 : xt ≤ 5500) :
    (towing xt x y ch).cullStage = towing xt x y ch := by
  have e1 : ¬ (x < -3000) := by linarith
  have e3 : ¬ (xt > 5500) := not_lt.2 h3
  norm_num [Simulation.cullStage, cullBottom, cullPred, towing, crashedPair, pendingFar, cruise,
    wreckA, wreckB, towAt, Vehicle.new, Vehicle.IsDepannage, Vehicle.IsSchoolBus,
    Vehicle.IsOffScreen, WORLD_WIDTH, e1, e3]

theorem towing_bottomPass (x y : ℚ) (ch : Bool) (h1 : 3681 < x) (h2 : ch = true ∨ 4101 ≤ x) :
    bottomPass crashedPair.currentAccident crashedPair.lightBottom none (some 2) 0
        [wreckA, wreckB, towAt x y ch] =
      [wreckA, wreckB, towAt (x - 5 / 2) y ch] := by
  have e4 : ¬ (x ≤ 3681) := not_le.2 h1
  have hy : yieldStep none (some 2) [wreckA, wreckB, towAt x y ch] 2 =
      [wreckA, wreckB, towAt x y ch] := by
    simp [yieldStep, towAt, Vehicle.new, Vehicle.isWorking]
  have ha : avoidAccident crashedPair.currentAccident (towAt x y ch) = towAt x y ch := by
    rcases h2 with h2 | h2
    · subst h2
      simp [avoidAccident, crashedPair, towAt, Vehicle.new]
    · have e5 : ¬ (x - 3801 < 300) := by linarith
      simp [avoidAccident, crashedPair, towAt, Vehicle.new, e5]
  have hs : computeStop crashedPair.lightBottom [wreckA, wreckB, towAt x y ch] 2
      (towAt x y ch) = false := by
    simp [computeStop, followScan, crashedPair, pendingFar, cruise, TrafficLight.IsRed, towAt,
      wreckA, wreckB, Vehicle.new, Vehicle.IsDepannage, Vehicle.IsAmbulance]
  have hu : ({ towAt x y ch with forcedStop := false } : Vehicle).Update false 0 =
      towAt (x - 5 / 2) y ch := by
    norm_num [Vehicle.Update, Depannage.Update, towAt, Vehicle.new, Vehicle.baseUpdate,
      Vehicle.easeY, e4]
    ring
  have s0 : bottomStep crashedPair.currentAccident crashedPair.lightBottom none (some 2) 0
      [wreckA, wreckB, towAt x y ch] 0 = [wreckA, wreckB, towAt x y ch] := by
    simp [bottomStep, wreckA]
  have s1 : bottomStep crashedPair.currentAccident crashedPair.lightBottom none (some 2) 0
      [wreckA, wreckB, towAt x y ch] 1 = [wreckA, wreckB, towAt x y ch] := by
    simp [bottomStep, wreckB]
  have s2 : bottomStep crashedPair.currentAccident crashedPair.lightBottom none (some 2) 0
      [wreckA, wreckB, towAt x y ch] 2 = [wreckA, wreckB, towAt (x - 5 / 2) y ch] := by
    unfold bottomStep
    simp only [List.getElem?_cons_succ, List.getElem?_cons_zero, hy]
    rw [show (towAt x y ch).isCrashed = false from rfl,
      show (towAt x y ch).isTowed = false from rfl,
      show (towAt x y ch).isReckless = false from rfl]
    simp only [Bool.or_self, Bool.false_eq_true, if_false, ha, hs, hu]
    rfl
  unfold bottomPass
  show List.foldl _ _ [0, 1, 2] = _
  simp only [List.foldl_cons, List.foldl_nil, s0, s1, s2]

theorem towing_topPass (xt : ℚ) :
    topPass crashedPair.lightTop 0 [Vehicle.new 1 xt 120 2 true .Car] =
      [Vehicle.new 1 (xt + 2) 120 2 true .Car] := by
  unfold topPass
  show List.foldl _ _ [0] = _
  norm_num [topStep, topScan, modifyAt, crashedPair, pendingFar, cruise, TrafficLight.IsRed,
    Vehicle.new, Vehicle.Update, Vehicle.baseUpdate, Vehicle.easeY]

/-- One frame of the tow truck under way: it advances 2.5 units as long as it
is short of its pick-up point and, unless it has changed lane, at least 300
units from the crash. -/
theorem towing_step (xt x y : ℚ) (ch : Bool) (h1 : 3681 < x) (h2 : ch = true ∨ 4101 ≤ x)
    (h3 : xt ≤ 5500) :
    (towing xt x y ch).step still = towing (xt + 2) (x - 5 / 2) y ch := by
  show (towing xt x y ch).Update 0 (envAt 0 0 50) = _
  rw [Update_eq_postCull _ _ _ rfl]
  unfold Simulation.afterCull
  rw [towing_beforeCull, towing_cullStage xt x y ch h1 h3]
  have ht : (towing xt x y ch).transitionStage = towing xt x y ch := by
    simp [Simulation.transitionStage, towing, crashedPair]
  have hA : activeAmbulance (towing xt x y ch).vehiclesBottom = none := by
    simp [activeAmbulance, lastIdx, towing, wreckA, wreckB, towAt, Vehicle.new,
      Vehicle.IsAmbulance]
  have hT : activeTow (towing xt x y ch).vehiclesBottom = some 2 := by
    simp [activeTow, lastIdx, towing, wreckA, wreckB, towAt, Vehicle.new, Vehicle.IsDepannage]
  have hr : (towing xt x y ch).resolutionStage (some 2) = towing xt x y ch := by
    simp [Simulation.resolutionStage, towing, towAt, Vehicle.new, Vehicle.hasPickedUp]
  have hp : towedPlacement (towing xt x y ch).vehiclesBottom =
      (towing xt x y ch).vehiclesBottom := by
    unfold towedPlacement
    show List.foldl _ _ [0, 1, 2] = _
    simp [towedPlacementStep, towing, wreckA, wreckB, towAt, Vehicle.new]
  have hb := towing_bottomPass x y ch h1 h2
  have htp := towing_topPass xt
  have key : (towing xt x y ch).postCullStages 0 (envAt 0 0 50) =
      { towing xt x y ch with
        vehiclesBottom :=
          bottomPass crashedPair.currentAccident crashedPair.lightBottom none (some 2) 0
            [wreckA, wreckB, towAt x y ch]
        vehiclesTop := topPass crashedPair.lightTop 0 [Vehicle.new 1 xt 120 2 true .Car]
        ambulanceActive := false, screenAlertOn := false } := by
    unfold Simulation.postCullStages
    simp only [ht, hA, hT, hr, hp]
    rfl
  rw [key, hb, htp]
  rfl

/-- Any number of frames of the tow truck under way. -/
theorem towing_frames (n : Nat) (xt x y : ℚ) (ch : Bool) (h1 : 3681 < x - 5 / 2 * n + 5 / 2)
    (h2 : ch = true ∨ 4101 ≤ x - 5 / 2 * n + 5 / 2) (h3 : xt + 2 * n ≤ 5500) :
    runFrom (towing xt x y ch) (List.replicate n still) =
      towing (xt + 2 * n) (x - 5 / 2 * n) y ch := by
  induction n generalizing xt x with
  | zero => simp [runFrom]
  | succ n ih =>
    have hn : (0 : ℚ) ≤ n := Nat.cast_nonneg n
    push_cast at h1 h2 h3
    have hstep := towing_step xt x y ch (by linarith)
      (h2.imp id (fun h => by linarith)) (by linarith)
    show runFrom ((towing xt x y ch).step still) (List.replicate n still) = _
    rw [hstep, ih (xt + 2) (x - 5 / 2) (by linarith) (h2.imp id (fun h => by linarith))
      (by linarith)]
    push_cast
    congr 1 <;> ring

theorem dispatch_tow : runFrom crashedPair [.dispatchTow] = towing (-94) 5500 290 false := by
  decide!

set_option maxRecDepth 100000 in
theorem lane_change_frames :
    runFrom (towing 1026 4100 290 false) (List.replicate 55 still) =
      towing 1136 (7925 / 2) 335 true := by
  decide!

theorem towApproach_run : runFrom crashedPair towApproach = towing 1358 3685 335 true := by
  have h1 := towing_frames 560 (-94) 5500 290 false (by norm_num) (Or.inr (by norm_num))
    (by norm_num)
  have h2 := towing_frames 111 1136 (7925 / 2) 335 true (by norm_num) (Or.inl rfl)
    (by norm_num)
  norm_num at h1 h2
  unfold towApproach
  rw [runFrom_append, runFrom_append, runFrom_append, dispatch_tow, h1, lane_change_frames, h2]

set_option maxRecDepth 100000 in
theorem gameOver_frames :
    runFrom (towing 1358 3685 335 true) [frame8 50, frame8 0, frame8 50, frame8 0] =
      gameOverTow := by
  decide!

set_option maxRecDepth 100000 in
theorem pickUp_frames :
    runFrom (towing 1358 3685 335 true) (List.replicate 3 still ++ [frame8 50]) =
      pickedUpTow := by
  decide!

theorem gameOverTow_reachable : Reachable gameOverTow := by
  have h := reachable_runFrom crashedPair_reachable gameOverScript
  unfold gameOverScript at h
  rw [runFrom_append, towApproach_run, gameOver_frames] at h
  exact h

theorem pickedUpTow_reachable : Reachable pickedUpTow := by
  have h := reachable_runFrom crashedPair_reachable pickedUpScript
  unfold pickedUpScript at h
  rw [List.append_assoc, runFrom_append, towApproach_run, pickUp_frames] at h
  exact h

/-! ## The active tow truck -/

theorem lastOf_cons (p : Vehicle → Bool) (v : Vehicle) (vs : List Vehicle) :
    lastOf p (v :: vs) =
      match lastOf p vs with
      | some w => some w
      | none => if p v then some v else none := rfl

theorem lastOf_none {p : Vehicle → Bool} {vs : List Vehicle} :
    lastOf p vs = none ↔ ∀ v ∈ vs, p v = false := by
  induction vs with
  | nil => simp [lastOf]
  | cons u us ih =>
    unfold lastOf
    cases h : lastOf p us with
    | some w =>
      simp only [false_iff, reduceCtorEq]
      intro hall
      have := ih.2 (fun v hv => hall v (List.mem_cons_of_mem _ hv))
      rw [h] at this
      exact Option.noConfusion this
    | none =>
      have hus := ih.1 h
      by_cases hp : p u = true
      · simp only [hp, if_true, false_iff, reduceCtorEq]
        intro hall
        have := hall u (List.mem_cons_self _ _)
        rw [hp] at this
        exact Bool.noConfusion this
      · have hp' : p u = false := by simpa using hp
        rw [hp']
        simp only [Bool.false_eq_true, if_false, true_iff]
        intro v hv
        rcases List.mem_cons.1 hv with rfl | hv
        · exact hp'
        · exact hus v hv

theorem lastOf_mem {p : Vehicle → Bool} {vs : List Vehicle} {w : Vehicle}
    (h : lastOf p vs = some w) : w ∈ vs ∧ p w = true := by
  induction vs with
  | nil => exact Option.noConfusion h
  | cons u us ih =>
    unfold lastOf at h
    cases h' : lastOf p us with
    | some w' =>
      rw [h'] at h
      simp only [Option.some.injEq] at h
      subst h
      exact ⟨List.mem_cons_of_mem _ (ih h').1, (ih h').2⟩
    | none =>
      rw [h'] at h
      by_cases hp : p u = true
      · simp only [hp, if_true, Option.some.injEq] at h
        subst h
        exact ⟨List.mem_cons_self _ _, hp⟩
      · simp only [hp, if_false, reduceCtorEq] at h

/-- The index loop ends on the last vehicle that satisfies `p`. -/
theorem lastIdx_lastOf (p : Vehicle → Bool) (vs : List Vehicle) (i : Nat) (r : Option Nat) :
    (lastOf p vs = none ∧ lastIdx p vs i r = r) ∨
      ∃ t w, lastIdx p vs i r = some t ∧ i ≤ t ∧ vs[t - i]? = some w ∧
        lastOf p vs = some w := by
  induction vs generalizing i r with
  | nil => exact Or.inl ⟨rfl, rfl⟩
  | cons u us ih =>
    unfold lastIdx lastOf
    rcases ih (i + 1) (if p u = true then some i else r) with ⟨h1, h2⟩ | ⟨t, w, h1, h2, h3, h4⟩
    · rw [h1, h2]
      by_cases hp : p u = true
      · right
        refine ⟨i, u, by simp [hp], le_refl _, by simp, by simp [hp]⟩
      · left
        simp [hp]
    · right
      refine ⟨t, w, h1, by omega, ?_, by rw [h4]⟩
      have : t - i = (t - (i + 1)) + 1 := by omega
      rw [this, List.getElem?_cons_succ]
      exact h3

theorem activeTow_lastOf {vs : List Vehicle} {t : Nat} {w : Vehicle}
    (h : activeTow vs = some t) (hw : vs[t]? = some w) :
    lastOf Vehicle.IsDepannage vs = some w := by
  unfold activeTow at h
  rcases lastIdx_lastOf Vehicle.IsDepannage vs 0 none with ⟨_, h2⟩ | ⟨t', w', h1, _, h3, h4⟩
  · rw [h2] at h
    exact Option.noConfusion h
  · rw [h1] at h
    simp only [Option.some.injEq] at h
    subst h
    rw [Nat.sub_zero, hw] at h3
    simp only [Option.some.injEq] at h3
    subst h3
    exact h4

theorem lastOf_activeTow {vs : List Vehicle} {w : Vehicle}
    (h : lastOf Vehicle.IsDepannage vs = some w) :
    ∃ t, activeTow vs = some t ∧ vs[t]? = some w := by
  unfold activeTow
  rcases lastIdx_lastOf Vehicle.IsDepannage vs 0 none with ⟨h1, _⟩ | ⟨t', w', h1, _, h3, h4⟩
  · rw [h1] at h
    exact Option.noConfusion h
  · rw [h4] at h
    simp only [Option.some.injEq] at h
    subst h
    exact ⟨t', h1, by simpa using h3⟩

theorem lastOf_append (p : Vehicle → Bool) (vs l : List Vehicle) :
    lastOf p (vs ++ l) =
      match lastOf p l with
      | some w => some w
      | none => lastOf p vs := by
  induction vs with
  | nil =>
    simp only [List.nil_append]
    cases lastOf p l <;> rfl
  | cons u us ih =>
    rw [List.cons_append, lastOf_cons, ih, lastOf_cons]
    cases lastOf p l with
    | some w => rfl
    | none => rfl

/-- Vehicles appended that do not satisfy `p` leave the last one in place. -/
theorem lastOf_append_none (p : Vehicle → Bool) (vs l : List Vehicle)
    (h : ∀ n ∈ l, p n = false) : lastOf p (vs ++ l) = lastOf p vs := by
  rw [lastOf_append, lastOf_none.2 h]

/-- Filtering keeps the last vehicle that satisfies `p` when the filter keeps it. -/
theorem lastOf_filter (p q : Vehicle → Bool) {vs : List Vehicle} {w : Vehicle}
    (h : lastOf p vs = some w) (hq : q w = true) : lastOf p (vs.filter q) = some w := by
  induction vs with
  | nil => exact Option.noConfusion h
  | cons u us ih =>
    unfold lastOf at h
    cases h' : lastOf p us with
    | some w' =>
      rw [h'] at h
      simp only [Option.some.injEq] at h
      subst h
      have := ih h'
      rw [List.filter_cons]
      split_ifs
      · unfold lastOf
        rw [this]
      · exact this
    | none =>
      rw [h'] at h
      by_cases hp : p u = true
      · simp only [hp, if_true, Option.some.injEq] at h
        subst h
        have hnone : lastOf p (us.filter q) = none :=
          lastOf_none.2 (fun v hv => (lastOf_none.1 h') v (List.mem_filter.1 hv).1)
        rw [List.filter_cons, if_pos hq]
        unfold lastOf
        rw [hnone]
        simp [hp]
      · simp only [hp, if_false, reduceCtorEq] at h

/-- Pointwise related collections have related last vehicles. -/
theorem lastOf_forall2 {R : Vehicle → Vehicle → Prop} {p : Vehicle → Bool}
    (hp : ∀ v w, R v w → p w = p v) {vs ws : List Vehicle} (h : List.Forall₂ R vs ws)
    {w : Vehicle} (hw : lastOf p ws = some w) : ∃ v, lastOf p vs = some v ∧ R v w := by
  induction h with
  | nil => exact Option.noConfusion hw
  | @cons a b as bs hab hrest ih =>
    unfold lastOf at hw ⊢
    cases h' : lastOf p bs with
    | some w' =>
      rw [h'] at hw
      simp only [Option.some.injEq] at hw
      subst hw
      obtain ⟨v, hv, hr⟩ := ih h'
      exact ⟨v, by rw [hv], hr⟩
    | none =>
      rw [h'] at hw
      have hnone : lastOf p as = none := by
        rw [lastOf_none] at h' ⊢
        intro v hv
        obtain ⟨w', hw', hr⟩ := forall2_mem_left hrest hv
        rw [← hp v w' hr]
        exact h' w' hw'
      rw [hnone]
      by_cases hpb : p b = true
      · simp only [hpb, if_true, Option.some.injEq] at hw
        subst hw
        exact ⟨a, by simp [← hp a b hab, hpb], hab⟩
      · simp only [hpb, if_false, reduceCtorEq] at hw

/-! ## Tow trucks on their way: the invariant `TowInv` -/

theorem towKept_refl (v : Vehicle) : TowKept v v := ⟨rfl, fun _ => ⟨rfl, rfl⟩⟩

theorem isDepannage_cls {v : Vehicle} (h : v.IsDepannage = true) :
    ∃ d, v.cls = .Depannage d := by
  unfold Vehicle.IsDepannage at h
  cases hc : v.cls with
  | Depannage d => exact ⟨d, rfl⟩
  | Car => rw [hc] at h; exact Bool.noConfusion h
  | SchoolBus d => rw [hc] at h; exact Bool.noConfusion h
  | Ambulance d => rw [hc] at h; exact Bool.noConfusion h

theorem cls_isDepannage {v : Vehicle} {d : DepannageData} (h : v.cls = .Depannage d) :
    v.IsDepannage = true ∧ v.hasPickedUp = d.hasPickedUp := by
  unfold Vehicle.IsDepannage Vehicle.hasPickedUp
  rw [h]
  exact ⟨rfl, rfl⟩

/-- The invariant follows pointwise related collections. -/
theorem towInv_transport {Q : Vehicle → Vehicle → Prop} {s s' : Simulation} (h : TowInv s)
    (hvs : List.Forall₂ Q s.vehiclesBottom s'.vehiclesBottom)
    (hQ : ∀ v w, Q v w → v ∈ s.vehiclesBottom → TowKept v w)
    (hacc : s'.currentAccident.active = true →
      0 < s'.currentAccident.x ∧ s'.currentAccident.car1 ≠ s'.currentAccident.car2) :
    TowInv s' := by
  refine { accx := fun ha => (hacc ha).1, distinct := fun ha => (hacc ha).2, enroute := ?_ }
  intro w hw d hd hp
  obtain ⟨v, hv, hq⟩ := forall2_mem_right hvs hw
  obtain ⟨k1, k2⟩ := hQ v w hq hv
  have hvd : v.IsDepannage = true := by rw [← k1]; exact (cls_isDepannage hd).1
  obtain ⟨e1, e2⟩ := k2 hvd
  rw [e2]
  exact h.enroute v hv d (by rw [← e1]; exact hd) hp

theorem towInv_of_same {s s' : Simulation} (h : TowInv s)
    (hvs : s'.vehiclesBottom = s.vehiclesBottom)
    (hacc : s'.currentAccident = s.currentAccident) : TowInv s' := by
  refine { accx := ?_, distinct := ?_, enroute := ?_ }
  · rw [hacc]; exact h.accx
  · rw [hacc]; exact h.distinct
  · rw [hvs]; exact h.enroute

/-- Appending a vehicle that is not a tow truck short of its target keeps the
invariant. -/
theorem towInv_append {s s' : Simulation} (h : TowInv s) (n : Vehicle)
    (hvs : s'.vehiclesBottom = s.vehiclesBottom ++ [n])
    (hacc : s'.currentAccident = s.currentAccident)
    (hn : ∀ d, n.cls = .Depannage d → d.hasPickedUp = false → 0 < d.targetX ∧ -125 < n.x) :
    TowInv s' := by
  refine { accx := ?_, distinct := ?_, enroute := ?_ }
  · rw [hacc]; exact h.accx
  · rw [hacc]; exact h.distinct
  · intro w hw
    rw [hvs] at hw
    rcases List.mem_append.1 hw with hw | hw
    · exact h.enroute w hw
    · rw [List.mem_singleton.1 hw]
      exact hn

theorem towInv_init : TowInv Simulation.init :=
  { accx := fun h => Bool.noConfusion h
    distinct := fun h => Bool.noConfusion h
    enroute := fun _ hw => absurd hw (List.not_mem_nil _) }

theorem towInv_Reset (s : Simulation) : TowInv s.Reset :=
  { accx := fun h => Bool.noConfusion h
    distinct := fun h => Bool.noConfusion h
    enroute := fun _ hw => absurd hw (List.not_mem_nil _) }

theorem towInv_CallSchoolBus {s : Simulation} (h : TowInv s) : TowInv s.CallSchoolBus :=
  towInv_append h _ rfl rfl (fun _ hd => VehicleClass.noConfusion hd)

theorem towInv_CallDepannage {s : Simulation} (h : TowInv s) : TowInv s.CallDepannage := by
  unfold Simulation.CallDepannage
  by_cases ha : (!s.currentAccident.active) = true
  · rw [if_pos ha]; exact h
  · rw [if_neg ha]
    refine towInv_append h _ rfl rfl (fun d hd _ => ?_)
    have hact : s.currentAccident.active = true := by simpa using ha
    simp only [Vehicle.new, VehicleClass.Depannage.injEq] at hd
    rw [← hd]
    exact ⟨h.accx hact, by norm_num [Vehicle.new, WORLD_WIDTH]⟩

/-- The trigger scan returns at once while an accident is active. -/
theorem TriggerRandomAccident_of_active (s : Simulation)
    (h : s.TriggerRandomAccident.currentAccident.active = true) :
    s.TriggerRandomAccident = s := by
  have ha : s.currentAccident.active = true := by
    rw [← (TriggerRandomAccident_active s).1]; exact h
  unfold Simulation.TriggerRandomAccident
  split_ifs with h1 h2
  · rfl
  · rfl
  · rw [ha] at h2
    exact absurd rfl h2

theorem marked_towKept {v w : Vehicle} (h : Marked v w) : TowKept v w := by
  rcases h with rfl | ⟨_, rfl | rfl⟩
  · exact towKept_refl _
  · exact ⟨rfl, fun _ => ⟨rfl, rfl⟩⟩
  · exact ⟨rfl, fun _ => ⟨rfl, rfl⟩⟩

theorem towInv_TriggerRandomAccident {s : Simulation} (h : TowInv s) :
    TowInv s.TriggerRandomAccident := by
  by_cases ha : s.TriggerRandomAccident.currentAccident.active = true
  · rw [TriggerRandomAccident_of_active s ha]; exact h
  · exact towInv_transport h (trigger_marked s) (fun v w hq _ => marked_towKept hq)
      (fun h' => absurd h' ha)

theorem towInv_CallAmbulance {s : Simulation} (h : TowInv s) : TowInv s.CallAmbulance := by
  have h1 : TowInv (if (!s.currentAccident.active && !s.currentAccident.pending) = true
      then s.TriggerRandomAccident else s) := by
    split_ifs
    · exact towInv_TriggerRandomAccident h
    · exact h
  unfold Simulation.CallAmbulance
  refine towInv_append h1 _ rfl rfl (fun d hd => ?_)
  dsimp only at hd
  split_ifs at hd <;> exact VehicleClass.noConfusion hd

theorem towInv_spawnStage {s : Simulation} (h : TowInv s) (delta : ℚ) (env : Env) :
    TowInv (s.spawnStage delta env) := by
  have htop : TowInv (({ s with carSpawnTimerTop := 0 } : Simulation).SpawnCarTop env) :=
    towInv_of_same h rfl rfl
  unfold Simulation.spawnStage
  dsimp only
  split_ifs with h1 h2 h2
  · exact towInv_append (s := ({ s with carSpawnTimerTop := 0 } : Simulation).SpawnCarTop env)
      htop _ rfl rfl (fun d hd => VehicleClass.noConfusion hd)
  · exact towInv_of_same htop rfl rfl
  · exact towInv_append (s := s) h _ rfl rfl (fun d hd => VehicleClass.noConfusion hd)
  · exact towInv_of_same h rfl rfl

theorem towInv_beforeCull {s : Simulation} (h : TowInv s) (delta : ℚ) (env : Env) :
    TowInv (s.beforeCull delta env) := by
  have h1 := towInv_spawnStage h delta env
  have h2 : TowInv ((s.spawnStage delta env).randomTriggerStage env) := by
    unfold Simulation.randomTriggerStage
    split_ifs
    · exact towInv_TriggerRandomAccident h1
    · exact h1
  exact towInv_of_same h2 (beforeCull_vehiclesBottom s delta env)
    (beforeCull_currentAccident s delta env)

/-- While an accident is pending or active, the culling leaves the record as it
is. -/
theorem cullStage_record {s : Simulation} (hinv : Inv 73 s)
    (hph : s.currentAccident.pending = true ∨ s.currentAccident.active = true) :
    s.cullStage.currentAccident = s.currentAccident := by
  refine cullBottom_acc_eq _ _ _ (fun v hv => ?_)
  by_cases hp : s.currentAccident.car1 = some v.id ∨ s.currentAccident.car2 = some v.id
  · exact Or.inr (Or.inr (Or.inl (cull_keeps_participants hinv hph hv hp)))
  · simp only [not_or] at hp
    by_cases hd : v.IsDepannage = true
    · exact Or.inl hd
    by_cases hb : v.IsSchoolBus = true
    · exact Or.inr (Or.inl hb)
    simp only [Bool.not_eq_true] at hd hb
    by_cases hc : v.isCrashed = true
    · exact Or.inr (Or.inr (Or.inl (cullRemoves_flagged hd hb (Or.inr (Or.inr hc))
        (hinv.crashed v hv hc).1 (hinv.keep v hv))))
    · simp only [Bool.not_eq_true] at hc
      by_cases hfl : v.isReckless = true ∨ v.isAccidentTarget = true
      · exact absurd (hinv.roam v hv hfl hc).2 (by simp [hp.1, hp.2])
      · simp only [not_or, Bool.not_eq_true] at hfl
        exact Or.inr (Or.inr (Or.inr ⟨hp.1, hp.2, hfl.2, hfl.1, hc⟩))

theorem towInv_cullStage {s : Simulation} (hinv : Inv 73 s) (h : TowInv s) :
    TowInv s.cullStage := by
  have hact : s.cullStage.currentAccident.active = true →
      s.currentAccident.active = true ∧ s.cullStage.currentAccident = s.currentAccident := by
    intro ha
    have := (cullBottom_flags s.vehiclesBottom s.currentAccident s.waitingForTowToLeave).1 ha
    exact ⟨this, cullStage_record hinv (Or.inr this)⟩
  refine { accx := fun ha => ?_, distinct := fun ha => ?_, enroute := fun w hw => ?_ }
  · rw [(hact ha).2]; exact h.accx (hact ha).1
  · rw [(hact ha).2]; exact h.distinct (hact ha).1
  · rw [cullStage_vehiclesBottom] at hw
    exact h.enroute w (List.mem_filter.1 hw).1

theorem crashWrites_towKept (c1 c2 : Nat) (accX accY : ℚ) (v : Vehicle) :
    TowKept v (crashWrites c1 c2 accX accY v) := by
  obtain ⟨_, hx, _, hd, _⟩ := crashWrites_spec c1 c2 accX accY v
  refine ⟨hd, fun hv => ⟨?_, hx⟩⟩
  obtain ⟨d, hcls⟩ := isDepannage_cls hv
  have hf := (crashFlags_spec c1 c2 v).2.2.2.1
  unfold crashWrites
  rw [assignIfAmbulance_car _ _ _ (by unfold Vehicle.IsAmbulance; rw [hf, hcls])]
  exact hf

theorem towInv_transitionStage {s : Simulation} (hinv : Inv 73 s) (h : TowInv s) :
    TowInv s.transitionStage := by
  rcases transitionStage_cases s with e | e | ⟨c1, c2, a, b, hp, hc1, hc2, ha, hb, e⟩
  · rw [e]; exact h
  · rw [e]
    exact { accx := h.accx, distinct := h.distinct, enroute := h.enroute }
  · rw [e]
    refine towInv_transport (Q := TowKept) h
      (forall2_map (R := TowKept) _ (fun v => crashWrites_towKept c1 c2 _ _ v) _)
      (fun _ _ hq _ => hq) (fun _ => ?_)
    obtain ⟨a0, ha0, b0, hb0, h1, h2, hl, ht, hg1, hg2⟩ := hinv.pair hp
    have ec1 : c1 = a0.id := by rw [hc1] at h1; exact Option.some.inj h1
    have ea : a = a0 := by
      have := findById_of_mem hinv.nodup ha0
      rw [← ec1, ha] at this
      exact Option.some.inj this
    constructor
    · show 0 < a.x + VEHICLE_WIDTH / 2
      rw [ea]
      norm_num [VEHICLE_WIDTH]
      linarith
    · show s.currentAccident.car1 ≠ s.currentAccident.car2
      rw [h1, h2]
      intro hcon
      have hab := eq_of_id_eq hinv.nodup ha0 hb0 (Option.some.inj hcon)
      have h3 := hl.target
      rw [hab, ht.notTarget] at h3
      exact Bool.noConfusion h3

theorem towWrites_towKept (c1 c2 : Nat) (tow v : Vehicle) :
    TowKept v (towWrites c1 c2 tow v) := by
  obtain ⟨_, hcls, _, _, _, hx, _⟩ := towWrites_linked c1 c2 tow v
  refine ⟨?_, fun _ => ⟨hcls, hx⟩⟩
  unfold Vehicle.IsDepannage
  rw [hcls]

theorem towInv_resolutionStage {g : ℚ} {s : Simulation} (hinv : Inv g s) (h : TowInv s)
    (aTow : Option Nat) : TowInv (s.resolutionStage aTow) := by
  rcases resolutionStage_cases hinv aTow with e | ⟨t, tow, a, b, _, _, _, _, _, _, _, _, e⟩
  · rw [e]; exact h
  · rw [e]
    exact towInv_transport (Q := TowKept) h
      (forall2_map (R := TowKept) _ (fun v => towWrites_towKept a.id b.id tow v) _)
      (fun _ _ hq _ => hq) (fun ha => Bool.noConfusion ha)

theorem towedPlacementStep_free (vs : List Vehicle) (i : Nat) :
    List.Forall₂ (fun v w => w.sansPos = v.sansPos ∧ (v.myTower = none → w = v)) vs
      (towedPlacementStep vs i) := by
  have hrefl : ∀ v : Vehicle, v.sansPos = v.sansPos ∧ (v.myTower = none → v = v) :=
    fun v => ⟨rfl, fun _ => rfl⟩
  unfold towedPlacementStep
  split
  · exact forall2_self hrefl vs
  · rename_i v hv
    split_ifs with ht
    · split
      · exact forall2_self hrefl vs
      · rename_i t hmt
        split
        · exact forall2_self hrefl vs
        · refine forall2_modifyAt hrefl _ i vs (fun u hu => ⟨rfl, fun hf => ?_⟩)
          rw [hv] at hu
          simp only [Option.some.injEq] at hu
          rw [← hu, hmt] at hf
          exact Option.noConfusion hf
    · exact forall2_self hrefl vs

/-- The placement loop leaves a vehicle without a tower as it is. -/
theorem towedPlacement_free (vs : List Vehicle) :
    List.Forall₂ (fun v w => w.sansPos = v.sansPos ∧ (v.myTower = none → w = v)) vs
      (towedPlacement vs) := by
  unfold towedPlacement
  refine forall2_foldl (fun v => ⟨rfl, fun _ => rfl⟩) ?_ towedPlacementStep
    towedPlacementStep_free _ vs
  intro u v w huv hvw
  refine ⟨hvw.1.trans huv.1, fun hu => ?_⟩
  have hvu := huv.2 hu
  have hvt : v.myTower = none := by rw [hvu]; exact hu
  rw [hvw.2 hvt, hvu]

theorem free_trans (u v w : Vehicle) (h1 : Free u v) (h2 : Free v w) : Free u w := by
  obtain ⟨a1, a2, a3⟩ := h1
  obtain ⟨b1, b2, b3⟩ := h2
  refine ⟨b1.trans a1, b2.trans a2, fun hu => ?_⟩
  obtain ⟨c1, c2⟩ := a3 hu
  obtain ⟨d1, d2⟩ := b3 (a2.trans hu)
  exact ⟨d1.trans c1, d2.trans c2⟩

/-- From the tow resolution to the main loop, a vehicle without a tower keeps
its class members and its position. -/
theorem steered_free (s : Simulation) :
    List.Forall₂ Free
      (s.transitionStage.resolutionStage
        (activeTow s.transitionStage.vehiclesBottom)).vehiclesBottom
      s.steered.vehiclesBottom := by
  have h1 : List.Forall₂ Free
      (s.transitionStage.resolutionStage
        (activeTow s.transitionStage.vehiclesBottom)).vehiclesBottom
      s.resolved.vehiclesBottom := by
    refine forall2_imp (fun v w h => ?_) (towedPlacement_free _)
    refine ⟨(sansPos_tow h.1).2.2, (sansPos_tow h.1).1, fun hn => ?_⟩
    rw [h.2 hn]
    exact ⟨rfl, rfl⟩
  have h2 : List.Forall₂ Free s.resolved.vehiclesBottom s.steered.vehiclesBottom := by
    refine forall2_imp (fun v w h => ?_) (ambulanceStage_sansTargetY s.resolved _ _)
    have hc := (sansTargetY_flags h).2.2.2.2.2.2
    refine ⟨?_, (core_tow (sansTargetY_core h)).1, fun _ =>
      ⟨hc, (congrArg Vehicle.x h : w.sansTargetY.x = v.sansTargetY.x)⟩⟩
    unfold Vehicle.IsDepannage
    rw [hc]
  exact forall2_chain free_trans h1 h2

/-- In a tidy state a tow truck has no tower. -/
theorem tidy_tow_free {s : Simulation} (ht : Tidy s) {v : Vehicle}
    (hv : v ∈ s.vehiclesBottom) (hd : v.IsDepannage = true) : v.myTower = none := by
  cases hm : v.myTower with
  | none => rfl
  | some t =>
    have hk := (ht.tower v hv t hm).1
    unfold Vehicle.IsDepannage at hd
    rw [hk] at hd
    exact Bool.noConfusion hd

theorem steered_currentAccident (s : Simulation) :
    s.steered.currentAccident =
      (s.transitionStage.resolutionStage
        (activeTow s.transitionStage.vehiclesBottom)).currentAccident := by
  unfold Simulation.steered
  rw [ambulanceStage_currentAccident]
  rfl

theorem towInv_steered {s : Simulation} (hinv : Inv 73 s) (ht : Tidy s) (h : TowInv s) :
    TowInv s.steered := by
  have h2 := towInv_resolutionStage hinv.transitionStage (towInv_transitionStage hinv h)
    (activeTow s.transitionStage.vehiclesBottom)
  have t2 := tidy_resolutionStage hinv.transitionStage (tidy_transitionStage hinv ht)
    (activeTow s.transitionStage.vehiclesBottom)
  refine towInv_transport (Q := Free) h2 (steered_free s)
    (fun v w hq hv => ⟨hq.1, fun hd => hq.2.2 (tidy_tow_free t2 hv hd)⟩) (fun ha => ?_)
  rw [steered_currentAccident] at ha ⊢
  exact ⟨h2.accx ha, h2.distinct ha⟩

theorem postCullStages_record (s : Simulation) (delta : ℚ) (env : Env) :
    (s.postCullStages delta env).currentAccident = s.steered.currentAccident := by
  rw [postCullStages_currentAccident, steered_currentAccident]
  rfl

theorem passKept_isDepannage {v w : Vehicle} (h : PassKept v w) :
    w.IsDepannage = v.IsDepannage := (core_more h.2).2.2.1

/-- The stages after the culling keep the invariant: a tow truck that has not
picked up only advances from the right of its pick-up point. -/
theorem towInv_postCullStages {s : Simulation} (hinv : Inv 73 s) (ht : Tidy s) (h : TowInv s)
    (delta : ℚ) (env : Env) : TowInv (s.postCullStages delta env) := by
  have h4 := towInv_steered hinv ht h
  have t4 := tidy_steered hinv ht
  refine { accx := fun ha => ?_, distinct := fun ha => ?_, enroute := fun w hw d' hd' hp' => ?_ }
  · rw [postCullStages_record] at ha ⊢
    exact h4.accx ha
  · rw [postCullStages_record] at ha ⊢
    exact h4.distinct ha
  · rw [postCullStages_vehiclesBottom] at hw
    obtain ⟨v, hv, hpk, hts⟩ := forall2_mem_right (bottomPass_tow _ _ _ _ _ _) hw
    have hvd : v.IsDepannage = true := by
      rw [← passKept_isDepannage hpk]; exact (cls_isDepannage hd').1
    obtain ⟨d, hd⟩ := isDepannage_cls hvd
    obtain ⟨d'', e1, e2, e3, e4⟩ := hts d hd
    rw [hd'] at e1
    simp only [VehicleClass.Depannage.injEq] at e1
    subst e1
    have hp : d.hasPickedUp = false := by
      by_contra hcon
      rw [e3 (by simpa using hcon)] at hp'
      exact Bool.noConfusion hp'
    obtain ⟨k1, k2⟩ := h4.enroute v hv d hd hp
    rw [e2]
    refine ⟨k1, ?_⟩
    rcases e4 with e4 | ⟨e4, _, e5⟩
    · rw [e4]; exact k2
    · obtain ⟨sp, dr⟩ := t4.towSpeed v hv hvd
      have hst : v.stride = -(5 / 2) := by
        unfold Vehicle.stride
        rw [dr, sp]
        simp
      rw [e4, hst]
      linarith [e5 hp]

/-! ## The tow truck that has just picked up -/

/-- What the tow resolution does when it fires. -/
theorem resolutionStage_fires (s : Simulation) (t : Nat) (tow : Vehicle)
    (hw : s.vehiclesBottom[t]? = some tow) (hp : tow.hasPickedUp = true)
    (ha : s.currentAccident.active = true) :
    (s.resolutionStage (some t)).currentAccident =
        { s.currentAccident with active := false } ∧
      ∀ c1 c2, s.currentAccident.car1 = some c1 → s.currentAccident.car2 = some c2 →
        (s.resolutionStage (some t)).vehiclesBottom =
          s.vehiclesBottom.map (towWrites c1 c2 tow) := by
  unfold Simulation.resolutionStage
  simp only [hw, hp, ha, Bool.and_self, if_true]
  refine ⟨trivial, fun c1 c2 h1 h2 => ?_⟩
  rw [h1, h2]
  exact resolution_writes_eq c1 c2 tow _

/-- After the tow resolution, while the accident is active, the last tow truck
has not picked up. -/
theorem resolution_unpicked (s : Simulation)
    (ha : (s.resolutionStage (activeTow s.vehiclesBottom)).currentAccident.active = true)
    {w : Vehicle}
    (hw : lastOf Vehicle.IsDepannage
      (s.resolutionStage (activeTow s.vehiclesBottom)).vehiclesBottom = some w) :
    w.hasPickedUp = false := by
  rw [resolutionStage_of_active _ _ ha] at hw
  by_contra hcon
  obtain ⟨t, hT, hv⟩ := lastOf_activeTow hw
  have hs := resolutionStage_active _ _ ha
  rw [hT, (resolutionStage_fires s t w hv (by simpa using hcon) hs).1] at ha
  exact Bool.noConfusion ha

theorem free_hasPickedUp {s : Simulation} (ht : Tidy s) {v w : Vehicle}
    (hv : v ∈ s.vehiclesBottom) (hd : v.IsDepannage = true) (h : Free v w) :
    w.hasPickedUp = v.hasPickedUp ∧ w.x = v.x := by
  obtain ⟨e1, e2⟩ := h.2.2 (tidy_tow_free ht hv hd)
  unfold Vehicle.hasPickedUp
  rw [e1]
  exact ⟨rfl, e2⟩

/-- At the end of a frame, while the accident is active, a last tow truck that
has picked up did so in the main loop of this frame, where it stood to the
right of x = -125. -/
theorem settled_postCullStages {s : Simulation} (hinv : Inv 73 s) (ht : Tidy s)
    (h : TowInv s) (delta : ℚ) (env : Env) : Settled (s.postCullStages delta env) := by
  have h4 := towInv_steered hinv ht h
  have t2 := tidy_resolutionStage hinv.transitionStage (tidy_transitionStage hinv ht)
    (activeTow s.transitionStage.vehiclesBottom)
  intro ha w hw hp
  rw [postCullStages_record, steered_currentAccident] at ha
  rw [postCullStages_vehiclesBottom] at hw
  obtain ⟨v, hv, hpk, hts⟩ := lastOf_forall2 (fun _ _ hq => passKept_isDepannage hq.1)
    (bottomPass_tow _ _ _ _ _ _) hw
  obtain ⟨u, hu, hfree⟩ := lastOf_forall2 (fun _ _ hq => hq.1) (steered_free s) hv
  have hud := (lastOf_mem hu).2
  have hvu := free_hasPickedUp t2 (lastOf_mem hu).1 hud hfree
  have hunp : v.hasPickedUp = false := by
    rw [hvu.1]; exact resolution_unpicked _ ha hu
  have hvd : v.IsDepannage = true := (lastOf_mem hv).2
  obtain ⟨d, hd⟩ := isDepannage_cls hvd
  obtain ⟨d', e1, e2, e3, e4⟩ := hts d hd
  have hdp : d.hasPickedUp = false := by rw [← (cls_isDepannage hd).2]; exact hunp
  have hdp' : d'.hasPickedUp = true := by rw [← (cls_isDepannage e1).2]; exact hp
  rcases e4 with e4 | ⟨_, e5, _⟩
  · rw [e4]
    exact (h4.enroute v (lastOf_mem hv).1 d hd hdp).2
  · rw [e5, hdp] at hdp'
    exact Bool.noConfusion hdp'

theorem towInv_Update {s : Simulation} (hinv : Inv 73 s) (ht : Tidy s)
    (hh : Hitched (5 / 2) s) (h : TowInv s) (hs : Settled s) (delta : ℚ) (env : Env) :
    TowInv (s.Update delta env) ∧ Settled (s.Update delta env) := by
  by_cases hg : s.gameOver = true
  · have hU : s.Update delta env = s := by
      unfold Simulation.Update
      rw [if_pos hg]
    rw [hU]
    exact ⟨h, hs⟩
  · rw [Update_eq_postCull s delta env (by simpa using hg)]
    have i5 := hinv.beforeCull delta env
    have t5 := tidy_beforeCull ht delta env
    have h5 := hitched_beforeCull hinv ht hh delta env
    have k5 := towInv_beforeCull h delta env
    have i6 : Inv 73 (s.afterCull delta env) := i5.cullStage
    have t6 : Tidy (s.afterCull delta env) := tidy_cullStage t5 h5
    have k6 : TowInv (s.afterCull delta env) := towInv_cullStage i5 k5
    exact ⟨towInv_postCullStages i6 t6 k6 delta env, settled_postCullStages i6 t6 k6 delta env⟩

/-- With an active accident, `CallAmbulance` appends the ambulance and leaves
the vehicles and the record as they are. -/
theorem CallAmbulance_of_active (s : Simulation)
    (ha : s.CallAmbulance.currentAccident.active = true) :
    s.CallAmbulance.currentAccident = s.currentAccident ∧
      ∃ n, n.IsDepannage = false ∧ s.CallAmbulance.vehiclesBottom = s.vehiclesBottom ++ [n] := by
  have hact : s.currentAccident.active = true := by
    by_contra hcon
    have hf : s.currentAccident.active = false := by simpa using hcon
    have : s.CallAmbulance.currentAccident.active = false := by
      unfold Simulation.CallAmbulance
      dsimp only
      split_ifs
      · rw [(TriggerRandomAccident_active s).1]; exact hf
      · exact hf
    rw [this] at ha
    exact Bool.noConfusion ha
  unfold Simulation.CallAmbulance
  simp only [hact, Bool.not_true, Bool.false_and, Bool.false_eq_true, if_false, if_true]
  refine ⟨trivial, _, ?_, rfl⟩
  rfl

theorem settled_step {s : Simulation} (hinv : Inv 73 s) (ht : Tidy s)
    (hh : Hitched (5 / 2) s) (h : TowInv s) (hs : Settled s) (c : Cmd) :
    TowInv (s.step c) ∧ Settled (s.step c) := by
  cases c with
  | advance delta env => exact towInv_Update hinv ht hh h hs delta env
  | dispatchAmbulance =>
    refine ⟨towInv_CallAmbulance h, fun ha w hw hp => ?_⟩
    obtain ⟨e1, n, hn, e2⟩ := CallAmbulance_of_active s ha
    have hw' : lastOf Vehicle.IsDepannage s.CallAmbulance.vehiclesBottom = some w := hw
    rw [e2, lastOf_append_none _ _ _ (fun m hm => by rw [List.mem_singleton.1 hm]; exact hn)]
      at hw'
    exact hs (by rw [← e1]; exact ha) w hw' hp
  | dispatchTow =>
    refine ⟨towInv_CallDepannage h, ?_⟩
    show Settled s.CallDepannage
    unfold Simulation.CallDepannage
    by_cases ha : (!s.currentAccident.active) = true
    · rw [if_pos ha]; exact hs
    · rw [if_neg ha]
      intro _ w hw hp
      dsimp only at hw
      rw [lastOf_append] at hw
      have : w = Vehicle.new s.nextId (WORLD_WIDTH + 1500) s.currentAccident.y (5 / 2) false
          (.Depannage { hasPickedUp := false, isWorking := false,
                        targetX := s.currentAccident.x, workTimer := 0 }) := by
        simp only [lastOf, Vehicle.IsDepannage, Vehicle.new, if_true, Option.some.injEq] at hw
        exact hw.symm
      rw [this] at hp
      exact Bool.noConfusion hp
  | dispatchSchoolBus =>
    refine ⟨towInv_CallSchoolBus h, fun ha w hw hp => ?_⟩
    have hw' : lastOf Vehicle.IsDepannage s.CallSchoolBus.vehiclesBottom = some w := hw
    unfold Simulation.CallSchoolBus at hw'
    dsimp only at hw'
    rw [lastOf_append_none _ _ _ (fun m hm => by rw [List.mem_singleton.1 hm]; rfl)] at hw'
    exact hs ha w hw' hp
  | triggerAccidentNow =>
    refine ⟨towInv_TriggerRandomAccident h, fun ha w hw hp => ?_⟩
    have e : s.TriggerRandomAccident = s := TriggerRandomAccident_of_active s ha
    have hw' : lastOf Vehicle.IsDepannage s.TriggerRandomAccident.vehiclesBottom = some w := hw
    rw [e] at hw'
    exact hs (by rw [← e]; exact ha) w hw' hp
  | reset => exact ⟨towInv_Reset s, fun ha => Bool.noConfusion ha⟩

/-- All the invariants hold in every reachable state. -/
theorem settled_of_reachable {s : Simulation} (h : Reachable s) :
    Inv 73 s ∧ Tidy s ∧ Hitched (5 / 2) s ∧ TowInv s ∧ Settled s := by
  obtain ⟨cmds, rfl⟩ := h
  refine run_induction
    (fun s => Inv 73 s ∧ Tidy s ∧ Hitched (5 / 2) s ∧ TowInv s ∧ Settled s)
    ⟨Inv.init, tidy_init, fun v hv => absurd hv (List.not_mem_nil _), towInv_init,
      fun ha => Bool.noConfusion ha⟩ (fun s c h => ?_) cmds
  obtain ⟨a, b, c', d, e⟩ := h
  exact ⟨a.step c, (tidy_step a b c' c).1, (tidy_step a b c' c).2,
    (settled_step a b c' d e c).1, (settled_step a b c' d e c).2⟩

/-! ## C12: the tow resolution -/

/-- The spawn statements only append cars to the inbound collection. -/
theorem spawnStage_bottom (s : Simulation) (delta : ℚ) (env : Env) :
    ∃ l, (s.spawnStage delta env).vehiclesBottom = s.vehiclesBottom ++ l ∧
      ∀ n ∈ l, n.IsDepannage = false := by
  unfold Simulation.spawnStage Simulation.SpawnCarTop Simulation.SpawnCarBottom
  dsimp only
  split_ifs
  · exact ⟨[_], rfl, fun n hn => by rw [List.mem_singleton.1 hn]; rfl⟩
  · exact ⟨[], (List.append_nil _).symm, fun n hn => absurd hn (List.not_mem_nil _)⟩
  · exact ⟨[_], rfl, fun n hn => by rw [List.mem_singleton.1 hn]; rfl⟩
  · exact ⟨[], (List.append_nil _).symm, fun n hn => absurd hn (List.not_mem_nil _)⟩

/-- With an active accident, the stages before the culling leave the record as
it is and only append cars to the inbound collection. -/
theorem beforeCull_of_active (s : Simulation) (delta : ℚ) (env : Env)
    (ha : s.currentAccident.active = true) :
    (s.beforeCull delta env).currentAccident = s.currentAccident ∧
      ∃ l, (s.beforeCull delta env).vehiclesBottom = s.vehiclesBottom ++ l ∧
        ∀ n ∈ l, n.IsDepannage = false := by
  have htr : (s.spawnStage delta env).randomTriggerStage env = s.spawnStage delta env := by
    unfold Simulation.randomTriggerStage
    split_ifs
    · refine TriggerRandomAccident_of_active _ ?_
      rw [(TriggerRandomAccident_active _).1, spawnStage_currentAccident]
      exact ha
    · rfl
  rw [beforeCull_currentAccident, beforeCull_vehiclesBottom, htr, spawnStage_currentAccident]
  exact ⟨rfl, spawnStage_bottom s delta env⟩

theorem transitionStage_of_not_pending (s : Simulation)
    (h : s.currentAccident.pending = false) : s.transitionStage = s := by
  unfold Simulation.transitionStage
  simp [h]

theorem towedKept_trans (u v w : Vehicle) (h1 : TowedKept u v) (h2 : TowedKept v w) :
    TowedKept u w := by
  refine ⟨h2.1.trans h1.1, fun hu => ?_⟩
  obtain ⟨a1, a2, a3, a4, a5, a6⟩ := h1.2 hu
  obtain ⟨b1, b2, b3, b4, b5, b6⟩ := h2.2 a1
  exact ⟨b1, b2.trans a2, b3.trans a3, b4.trans a4, b5.trans a5, b6.trans a6⟩

/-- From the tow resolution to the end of the frame, a towed vehicle keeps its
flags and its towing members. -/
theorem towed_to_end (s : Simulation) (delta : ℚ) (env : Env) :
    List.Forall₂ TowedKept
      (s.transitionStage.resolutionStage
        (activeTow s.transitionStage.vehiclesBottom)).vehiclesBottom
      (s.postCullStages delta env).vehiclesBottom := by
  have h1 : List.Forall₂ TowedKept
      (s.transitionStage.resolutionStage
        (activeTow s.transitionStage.vehiclesBottom)).vehiclesBottom
      s.resolved.vehiclesBottom := by
    refine forall2_imp (fun v w h => ?_) (towedPlacement_sansPos _)
    obtain ⟨e1, e2, _, e4, e5, e6, _⟩ := sansPos_flags h.1
    obtain ⟨f1, f2, _⟩ := sansPos_tow h.1
    exact ⟨e1, fun hv => ⟨e5.trans hv, e2, e6, e4, f2, f1⟩⟩
  have h2 : List.Forall₂ TowedKept s.resolved.vehiclesBottom s.steered.vehiclesBottom := by
    refine forall2_imp (fun v w h => ?_) (ambulanceStage_sansTargetY s.resolved _ _)
    obtain ⟨e1, e2, _, e4, e5, e6, _⟩ := sansTargetY_flags h
    obtain ⟨f1, f2⟩ := core_tow (sansTargetY_core h)
    exact ⟨e1, fun hv => ⟨e5.trans hv, e2, e6, e4, f2, f1⟩⟩
  have h3 : List.Forall₂ TowedKept s.steered.vehiclesBottom
      (s.postCullStages delta env).vehiclesBottom := by
    rw [postCullStages_vehiclesBottom]
    refine forall2_imp (fun v w h => ?_) (bottomPass_passKept _ _ _ _ _ _)
    refine ⟨(core_flags h.2).1, fun hv => ?_⟩
    rw [h.1 (Or.inr hv)]
    exact ⟨hv, rfl, rfl, rfl, rfl, rfl⟩
  exact forall2_chain towedKept_trans (forall2_chain towedKept_trans h1 h2) h3

/-- C12 fails when the game is over. `gameOverTow` is reachable: the last life
is lost in the countdown block of the very frame in whose main loop the tow
truck finishes its work. In that state the accident is active and the last tow
truck has `hasPickedUp`, but `Update` returns at once, so the participants stay
crashed and untowed and the accident stays active. -/
theorem resolution_skipped_when_game_over :
    Reachable gameOverTow ∧ gameOverTow.gameOver = true ∧
      gameOverTow.currentAccident.active = true ∧
      activeTow gameOverTow.vehiclesBottom = some 2 ∧
      (gameOverTow.vehiclesBottom[2]?).map Vehicle.hasPickedUp = some true ∧
      gameOverTow.currentAccident.car1 = some 0 ∧ gameOverTow.currentAccident.car2 = some 2 ∧
      (gameOverTow.Update (1 / 60) envQuiet).currentAccident.active = true ∧
      ((gameOverTow.Update (1 / 60) envQuiet).vehiclesBottom.map
        (fun v => (v.id, v.isTowed, v.isCrashed))).take 2 =
          [(0, false, true), (2, false, true)] :=
  ⟨gameOverTow_reachable, by decide!⟩

/-- C12, amended: in every reachable state in which the game is not over, the
accident is active and the active tow truck (the last tow truck of the inbound
collection) has `hasPickedUp`, after an advance both participants of the
accident are in the inbound collection and towed, with crashed, accident-target
and reckless all false, the leading participant has tow offset 100 and the
trailing one 200, both have that tow truck, still in the collection, as their
tower, and the record is not active. -/
theorem tow_resolution (s : Simulation) (h : Reachable s) (delta : ℚ) (env : Env) (t : Nat)
    (tow : Vehicle) (hg : s.gameOver = false) (ha : s.currentAccident.active = true)
    (hT : activeTow s.vehiclesBottom = some t) (htow : s.vehiclesBottom[t]? = some tow)
    (hp : tow.hasPickedUp = true) :
    ∃ a ∈ (s.Update delta env).vehiclesBottom, ∃ b ∈ (s.Update delta env).vehiclesBottom,
      s.currentAccident.car1 = some a.id ∧ s.currentAccident.car2 = some b.id ∧
      (a.isTowed = true ∧ a.isCrashed = false ∧ a.isAccidentTarget = false ∧
        a.isReckless = false ∧ a.towOffsetX = 100 ∧ a.myTower = some tow.id) ∧
      (b.isTowed = true ∧ b.isCrashed = false ∧ b.isAccidentTarget = false ∧
        b.isReckless = false ∧ b.towOffsetX = 200 ∧ b.myTower = some tow.id) ∧
      (∃ w ∈ (s.Update delta env).vehiclesBottom, w.id = tow.id ∧ w.IsDepannage = true) ∧
      (s.Update delta env).currentAccident.active = false := by
  obtain ⟨hinv, ht, hh, hk, hs⟩ := settled_of_reachable h
  have hlast : lastOf Vehicle.IsDepannage s.vehiclesBottom = some tow := activeTow_lastOf hT htow
  have hx : -125 < tow.x := hs ha tow hlast hp
  -- the stages before the culling
  obtain ⟨eb, l, hl, hln⟩ := beforeCull_of_active s delta env ha
  have i5 := hinv.beforeCull delta env
  have t5 := tidy_beforeCull ht delta env
  have h5 := hitched_beforeCull hinv ht hh delta env
  have k5 := towInv_beforeCull hk delta env
  have haB : (s.beforeCull delta env).currentAccident.active = true := by rw [eb]; exact ha
  have hlastB : lastOf Vehicle.IsDepannage (s.beforeCull delta env).vehiclesBottom =
      some tow := by
    rw [hl, lastOf_append_none _ _ _ hln]; exact hlast
  -- the culling keeps the record, the participants and the tow truck
  have i6 : Inv 73 (s.afterCull delta env) := i5.cullStage
  have t6 : Tidy (s.afterCull delta env) := tidy_cullStage t5 h5
  have k6 : TowInv (s.afterCull delta env) := towInv_cullStage i5 k5
  have ec : (s.afterCull delta env).currentAccident = s.currentAccident := by
    unfold Simulation.afterCull
    rw [cullStage_record i5 (Or.inr haB), eb]
  have haC : (s.afterCull delta env).currentAccident.active = true := by rw [ec]; exact ha
  have hkeep : cullRemoves tow = false := by
    unfold cullRemoves
    rw [if_pos (lastOf_mem hlast).2]
    simp only [decide_eq_false_iff_not, not_lt]
    linarith
  have hlastC : lastOf Vehicle.IsDepannage (s.afterCull delta env).vehiclesBottom =
      some tow := by
    unfold Simulation.afterCull
    rw [cullStage_vehiclesBottom]
    exact lastOf_filter _ _ hlastB (by simp [hkeep])
  obtain ⟨a, haM, b, hbM, h1, h2, _, _, hra, hrb, htb, _, _⟩ := i6.wreck haC
  have hne : a.id ≠ b.id := fun e => k6.distinct haC (by rw [h1, h2, e])
  -- the transition does nothing and the resolution fires
  have hpend : (s.afterCull delta env).currentAccident.pending = false := by
    by_contra hcon
    exact i6.excl ⟨by simpa using hcon, haC⟩
  have etr := transitionStage_of_not_pending _ hpend
  obtain ⟨t', hT', htow'⟩ := lastOf_activeTow hlastC
  obtain ⟨er, ev⟩ := resolutionStage_fires _ t' tow htow' hp haC
  have hchain := towed_to_end (s.afterCull delta env) delta env
  rw [etr, hT', ev a.id b.id h1 h2] at hchain
  obtain ⟨a', ha', hqa⟩ := forall2_mem_left hchain (List.mem_map.2 ⟨a, haM, rfl⟩)
  obtain ⟨b', hb', hqb⟩ := forall2_mem_left hchain (List.mem_map.2 ⟨b, hbM, rfl⟩)
  have eA : towWrites a.id b.id tow a = towFirst tow a := by
    unfold towWrites
    rw [if_pos rfl, if_neg (show (towFirst tow a).id ≠ b.id from hne)]
  have eB : towWrites a.id b.id tow b = towSecond tow b := by
    unfold towWrites
    rw [if_neg (Ne.symm hne), if_pos rfl]
  rw [eA] at hqa
  rw [eB] at hqb
  obtain ⟨ia, fa⟩ := hqa
  obtain ⟨ib, fb⟩ := hqb
  obtain ⟨a1, a2, a3, a4, a5, a6⟩ := fa rfl
  obtain ⟨b1, b2, b3, b4, b5, b6⟩ := fb rfl
  rw [Update_eq_postCull s delta env hg]
  have tpost := tidy_postCullStages i6 t6 delta env
  refine ⟨a', ha', b', hb', ?_, ?_, ⟨a1, a2, a3, a4.trans hra, a5, a6⟩,
    ⟨b1, b2, b3.trans htb, b4.trans hrb, b5, b6⟩, ?_, ?_⟩
  · rw [← ec, h1, ia]; rfl
  · rw [← ec, h2, ib]; rfl
  · obtain ⟨_, _, _, w, hw, hid, hd⟩ := tpost.tower a' ha' tow.id a6
    exact ⟨w, hw, hid, hd⟩
  · rw [postCullStages_currentAccident]
    show (((s.afterCull delta env).transitionStage.resolutionStage
      (activeTow (s.afterCull delta env).transitionStage.vehiclesBottom)).currentAccident).active
        = false
    rw [etr, hT', er]

theorem tow_resolution_witness :
    Reachable pickedUpTow ∧ pickedUpTow.gameOver = false ∧
      pickedUpTow.currentAccident.active = true ∧
      activeTow pickedUpTow.vehiclesBottom = some 2 ∧
      (pickedUpTow.vehiclesBottom[2]?).map Vehicle.hasPickedUp = some true ∧
      ∃ a ∈ (pickedUpTow.Update (1 / 60) envQuiet).vehiclesBottom,
        ∃ b ∈ (pickedUpTow.Update (1 / 60) envQuiet).vehiclesBottom,
          pickedUpTow.currentAccident.car1 = some a.id ∧
          pickedUpTow.currentAccident.car2 = some b.id ∧
          (a.isTowed = true ∧ a.isCrashed = false ∧ a.isAccidentTarget = false ∧
            a.isReckless = false ∧ a.towOffsetX = 100 ∧ a.myTower = some 3) ∧
          (b.isTowed = true ∧ b.isCrashed = false ∧ b.isAccidentTarget = false ∧
            b.isReckless = false ∧ b.towOffsetX = 200 ∧ b.myTower = some 3) ∧
          (∃ w ∈ (pickedUpTow.Update (1 / 60) envQuiet).vehiclesBottom,
            w.id = 3 ∧ w.IsDepannage = true) ∧
          (pickedUpTow.Update (1 / 60) envQuiet).currentAccident.active = false :=
  ⟨pickedUpTow_reachable, rfl, rfl, by decide!, rfl,
    tow_resolution pickedUpTow pickedUpTow_reachable (1 / 60) envQuiet 2
      { Vehicle.new 3 3680 335 (5 / 2) false
          (.Depannage { hasPickedUp := true, isWorking := false, targetX := 3801,
                        workTimer := 8 })
        with changedLane := true }
      rfl rfl (by decide!) rfl rfl⟩

theorem tower_reference_valid_witness :
    Reachable pickedUpTow ∧
      ∀ v, v ∈ (pickedUpTow.Update (1 / 60) envQuiet).vehiclesTop ∨
          v ∈ (pickedUpTow.Update (1 / 60) envQuiet).vehiclesBottom →
        ∀ t, v.myTower = some t →
          ∃ w ∈ (pickedUpTow.Update (1 / 60) envQuiet).vehiclesBottom,
            w.id = t ∧ w.IsDepannage = true :=
  ⟨pickedUpTow_reachable,
    (tower_reference_valid pickedUpTow pickedUpTow_reachable (1 / 60) envQuiet).1⟩

/-! ## C13: removed vehicles and the accident record -/

theorem baseUpdate_cls (v : Vehicle) (st : Bool) : (v.baseUpdate st).cls = v.cls := by
  unfold Vehicle.baseUpdate Vehicle.easeY
  dsimp only
  split_ifs <;> rfl

/-- C26 fails as to where the truck stops: at 120 units to the right of its
target (x - targetX = 120) it does not start working but drives on. -/
theorem tow_short_of_target_drives_on :
    towShort.x - 3801 ≤ 120 ∧ towShort.isWorking = false ∧ towShort.hasPickedUp = false ∧
      (towShort.Update false (1 / 60)).isWorking = false ∧
      (towShort.Update false (1 / 60)).x = towShort.x - 5 / 2 := by
  decide!

/-- C26, amended: for a tow truck that is not working and has not picked up,
`Update` sets `isWorking`, resets the work timer to 0, clears `moving` and
leaves x (and everything else) as it is exactly when x <= targetX - 120, that
is when the truck is at least 120 units past its target; in every other case it
performs the common motion step `Vehicle::Update` and stays not working. -/
theorem tow_arrival (v : Vehicle) (d : DepannageData) (stopForRed : Bool) (frameTime : ℚ)
    (hc : v.cls = .Depannage d) (hw : d.isWorking = false) (hp : d.hasPickedUp = false) :
    (v.x ≤ d.targetX - 120 →
        v.Update stopForRed frameTime =
          { v with moving := false,
                   cls := .Depannage { d with isWorking := true, workTimer := 0 } }) ∧
      (¬ v.x ≤ d.targetX - 120 → v.Update stopForRed frameTime = v.baseUpdate stopForRed) ∧
      ((v.Update stopForRed frameTime).isWorking = true ↔ v.x ≤ d.targetX - 120) ∧
      (v.x ≤ d.targetX - 120 → (v.Update stopForRed frameTime).x = v.x) := by
  have h1 : v.x ≤ d.targetX - 120 →
      v.Update stopForRed frameTime =
        { v with moving := false,
                 cls := .Depannage { d with isWorking := true, workTimer := 0 } } := by
    intro hx
    unfold Vehicle.Update
    rw [hc]
    simp only [Depannage.Update, hw, hp, Bool.false_eq_true, if_false, Bool.not_false,
      Bool.true_and, decide_eq_true_eq, hx, if_true]
  have h2 : ¬ v.x ≤ d.targetX - 120 →
      v.Update stopForRed frameTime = v.baseUpdate stopForRed := by
    intro hx
    unfold Vehicle.Update
    rw [hc]
    simp only [Depannage.Update, hw, hp, Bool.false_eq_true, if_false, Bool.not_false,
      Bool.true_and, decide_eq_true_eq, hx]
  refine ⟨h1, h2, ⟨fun hwk => ?_, fun hx => ?_⟩, fun hx => ?_⟩
  · by_contra hx
    rw [h2 hx] at hwk
    unfold Vehicle.isWorking at hwk
    rw [baseUpdate_cls, hc] at hwk
    dsimp only at hwk
    rw [hw] at hwk
    exact Bool.noConfusion hwk
  · rw [h1 hx]; rfl
  · rw [h1 hx]

theorem tow_arrival_witness :
    towPast.x ≤ 3801 - 120 ∧ (towPast.Update false (1 / 60)).isWorking = true ∧
      (towPast.Update false (1 / 60)).x = towPast.x :=
  ⟨by decide!,
    ((tow_arrival towPast
      { hasPickedUp := false, isWorking := false, targetX := 3801, workTimer := 0 } false
      (1 / 60) rfl rfl rfl).2.2.1).2 (by decide!),
    (tow_arrival towPast
      { hasPickedUp := false, isWorking := false, targetX := 3801, workTimer := 0 } false
      (1 / 60) rfl rfl rfl).2.2.2 (by decide!)⟩

/-! ## C29: the ambulances at the crash -/

/-- What the transition writes to an ambulance, whatever its state: the
assignment of the accident. -/
theorem crashWrites_ambulance (c1 c2 : Nat) (accX accY : ℚ) (v : Vehicle)
    (h : v.IsAmbulance = true) :
    (crashWrites c1 c2 accX accY v).AssignedTo accX accY := by
  have hcls := (crashFlags_spec c1 c2 v).2.2.2.1
  have ha : (crashFlags c1 c2 v).IsAmbulance = true := by
    unfold Vehicle.IsAmbulance at h ⊢
    rw [hcls]; exact h
  unfold crashWrites assignIfAmbulance
  rw [if_pos ha]
  unfold Vehicle.IsAmbulance at h
  unfold Vehicle.AssignedTo Vehicle.AssignAccident
  rw [hcls]
  cases hc : v.cls with
  | Ambulance d => exact ⟨_, rfl, rfl, rfl, rfl, rfl⟩
  | Car => rw [hc] at h; exact Bool.noConfusion h
  | SchoolBus d => rw [hc] at h; exact Bool.noConfusion h
  | Depannage d => rw [hc] at h; exact Bool.noConfusion h

theorem crashWrites_isAmbulance (c1 c2 : Nat) (accX accY : ℚ) (v : Vehicle) :
    (crashWrites c1 c2 accX accY v).IsAmbulance = v.IsAmbulance :=
  (core_more (assignIfAmbulance_core accX accY (crashFlags c1 c2 v))).2.2.2.1.trans (by
    unfold Vehicle.IsAmbulance
    rw [(crashFlags_spec c1 c2 v).2.2.2.1])

/-- The tow resolution leaves the location of the accident in the record. -/
theorem resolutionStage_location (u : Simulation) (aTow : Option Nat) :
    (u.resolutionStage aTow).currentAccident.x = u.currentAccident.x ∧
      (u.resolutionStage aTow).currentAccident.y = u.currentAccident.y := by
  unfold Simulation.resolutionStage
  cases aTow with
  | none => exact ⟨rfl, rfl⟩
  | some t =>
    dsimp only
    cases ht : u.vehiclesBottom[t]? with
    | none => exact ⟨rfl, rfl⟩
    | some tow =>
      dsimp only
      split_ifs
      · exact ⟨rfl, rfl⟩
      · exact ⟨rfl, rfl⟩

/-- C29: in the advance in which a pending accident becomes active, that is, the
record is not active when the transition step begins and active when it ends,
the transition step keeps every vehicle of the inbound collection (same
identities, same classes, in the same order), and every ambulance among them,
whatever its state before, ends the transition step in state `TO_ACCIDENT` with
its recorded target equal to the new accident location and its target lane
equal to the accident y. Nothing is assumed on what the rest of the advance does
with the record: the tow resolution may clear `active` in the same advance, and
the location stays in the record to the end of the advance. -/
theorem ambulances_assigned_at_crash (s : Simulation) (delta : ℚ) (env : Env)
    (hact : (s.afterCull delta env).currentAccident.active = false)
    (hfire : (s.afterCull delta env).transitionStage.currentAccident.active = true) :
    (s.afterCull delta env).currentAccident.pending = true ∧
      (s.afterCull delta env).transitionStage.currentAccident.pending = false ∧
      List.Forall₂ (fun v w => w.id = v.id ∧ w.IsAmbulance = v.IsAmbulance)
        (s.afterCull delta env).vehiclesBottom
        (s.afterCull delta env).transitionStage.vehiclesBottom ∧
      (∀ w ∈ (s.afterCull delta env).transitionStage.vehiclesBottom, w.IsAmbulance = true →
        w.AssignedTo (s.afterCull delta env).transitionStage.currentAccident.x
          (s.afterCull delta env).transitionStage.currentAccident.y) ∧
      (s.gameOver = false →
        (s.Update delta env).currentAccident.x =
            (s.afterCull delta env).transitionStage.currentAccident.x ∧
          (s.Update delta env).currentAccident.y =
            (s.afterCull delta env).transitionStage.currentAccident.y) := by
  obtain ⟨c1, c2, a, b, hp, h1, h2, ha, hb, hwin⟩ :=
    transitionStage_becomes_active _ hact hfire
  have hT := transitionStage_crash _ c1 c2 a b hp h1 h2 ha hb hwin
  refine ⟨hp, ?_, ?_, ?_, ?_⟩
  · rw [hT]
  · rw [hT]
    exact forall2_map (R := fun v w => w.id = v.id ∧ w.IsAmbulance = v.IsAmbulance) _
      (fun v => ⟨(crashWrites_spec c1 c2 _ _ v).1, crashWrites_isAmbulance c1 c2 _ _ v⟩) _
  · rw [hT]
    intro w hw hamb
    obtain ⟨v, _, rfl⟩ := List.mem_map.1 hw
    rw [crashWrites_isAmbulance] at hamb
    exact crashWrites_ambulance c1 c2 _ _ v hamb
  · intro hg
    rw [Update_eq_postCull s delta env hg, postCullStages_currentAccident]
    unfold Simulation.resolved
    exact resolutionStage_location _ _

theorem ambulances_assigned_at_crash_witness :
    ((pendingNearAmbulances.afterCull (1 / 60) envQuiet).currentAccident.active = false ∧
      (pendingNearAmbulances.Update (1 / 60) envQuiet).currentAccident.active = true ∧
      (pendingNearAmbulances.vehiclesBottom.map Vehicle.ambState).drop 2 =
        [some .LEAVING, some .WAIT_AT_HOSPITAL] ∧
      ∀ w ∈ (pendingNearAmbulances.afterCull (1 / 60) envQuiet).transitionStage.vehiclesBottom,
        w.IsAmbulance = true →
          w.AssignedTo
            (pendingNearAmbulances.afterCull (1 / 60) envQuiet).transitionStage.currentAccident.x
            (pendingNearAmbulances.afterCull (1 / 60) envQuiet).transitionStage.currentAccident.y) ∧
    ((pendingNearTowAmbulances.afterCull (1 / 60) envQuiet).currentAccident.active = false ∧
      (pendingNearTowAmbulances.Update (1 / 60) envQuiet).currentAccident.active = false ∧
      ∀ w ∈ (pendingNearTowAmbulances.afterCull (1 / 60)
          envQuiet).transitionStage.vehiclesBottom,
        w.IsAmbulance = true →
          w.AssignedTo
            (pendingNearTowAmbulances.Update (1 / 60) envQuiet).currentAccident.x
            (pendingNearTowAmbulances.Update (1 / 60) envQuiet).currentAccident.y) :=
  ⟨⟨by decide!, by decide!, by decide!,
    (ambulances_assigned_at_crash pendingNearAmbulances (1 / 60) envQuiet (by decide!)
      (by decide!)).2.2.2.1⟩,
   ⟨by decide!, by decide!, by
    have h := ambulances_assigned_at_crash pendingNearTowAmbulances (1 / 60) envQuiet
      (by decide!) (by decide!)
    rw [(h.2.2.2.2 rfl).1, (h.2.2.2.2 rfl).2]
    exact h.2.2.2.1⟩⟩

/-! ## C30: the countdown of an active mission -/

theorem TriggerRandomAccident_timerOK (s : Simulation) (h : s.TimerOK) :
    s.TriggerRandomAccident.TimerOK := by
  unfold Simulation.TriggerRandomAccident
  split_ifs
  · exact h
  · exact h
  · split
    · exact h
    · intro _
      exact ⟨by norm_num [missionMaxTime], le_refl _⟩

theorem missionStage_timerOK (s : Simulation) (delta : ℚ) (hd : 0 ≤ delta) (h : s.TimerOK) :
    (s.missionStage delta).TimerOK := by
  unfold Simulation.missionStage
  by_cases hm : s.currentMission ≠ .MISSION_NONE
  · rw [if_pos hm]
    dsimp only
    by_cases ht : s.missionTimer - delta ≤ 0
    · rw [if_pos ht]
      intro hcon
      split_ifs at hcon <;> exact absurd rfl hcon
    · rw [if_neg ht]
      intro _
      exact ⟨not_le.1 ht, by
        show s.missionTimer - delta ≤ missionMaxTime
        linarith [(h hm).2]⟩
  · rw [if_neg hm]
    exact h

theorem Update_timerOK (s : Simulation) (delta : ℚ) (env : Env) (hd : 0 ≤ delta)
    (h : s.TimerOK) : (s.Update delta env).TimerOK := by
  unfold Simulation.Update
  split_ifs
  · exact h
  · dsimp only
    have h1 : (s.spawnStage delta env).TimerOK := by
      unfold Simulation.TimerOK
      rw [(spawnStage_mission s delta env).1, (spawnStage_mission s delta env).2]
      exact h
    have h2 : ((s.spawnStage delta env).randomTriggerStage env).TimerOK := by
      unfold Simulation.randomTriggerStage
      split_ifs
      · exact TriggerRandomAccident_timerOK _ h1
      · exact h1
    have h3 : (((s.spawnStage delta env).randomTriggerStage env).busStage delta env).TimerOK := by
      unfold Simulation.busStage
      dsimp only
      split_ifs
      · intro _
        exact ⟨by norm_num [missionMaxTime], le_refl _⟩
      · exact h2
      · exact h2
    have h4 := missionStage_timerOK _ delta hd h3
    have h5 : ((((s.spawnStage delta env).randomTriggerStage env).busStage delta
        env).missionStage delta |>.lightStage delta).TimerOK := h4
    rcases vehicleStages_mission ((((s.spawnStage delta env).randomTriggerStage env).busStage
      delta env).missionStage delta |>.lightStage delta) delta env with ⟨e1, e2⟩ | ⟨e1, e2, _⟩
    · unfold Simulation.TimerOK
      rw [e1, e2]
      exact h5
    · unfold Simulation.TimerOK
      rw [e2]
      intro _
      exact ⟨by norm_num [missionMaxTime], le_refl _⟩

theorem step_timerOK (s : Simulation) (c : Cmd) (hc : c.nonneg) (h : s.TimerOK) :
    (s.step c).TimerOK := by
  cases c with
  | advance delta env => exact Update_timerOK s delta env hc h
  | dispatchAmbulance =>
    have h1 : (if (!s.currentAccident.active && !s.currentAccident.pending) = true
        then s.TriggerRandomAccident else s).TimerOK := by
      split_ifs
      · exact TriggerRandomAccident_timerOK s h
      · exact h
    show s.CallAmbulance.TimerOK
    generalize hs : (if (!s.currentAccident.active && !s.currentAccident.pending) = true
        then s.TriggerRandomAccident else s) = s1 at h1
    have he : s.CallAmbulance.currentMission =
          (if s1.currentMission = .MISSION_CALL_AMBULANCE then MissionType.MISSION_NONE
            else s1.currentMission) ∧
        s.CallAmbulance.missionTimer = s1.missionTimer := by
      subst hs
      exact ⟨rfl, rfl⟩
    unfold Simulation.TimerOK
    rw [he.1, he.2]
    intro hm
    split_ifs at hm with hmm
    · exact absurd rfl hm
    · exact h1 hm
  | dispatchTow =>
    show s.CallDepannage.TimerOK
    unfold Simulation.CallDepannage
    by_cases ha : (!s.currentAccident.active) = true
    · rw [if_pos ha]
      exact h
    · rw [if_neg ha]
      unfold Simulation.TimerOK
      dsimp only
      intro hm
      split_ifs at hm with hmm
      · exact absurd rfl hm
      · exact h hm
  | dispatchSchoolBus =>
    show s.CallSchoolBus.TimerOK
    unfold Simulation.CallSchoolBus Simulation.TimerOK
    dsimp only
    intro hm
    split_ifs at hm with hmm
    · exact absurd rfl hm
    · exact h hm
  | triggerAccidentNow => exact TriggerRandomAccident_timerOK s h
  | reset => exact fun hm => absurd rfl hm

theorem runFrom_timerOK (cmds : List Cmd) (s : Simulation) (hc : ∀ c ∈ cmds, c.nonneg)
    (h : s.TimerOK) : (runFrom s cmds).TimerOK := by
  induction cmds generalizing s with
  | nil => exact h
  | cons c cs ih =>
    exact ih (s.step c) (fun c' hc' => hc c' (List.mem_cons_of_mem _ hc'))
      (step_timerOK s c (hc c (List.mem_cons_self _ _)) h)

/-- C30: in every state reached from the initial state by commands whose
advances have dt >= 0, whenever a mission is active its countdown satisfies
0 < countdown <= max time = 8, so the remaining ratio countdown / max time lies
in (0, 1]. -/
theorem countdown_in_range (cmds : List Cmd) (hc : ∀ c ∈ cmds, c.nonneg)
    (hm : (run cmds).currentMission ≠ .MISSION_NONE) :
    0 < (run cmds).missionTimer ∧ (run cmds).missionTimer ≤ missionMaxTime ∧
      missionMaxTime = 8 ∧
      0 < (run cmds).missionTimer / missionMaxTime ∧
      (run cmds).missionTimer / missionMaxTime ≤ 1 := by
  have h := runFrom_timerOK cmds Simulation.init hc (fun h0 => absurd rfl h0) hm
  have h8 : missionMaxTime = 8 := rfl
  refine ⟨h.1, h.2, h8, ?_, ?_⟩
  · rw [h8]; exact div_pos h.1 (by norm_num)
  · rw [h8] at h ⊢; rw [div_le_one (by norm_num)]; exact h.2

theorem countdown_in_range_witness :
    (run busMissionScript).currentMission = .MISSION_CALL_BUS ∧
      0 < (run busMissionScript).missionTimer ∧ (run busMissionScript).missionTimer ≤ 8 :=
  ⟨by decide!,
    (countdown_in_range busMissionScript
      (by
        intro c hc
        simp only [busMissionScript, List.mem_cons, List.mem_singleton, List.not_mem_nil,
          or_false] at hc
        rcases hc with rfl | rfl
        · show (0 : ℚ) ≤ 15; norm_num
        · show (0 : ℚ) ≤ 1 / 60; norm_num)
      (by decide!)).1,
    (countdown_in_range busMissionScript
      (by
        intro c hc
        simp only [busMissionScript, List.mem_cons, List.mem_singleton, List.not_mem_nil,
          or_false] at hc
        rcases hc with rfl | rfl
        · show (0 : ℚ) ≤ 15; norm_num
        · show (0 : ℚ) ≤ 1 / 60; norm_num)
      (by decide!)).2.1⟩

/-! ## The main loop, one vehicle at a time -/

/-- A loop whose iteration `i` only writes element `i` leaves alone the elements
whose index it does not visit. -/
theorem fold_ne (step : List Vehicle → Nat → List Vehicle)
    (hne : ∀ vs i k, k ≠ i → (step vs i)[k]? = vs[k]?)
    (idxs : List Nat) (k : Nat) (hk : k ∉ idxs) (vs : List Vehicle) :
    (idxs.foldl step vs)[k]? = vs[k]? := by
  induction idxs generalizing vs with
  | nil => rfl
  | cons i idxs ih =>
    rw [List.foldl_cons, ih (fun h => hk (List.mem_cons_of_mem _ h))]
    exact hne vs i k (fun h => hk (h ▸ List.mem_cons_self _ _))

/-- When the main loop reaches index `i`, the vehicles from index `i` on are
still as the loop found them. -/
theorem passPrefix_ge (acc : Accident) (light : TrafficLight) (aAmb aTow : Option Nat)
    (ft : ℚ) (vs : List Vehicle) (i k : Nat) (hk : i ≤ k) :
    (passPrefix acc light aAmb aTow ft vs i)[k]? = vs[k]? :=
  fold_ne _ (bottomStep_ne acc light aAmb aTow ft) _ k
    (fun h => absurd (List.mem_range.1 h) (by omega)) vs

/-- What the main loop leaves at index `i` is what iteration `i` leaves there. -/
theorem bottomPass_at (acc : Accident) (light : TrafficLight) (aAmb aTow : Option Nat)
    (ft : ℚ) (vs : List Vehicle) (i : Nat) (hi : i < vs.length) :
    (bottomPass acc light aAmb aTow ft vs)[i]? =
      (bottomStep acc light aAmb aTow ft (passPrefix acc light aAmb aTow ft vs i) i)[i]? := by
  have key : ∀ m, i < m →
      ((List.range m).foldl (bottomStep acc light aAmb aTow ft) vs)[i]? =
        (bottomStep acc light aAmb aTow ft (passPrefix acc light aAmb aTow ft vs i) i)[i]? := by
    intro m hm
    induction m with
    | zero => omega
    | succ m ih =>
      rw [List.range_succ, List.foldl_append, List.foldl_cons, List.foldl_nil]
      by_cases hlt : i < m
      · rw [bottomStep_ne acc light aAmb aTow ft _ m i (by omega)]
        exact ih hlt
      · have hmi : m = i := by omega
        subst hmi
        rfl
  exact key vs.length hi

/-- The yield block does nothing to a reckless vehicle. -/
theorem yieldStep_reckless (aAmb aTow : Option Nat) (vs : List Vehicle) (i : Nat) (v : Vehicle)
    (hv : vs[i]? = some v) (hr : v.isReckless = true) : yieldStep aAmb aTow vs i = vs := by
  unfold yieldStep
  rw [hv]
  dsimp only
  rw [hr]
  rfl

/-- What one iteration of the main loop leaves at its own index, for a vehicle
that is neither crashed nor towed: with `v` the vehicle after the yield block,
the `Update` of `v` without a stop when it is reckless, and otherwise the
`Update` of `v` after the accident avoidance, with the computed stop. -/
theorem bottomStep_own (acc : Accident) (light : TrafficLight) (aAmb aTow : Option Nat)
    (ft : ℚ) (vs : List Vehicle) (i : Nat) (v0 : Vehicle) (h0 : vs[i]? = some v0)
    (hc : v0.isCrashed = false) (ht : v0.isTowed = false) :
    ∃ v, (yieldStep aAmb aTow vs i)[i]? = some v ∧ v.sansLane = v0.sansLane ∧
      (bottomStep acc light aAmb aTow ft vs i)[i]? =
        some (if v.isReckless then ({ v with forcedStop := false }).Update false ft
          else ({ avoidAccident acc v with
                  forcedStop := computeStop light (yieldStep aAmb aTow vs i) i
                    (avoidAccident acc v) }).Update
                (computeStop light (yieldStep aAmb aTow vs i) i (avoidAccident acc v)) ft) := by
  obtain ⟨v, hv, hlane⟩ := yieldStep_at aAmb aTow vs i v0 h0
  refine ⟨v, hv, hlane, ?_⟩
  unfold bottomStep
  rw [h0]
  dsimp only
  rw [hc, ht, if_neg (by decide), hv]
  dsimp only
  split_ifs
  · rw [getElem?_modifyAt, if_pos rfl, hv]
    rfl
  · rw [getElem?_modifyAt, if_pos rfl, hv]
    rfl

/-- No `Update` method writes the target lane or the changed-lane flag, and none
writes the forced-stop flag of a vehicle that is not reckless. -/
theorem Update_lane (v : Vehicle) (st : Bool) (ft : ℚ) :
    (v.Update st ft).targetY = v.targetY ∧ (v.Update st ft).changedLane = v.changedLane ∧
      (v.Update st ft).id = v.id ∧
      (v.isReckless = false ∨ v.forcedStop = false →
        (v.Update st ft).forcedStop = v.forcedStop) := by
  have hs := Update_status v st ft
  unfold Vehicle.status at hs
  simp only [Prod.mk.injEq, Vehicle.mk.injEq] at hs
  refine ⟨hs.1.2.2.2.1, hs.1.2.2.2.2.2.2.2.1, hs.1.1, fun h => ?_⟩
  have hease : ∀ u : Vehicle, u.easeY.forcedStop = u.forcedStop := by
    intro u
    unfold Vehicle.easeY
    split_ifs <;> rfl
  have hbase : ∀ u : Vehicle, u.isReckless = false ∨ u.forcedStop = false →
      (u.baseUpdate st).forcedStop = u.forcedStop := by
    intro u hu
    unfold Vehicle.baseUpdate
    by_cases h1 : (u.isCrashed && !u.isTowed) = true
    · rw [if_pos h1]
    · rw [if_neg h1]
      by_cases h2 : u.isTowed = true
      · rw [if_pos h2]
      · rw [if_neg h2]
        dsimp only
        rw [hease]
        by_cases h3 : u.isReckless = true
        · have hf : u.forcedStop = false := by
            rcases hu with hu | hu
            · rw [hu] at h3; exact Bool.noConfusion h3
            · exact hu
          simp only [h3, if_true]
          split_ifs <;> exact hf.symm
        · simp only [h3, Bool.false_eq_true, if_false]
          split_ifs <;> rfl
  unfold Vehicle.Update
  cases hcls : v.cls with
  | Car => exact hbase v h
  | SchoolBus d =>
    show (SchoolBus.Update v d st ft).forcedStop = _
    unfold SchoolBus.Update
    dsimp only
    rw [hease]
    split_ifs <;> rfl
  | Ambulance d =>
    show (Ambulance.Update v d st ft).forcedStop = _
    unfold Ambulance.Update
    dsimp only
    rw [hease]
    cases d.state with
    | PATROL => exact hbase v h
    | TO_ACCIDENT => dsimp only; split_ifs <;> rfl
    | WAIT_AT_ACCIDENT => dsimp only; split_ifs <;> rfl
    | TO_HOSPITAL => dsimp only; split_ifs <;> rfl
    | WAIT_AT_HOSPITAL => dsimp only; split_ifs <;> rfl
    | LEAVING => rfl
  | Depannage d =>
    show (Depannage.Update v d st ft).forcedStop = _
    unfold Depannage.Update
    dsimp only
    split_ifs
    · rfl
    · rfl
    · rfl
    · exact hbase v h

/-- The main loop of an advance leaves at index `i` what iteration `i` makes of
the collection it finds. -/
theorem Update_at (s : Simulation) (delta : ℚ) (env : Env) (hg : s.gameOver = false) (i : Nat)
    (v : Vehicle) (hv : (s.atTurn delta env i)[i]? = some v) :
    (s.afterCull delta env).steered.vehiclesBottom[i]? = some v ∧
    (s.Update delta env).vehiclesBottom[i]? =
      (bottomStep (s.afterCull delta env).steered.currentAccident
        (s.afterCull delta env).steered.lightBottom
        (activeAmbulance (s.afterCull delta env).transitionStage.vehiclesBottom)
        (activeTow (s.afterCull delta env).transitionStage.vehiclesBottom) env.frameTime
        (s.atTurn delta env i) i)[i]? := by
  have hv' : (s.afterCull delta env).steered.vehiclesBottom[i]? = some v := by
    rw [← hv]
    exact (passPrefix_ge _ _ _ _ _ _ i i (le_refl _)).symm
  have hi : i < (s.afterCull delta env).steered.vehiclesBottom.length := by
    by_contra hge
    rw [List.getElem?_eq_none (by omega)] at hv'
    exact absurd hv' (by simp)
  refine ⟨hv', ?_⟩
  rw [Update_eq_postCull s delta env hg, postCullStages_vehiclesBottom]
  exact bottomPass_at _ _ _ _ _ _ i hi

set_option maxRecDepth 100000 in
theorem preCrash_frames : runFrom pendingFar (List.replicate 9 still) = preCrash := by
  decide!

theorem preCrash_reachable : Reachable preCrash := by
  have h := cruise_frames 640 (-1394) 5365 (by norm_num) (by norm_num)
  norm_num at h
  refine ⟨[.advance 4 (envAt 4 0 50), .advance 4 (envAt 4 0 50)] ++ List.replicate 52 still ++
    List.replicate 640 still ++ [.triggerAccidentNow] ++ List.replicate 9 still, ?_⟩
  show runFrom Simulation.init _ = preCrash
  rw [runFrom_append, runFrom_append, runFrom_append, runFrom_append, spawn_frames, wait_frames,
    h, trigger_far, preCrash_frames]

/-- The members a lane change leaves alone, read off an equation between
`sansLane` images. -/
theorem sansLane_more {v w : Vehicle} (h : w.sansLane = v.sansLane) :
    w.id = v.id ∧ w.laneLock = v.laneLock ∧ w.y = v.y ∧ w.forcedStop = v.forcedStop ∧
      w.IsAmbulance = v.IsAmbulance ∧ w.IsDepannage = v.IsDepannage :=
  ⟨(congrArg Vehicle.id h : w.sansLane.id = v.sansLane.id),
    (congrArg Vehicle.laneLock h : w.sansLane.laneLock = v.sansLane.laneLock),
    (congrArg Vehicle.y h : w.sansLane.y = v.sansLane.y),
    (congrArg Vehicle.forcedStop h : w.sansLane.forcedStop = v.sansLane.forcedStop),
    (congrArg Vehicle.IsAmbulance h : w.sansLane.IsAmbulance = v.sansLane.IsAmbulance),
    (congrArg Vehicle.IsDepannage h : w.sansLane.IsDepannage = v.sansLane.IsDepannage)⟩

/-- The yield block does nothing to a vehicle that is reckless, lane-locked or
has already changed lane. -/
theorem yieldStep_locked (aAmb aTow : Option Nat) (vs : List Vehicle) (i : Nat) (v : Vehicle)
    (hv : vs[i]? = some v)
    (h : v.isReckless = true ∨ v.laneLock = true ∨ v.changedLane = true) :
    yieldStep aAmb aTow vs i = vs := by
  unfold yieldStep
  rw [hv]
  dsimp only
  rw [if_neg]
  rcases h with h | h | h <;> rw [h] <;> simp

/-- The accident avoidance does nothing to a vehicle that is lane-locked or has
already changed lane. -/
theorem avoidAccident_locked (acc : Accident) (v : Vehicle)
    (h : v.changedLane = true ∨ v.laneLock = true) : avoidAccident acc v = v := by
  unfold avoidAccident
  rw [if_neg]
  rcases h with h | h <;> rw [h] <;> simp

/-- What an advance leaves at index `i` of the inbound collection, for a vehicle
that is neither crashed nor towed when the main loop reaches it. -/
theorem turn_result (s : Simulation) (delta : ℚ) (env : Env) (hg : s.gameOver = false)
    (i : Nat) (v : Vehicle) (hv : (s.atTurn delta env i)[i]? = some v)
    (hc : v.isCrashed = false) (ht : v.isTowed = false) :
    ∃ u, (yieldStep (s.passAmbulance delta env) (s.passTow delta env)
        (s.atTurn delta env i) i)[i]? = some u ∧ u.sansLane = v.sansLane ∧
      (s.Update delta env).vehiclesBottom[i]? =
        some (if u.isReckless then ({ u with forcedStop := false }).Update false env.frameTime
          else ({ avoidAccident (s.passAccident delta env) u with
                  forcedStop := computeStop (s.passLight delta env)
                    (yieldStep (s.passAmbulance delta env) (s.passTow delta env)
                      (s.atTurn delta env i) i) i
                    (avoidAccident (s.passAccident delta env) u) }).Update
                (computeStop (s.passLight delta env)
                  (yieldStep (s.passAmbulance delta env) (s.passTow delta env)
                    (s.atTurn delta env i) i) i
                  (avoidAccident (s.passAccident delta env) u)) env.frameTime) := by
  obtain ⟨u, hu, hlane, hstep⟩ := bottomStep_own (s.passAccident delta env)
    (s.passLight delta env) (s.passAmbulance delta env) (s.passTow delta env) env.frameTime
    (s.atTurn delta env i) i v hv hc ht
  refine ⟨u, hu, hlane, ?_⟩
  rw [← hstep]
  exact (Update_at s delta env hg i v hv).2

/-! ## C28: a reckless car in the main loop -/

/-- C28 (as the spec states it, refuted): `preCrash` is a reachable state, the
game is running, and its second inbound car is reckless, moving, not crashed and
not towed, with speed 7; yet the advance leaves its x where it was: the
transition crashes the car before the main loop reaches it. -/
theorem reckless_car_crashes_instead :
    Reachable preCrash ∧ preCrash.gameOver = false ∧
      preCrash.vehiclesBottom[1]? =
        some { Vehicle.new 2 (7669 / 2) 290 7 false .Car with
               isReckless := true, laneLock := true } ∧
      ((preCrash.Update 0 (envAt 0 0 50)).vehiclesBottom.map
          (fun w => (w.id, w.x, w.isCrashed)))[1]? = some (2, 7669 / 2, true) :=
  ⟨preCrash_reachable, rfl, rfl, by decide!⟩

/-- C28 (amended): for every inbound car that is reckless, moving, not crashed
and not towed when the main loop of an advance reaches it, that advance moves
its x by exactly its speed in its direction of travel and leaves its target lane
unchanged, whatever the light state, the accident state and the positions of all
other vehicles. -/
theorem reckless_car_advances (s : Simulation) (delta : ℚ) (env : Env)
    (hg : s.gameOver = false) (i : Nat) (v : Vehicle)
    (hv : (s.atTurn delta env i)[i]? = some v) (hcar : v.cls = .Car)
    (hr : v.isReckless = true) (hm : v.moving = true) (hc : v.isCrashed = false)
    (ht : v.isTowed = false) :
    ∃ w, (s.Update delta env).vehiclesBottom[i]? = some w ∧ w.id = v.id ∧
      w.x = v.x + (if v.dirRight then v.speed else -v.speed) ∧ w.targetY = v.targetY := by
  obtain ⟨u, hu, _, hres⟩ := turn_result s delta env hg i v hv hc ht
  rw [yieldStep_reckless _ _ _ i v hv hr, hv] at hu
  have huv : u = v := (Option.some.inj hu).symm
  subst huv
  rw [if_pos hr] at hres
  refine ⟨_, hres, (Update_lane _ _ _).2.2.1, ?_, (Update_lane _ _ _).1⟩
  rw [Update_car _ _ _ (by exact hcar)]
  exact (baseUpdate_motion { u with forcedStop := false } false).2.2.2 hr hm hc ht

theorem reckless_car_advances_witness :
    (pendingFar.atTurn 0 (envAt 0 0 50) 1)[1]? = some recklessFar ∧
      ∃ w, (pendingFar.Update 0 (envAt 0 0 50)).vehiclesBottom[1]? = some w ∧
        w.id = recklessFar.id ∧
        w.x = recklessFar.x +
          (if recklessFar.dirRight then recklessFar.speed else -recklessFar.speed) ∧
        w.targetY = recklessFar.targetY :=
  ⟨by decide!,
    reckless_car_advances pendingFar 0 (envAt 0 0 50) rfl 1 recklessFar (by decide!) rfl rfl rfl
      rfl rfl⟩

/-! ## What precedes the main loop leaves x alone -/

theorem xKept_refl (v : Vehicle) : XKept v v := ⟨rfl, fun h => ⟨h, rfl⟩⟩

theorem xKept_trans (u v w : Vehicle) (h1 : XKept u v) (h2 : XKept v w) : XKept u w :=
  ⟨h2.1.trans h1.1, fun hw =>
    ⟨(h1.2 (h2.2 hw).1).1, (h2.2 hw).2.trans (h1.2 (h2.2 hw).1).2⟩⟩

theorem resolutionStage_xKept (s : Simulation) (aTow : Option Nat) :
    List.Forall₂ XKept s.vehiclesBottom (s.resolutionStage aTow).vehiclesBottom := by
  have hmod : ∀ (c : Nat) (f : Vehicle → Vehicle) (vs : List Vehicle),
      (∀ v, XKept v (f v)) → List.Forall₂ XKept vs (modifyById c f vs) := by
    intro c f vs hf
    unfold modifyById
    refine forall2_map _ (fun v => ?_) vs
    split_ifs
    · exact hf v
    · exact xKept_refl v
  unfold Simulation.resolutionStage
  split
  · exact forall2_self xKept_refl _
  · split
    · exact forall2_self xKept_refl _
    · rename_i tow _
      split_ifs
      · have hF : ∀ v, XKept v (towFirst tow v) :=
          fun v => ⟨rfl, fun h => Bool.noConfusion (h : true = false)⟩
        have hS : ∀ v, XKept v (towSecond tow v) :=
          fun v => ⟨rfl, fun h => Bool.noConfusion (h : true = false)⟩
        dsimp only
        cases s.currentAccident.car1 <;> cases s.currentAccident.car2 <;> dsimp only
        · exact forall2_self xKept_refl _
        · exact hmod _ _ _ hS
        · exact hmod _ _ _ hF
        · exact forall2_chain xKept_trans (hmod _ _ _ hF) (hmod _ _ _ hS)
      · exact forall2_self xKept_refl _

/-- The stages between the culling and the main loop keep the identity of every
inbound vehicle and the x of those that are not towed. -/
theorem steered_xKept (s : Simulation) :
    List.Forall₂ XKept s.vehiclesBottom s.steered.vehiclesBottom := by
  have h1 : List.Forall₂ XKept s.vehiclesBottom s.transitionStage.vehiclesBottom := by
    rcases transitionStage_cases s with h | h | ⟨c1, c2, a, b, _, _, _, _, _, h⟩
    · rw [h]; exact forall2_self xKept_refl _
    · rw [h]; exact forall2_self xKept_refl _
    · rw [h]
      refine forall2_map (R := XKept) _
        (fun v => ⟨(crashWrites_spec c1 c2 _ _ v).1, fun ht => ?_⟩) _
      rw [crashWrites_isTowed] at ht
      exact ⟨ht, (crashWrites_spec c1 c2 _ _ v).2.1⟩
  have h2 := resolutionStage_xKept s.transitionStage (activeTow s.transitionStage.vehiclesBottom)
  have h3 : List.Forall₂ XKept
      (s.transitionStage.resolutionStage
        (activeTow s.transitionStage.vehiclesBottom)).vehiclesBottom
      s.resolved.vehiclesBottom := by
    refine forall2_imp (fun v w h => ?_) (towedPlacement_sansPos _)
    obtain ⟨e1, _, _, _, e5, _, _⟩ := sansPos_flags h.1
    refine ⟨e1, fun hw => ?_⟩
    have hv : v.isTowed = false := by rw [← e5]; exact hw
    rw [h.2 hv]
    exact ⟨hv, rfl⟩
  have h4 : List.Forall₂ XKept s.resolved.vehiclesBottom s.steered.vehiclesBottom := by
    refine forall2_imp (fun v w h => ?_) (ambulanceStage_sansTargetY s.resolved _ _)
    have e1 : w.id = v.id := (congrArg Vehicle.id h : w.sansTargetY.id = v.sansTargetY.id)
    have e2 : w.isTowed = v.isTowed :=
      (congrArg Vehicle.isTowed h : w.sansTargetY.isTowed = v.sansTargetY.isTowed)
    have e3 : w.x = v.x := (congrArg Vehicle.x h : w.sansTargetY.x = v.sansTargetY.x)
    exact ⟨e1, fun hw => ⟨e2 ▸ hw, e3⟩⟩
  exact forall2_chain xKept_trans (forall2_chain xKept_trans (forall2_chain xKept_trans h1 h2) h3)
    h4

/-- Every inbound vehicle that is not towed when the main loop of an advance
starts was in the inbound collection right after the spawn stage of that
advance, not towed and with the same x. -/
theorem prepass_x (s : Simulation) (delta : ℚ) (env : Env) (v : Vehicle)
    (hv : v ∈ (s.afterCull delta env).steered.vehiclesBottom) (ht : v.isTowed = false) :
    ∃ u ∈ (s.spawnStage delta env).vehiclesBottom,
      u.id = v.id ∧ u.x = v.x ∧ u.isTowed = false := by
  obtain ⟨u1, hu1, hk1⟩ := forall2_mem_right (steered_xKept (s.afterCull delta env)) hv
  have hu1' : u1 ∈ (s.beforeCull delta env).vehiclesBottom := by
    unfold Simulation.afterCull at hu1
    rw [cullStage_vehiclesBottom] at hu1
    exact (List.mem_filter.1 hu1).1
  rw [beforeCull_vehiclesBottom] at hu1'
  have hmark : List.Forall₂ XKept (s.spawnStage delta env).vehiclesBottom
      ((s.spawnStage delta env).randomTriggerStage env).vehiclesBottom := by
    unfold Simulation.randomTriggerStage
    split_ifs
    · refine forall2_imp (fun a b h => ?_) (trigger_marked _)
      rcases h with h | ⟨_, h | h⟩
      · rw [h]; exact xKept_refl a
      · rw [h]; exact ⟨rfl, fun hb => ⟨hb, rfl⟩⟩
      · rw [h]; exact ⟨rfl, fun hb => ⟨hb, rfl⟩⟩
    · exact forall2_self xKept_refl _
  obtain ⟨u0, hu0, hk0⟩ := forall2_mem_right hmark hu1'
  have hk := xKept_trans u0 u1 v hk0 hk1
  exact ⟨u0, hu0, hk.1.symm, (hk.2 ht).2.symm, (hk.2 ht).1⟩

/-! ## C24: the red light -/

/-- A vehicle other than an ambulance that is not reckless does not move along
the road in an `Update` called with a stop. -/
theorem Update_stopped (v : Vehicle) (ft : ℚ) (hna : v.IsAmbulance = false)
    (hr : v.isReckless = false) : (v.Update true ft).x = v.x := by
  have hbase : (v.baseUpdate true).x = v.x := by
    unfold Vehicle.baseUpdate
    by_cases h1 : (v.isCrashed && !v.isTowed) = true
    · rw [if_pos h1]
    · rw [if_neg h1]
      by_cases h2 : v.isTowed = true
      · rw [if_pos h2]
      · rw [if_neg h2]
        dsimp only
        rw [(easeY_fields _).1]
        simp [hr]
  unfold Vehicle.Update
  cases hcls : v.cls with
  | Car => exact hbase
  | SchoolBus d =>
    show (SchoolBus.Update v d true ft).x = _
    unfold SchoolBus.Update
    dsimp only
    rw [(easeY_fields _).1]
    simp only [Bool.not_true, Bool.false_and, Bool.false_eq_true, if_false]
    split_ifs <;> rfl
  | Ambulance d =>
    unfold Vehicle.IsAmbulance at hna
    rw [hcls] at hna
    exact Bool.noConfusion hna
  | Depannage d =>
    show (Depannage.Update v d true ft).x = _
    unfold Depannage.Update
    dsimp only
    split_ifs
    · rfl
    · rfl
    · rfl
    · exact hbase

/-- C24: for every inbound vehicle that is not reckless, not crashed, not towed
and not an ambulance when the main loop of an advance reaches it: if the inbound
light is red and the vehicle's x is within 50 units of the inbound stop line,
then the advance leaves it with its forced-stop flag set and its x unchanged by
the main loop; and the vehicle already had this x, under the same identity,
right after the spawn stage with which the advance begins. -/
theorem red_light_stops (s : Simulation) (delta : ℚ) (env : Env) (hg : s.gameOver = false)
    (i : Nat) (v : Vehicle) (hv : (s.atTurn delta env i)[i]? = some v)
    (hr : v.isReckless = false) (hc : v.isCrashed = false) (ht : v.isTowed = false)
    (hna : v.IsAmbulance = false) (hred : (s.passLight delta env).IsRed = true)
    (hnear : |v.x - (s.passLight delta env).GetStopLineX true| < 50) :
    (∃ u ∈ (s.spawnStage delta env).vehiclesBottom, u.id = v.id ∧ u.x = v.x) ∧
      ∃ w, (s.Update delta env).vehiclesBottom[i]? = some w ∧ w.id = v.id ∧
        w.forcedStop = true ∧ w.x = v.x := by
  refine ⟨?_, ?_⟩
  · obtain ⟨u, hu, h1, h2, _⟩ := prepass_x s delta env v
      (List.getElem?_mem (Update_at s delta env hg i v hv).1) ht
    exact ⟨u, hu, h1, h2⟩
  · obtain ⟨u, _, hlane, hres⟩ := turn_result s delta env hg i v hv hc ht
    obtain ⟨e1, _, _, _, _, e6, _, _⟩ := sansLane_fields hlane
    obtain ⟨f1, _, _, _, f5, _⟩ := sansLane_more hlane
    have hur : ¬ u.isReckless = true := by rw [e6, hr]; exact Bool.noConfusion
    rw [if_neg hur] at hres
    have hal := avoidAccident_sansLane (s.passAccident delta env) u
    obtain ⟨a1, _, _, _, _, a6, _, _⟩ := sansLane_fields hal
    obtain ⟨b1, _, _, _, b5, _⟩ := sansLane_more hal
    have hstop : computeStop (s.passLight delta env)
        (yieldStep (s.passAmbulance delta env) (s.passTow delta env) (s.atTurn delta env i) i) i
        (avoidAccident (s.passAccident delta env) u) = true := by
      unfold computeStop
      rw [if_pos]
      rw [b5, f5, hna, hred, a1, e1, decide_eq_true hnear]
      rfl
    rw [hstop] at hres
    refine ⟨_, hres, ?_, ?_, ?_⟩
    · rw [(Update_lane _ _ _).2.2.1]
      exact b1.trans f1
    · exact (Update_lane { avoidAccident (s.passAccident delta env) u with forcedStop := true }
        true env.frameTime).2.2.2 (Or.inl (a6.trans (e6.trans hr)))
    · exact (Update_stopped { avoidAccident (s.passAccident delta env) u with forcedStop := true }
        env.frameTime (b5.trans (f5.trans hna)) (a6.trans (e6.trans hr))).trans (a1.trans e1)

theorem red_light_stops_witness :
    (atRedLight.atTurn (1 / 60) envQuiet 0)[0]? =
        some (Vehicle.new 0 1820 (laneYBottom 0) 2 false .Car) ∧
      (atRedLight.passLight (1 / 60) envQuiet).IsRed = true ∧
      atRedLight.vehiclesBottom = [Vehicle.new 0 1820 (laneYBottom 0) 2 false .Car] ∧
      ∃ w, (atRedLight.Update (1 / 60) envQuiet).vehiclesBottom[0]? = some w ∧
        w.id = (Vehicle.new 0 1820 (laneYBottom 0) 2 false .Car).id ∧
        w.forcedStop = true ∧ w.x = (Vehicle.new 0 1820 (laneYBottom 0) 2 false .Car).x :=
  ⟨by decide!, by decide!, by decide!,
    (red_light_stops atRedLight (1 / 60) envQuiet rfl 0
      (Vehicle.new 0 1820 (laneYBottom 0) 2 false .Car) (by decide!) rfl rfl rfl rfl
      (by decide!) (by decide!)).2⟩

/-! ## C23: the following-distance check -/

theorem followLimit_eq (v o : Vehicle) :
    followLimit v o =
      (if v.IsAmbulance = true then 10
       else if o.IsDepannage = true then 250
       else if o.IsAmbulance = true ∧ o.moving = false then 150
       else 45) := by
  unfold followLimit SAFE_DISTANCE
  cases v.IsAmbulance <;> cases o.IsDepannage <;> cases o.IsAmbulance <;> cases o.moving <;> simp

theorem followScan_cons (v : Vehicle) (i : Nat) (other : Vehicle) (rest : List Vehicle)
    (j : Nat) :
    followScan v i (other :: rest) j =
      (if i = j then followScan v i rest (j + 1)
       else if other.isTowed then followScan v i rest (j + 1)
       else if v.IsDepannage && (other.isCrashed || other.isAccidentTarget) then
         followScan v i rest (j + 1)
       else if |v.targetY - other.targetY| < 5 ∧ other.x < v.x ∧
           v.x - (other.x + VEHICLE_WIDTH) < followLimit v other then true
       else followScan v i rest (j + 1)) := by
  rw [followScan]

/-- The following-distance loop reaches `stop = true` exactly when some vehicle
other than `v` itself is too close ahead of `v`. -/
theorem followScan_iff (v : Vehicle) (i : Nat) (vs : List Vehicle) (j : Nat) :
    followScan v i vs j = true ↔
      ∃ k o, vs[k]? = some o ∧ j + k ≠ i ∧ TooClose v v.targetY o := by
  induction vs generalizing j with
  | nil =>
    unfold followScan
    constructor
    · intro h; exact Bool.noConfusion h
    · rintro ⟨k, o, hk, _⟩
      simp at hk
  | cons other rest ih =>
    have hsplit : (∃ k o, (other :: rest)[k]? = some o ∧ j + k ≠ i ∧ TooClose v v.targetY o) ↔
        (j ≠ i ∧ TooClose v v.targetY other) ∨
          ∃ k o, rest[k]? = some o ∧ (j + 1) + k ≠ i ∧ TooClose v v.targetY o := by
      constructor
      · rintro ⟨k, o, hk, hne, hclose⟩
        cases k with
        | zero =>
          simp only [List.getElem?_cons_zero, Option.some.injEq] at hk
          subst hk
          exact Or.inl ⟨by simpa using hne, hclose⟩
        | succ k =>
          simp only [List.getElem?_cons_succ] at hk
          exact Or.inr ⟨k, o, hk, by omega, hclose⟩
      · rintro (⟨hne, hclose⟩ | ⟨k, o, hk, hne, hclose⟩)
        · exact ⟨0, other, by simp, by simpa using hne, hclose⟩
        · exact ⟨k + 1, o, by simpa using hk, by omega, hclose⟩
    rw [hsplit, ← ih (j + 1), followScan_cons]
    by_cases hij : i = j
    · rw [if_pos hij]
      constructor
      · exact fun h => Or.inr h
      · rintro (⟨hne, _⟩ | h)
        · exact absurd hij.symm hne
        · exact h
    · rw [if_neg hij]
      have hji : j ≠ i := fun h => hij h.symm
      by_cases ht : other.isTowed = true
      · rw [if_pos ht]
        constructor
        · exact fun h => Or.inr h
        · rintro (⟨_, hclose⟩ | h)
          · rw [hclose.1] at ht
            exact Bool.noConfusion ht
          · exact h
      · rw [if_neg ht]
        have ht' : other.isTowed = false := by simpa using ht
        by_cases hd : (v.IsDepannage && (other.isCrashed || other.isAccidentTarget)) = true
        · rw [if_pos hd]
          constructor
          · exact fun h => Or.inr h
          · rintro (⟨_, hclose⟩ | h)
            · simp only [Bool.and_eq_true, Bool.or_eq_true] at hd
              obtain ⟨h1, h2⟩ := hclose.2.1 hd.1
              rw [h1, h2] at hd
              simp at hd
            · exact h
        · rw [if_neg hd]
          have hd' : v.IsDepannage = true →
              other.isCrashed = false ∧ other.isAccidentTarget = false := by
            intro hdep
            rw [hdep] at hd
            simpa using hd
          by_cases hcl : |v.targetY - other.targetY| < 5 ∧ other.x < v.x ∧
              v.x - (other.x + VEHICLE_WIDTH) < followLimit v other
          · rw [if_pos hcl]
            refine ⟨fun _ => Or.inl ⟨hji, ht', hd', hcl.1, hcl.2.1, ?_⟩, fun _ => rfl⟩
            rw [← followLimit_eq]
            exact hcl.2.2
          · rw [if_neg hcl]
            constructor
            · exact fun h => Or.inr h
            · rintro (⟨_, hclose⟩ | h)
              · refine absurd ⟨hclose.2.2.1, hclose.2.2.2.1, ?_⟩ hcl
                rw [followLimit_eq]
                exact hclose.2.2.2.2
              · exact h

/-- C23: for every inbound vehicle `v` that is not reckless, not crashed and not
towed when the main loop of an advance reaches it, and that the red light does
not stop in this frame, the forced-stop flag the advance leaves it with is true
if and only if some other inbound vehicle `o`, as it is at that moment, is too
close ahead: `o` is not towed (and, when `v` is a tow truck, neither crashed nor
accident-target), has its target lane within 5 of the target lane of `v` (the
one this iteration leaves it with, which is that of `v` when `v` is lane-locked
or has already changed lane), has `o.x < v.x`, and has gap
`v.x - (o.x + VEHICLE_WIDTH)` below the limit 10 / 250 / 150 / 45 of the pair. -/
theorem forced_stop_iff_too_close (s : Simulation) (delta : ℚ) (env : Env)
    (hg : s.gameOver = false) (i : Nat) (v : Vehicle)
    (hv : (s.atTurn delta env i)[i]? = some v)
    (hr : v.isReckless = false) (hc : v.isCrashed = false) (ht : v.isTowed = false)
    (hred : ¬ (v.IsAmbulance = false ∧ (s.passLight delta env).IsRed = true ∧
      |v.x - (s.passLight delta env).GetStopLineX true| < 50)) :
    ∃ w, (s.Update delta env).vehiclesBottom[i]? = some w ∧ w.id = v.id ∧
      (v.changedLane = true ∨ v.laneLock = true → w.targetY = v.targetY) ∧
      (w.forcedStop = true ↔
        ∃ j o, j ≠ i ∧ (s.atTurn delta env i)[j]? = some o ∧ TooClose v w.targetY o) := by
  obtain ⟨u, hu, hlane, hres⟩ := turn_result s delta env hg i v hv hc ht
  obtain ⟨e1, _, _, _, _, e6, _, _⟩ := sansLane_fields hlane
  obtain ⟨f1, _, _, _, f5, f6⟩ := sansLane_more hlane
  have hur : ¬ u.isReckless = true := by rw [e6, hr]; exact Bool.noConfusion
  rw [if_neg hur] at hres
  have hal := avoidAccident_sansLane (s.passAccident delta env) u
  obtain ⟨a1, _, _, _, _, a6, _, _⟩ := sansLane_fields hal
  obtain ⟨b1, _, _, _, b5, b6⟩ := sansLane_more hal
  generalize hys : yieldStep (s.passAmbulance delta env) (s.passTow delta env)
    (s.atTurn delta env i) i = ys at hu hres
  generalize ha : avoidAccident (s.passAccident delta env) u = a at hres hal a1 a6 b1 b5 b6
  have hstop : computeStop (s.passLight delta env) ys i a = followScan a i ys 0 := by
    unfold computeStop
    rw [if_neg]
    intro hcon
    simp only [Bool.and_eq_true, Bool.not_eq_true', decide_eq_true_eq] at hcon
    refine hred ⟨?_, hcon.1.2, ?_⟩
    · rw [← f5, ← b5]; exact hcon.1.1
    · rw [← e1, ← a1]; exact hcon.2
  have hclose : ∀ ty o, TooClose a ty o ↔ TooClose v ty o := by
    intro ty o
    unfold TooClose
    rw [b6, f6, a1, e1, b5, f5]
  refine ⟨_, hres, ?_, ?_, ?_⟩
  · rw [(Update_lane _ _ _).2.2.1]
    exact b1.trans f1
  · intro hlock
    rw [(Update_lane _ _ _).1]
    have hyv : ys = s.atTurn delta env i := by
      rw [← hys]
      refine yieldStep_locked _ _ _ i v hv ?_
      rcases hlock with h | h
      · exact Or.inr (Or.inr h)
      · exact Or.inr (Or.inl h)
    have huv : u = v := by
      rw [hyv, hv] at hu
      exact (Option.some.inj hu).symm
    show a.targetY = v.targetY
    rw [← ha, huv, avoidAccident_locked _ v hlock]
  · have hw1 : (({ a with forcedStop := computeStop (s.passLight delta env) ys i a }).Update
        (computeStop (s.passLight delta env) ys i a) env.frameTime).forcedStop =
        computeStop (s.passLight delta env) ys i a :=
      (Update_lane { a with forcedStop := computeStop (s.passLight delta env) ys i a } _
        _).2.2.2 (Or.inl (a6.trans (e6.trans hr)))
    have hw2 : (({ a with forcedStop := computeStop (s.passLight delta env) ys i a }).Update
        (computeStop (s.passLight delta env) ys i a) env.frameTime).targetY = a.targetY :=
      (Update_lane { a with forcedStop := computeStop (s.passLight delta env) ys i a } _ _).1
    rw [hw1, hw2, hstop, followScan_iff]
    constructor
    · rintro ⟨k, o, hk, hne, hcl⟩
      have hki : k ≠ i := by omega
      refine ⟨k, o, hki, ?_, (hclose _ o).1 hcl⟩
      rw [← hk, ← hys]
      exact (yieldStep_ne _ _ _ i k hki).symm
    · rintro ⟨k, o, hki, hk, hcl⟩
      refine ⟨k, o, ?_, by omega, (hclose _ o).2 hcl⟩
      rw [← hk, ← hys]
      exact yieldStep_ne _ _ _ i k hki

theorem forced_stop_iff_too_close_witness :
    (afterSpawns.atTurn 0 (envAt 0 0 50) 1)[1]? =
        some { Vehicle.new 2 5500 290 (5 / 2) false .Car with forcedStop := true } ∧
      ∃ w, (afterSpawns.Update 0 (envAt 0 0 50)).vehiclesBottom[1]? = some w ∧ w.id = 2 ∧
        (false = true ∨ false = true → w.targetY = 290) ∧
        (w.forcedStop = true ↔
          ∃ j o, j ≠ 1 ∧ (afterSpawns.atTurn 0 (envAt 0 0 50) 1)[j]? = some o ∧
            TooClose { Vehicle.new 2 5500 290 (5 / 2) false .Car with forcedStop := true }
              w.targetY o) :=
  ⟨by decide!,
    forced_stop_iff_too_close afterSpawns 0 (envAt 0 0 50) rfl 1
      { Vehicle.new 2 5500 290 (5 / 2) false .Car with forcedStop := true } (by decide!)
      rfl rfl rfl (by decide!)⟩

/-! ## C25: the yield to an emergency vehicle -/

theorem changeLane_lane (v : Vehicle) :
    (changeLane v).targetY = laneYBottom ((laneIdx v + 1) % 3) ∧
      (changeLane v).changedLane = true ∧ (changeLane v).y = v.y ∧ (changeLane v).x = v.x :=
  ⟨rfl, rfl, rfl, rfl⟩

/-- A vehicle that has yielded to the first emergency vehicle keeps the lane it
chose, whatever the second call of `tryYield` does. -/
theorem tryYield_again (vs : List Vehicle) (i e : Nat) (u : Vehicle) (n : Nat)
    (hu : vs[i]? = some u) (hy : laneIdx u = n)
    (ht : u.targetY = laneYBottom ((n + 1) % 3)) (hch : u.changedLane = true) :
    ∃ w, (tryYield vs i e)[i]? = some w ∧ w.targetY = laneYBottom ((n + 1) % 3) ∧
      w.changedLane = true := by
  unfold tryYield
  rw [hu]
  cases vs[e]? with
  | none => exact ⟨u, hu, ht, hch⟩
  | some em =>
    dsimp only
    split_ifs
    · refine ⟨changeLane u, ?_, ?_, rfl⟩
      · rw [getElem?_modifyAt, if_pos rfl, hu]
        rfl
      · rw [(changeLane_lane u).1, hy]
    · exact ⟨u, hu, ht, hch⟩
    · exact ⟨u, hu, ht, hch⟩

/-- The call of `tryYield` on an emergency vehicle on the target lane of `v`
and less than 450 units behind it changes the lane of `v`. -/
theorem tryYield_fires (vs : List Vehicle) (i e : Nat) (v em : Vehicle)
    (hv : vs[i]? = some v) (he : vs[e]? = some em)
    (hlane : |v.targetY - em.targetY| < 5) (hpos : 0 < em.x - v.x)
    (hnear : em.x - v.x < 450) :
    (tryYield vs i e)[i]? = some (changeLane v) := by
  unfold tryYield
  rw [hv, he]
  dsimp only
  rw [if_pos hlane, if_pos ⟨hpos, hnear⟩, getElem?_modifyAt, if_pos rfl, hv]
  rfl

/-- The yield block changes the lane of a vehicle that may yield when the active
ambulance, or the active tow truck while it is working, is on its target lane
and less than 450 units behind it. -/
theorem yieldStep_fires (aAmb aTow : Option Nat) (vs : List Vehicle) (i e : Nat)
    (v em : Vehicle) (hv : vs[i]? = some v) (he : vs[e]? = some em)
    (hr : v.isReckless = false) (hl : v.laneLock = false) (hch : v.changedLane = false)
    (hem : aAmb = some e ∨ (aTow = some e ∧ em.isWorking = true))
    (hlane : |v.targetY - em.targetY| < 5) (hpos : 0 < em.x - v.x)
    (hnear : em.x - v.x < 450) :
    ∃ w, (yieldStep aAmb aTow vs i)[i]? = some w ∧
      w.targetY = laneYBottom ((laneIdx v + 1) % 3) ∧ w.changedLane = true := by
  have hei : e ≠ i := by
    intro h
    rw [h, hv] at he
    rw [Option.some.inj he] at hpos
    simp at hpos
  -- the second call, after a first call that changed the lane
  have hsecond : ∀ (ws : List Vehicle) (u : Vehicle), ws[i]? = some u → laneIdx u = laneIdx v →
      u.targetY = laneYBottom ((laneIdx v + 1) % 3) → u.changedLane = true →
      ∃ w, (match aTow with
        | none => ws
        | some t =>
          match ws[t]? with
          | none => ws
          | some tw => if tw.isWorking then tryYield ws i t else ws)[i]? = some w ∧
        w.targetY = laneYBottom ((laneIdx v + 1) % 3) ∧ w.changedLane = true := by
    intro ws u hu h1 h2 h3
    cases aTow with
    | none => exact ⟨u, hu, h2, h3⟩
    | some t =>
      dsimp only
      cases ws[t]? with
      | none => exact ⟨u, hu, h2, h3⟩
      | some tw =>
        dsimp only
        split_ifs
        · exact tryYield_again ws i t u _ hu h1 h2 h3
        · exact ⟨u, hu, h2, h3⟩
  unfold yieldStep
  rw [hv]
  dsimp only
  rw [hr, hl, hch, if_pos (by decide)]
  rcases hem with ha | ⟨ht, hw⟩
  · subst ha
    dsimp only
    exact hsecond _ (changeLane v) (tryYield_fires vs i e v em hv he hlane hpos hnear) rfl rfl rfl
  · subst ht
    cases aAmb with
    | none =>
      dsimp only
      rw [he]
      dsimp only
      rw [if_pos hw, tryYield_fires vs i e v em hv he hlane hpos hnear]
      exact ⟨_, rfl, rfl, rfl⟩
    | some a =>
      dsimp only
      have het : (tryYield vs i a)[e]? = some em := by
        rw [tryYield_ne vs i a e hei]
        exact he
      rw [het]
      dsimp only
      rw [if_pos hw]
      -- the first call either changed the lane or left the vehicle alone
      by_cases hfirst : (tryYield vs i a)[i]? = some v
      · rw [tryYield_fires _ i e v em hfirst het hlane hpos hnear]
        exact ⟨_, rfl, rfl, rfl⟩
      · have hchg : (tryYield vs i a)[i]? = some (changeLane v) := by
          unfold tryYield at hfirst ⊢
          rw [hv] at hfirst ⊢
          cases hva : vs[a]? with
          | none => rw [hva] at hfirst; exact absurd hv hfirst
          | some am =>
            rw [hva] at hfirst
            dsimp only at hfirst ⊢
            split_ifs at hfirst ⊢ with h1 h2
            · rw [getElem?_modifyAt, if_pos rfl, hv]
              rfl
            · exact absurd hv hfirst
            · exact absurd hv hfirst
        exact tryYield_again _ i e (changeLane v) _ hchg rfl rfl rfl

/-- C25 (as the spec states it, refuted): in `ambulanceAhead` the car on lane 1
is not crashed, towed, reckless or lane-locked and has not changed lane, and the
only ambulance is on its target lane 200 units ahead of it in its direction of
travel (leftward); the advance leaves the car on lane 1 with the changed-lane
flag clear.  In `ambulanceNotLast` an ambulance is on the car's target lane 200
units behind it, but it is not the last ambulance of the collection, and the
advance again leaves the car on lane 1. -/
theorem no_yield_to_ambulance_ahead :
    ambulanceAhead.vehiclesBottom =
        [Vehicle.new 0 1000 (laneYBottom 1) 2 false .Car,
         Vehicle.new 1 800 (laneYBottom 1) (9 / 2) false
           (.Ambulance { state := .PATROL, stateTimer := 0, accidentX := 0, accidentY := 0 })] ∧
      (ambulanceAhead.Update (1 / 60) envQuiet).vehiclesBottom.map
          (fun w => (w.id, w.targetY, w.changedLane)) =
        [(0, laneYBottom 1, false), (1, laneYBottom 1, false)] ∧
      (ambulanceNotLast.vehiclesBottom.map (fun w => (w.id, w.x, w.targetY, w.IsAmbulance))) =
        [(0, 1000, laneYBottom 1, false), (1, 1200, laneYBottom 1, true),
         (2, 3000, laneYBottom 0, true)] ∧
      (ambulanceNotLast.Update (1 / 60) envQuiet).vehiclesBottom.map
          (fun w => (w.id, w.targetY, w.changedLane)) =
        [(0, laneYBottom 1, false), (1, laneYBottom 1, false), (2, laneYBottom 0, false)] :=
  ⟨rfl, by decide!, by decide!, by decide!⟩

/-- C25 (amended): for every inbound vehicle that is not crashed, towed, reckless
or lane-locked and has not yet changed lane when the main loop of an advance
reaches it: if the active ambulance (the last ambulance of the inbound
collection), or the active tow truck (the last one) while it is working, has the
same target lane (target y within 5 units) and is less than 450 units behind it
(0 < emergency x - vehicle x < 450; inbound vehicles travel leftward), then the
advance sets the vehicle's target lane to lane (i + 1) mod 3, where i is its
current lane index, and sets its changed-lane flag. -/
theorem yields_to_emergency_behind (s : Simulation) (delta : ℚ) (env : Env)
    (hg : s.gameOver = false) (i e : Nat) (v em : Vehicle)
    (hv : (s.atTurn delta env i)[i]? = some v) (he : (s.atTurn delta env i)[e]? = some em)
    (hc : v.isCrashed = false) (ht : v.isTowed = false) (hr : v.isReckless = false)
    (hl : v.laneLock = false) (hch : v.changedLane = false)
    (hem : s.passAmbulance delta env = some e ∨
      (s.passTow delta env = some e ∧ em.isWorking = true))
    (hlane : |v.targetY - em.targetY| < 5) (hpos : 0 < em.x - v.x)
    (hnear : em.x - v.x < 450) :
    ∃ w, (s.Update delta env).vehiclesBottom[i]? = some w ∧ w.id = v.id ∧
      w.targetY = laneYBottom ((laneIdx v + 1) % 3) ∧ w.changedLane = true := by
  obtain ⟨u, hu, hsl, hres⟩ := turn_result s delta env hg i v hv hc ht
  obtain ⟨_, _, _, _, _, e6, _, _⟩ := sansLane_fields hsl
  obtain ⟨f1, _, _, _, _, _⟩ := sansLane_more hsl
  have hur : ¬ u.isReckless = true := by rw [e6, hr]; exact Bool.noConfusion
  rw [if_neg hur] at hres
  obtain ⟨w, hw, hw1, hw2⟩ := yieldStep_fires (s.passAmbulance delta env) (s.passTow delta env)
    (s.atTurn delta env i) i e v em hv he hr hl hch hem hlane hpos hnear
  rw [hu] at hw
  have huw : u = w := Option.some.inj hw
  subst huw
  have hav : avoidAccident (s.passAccident delta env) u = u :=
    avoidAccident_locked _ u (Or.inl hw2)
  rw [hav] at hres
  refine ⟨_, hres, ?_, ?_, ?_⟩
  · rw [(Update_lane _ _ _).2.2.1]
    exact f1
  · rw [(Update_lane _ _ _).1]
    exact hw1
  · rw [(Update_lane _ _ _).2.1]
    exact hw2

theorem yields_to_emergency_behind_witness :
    (ambulanceBehind.atTurn (1 / 60) envQuiet 0)[0]? =
        some (Vehicle.new 0 1000 (laneYBottom 1) 2 false .Car) ∧
      ambulanceBehind.passAmbulance (1 / 60) envQuiet = some 1 ∧
      laneYBottom ((laneIdx (Vehicle.new 0 1000 (laneYBottom 1) 2 false .Car) + 1) % 3) =
        laneYBottom 2 ∧
      ∃ w, (ambulanceBehind.Update (1 / 60) envQuiet).vehiclesBottom[0]? = some w ∧
        w.id = (Vehicle.new 0 1000 (laneYBottom 1) 2 false .Car).id ∧
        w.targetY =
          laneYBottom ((laneIdx (Vehicle.new 0 1000 (laneYBottom 1) 2 false .Car) + 1) % 3) ∧
        w.changedLane = true :=
  ⟨by decide!, by decide!, by decide!,
    yields_to_emergency_behind ambulanceBehind (1 / 60) envQuiet rfl 0 1
      (Vehicle.new 0 1000 (laneYBottom 1) 2 false .Car)
      (Vehicle.new 1 1200 (laneYBottom 1) (9 / 2) false
        (.Ambulance { state := .PATROL, stateTimer := 0, accidentX := 0, accidentY := 0 }))
      (by decide!) (by decide!) rfl rfl rfl rfl rfl (Or.inl (by decide!)) (by decide!)
      (by decide!) (by decide!)⟩

/-! ## C27: towed vehicles behind their tower -/

/-- After the placement loop every vehicle with a tower reference is exactly its
tow offset to the right of its tower, at the tower's y, provided the identities
are distinct and every tower reference designates a tow truck of the
collection. -/
theorem placement_exact (vs0 : List Vehicle) (hn : (vs0.map Vehicle.id).Nodup)
    (htower : ∀ v ∈ vs0, ∀ t, v.myTower = some t →
      v.cls = .Car ∧ v.isTowed = true ∧ ∃ w ∈ vs0, w.id = t ∧ w.IsDepannage = true) :
    ∀ v ∈ towedPlacement vs0, ∀ t, v.myTower = some t →
      ∀ w ∈ towedPlacement vs0, w.id = t → v.x = w.x + v.towOffsetX ∧ v.y = w.y := by
  -- what every iteration keeps: only positions change, and no tow truck moves
  have hP_id : ∀ cur, List.Forall₂
      (fun v w => w.sansPos = v.sansPos ∧ (v.IsDepannage = true → w = v)) vs0 cur →
      (cur.map Vehicle.id).Nodup := by
    intro cur hcur
    rw [forall2_map_id (fun v w h => (sansPos_flags h.1).1) hcur]
    exact hn
  have hfind : ∀ cur, List.Forall₂
      (fun v w => w.sansPos = v.sansPos ∧ (v.IsDepannage = true → w = v)) vs0 cur →
      ∀ u ∈ vs0, u.IsDepannage = true → findById cur u.id = some u := by
    intro cur hcur u hu hd
    obtain ⟨u', hu', hq⟩ := forall2_mem_left hcur hu
    rw [hq.2 hd] at hu'
    exact findById_of_mem (hP_id cur hcur) hu'
  have hJ : ∀ cur i, List.Forall₂
      (fun v w => w.sansPos = v.sansPos ∧ (v.IsDepannage = true → w = v)) vs0 cur →
      List.Forall₂ (fun v w => w.sansPos = v.sansPos ∧ (v.IsDepannage = true → w = v)) vs0
        (towedPlacementStep cur i) := by
    intro cur i hcur
    have hstep := towedPlacementStep_sansPos cur i
    refine forall2_of_getElem ((forall2_length hstep).trans (forall2_length hcur))
      (fun k v w hv hw => ?_)
    have hk : k < cur.length := by
      by_contra hge
      have : k < vs0.length := by
        by_contra hge'
        rw [List.getElem?_eq_none (by omega)] at hv
        exact absurd hv (by simp)
      rw [← forall2_length hcur] at this
      exact hge this
    obtain ⟨c, hc⟩ : ∃ c, cur[k]? = some c := ⟨_, List.getElem?_eq_getElem hk⟩
    have h1 := forall2_get hcur hv hc
    have h2 := forall2_get hstep hc hw
    refine ⟨h2.1.trans h1.1, fun hd => ?_⟩
    have hcv := h1.2 hd
    subst hcv
    by_cases hki : k = i
    · subst hki
      -- a tow truck has no tower, so its own iteration leaves it alone
      have hnone : c.myTower = none := by
        cases hmt : c.myTower with
        | none => rfl
        | some t =>
          have hk' := (htower c (List.getElem?_mem hv) t hmt).1
          rw [((cls_car_iff c).1 hk').2.1] at hd
          exact Bool.noConfusion hd
      unfold towedPlacementStep at hw
      rw [hc] at hw
      dsimp only at hw
      rw [hnone] at hw
      split_ifs at hw
      · rw [hc] at hw
        exact (Option.some.inj hw).symm
      · rw [hc] at hw
        exact (Option.some.inj hw).symm
    · rw [towedPlacementStep_ne cur i k hki, hc] at hw
      exact (Option.some.inj hw).symm
  have hJ0 : List.Forall₂
      (fun v w => w.sansPos = v.sansPos ∧ (v.IsDepannage = true → w = v)) vs0 vs0 :=
    forall2_self (R := fun v w => w.sansPos = v.sansPos ∧ (v.IsDepannage = true → w = v))
      (fun v => ⟨rfl, fun _ => rfl⟩) vs0
  have hJend : List.Forall₂
      (fun v w => w.sansPos = v.sansPos ∧ (v.IsDepannage = true → w = v)) vs0
      (towedPlacement vs0) := by
    unfold towedPlacement
    exact fold_inv _ towedPlacementStep hJ _ vs0 hJ0
  -- what its own iteration makes of a vehicle
  have hat : ∀ cur i v, List.Forall₂
      (fun v w => w.sansPos = v.sansPos ∧ (v.IsDepannage = true → w = v)) vs0 cur →
      cur[i]? = some v →
      ∃ w, (towedPlacementStep cur i)[i]? = some w ∧
        (w.sansPos = v.sansPos ∧
          ∀ u ∈ vs0, v.isTowed = true → v.myTower = some u.id → u.IsDepannage = true →
            w.x = u.x + w.towOffsetX ∧ w.y = u.y) := by
    intro cur i v hcur hv
    by_cases hfire : v.isTowed = true ∧ ∃ u ∈ vs0, v.myTower = some u.id ∧ u.IsDepannage = true
    · obtain ⟨htw, u, hu, hmt, hd⟩ := hfire
      refine ⟨{ v with x := u.x + v.towOffsetX, y := u.y }, ?_, rfl, fun u' hu' _ hmt' _ => ?_⟩
      · unfold towedPlacementStep
        rw [hv]
        dsimp only
        rw [if_pos htw, hmt]
        dsimp only
        rw [hfind cur hcur u hu hd]
        dsimp only
        rw [getElem?_modifyAt, if_pos rfl, hv]
        simp only [Option.map_some', hmt]
      · rw [hmt] at hmt'
        have := eq_of_id_eq hn hu hu' (Option.some.inj hmt')
        rw [← this]
        exact ⟨rfl, rfl⟩
    · have hstep := towedPlacementStep_sansPos cur i
      have hi : i < cur.length := by
        by_contra hge
        rw [List.getElem?_eq_none (by omega)] at hv
        exact absurd hv (by simp)
      obtain ⟨w, hw⟩ : ∃ w, (towedPlacementStep cur i)[i]? = some w :=
        ⟨_, List.getElem?_eq_getElem (by rw [forall2_length hstep]; exact hi)⟩
      refine ⟨w, hw, (forall2_get hstep hv hw).1, fun u hu htw hmt hd => ?_⟩
      exact absurd ⟨htw, u, hu, hmt, hd⟩ hfire
  intro w hw t hwt u' hu' hut
  -- the vehicle and its tower before the loop
  obtain ⟨k, hk⟩ := List.mem_iff_getElem?.1 hw
  have hklt : k < vs0.length := by
    by_contra hge
    rw [List.getElem?_eq_none (by rw [forall2_length hJend]; omega)] at hk
    exact absurd hk (by simp)
  obtain ⟨v, hv⟩ : ∃ v, vs0[k]? = some v := ⟨_, List.getElem?_eq_getElem hklt⟩
  obtain ⟨w', hw', hin, _⟩ := fold_pointwise_inv
    (R := fun v w => w.sansPos = v.sansPos ∧
      ∀ u ∈ vs0, v.isTowed = true → v.myTower = some u.id → u.IsDepannage = true →
        w.x = u.x + w.towOffsetX ∧ w.y = u.y)
    (fun cur => List.Forall₂
      (fun v w => w.sansPos = v.sansPos ∧ (v.IsDepannage = true → w = v)) vs0 cur)
    towedPlacementStep hJ towedPlacementStep_ne hat (List.range vs0.length)
    (List.nodup_range _) vs0 hJ0 k v hv
  have hww : w' = w := by
    unfold towedPlacement at hk
    rw [hw'] at hk
    exact Option.some.inj hk
  subst hww
  obtain ⟨hs, hx⟩ := hin (List.mem_range.2 hklt)
  have hvm := List.getElem?_mem hv
  have hvt : v.myTower = some t := by rw [← (sansPos_tow hs).1]; exact hwt
  obtain ⟨_, htw, u, hu, hut', hud⟩ := htower v hvm t hvt
  -- the tower after the loop is the tower before it
  obtain ⟨u2, hu2, hq⟩ := forall2_mem_left hJend hu
  rw [hq.2 hud] at hu2
  have hsame : u' = u := eq_of_id_eq (hP_id _ hJend) hu' hu2 (hut.trans hut'.symm)
  rw [hsame]
  exact hx u hu htw (by rw [hvt, hut']) hud

theorem towedStill_trans (u v w : Vehicle) (h1 : TowedStill u v) (h2 : TowedStill v w) :
    TowedStill u w := by
  refine ⟨h2.1.trans h1.1, fun hu => ?_⟩
  obtain ⟨a1, a2, a3, a4, a5⟩ := h1.2 hu
  obtain ⟨b1, b2, b3, b4, b5⟩ := h2.2 a1
  exact ⟨b1, b2.trans a2, b3.trans a3, b4.trans a4, b5.trans a5⟩

/-- The ambulance block and the main loop leave a towed vehicle where the
placement loop put it. -/
theorem resolved_to_end_towed (s : Simulation) (delta : ℚ) (env : Env) :
    List.Forall₂ TowedStill s.resolved.vehiclesBottom
      (s.postCullStages delta env).vehiclesBottom := by
  have h1 : List.Forall₂ TowedStill s.resolved.vehiclesBottom s.steered.vehiclesBottom := by
    refine forall2_imp (fun v w h => ?_) (ambulanceStage_sansTargetY s.resolved _ _)
    exact ⟨(congrArg Vehicle.id h : w.sansTargetY.id = v.sansTargetY.id), fun hv =>
      ⟨((congrArg Vehicle.isTowed h : w.sansTargetY.isTowed = v.sansTargetY.isTowed)).trans hv,
        (congrArg Vehicle.myTower h : w.sansTargetY.myTower = v.sansTargetY.myTower),
        (congrArg Vehicle.towOffsetX h : w.sansTargetY.towOffsetX = v.sansTargetY.towOffsetX),
        (congrArg Vehicle.x h : w.sansTargetY.x = v.sansTargetY.x),
        (congrArg Vehicle.y h : w.sansTargetY.y = v.sansTargetY.y)⟩⟩
  have h2 : List.Forall₂ TowedStill s.steered.vehiclesBottom
      (s.postCullStages delta env).vehiclesBottom := by
    rw [postCullStages_vehiclesBottom]
    refine forall2_imp (fun v w h => ?_) (bottomPass_passKept _ _ _ _ _ _)
    refine ⟨(core_flags h.2).1, fun hv => ?_⟩
    rw [h.1 (Or.inr hv)]
    exact ⟨hv, rfl, rfl, rfl, rfl⟩
  exact forall2_chain towedStill_trans h1 h2

/-- The common `Update` does nothing to a towed car. -/
theorem Update_towed (v : Vehicle) (st : Bool) (ft : ℚ) (hcar : v.cls = .Car)
    (ht : v.isTowed = true) : v.Update st ft = v := by
  rw [Update_car v st ft hcar]
  unfold Vehicle.baseUpdate
  rw [ht]
  simp

/-- C27 (as the spec states it, refuted): `pickedUpTow` is a reachable state of a
running game; after one more advance the two wrecks are towed by the tow truck
with identity 3, which has moved on to x = 3677.5 in the main loop, while the
towed cars are where the placement loop put them before: at 3780 and 3880, that
is 2.5 units to the right of the tower's x plus their tow offsets 100 and 200. -/
theorem towed_car_lags_by_tower_step :
    Reachable pickedUpTow ∧ pickedUpTow.gameOver = false ∧
      (pickedUpTow.Update 0 (envAt 0 0 50)).vehiclesBottom.map
          (fun v => (v.id, v.x, v.isTowed, v.myTower, v.towOffsetX)) =
        [(0, 3780, true, some 3, 100), (2, 3880, true, some 3, 200),
         (3, 7355 / 2, false, none, 0), (5, 5495, false, none, 0)] :=
  ⟨pickedUpTow_reachable, rfl, by decide!⟩

/-- C27 (amended): in every advance of a running game from a reachable state,
right after the placement loop each vehicle that has a tower is towed, its tower
is a tow truck of the inbound collection, its x equals its tower's x plus its
own tow-offset and its y equals its tower's y; the rest of the advance (in which
the tower may still move) changes neither coordinate of a towed vehicle, and
the `Update` of a towed car changes nothing. -/
theorem towed_placed_behind_tower (s : Simulation) (hs : Reachable s) (delta : ℚ) (env : Env)
    (hg : s.gameOver = false) :
    (∀ v ∈ (s.afterCull delta env).resolved.vehiclesBottom, ∀ t, v.myTower = some t →
      v.cls = .Car ∧ v.isTowed = true ∧
        ∃ w ∈ (s.afterCull delta env).resolved.vehiclesBottom,
          w.id = t ∧ w.IsDepannage = true ∧ v.x = w.x + v.towOffsetX ∧ v.y = w.y) ∧
      List.Forall₂ TowedStill (s.afterCull delta env).resolved.vehiclesBottom
        (s.Update delta env).vehiclesBottom ∧
      ∀ (v : Vehicle) (st : Bool) (ft : ℚ), v.cls = .Car → v.isTowed = true →
        v.Update st ft = v := by
  obtain ⟨hinv, ht, hh⟩ := tidy_of_reachable hs
  have i5 := hinv.beforeCull delta env
  have t5 := tidy_beforeCull ht delta env
  have h5 := hitched_beforeCull hinv ht hh delta env
  have t6 : Tidy (s.afterCull delta env) := tidy_cullStage t5 h5
  have i6 : Inv 73 (s.afterCull delta env) := i5.cullStage
  have i1 := i6.transitionStage
  have i2 := i1.resolutionStage (activeTow (s.afterCull delta env).transitionStage.vehiclesBottom)
  have t2 := tidy_resolutionStage i1 (tidy_transitionStage i6 t6)
    (activeTow (s.afterCull delta env).transitionStage.vehiclesBottom)
  have hplaced := towedPlacement_sansPos
    ((s.afterCull delta env).transitionStage.resolutionStage
      (activeTow (s.afterCull delta env).transitionStage.vehiclesBottom)).vehiclesBottom
  have hexact := placement_exact _ i2.nodup (fun v hv t hvt =>
    ⟨(t2.tower v hv t hvt).1, (t2.tower v hv t hvt).2.1, (t2.tower v hv t hvt).2.2.2⟩)
  refine ⟨fun v hv t hvt => ?_, ?_, fun v st ft hcar htw => Update_towed v st ft hcar htw⟩
  · have hv' : v ∈ towedPlacement
        ((s.afterCull delta env).transitionStage.resolutionStage
          (activeTow (s.afterCull delta env).transitionStage.vehiclesBottom)).vehiclesBottom := hv
    obtain ⟨v0, hv0, hq⟩ := forall2_mem_right hplaced hv'
    have hflags := sansPos_flags hq.1
    have hv0t : v0.myTower = some t := by rw [← (sansPos_tow hq.1).1]; exact hvt
    obtain ⟨hcar, htw, _, w0, hw0, hw0id, hw0d⟩ := t2.tower v0 hv0 t hv0t
    obtain ⟨w, hw, hqw⟩ := forall2_mem_left hplaced hw0
    have hwflags := sansPos_flags hqw.1
    have hwid : w.id = t := hwflags.1.trans hw0id
    have hwd : w.IsDepannage = true := by
      unfold Vehicle.IsDepannage at hw0d ⊢
      rw [hwflags.2.2.2.2.2.2]
      exact hw0d
    refine ⟨hflags.2.2.2.2.2.2.trans hcar, hflags.2.2.2.2.1.trans htw, w, hw, hwid, hwd, ?_⟩
    exact hexact v hv' t hvt w hw hwid
  · rw [Update_eq_postCull s delta env hg]
    exact resolved_to_end_towed _ delta env

theorem towed_placed_behind_tower_witness :
    (pickedUpTow.afterCull 0 (envAt 0 0 50)).resolved.vehiclesBottom.map
        (fun v => (v.id, v.x, v.isTowed, v.myTower, v.towOffsetX)) =
      [(0, 3780, true, some 3, 100), (2, 3880, true, some 3, 200),
       (3, 3680, false, none, 0), (5, 10995 / 2, false, none, 0)] ∧
    ∀ v ∈ (pickedUpTow.afterCull 0 (envAt 0 0 50)).resolved.vehiclesBottom,
      ∀ t, v.myTower = some t →
        v.cls = .Car ∧ v.isTowed = true ∧
          ∃ w ∈ (pickedUpTow.afterCull 0 (envAt 0 0 50)).resolved.vehiclesBottom,
            w.id = t ∧ w.IsDepannage = true ∧ v.x = w.x + v.towOffsetX ∧ v.y = w.y :=
  ⟨by decide!,
    (towed_placed_behind_tower pickedUpTow pickedUpTow_reachable 0 (envAt 0 0 50) rfl).1⟩

/-! ## A pending accident keeps its participants -/

/-- In every reachable state, an advance of the running game whose culling
begins with a pending accident removes neither participant: the culling
predicate is false on a vehicle the record references, and a vehicle with its
identity is in the inbound collection after the advance. So no advance from a
reachable state removes a participant of a pending accident, and the statement
`else if (currentAccident.pending)` that follows the culling never finds a
participant missing. -/
theorem pending_participants_stay (s : Simulation) (hs : Reachable s) (delta : ℚ) (env : Env)
    (hg : s.gameOver = false)
    (hp : (s.beforeCull delta env).currentAccident.pending = true) :
    ∀ v ∈ (s.beforeCull delta env).vehiclesBottom,
      ((s.beforeCull delta env).currentAccident.car1 = some v.id ∨
        (s.beforeCull delta env).currentAccident.car2 = some v.id) →
      cullRemoves v = false ∧ v ∈ (s.afterCull delta env).vehiclesBottom ∧
        ∃ w ∈ (s.Update delta env).vehiclesBottom, w.id = v.id := by
  intro v hv href
  have i5 := (tidy_of_reachable hs).1.beforeCull delta env
  have i6 : Inv 73 (s.afterCull delta env) := i5.cullStage
  have hkeep := cull_keeps_participants i5 (Or.inl hp) hv href
  have hkept : v ∈ (s.afterCull delta env).vehiclesBottom := by
    unfold Simulation.afterCull
    rw [cullStage_vehiclesBottom]
    exact List.mem_filter.2 ⟨hv, by simp [hkeep]⟩
  refine ⟨hkeep, hkept, ?_⟩
  have hmem : v.id ∈ ((s.afterCull delta env).postCullStages delta env).vehiclesBottom.map
      Vehicle.id := by
    rw [postCullStages_ids i6]
    exact List.mem_map.2 ⟨v, hkept, rfl⟩
  rw [Update_eq_postCull s delta env hg]
  obtain ⟨w, hw, hwid⟩ := List.mem_map.1 hmem
  exact ⟨w, hw, hwid⟩

/-! ## C21: the vehicles the trigger scan selects -/

theorem laneYBottom_values :
    laneYBottom 0 = 290 ∧ laneYBottom 1 = 335 ∧ laneYBottom 2 = 380 := by
  unfold laneYBottom ROAD_Y_BOTTOM LANE_HEIGHT
  norm_num

theorem onLane_towed {w : Vehicle} (h : w.isTowed = true) : w.OnLane := by
  intro _ ht
  rw [h] at ht
  exact Bool.noConfusion ht

theorem onLane_notCar {w : Vehicle} (h : w.cls ≠ .Car) : w.OnLane :=
  fun hc => absurd hc h

theorem laneKept_refl (v : Vehicle) : LaneKept v v := fun h => h

theorem laneKept_trans (u v w : Vehicle) (h1 : LaneKept u v) (h2 : LaneKept v w) :
    LaneKept u w := fun h => h2 (h1 h)

/-- A stage that keeps the class, the towed flag, the target lane, the
changed-lane flag and y of a vehicle keeps its lane discipline. -/
theorem laneKept_of_fields {v w : Vehicle} (hcls : w.cls = .Car → v.cls = .Car)
    (ht : w.isTowed = false → v.isTowed = false) (h1 : w.targetY = v.targetY)
    (h2 : w.changedLane = v.changedLane) (h3 : w.y = v.y) : LaneKept v w := by
  intro hv hc htw
  have := hv (hcls hc) (ht htw)
  rw [h1, h2, h3]
  exact this

theorem laned_transport {s s' : Simulation} (h : s.Laned)
    (hvs : List.Forall₂ LaneKept s.vehiclesBottom s'.vehiclesBottom) : s'.Laned := by
  intro w hw
  obtain ⟨v, hv, hk⟩ := forall2_mem_right hvs hw
  exact hk (h v hv)

theorem laned_of_same {s s' : Simulation} (h : s.Laned)
    (hvs : s'.vehiclesBottom = s.vehiclesBottom) : s'.Laned := by
  intro w hw
  rw [hvs] at hw
  exact h w hw

theorem laned_append {s s' : Simulation} (h : s.Laned) (n : Vehicle)
    (hvs : s'.vehiclesBottom = s.vehiclesBottom ++ [n]) (hn : n.OnLane) : s'.Laned := by
  intro w hw
  rw [hvs] at hw
  rcases List.mem_append.1 hw with hw | hw
  · exact h w hw
  · rw [List.mem_singleton.1 hw]
    exact hn

theorem laned_init : Simulation.init.Laned := fun _ hv => absurd hv (List.not_mem_nil _)

theorem laned_Reset (s : Simulation) : s.Reset.Laned :=
  fun _ hv => absurd hv (List.not_mem_nil _)

theorem marked_laneKept {v w : Vehicle} (h : Marked v w) : LaneKept v w := by
  rcases h with h | ⟨_, h | h⟩
  · rw [h]; exact laneKept_refl v
  · rw [h]; exact laneKept_of_fields (fun hc => hc) (fun ht => ht) rfl rfl rfl
  · rw [h]; exact laneKept_of_fields (fun hc => hc) (fun ht => ht) rfl rfl rfl

theorem laned_TriggerRandomAccident {s : Simulation} (h : s.Laned) :
    s.TriggerRandomAccident.Laned :=
  laned_transport h (forall2_imp (fun _ _ hm => marked_laneKept hm) (trigger_marked s))

theorem laned_CallSchoolBus {s : Simulation} (h : s.Laned) : s.CallSchoolBus.Laned :=
  laned_append h _ rfl (onLane_notCar (fun hc => VehicleClass.noConfusion hc))

theorem laned_CallDepannage {s : Simulation} (h : s.Laned) : s.CallDepannage.Laned := by
  unfold Simulation.CallDepannage
  by_cases ha : (!s.currentAccident.active) = true
  · rw [if_pos ha]
    exact h
  · rw [if_neg ha]
    exact laned_append (s := s) h _ rfl (onLane_notCar (fun hc => VehicleClass.noConfusion hc))

theorem laned_CallAmbulance {s : Simulation} (h : s.Laned) : s.CallAmbulance.Laned := by
  have h1 : (if (!s.currentAccident.active && !s.currentAccident.pending) = true
      then s.TriggerRandomAccident else s).Laned := by
    split_ifs
    · exact laned_TriggerRandomAccident h
    · exact h
  unfold Simulation.CallAmbulance
  refine laned_append h1 _ rfl (onLane_notCar (fun hc => ?_))
  dsimp only at hc
  unfold Vehicle.AssignAccident Vehicle.new at hc
  split_ifs at hc

theorem spawned_onLane (id : Nat) (x speed : ℚ) (lane : Fin 3) :
    (Vehicle.new id x (laneYBottom lane.val) speed false .Car).OnLane := by
  obtain ⟨l0, l1, l2⟩ := laneYBottom_values
  intro _ _
  have hl : laneYBottom lane.val = laneYBottom 0 ∨ laneYBottom lane.val = laneYBottom 1 ∨
      laneYBottom lane.val = laneYBottom 2 := by
    obtain ⟨n, hn⟩ := lane
    have : n = 0 ∨ n = 1 ∨ n = 2 := by omega
    rcases this with rfl | rfl | rfl
    · exact Or.inl rfl
    · exact Or.inr (Or.inl rfl)
    · exact Or.inr (Or.inr rfl)
  show (laneYBottom lane.val = _ ∨ laneYBottom lane.val = _ ∨ laneYBottom lane.val = _) ∧
    (false = false → laneYBottom lane.val = laneYBottom lane.val) ∧
    laneYBottom 0 ≤ laneYBottom lane.val ∧ laneYBottom lane.val ≤ laneYBottom 2 ∧
    (laneYBottom lane.val ≠ laneYBottom 2 → laneYBottom lane.val ≤ laneYBottom 2 - 36 / 5)
  refine ⟨hl, fun _ => rfl, ?_, ?_, ?_⟩
  · rcases hl with h | h | h <;> rw [h] <;> rw [l0] <;> (try rw [l1]) <;> (try rw [l2]) <;>
      norm_num
  · rcases hl with h | h | h <;> rw [h] <;> rw [l2] <;> (try rw [l0]) <;> (try rw [l1]) <;>
      norm_num
  · intro hne
    rcases hl with h | h | h
    · rw [h, l0, l2]; norm_num
    · rw [h, l1, l2]; norm_num
    · exact absurd h hne

theorem laned_spawnStage {s : Simulation} (h : s.Laned) (delta : ℚ) (env : Env) :
    (s.spawnStage delta env).Laned := by
  unfold Simulation.spawnStage Simulation.SpawnCarTop Simulation.SpawnCarBottom
  dsimp only
  split_ifs
  · exact laned_append (s := s) h _ rfl (spawned_onLane _ _ _ _)
  · exact laned_of_same h rfl
  · exact laned_append (s := s) h _ rfl (spawned_onLane _ _ _ _)
  · exact laned_of_same h rfl

theorem laned_beforeCull {s : Simulation} (h : s.Laned) (delta : ℚ) (env : Env) :
    (s.beforeCull delta env).Laned := by
  have h1 := laned_spawnStage h delta env
  have h2 : ((s.spawnStage delta env).randomTriggerStage env).Laned := by
    unfold Simulation.randomTriggerStage
    split_ifs
    · exact laned_TriggerRandomAccident h1
    · exact h1
  exact laned_of_same h2 (beforeCull_vehiclesBottom s delta env)

theorem laned_cullStage {s : Simulation} (h : s.Laned) : s.cullStage.Laned := by
  intro v hv
  rw [cullStage_vehiclesBottom] at hv
  exact h v (List.mem_filter.1 hv).1

theorem crashFlags_lane (c1 c2 : Nat) (v : Vehicle) :
    (crashFlags c1 c2 v).isTowed = v.isTowed ∧ (crashFlags c1 c2 v).targetY = v.targetY ∧
      (crashFlags c1 c2 v).changedLane = v.changedLane ∧ (crashFlags c1 c2 v).y = v.y := by
  obtain ⟨h0, h1, h2⟩ := crashFlags_cases c1 c2 v
  by_cases e2 : v.id = c2
  · rw [h2 e2]
    exact ⟨rfl, rfl, rfl, rfl⟩
  · by_cases e1 : v.id = c1
    · rw [h1 e1 e2]
      exact ⟨rfl, rfl, rfl, rfl⟩
    · rw [h0 e1 e2]
      exact ⟨rfl, rfl, rfl, rfl⟩

theorem crashWrites_laneKept (c1 c2 : Nat) (accX accY : ℚ) (v : Vehicle) :
    LaneKept v (crashWrites c1 c2 accX accY v) := by
  have hcore : (crashWrites c1 c2 accX accY v).core = (crashFlags c1 c2 v).core :=
    assignIfAmbulance_core accX accY (crashFlags c1 c2 v)
  have hfl := crashFlags_spec c1 c2 v
  have hcls : (crashWrites c1 c2 accX accY v).cls = .Car → v.cls = .Car := by
    intro hc
    rw [cls_car_iff] at hc ⊢
    obtain ⟨_, _, e3, e4, e5⟩ := core_more hcore
    rw [e3, e4, e5] at hc
    unfold Vehicle.IsAmbulance Vehicle.IsDepannage Vehicle.IsSchoolBus at hc ⊢
    rw [hfl.2.2.2.1] at hc
    exact hc
  by_cases hcar : v.cls = .Car
  · have hna : (crashFlags c1 c2 v).IsAmbulance = false := by
      unfold Vehicle.IsAmbulance
      rw [hfl.2.2.2.1, hcar]
    have hw : crashWrites c1 c2 accX accY v = crashFlags c1 c2 v := by
      unfold crashWrites
      exact assignIfAmbulance_car _ _ _ hna
    rw [hw]
    obtain ⟨l1, l2, l3, l4⟩ := crashFlags_lane c1 c2 v
    exact laneKept_of_fields (fun _ => hcar) (fun ht => l1 ▸ ht) l2 l3 l4
  · exact fun _ => onLane_notCar (fun hc => hcar (hcls hc))

theorem laned_transitionStage {s : Simulation} (h : s.Laned) : s.transitionStage.Laned := by
  rcases transitionStage_cases s with e | e | ⟨c1, c2, a, b, _, _, _, _, _, e⟩
  · rw [e]; exact h
  · rw [e]; exact laned_of_same h rfl
  · rw [e]
    exact laned_transport h (forall2_map (R := LaneKept) _
      (fun v => crashWrites_laneKept c1 c2 _ _ v) _)

theorem laned_resolutionStage {s : Simulation} (h : s.Laned) (aTow : Option Nat) :
    (s.resolutionStage aTow).Laned := by
  refine laned_transport h ?_
  have hmod : ∀ (c : Nat) (f : Vehicle → Vehicle) (vs : List Vehicle),
      (∀ v, LaneKept v (f v)) → List.Forall₂ LaneKept vs (modifyById c f vs) := by
    intro c f vs hf
    unfold modifyById
    refine forall2_map _ (fun v => ?_) vs
    split_ifs
    · exact hf v
    · exact laneKept_refl v
  unfold Simulation.resolutionStage
  split
  · exact forall2_self laneKept_refl _
  · split
    · exact forall2_self laneKept_refl _
    · rename_i tow _
      split_ifs
      · have hF : ∀ v, LaneKept v (towFirst tow v) := fun _ _ => onLane_towed rfl
        have hS : ∀ v, LaneKept v (towSecond tow v) := fun _ _ => onLane_towed rfl
        dsimp only
        cases s.currentAccident.car1 <;> cases s.currentAccident.car2 <;> dsimp only
        · exact forall2_self laneKept_refl _
        · exact hmod _ _ _ hS
        · exact hmod _ _ _ hF
        · exact forall2_chain laneKept_trans (hmod _ _ _ hF) (hmod _ _ _ hS)
      · exact forall2_self laneKept_refl _

theorem laned_resolved {s : Simulation} (h : s.Laned) : s.resolved.Laned := by
  have h2 := laned_resolutionStage (laned_transitionStage h)
    (activeTow s.transitionStage.vehiclesBottom)
  refine laned_transport h2 (forall2_imp (fun v w hq => ?_) (towedPlacement_sansPos _))
  by_cases ht : v.isTowed = true
  · have : w.isTowed = true := (sansPos_flags hq.1).2.2.2.2.1.trans ht
    exact fun _ => onLane_towed this
  · rw [hq.2 (by simpa using ht)]
    exact laneKept_refl v

theorem laned_ambulanceStage {s : Simulation} (h : s.Laned) (aAmb aTow : Option Nat) :
    (s.ambulanceStage aAmb aTow).Laned := by
  refine laned_transport h ?_
  unfold Simulation.ambulanceStage
  split
  · exact forall2_self laneKept_refl _
  · rename_i e
    split
    · exact forall2_self laneKept_refl _
    · rename_i amb hamb
      have hnc : ∀ st, amb.ambState = some st → amb.cls ≠ .Car := by
        intro st hst hc
        unfold Vehicle.ambState at hst
        rw [hc] at hst
        exact Option.noConfusion hst
      have hmod : ∀ (f : Vehicle → Vehicle), (∀ u, (f u).cls = u.cls) →
          ∀ st, amb.ambState = some st →
          List.Forall₂ LaneKept s.vehiclesBottom (modifyAt f e s.vehiclesBottom) := by
        intro f hf st hst
        refine forall2_modifyAt laneKept_refl f e _ (fun u hu => ?_)
        rw [hamb] at hu
        have hue : amb = u := Option.some.inj hu
        subst hue
        exact fun _ => onLane_notCar (fun hc => hnc st hst ((hf amb).symm.trans hc))
      dsimp only
      split_ifs with h1 h2 h3
      · exact hmod _ (fun _ => rfl) _ h1
      · exact hmod _ (fun _ => rfl) _ h1
      · exact hmod _ (fun _ => rfl) _ h3.1
      · exact forall2_self laneKept_refl _

theorem easeY_y (u : Vehicle) :
    u.easeY.y =
      if |u.targetY - u.y| > 1 / 2 then u.y + (u.targetY - u.y) * (2 / 25) else u.targetY := by
  unfold Vehicle.easeY
  split_ifs <;> rfl

/-- What the common `Update` leaves of the lane members of a vehicle that is
neither crashed nor towed: all but y, which is eased toward the target lane. -/
theorem baseUpdate_lane (v : Vehicle) (st : Bool) (hc : v.isCrashed = false)
    (ht : v.isTowed = false) :
    (v.baseUpdate st).cls = v.cls ∧ (v.baseUpdate st).isTowed = v.isTowed ∧
      (v.baseUpdate st).targetY = v.targetY ∧ (v.baseUpdate st).changedLane = v.changedLane ∧
      (v.baseUpdate st).y =
        if |v.targetY - v.y| > 1 / 2 then v.y + (v.targetY - v.y) * (2 / 25)
        else v.targetY := by
  obtain ⟨u, hy, htg, he⟩ := baseUpdate_eases v st hc ht
  have hs := baseUpdate_status v st
  unfold Vehicle.status at hs
  simp only [Prod.mk.injEq, Vehicle.mk.injEq] at hs
  refine ⟨baseUpdate_cls v st, hs.1.2.2.2.2.2.2.2.2.2.2.2.2.2.1, hs.1.2.2.2.1,
    hs.1.2.2.2.2.2.2.2.1, ?_⟩
  rw [he, easeY_y, hy, htg]

/-- Easing y toward the target lane keeps the lane discipline. -/
theorem eased_onLane (t y : ℚ) (ch : Bool)
    (h1 : t = laneYBottom 0 ∨ t = laneYBottom 1 ∨ t = laneYBottom 2)
    (h2 : ch = false → y = t) (h3 : laneYBottom 0 ≤ y) (h4 : y ≤ laneYBottom 2)
    (h5 : t ≠ laneYBottom 2 → y ≤ laneYBottom 2 - 36 / 5) :
    (ch = false → (if |t - y| > 1 / 2 then y + (t - y) * (2 / 25) else t) = t) ∧
      laneYBottom 0 ≤ (if |t - y| > 1 / 2 then y + (t - y) * (2 / 25) else t) ∧
      (if |t - y| > 1 / 2 then y + (t - y) * (2 / 25) else t) ≤ laneYBottom 2 ∧
      (t ≠ laneYBottom 2 →
        (if |t - y| > 1 / 2 then y + (t - y) * (2 / 25) else t) ≤ laneYBottom 2 - 36 / 5) := by
  obtain ⟨l0, l1, l2⟩ := laneYBottom_values
  simp only [l0, l1, l2] at h1 h3 h4 h5 ⊢
  have ht0 : 290 ≤ t := by rcases h1 with h | h | h <;> rw [h] <;> norm_num
  have ht2 : t ≤ 380 := by rcases h1 with h | h | h <;> rw [h] <;> norm_num
  have htgap : t ≠ 380 → t ≤ 380 - 36 / 5 := by
    intro hne
    rcases h1 with h | h | h
    · rw [h]; norm_num
    · rw [h]; norm_num
    · exact absurd h hne
  refine ⟨fun hch => ?_, ?_, ?_, fun hne => ?_⟩
  · rw [h2 hch]
    simp
  · split_ifs
    · nlinarith
    · exact ht0
  · split_ifs
    · nlinarith
    · exact ht2
  · have hy := h5 hne
    have htg := htgap hne
    split_ifs
    · nlinarith
    · exact htg

/-- Changing lane from a lane and easing y once keeps the lane discipline. -/
theorem changed_onLane (y : ℚ)
    (h1 : y = laneYBottom 0 ∨ y = laneYBottom 1 ∨ y = laneYBottom 2) (idx : Nat)
    (hidx : idx = if |y - laneYBottom 2| < 5 then 2 else if |y - laneYBottom 1| < 5 then 1 else 0) :
    (laneYBottom ((idx + 1) % 3) = laneYBottom 0 ∨ laneYBottom ((idx + 1) % 3) = laneYBottom 1 ∨
        laneYBottom ((idx + 1) % 3) = laneYBottom 2) ∧
      laneYBottom 0 ≤
        (if |laneYBottom ((idx + 1) % 3) - y| > 1 / 2
          then y + (laneYBottom ((idx + 1) % 3) - y) * (2 / 25)
          else laneYBottom ((idx + 1) % 3)) ∧
      (if |laneYBottom ((idx + 1) % 3) - y| > 1 / 2
          then y + (laneYBottom ((idx + 1) % 3) - y) * (2 / 25)
          else laneYBottom ((idx + 1) % 3)) ≤ laneYBottom 2 ∧
      (laneYBottom ((idx + 1) % 3) ≠ laneYBottom 2 →
        (if |laneYBottom ((idx + 1) % 3) - y| > 1 / 2
          then y + (laneYBottom ((idx + 1) % 3) - y) * (2 / 25)
          else laneYBottom ((idx + 1) % 3)) ≤ laneYBottom 2 - 36 / 5) := by
  obtain ⟨l0, l1, l2⟩ := laneYBottom_values
  rcases h1 with h | h | h
  · have hi : idx = 0 := by
      rw [hidx, h, l0, l1, l2]
      norm_num [abs_lt]
    subst hi
    rw [h]
    norm_num [l0, l1, l2, abs_of_pos]
  · have hi : idx = 1 := by
      rw [hidx, h, l1, l2]
      norm_num [abs_lt]
    subst hi
    rw [h]
    norm_num [l0, l1, l2, abs_of_pos]
  · have hi : idx = 2 := by
      rw [hidx, h, l2]
      norm_num
    subst hi
    rw [h]
    norm_num [l0, l1, l2, abs_of_neg]

theorem tryYield_cases (vs : List Vehicle) (i e : Nat) (v : Vehicle) (hv : vs[i]? = some v) :
    (tryYield vs i e)[i]? = some v ∨ (tryYield vs i e)[i]? = some (changeLane v) := by
  unfold tryYield
  rw [hv]
  cases vs[e]? with
  | none => exact Or.inl hv
  | some em =>
    dsimp only
    split_ifs
    · right
      rw [getElem?_modifyAt, if_pos rfl, hv]
      rfl
    · exact Or.inl hv
    · exact Or.inl hv

/-- The yield block leaves the vehicle alone or changes its lane, the latter
only if it has not changed lane before. -/
theorem yieldStep_cases (aAmb aTow : Option Nat) (vs : List Vehicle) (i : Nat) (v : Vehicle)
    (hv : vs[i]? = some v) :
    (yieldStep aAmb aTow vs i)[i]? = some v ∨
      (v.changedLane = false ∧ (yieldStep aAmb aTow vs i)[i]? = some (changeLane v)) := by
  -- the second `tryYield`, on any collection
  have h2 : ∀ (ws : List Vehicle) (u : Vehicle), ws[i]? = some u →
      (match aTow with
        | none => ws
        | some t =>
          match ws[t]? with
          | none => ws
          | some tw => if tw.isWorking then tryYield ws i t else ws)[i]? = some u ∨
      (match aTow with
        | none => ws
        | some t =>
          match ws[t]? with
          | none => ws
          | some tw => if tw.isWorking then tryYield ws i t else ws)[i]? =
        some (changeLane u) := by
    intro ws u hu
    cases aTow with
    | none => exact Or.inl hu
    | some t =>
      dsimp only
      cases ws[t]? with
      | none => exact Or.inl hu
      | some tw =>
        dsimp only
        split_ifs
        · exact tryYield_cases ws i t u hu
        · exact Or.inl hu
  by_cases hg : (!v.isReckless && !v.laneLock && !v.changedLane) = true
  · have hch : v.changedLane = false := by
      simp only [Bool.and_eq_true, Bool.not_eq_true'] at hg
      exact hg.2
    unfold yieldStep
    rw [hv]
    dsimp only
    rw [if_pos hg]
    cases aAmb with
    | none =>
      dsimp only
      rcases h2 vs v hv with h | h
      · exact Or.inl h
      · exact Or.inr ⟨hch, h⟩
    | some e =>
      dsimp only
      rcases tryYield_cases vs i e v hv with h1 | h1
      · rcases h2 _ v h1 with h | h
        · exact Or.inl h
        · exact Or.inr ⟨hch, h⟩
      · rcases h2 _ (changeLane v) h1 with h | h
        · exact Or.inr ⟨hch, h⟩
        · exact Or.inr ⟨hch, h⟩
  · left
    unfold yieldStep
    rw [hv]
    dsimp only
    rw [if_neg hg]
    exact hv

theorem avoidAccident_cases (acc : Accident) (v : Vehicle) :
    avoidAccident acc v = v ∨ (v.changedLane = false ∧ avoidAccident acc v = changeLane v) := by
  unfold avoidAccident
  by_cases hg : (acc.active && !v.changedLane && !v.laneLock) = true
  · rw [if_pos hg]
    have hch : v.changedLane = false := by
      simp only [Bool.and_eq_true, Bool.not_eq_true'] at hg
      exact hg.1.2
    split_ifs
    · exact Or.inr ⟨hch, rfl⟩
    · exact Or.inl rfl
    · exact Or.inl rfl
  · rw [if_neg hg]
    exact Or.inl rfl

/-- The `Update` of a car that is neither crashed nor towed, after the lane
changes of its iteration, keeps the lane discipline. -/
theorem turn_onLane (v a : Vehicle) (st st' : Bool) (ft : ℚ) (hv : v.OnLane)
    (hcar : v.cls = .Car) (hc : v.isCrashed = false) (ht : v.isTowed = false)
    (ha : a = v ∨ (v.changedLane = false ∧ a = changeLane v)) :
    (({ a with forcedStop := st }).Update st' ft).OnLane := by
  have hacls : a.cls = .Car := by
    rcases ha with h | ⟨_, h⟩ <;> rw [h] <;> exact hcar
  have hac : a.isCrashed = false := by
    rcases ha with h | ⟨_, h⟩ <;> rw [h] <;> exact hc
  have hat : a.isTowed = false := by
    rcases ha with h | ⟨_, h⟩ <;> rw [h] <;> exact ht
  rw [Update_car _ _ _ (by exact hacls)]
  obtain ⟨b1, b2, b3, b4, b5⟩ := baseUpdate_lane { a with forcedStop := st } st' hac hat
  obtain ⟨o1, o2, o3, o4, o5⟩ := hv hcar ht
  intro _ _
  rw [b3, b4, b5]
  show (a.targetY = _ ∨ a.targetY = _ ∨ a.targetY = _) ∧
    (a.changedLane = false →
      (if |a.targetY - a.y| > 1 / 2 then a.y + (a.targetY - a.y) * (2 / 25) else a.targetY) =
        a.targetY) ∧
    laneYBottom 0 ≤
      (if |a.targetY - a.y| > 1 / 2 then a.y + (a.targetY - a.y) * (2 / 25) else a.targetY) ∧
    (if |a.targetY - a.y| > 1 / 2 then a.y + (a.targetY - a.y) * (2 / 25) else a.targetY) ≤
      laneYBottom 2 ∧
    (a.targetY ≠ laneYBottom 2 →
      (if |a.targetY - a.y| > 1 / 2 then a.y + (a.targetY - a.y) * (2 / 25) else a.targetY) ≤
        laneYBottom 2 - 36 / 5)
  rcases ha with h | ⟨hch, h⟩
  · rw [h]
    exact ⟨o1, eased_onLane v.targetY v.y v.changedLane o1 o2 o3 o4 o5⟩
  · have hy : v.y = laneYBottom 0 ∨ v.y = laneYBottom 1 ∨ v.y = laneYBottom 2 := by
      rw [o2 hch]
      exact o1
    have key := changed_onLane v.y hy (laneIdx v) rfl
    rw [h]
    exact ⟨key.1, fun hcon => Bool.noConfusion (hcon : true = false), key.2⟩

theorem bottomStep_laneKept (acc : Accident) (light : TrafficLight) (aAmb aTow : Option Nat)
    (ft : ℚ) (vs : List Vehicle) (i : Nat) :
    List.Forall₂ LaneKept vs (bottomStep acc light aAmb aTow ft vs i) := by
  have hkept := bottomStep_passKept acc light aAmb aTow ft vs i
  refine forall2_of_getElem (forall2_length hkept) (fun k v w hv hw => ?_)
  by_cases hki : k = i
  swap
  · rw [bottomStep_ne acc light aAmb aTow ft vs i k hki, hv] at hw
    rw [Option.some.inj hw]
    exact laneKept_refl w
  subst hki
  have hpk := forall2_get hkept hv hw
  by_cases hcar : v.cls = .Car
  swap
  · refine fun _ => onLane_notCar (fun hc => hcar ?_)
    rw [cls_car_iff] at hc ⊢
    obtain ⟨_, _, e3, e4, e5⟩ := core_more hpk.2
    rw [← e3, ← e4, ← e5]
    exact hc
  by_cases hidle : v.isCrashed = true ∨ v.isTowed = true
  · rw [hpk.1 hidle]
    exact laneKept_refl v
  have hc : v.isCrashed = false := by
    by_contra h
    exact hidle (Or.inl (by simpa using h))
  have ht : v.isTowed = false := by
    by_contra h
    exact hidle (Or.inr (by simpa using h))
  obtain ⟨u, hu, hlane, hres⟩ := bottomStep_own acc light aAmb aTow ft vs k v hv hc ht
  rw [hres] at hw
  have hw' := (Option.some.inj hw).symm
  intro hon
  have hyc := yieldStep_cases aAmb aTow vs k v hv
  rw [hu] at hyc
  have hucase : u = v ∨ (v.changedLane = false ∧ u = changeLane v) := by
    rcases hyc with h | ⟨hch, h⟩
    · exact Or.inl (Option.some.inj h)
    · exact Or.inr ⟨hch, Option.some.inj h⟩
  by_cases hr : u.isReckless = true
  · rw [if_pos hr] at hw'
    rw [hw']
    exact turn_onLane v u false false ft hon hcar hc ht hucase
  · rw [if_neg hr] at hw'
    rw [hw']
    refine turn_onLane v (avoidAccident acc u) _ _ ft hon hcar hc ht ?_
    rcases avoidAccident_cases acc u with h | ⟨hch, h⟩
    · rw [h]
      exact hucase
    · rcases hucase with h' | ⟨_, h'⟩
      · rw [h, h']
        rw [h'] at hch
        exact Or.inr ⟨hch, rfl⟩
      · rw [h'] at hch
        exact Bool.noConfusion (hch : true = false)

theorem laned_postCullStages {s : Simulation} (h : s.Laned) (delta : ℚ) (env : Env) :
    (s.postCullStages delta env).Laned := by
  have h1 : s.steered.Laned := laned_ambulanceStage (laned_resolved h) _ _
  refine laned_transport h1 ?_
  rw [postCullStages_vehiclesBottom]
  unfold bottomPass
  exact forall2_foldl laneKept_refl laneKept_trans _
    (bottomStep_laneKept _ _ _ _ _) _ _

theorem laned_Update {s : Simulation} (h : s.Laned) (delta : ℚ) (env : Env) :
    (s.Update delta env).Laned := by
  by_cases hg : s.gameOver = true
  · have hU : s.Update delta env = s := by
      unfold Simulation.Update
      rw [if_pos hg]
    rw [hU]
    exact h
  · rw [Update_eq_postCull s delta env (by simpa using hg)]
    exact laned_postCullStages (laned_cullStage (laned_beforeCull h delta env)) delta env

theorem laned_step {s : Simulation} (h : s.Laned) (c : Cmd) : (s.step c).Laned := by
  cases c with
  | advance delta env => exact laned_Update h delta env
  | dispatchAmbulance => exact laned_CallAmbulance h
  | dispatchTow => exact laned_CallDepannage h
  | dispatchSchoolBus => exact laned_CallSchoolBus h
  | triggerAccidentNow => exact laned_TriggerRandomAccident h
  | reset => exact laned_Reset s

/-- Every reachable state keeps the lane discipline. -/
theorem laned_of_reachable {s : Simulation} (h : Reachable s) : s.Laned := by
  obtain ⟨cmds, rfl⟩ := h
  exact run_induction Simulation.Laned laned_init (fun s c hs => laned_step hs c) cmds

theorem cruise_reachable : Reachable (cruise (-114) 3765) := by
  have h := cruise_frames 640 (-1394) 5365 (by norm_num) (by norm_num)
  norm_num at h
  refine ⟨[.advance 4 (envAt 4 0 50), .advance 4 (envAt 4 0 50)] ++ List.replicate 52 still ++
    List.replicate 640 still, ?_⟩
  show runFrom Simulation.init _ = _
  rw [runFrom_append, runFrom_append, spawn_frames, wait_frames, h]

/-- C21: for every reachable state in which the trigger scan is not
suppressed, neither vehicle of a pair it selects is an ambulance, a tow truck, a
school bus, off-screen, towed, crashed, already flagged reckless or
accident-target, or in the bus lane (lane index 2), be it by its target lane or
by its position. -/
theorem selected_pair_eligible (s : Simulation) (hs : Reachable s)
    (hw : s.waitingForTowToLeave = false) (ha : s.currentAccident.active = false)
    (hp : s.currentAccident.pending = false) (i j : Nat)
    (hsel : scanOuter s.vehiclesBottom s.vehiclesBottom 0 = some (i, j)) :
    s.TriggerRandomAccident.vehiclesBottom =
        modifyAt markTarget j (modifyAt markReckless i s.vehiclesBottom) ∧
      ∃ v1 v2, s.vehiclesBottom[i]? = some v1 ∧ s.vehiclesBottom[j]? = some v2 ∧
        v1.Eligible ∧ v2.Eligible := by
  obtain ⟨l0, l1, l2⟩ := laneYBottom_values
  refine ⟨?_, ?_⟩
  · unfold Simulation.TriggerRandomAccident
    rw [hw, ha, hp, hsel]
    rfl
  obtain ⟨v1, v2, hv1, _, hv2, _, hs1, hlane1, hs2, hpair⟩ :=
    scanOuter_spec s.vehiclesBottom s.vehiclesBottom 0 i j hsel
  simp only [Nat.sub_zero] at hv1
  have hinv := (tidy_of_reachable hs).1
  have hlaned := laned_of_reachable hs
  have hm1 := List.getElem?_mem hv1
  have hm2 := List.getElem?_mem hv2
  -- what the scan tests
  have hskip : ∀ v : Vehicle, scanSkips v = false →
      v.IsAmbulance = false ∧ v.IsDepannage = false ∧ v.IsSchoolBus = false ∧
        v.IsOffScreen = false ∧ v.isTowed = false ∧ v.isCrashed = false := by
    intro v hv
    unfold scanSkips at hv
    simp only [Bool.or_eq_false_iff] at hv
    exact ⟨hv.1.1.1.1, hv.1.1.1.2, hv.1.1.2, hv.1.2, hv.2.1, hv.2.2⟩
  -- what the invariants add
  have hflags : ∀ v ∈ s.vehiclesBottom, v.isCrashed = false →
      v.isReckless = false ∧ v.isAccidentTarget = false := by
    intro v hv hc
    have hno : ¬ (v.isReckless = true ∨ v.isAccidentTarget = true) := by
      intro hfl
      have := (hinv.roam v hv hfl hc).1
      rw [hp] at this
      exact Bool.noConfusion this
    constructor
    · by_contra h
      exact hno (Or.inl (by simpa using h))
    · by_contra h
      exact hno (Or.inr (by simpa using h))
  obtain ⟨a1, a2, a3, a4, a5, a6⟩ := hskip v1 hs1
  obtain ⟨b1, b2, b3, b4, b5, b6⟩ := hskip v2 hs2
  have hcar1 : v1.cls = .Car := (cls_car_iff v1).2 ⟨a1, a2, a3⟩
  have hcar2 : v2.cls = .Car := (cls_car_iff v2).2 ⟨b1, b2, b3⟩
  obtain ⟨p1, _, _, _, p5⟩ := hlaned v1 hm1 hcar1 a5
  obtain ⟨q1, _, _, _, q5⟩ := hlaned v2 hm2 hcar2 b5
  have hnear : |v1.targetY - v2.targetY| < 5 := by
    unfold pairSelected at hpair
    simp only [Bool.and_eq_true, decide_eq_true_eq] at hpair
    exact hpair.1.1
  rw [l2] at hlane1
  rw [l0, l1, l2] at p1 q1
  rw [l2] at p5 q5
  have ht1 : v1.targetY ≠ 380 := by
    intro h
    rw [h] at hlane1
    norm_num at hlane1
  have ht2 : v2.targetY ≠ 380 := by
    intro h
    rw [h] at hnear
    rcases p1 with h1 | h1 | h1
    · rw [h1] at hnear; norm_num [abs_lt] at hnear
    · rw [h1] at hnear; norm_num [abs_lt] at hnear
    · exact ht1 h1
  have hlane2 : ¬ |v2.targetY - 380| < 5 := by
    rcases q1 with h | h | h
    · rw [h]; norm_num [abs_lt]
    · rw [h]; norm_num [abs_lt]
    · exact absurd h ht2
  have hidx : ∀ v : Vehicle, v.y ≤ 380 - 36 / 5 → laneIdx v ≠ 2 := by
    intro v hy
    unfold laneIdx
    dsimp only
    rw [l2]
    have : ¬ |v.y - 380| < 5 := by
      rw [abs_lt]
      intro h
      linarith [h.1]
    rw [if_neg this]
    split_ifs <;> decide
  refine ⟨v1, v2, hv1, hv2, ⟨a1, a2, a3, a4, a5, a6, (hflags v1 hm1 a6).1, (hflags v1 hm1 a6).2,
    ?_, hidx v1 (p5 ht1)⟩, ⟨b1, b2, b3, b4, b5, b6, (hflags v2 hm2 b6).1, (hflags v2 hm2 b6).2,
    ?_, hidx v2 (q5 ht2)⟩⟩
  · rw [l2]; exact hlane1
  · rw [l2]; exact hlane2

theorem selected_pair_eligible_witness :
    scanOuter (cruise (-114) 3765).vehiclesBottom (cruise (-114) 3765).vehiclesBottom 0 =
        some (1, 0) ∧
      ∃ v1 v2, (cruise (-114) 3765).vehiclesBottom[1]? = some v1 ∧
        (cruise (-114) 3765).vehiclesBottom[0]? = some v2 ∧ v1.Eligible ∧ v2.Eligible :=
  ⟨by decide!,
    (selected_pair_eligible (cruise (-114) 3765) cruise_reachable rfl rfl rfl 1 0
      (by decide!)).2⟩

end TrafficSim
